import Mathlib

/-!
The seeder of geocity-api: the streaming translation processor.

A shallow embedding of `internal/seeder/parser.go` and of the Go library
functions it calls (`strconv.Atoi`, `strings.Split`, `fmt.Sprintf`,
`bufio.Scanner`), followed by the properties proved about it.

Conventions of the embedding:

* a Go `string` is its sequence of bytes (`GoString`); `len` and slicing are
  byte operations, as in Go;
* a Go `int` is a 64-bit integer, held in `Int`; the only place where the
  width matters is `strconv.Atoi`, which refuses values outside the range;
* a Go `map` is an association list read with `GoMap.get?`;
* a sink callback is a deterministic function of the batch it receives and
  of the history of all sink invocations made so far in the pass, and the
  pass records every invocation it makes (`SinkCall`).
-/

namespace Seeder

/-! ## Go values -/

/-- Go string: a sequence of bytes. -/
abbrev GoString := List UInt8

/-- UTF-8 bytes of a string literal of the Go source. -/
def utf8 (s : String) : GoString := s.data.flatMap String.utf8EncodeChar

/-- Go error value: either an error made elsewhere, or `fmt.Errorf("<context>: %w", cause)`. -/
inductive GoError where
  | base (msg : String)
  | wrapped (context : String) (cause : GoError)
deriving DecidableEq, Repr

/-- Go map, as an association list; the first binding of a key is the one in force. -/
abbrev GoMap (κ ν : Type) := List (κ × ν)

/-- Lookup `v, ok := m[k]`. -/
def GoMap.get? {κ ν : Type} [DecidableEq κ] : GoMap κ ν → κ → Option ν
  | [], _ => none
  | (k1, v) :: m, k => if k1 = k then some v else GoMap.get? m k

/-- Assignment `m[k] = v`. -/
def GoMap.set {κ ν : Type} [DecidableEq κ] (m : GoMap κ ν) (k : κ) (v : ν) : GoMap κ ν :=
  (k, v) :: m.filter (fun e => decide (e.1 ≠ k))

/-- Number of keys, `len(m)`. -/
def GoMap.len {κ ν : Type} [DecidableEq κ] (m : GoMap κ ν) : Nat :=
  (m.map Prod.fst).dedup.length

/-- Read of a `map[K]bool`: a missing key (or a nil map) reads as `false`. -/
def GoMap.test {κ : Type} [DecidableEq κ] (m : GoMap κ Bool) (k : κ) : Bool :=
  (m.get? k).getD false

/-! ## Library functions -/

/-- The two failures of `strconv` number parsing. -/
inductive NumError where
  | ErrSyntax
  | ErrRange
deriving DecidableEq, Repr

/-- Digit loop of `strconv.ParseUint(s, 10, 64)`: stops with a range error at the first
digit that pushes the value past `2^64 - 1`, with a syntax error at the first non-digit. -/
def parseUint : List UInt8 → Nat → Nat × Option NumError
  | [], n => (n, none)
  | c :: cs, n =>
    if 48 ≤ c.toNat ∧ c.toNat ≤ 57 then
      if n * 10 + (c.toNat - 48) ≥ 2 ^ 64 then (2 ^ 64 - 1, some NumError.ErrRange)
      else parseUint cs (n * 10 + (c.toNat - 48))
    else (0, some NumError.ErrSyntax)

/-- Go `strconv.Atoi` on a 64-bit platform: the value and the error it returns. A syntax
error comes with 0, a range error with the nearest representable integer. -/
def Atoi (s : GoString) : Int × Option NumError :=
  let neg : Bool := decide (s.head? = some 45)
  let ds : GoString := if s.head? = some 43 ∨ s.head? = some 45 then s.tail else s
  if ds = [] then (0, some NumError.ErrSyntax)
  else
    match parseUint ds 0 with
    | (_, some NumError.ErrSyntax) => (0, some NumError.ErrSyntax)
    | (un, _) =>
      if neg = false ∧ un ≥ 2 ^ 63 then (2 ^ 63 - 1, some NumError.ErrRange)
      else if neg = true ∧ un > 2 ^ 63 then (-(2 ^ 63), some NumError.ErrRange)
      else (if neg then -(un : Int) else (un : Int), none)

/-- Worker of `Split`: `cur` holds the bytes of the current field, newest first. -/
def splitAux (sep : UInt8) : List UInt8 → List UInt8 → List GoString
  | [], cur => [cur.reverse]
  | c :: cs, cur =>
    if c = sep then cur.reverse :: splitAux sep cs [] else splitAux sep cs (c :: cur)

/-- Go `strings.Split(s, sep)` for a one-byte separator: always at least one field. -/
def Split (s : GoString) (sep : UInt8) : List GoString := splitAux sep s []

/-- Decimal digits of `n`, least significant first; `fuel` bounds the number of digits. -/
def digitsRev : Nat → Nat → List UInt8
  | 0, _ => []
  | fuel + 1, n =>
    if n < 10 then [UInt8.ofNat (48 + n)]
    else UInt8.ofNat (48 + n % 10) :: digitsRev fuel (n / 10)

/-- Decimal text of a natural number. -/
def formatNat (n : Nat) : GoString := (digitsRev (n + 1) n).reverse

/-- The verb `%d` of `fmt.Sprintf` on an `int`. -/
def formatInt (i : Int) : GoString :=
  if i < 0 then 45 :: formatNat i.natAbs else formatNat i.natAbs

/-- What a `bufio.Scanner` hands to its loop: the tokens of the successive `Scan`/`Text`
calls, and the value of `Err()` once `Scan` has returned false. -/
structure LineStream where
  lines : List GoString
  err : Option GoError
deriving DecidableEq, Repr

/-- The helper `dropCR` of `bufio.ScanLines`. -/
def dropCR (data : GoString) : GoString :=
  if data.getLast? = some 13 then data.dropLast else data

/-- Lines of `data` before `dropCR`: cut at every `\n`; a last line without `\n` counts when
it is not empty. -/
def rawLines : List UInt8 → List UInt8 → List GoString
  | [], cur => if cur = [] then [] else [cur.reverse]
  | c :: cs, cur =>
    if c = 10 then cur.reverse :: rawLines cs [] else rawLines cs (c :: cur)

/-- The error `bufio.ErrTooLong`. -/
def ErrTooLong : GoError := GoError.base "bufio.Scanner: token too long"

/-- A `bufio.Scanner` with `ScanLines` and token limit `maxTokenSize` over an in-memory
reader holding `data`: scanning stops with `ErrTooLong` at the first line that does not fit. -/
def scan (maxTokenSize : Nat) (data : GoString) : LineStream :=
  let toks := rawLines data []
  let good := toks.takeWhile (fun t => decide (t.length < maxTokenSize))
  { lines := good.map dropCR
    err := if good.length < toks.length then some ErrTooLong else none }

/-! ## Data model (`internal/model/city.go`, `internal/config/config.go`) -/

/-- Record `model.CityTranslation`. -/
structure CityTranslation where
  CityID : Int
  Lang : GoString
  Name : GoString
deriving DecidableEq, Repr

/-- Record `model.CountryTranslation`. -/
structure CountryTranslation where
  CountryCode : GoString
  Lang : GoString
  Name : GoString
deriving DecidableEq, Repr

/-- Record `config.SeederConfig`. -/
structure SeederConfig where
  BatchSize : Int
  MinPopulation : Int
  AllowedLanguages : List GoString
deriving DecidableEq, Repr

/-- The struct `Parser`. -/
structure Parser where
  dataDir : GoString
  batchSize : Int
  minPopulation : Int
  allowedLanguages : GoMap GoString Bool
deriving DecidableEq, Repr

/-- The loop of `NewParser` filling `allowedLangs`. -/
def allowedLangsOf : List GoString → GoMap GoString Bool → GoMap GoString Bool
  | [], m => m
  | lang :: rest, m => allowedLangsOf rest (m.set lang true)

/-- Constructor `NewParser`. -/
def NewParser (dataDir : GoString) (seederCfg : SeederConfig) : Parser :=
  { dataDir := dataDir
    batchSize := seederCfg.BatchSize
    minPopulation := seederCfg.MinPopulation
    allowedLanguages := allowedLangsOf seederCfg.AllowedLanguages [] }

/-! ## The streaming translation processor -/

/-- One invocation of a sink callback, with the batch it received. -/
inductive SinkCall where
  | city (batch : List CityTranslation)
  | country (batch : List CountryTranslation)
deriving DecidableEq, Repr

/-- City sink callback: from the invocations made so far and the batch, `nil` or an error. -/
abbrev CityCallback := List SinkCall → List CityTranslation → Option GoError

/-- Country sink callback. -/
abbrev CountryCallback := List SinkCall → List CountryTranslation → Option GoError

/-- What a row that survives every rejection check carries into classification. -/
structure AltName where
  geonameID : Int
  lang : GoString
  name : GoString
  isPreferred : Bool
deriving DecidableEq, Repr

/-- The technical codes of line 326. -/
def technicalCodes : List GoString :=
  [utf8 "link", utf8 "post", utf8 "iata", utf8 "icao", utf8 "faac", utf8 "fr_1793",
   utf8 "abbr", utf8 "wkdt"]

/-- Lines 292–338 of the loop body: `none` is `continue`, `some r` reaches classification. -/
def parseRow (p : Parser) (line : GoString) : Option AltName :=
  let parts := Split line 9
  if parts.length < 4 then none
  else
    let geonameID := Atoi (parts.getD 1 [])
    if geonameID.2 ≠ none then none
    else
      let lang := parts.getD 2 []
      let name := parts.getD 3 []
      if name = [] ∨ lang = [] then none
      else if parts.length > 6 ∧ parts.getD 6 [] = utf8 "1" then none
      else if parts.length > 7 ∧ parts.getD 7 [] = utf8 "1" then none
      else
        let isPreferred : Bool := decide (parts.length > 4 ∧ parts.getD 4 [] = utf8 "1")
        if lang ∈ technicalCodes then none
        else
          let lang2 := if lang.length > 2 then lang.take 2 else lang
          if p.allowedLanguages.len > 0 ∧ p.allowedLanguages.test lang2 = false then none
          else some { geonameID := geonameID.1, lang := lang2, name := name,
                      isPreferred := isPreferred }

/-- The assignment `batch[idx].Name = name`, as `batch[idx] = rename batch[idx]`, for an
index in range. -/
def modifyAt {ρ : Type} (rename : ρ → ρ) : Nat → List ρ → List ρ
  | _, [] => []
  | 0, a :: l => rename a :: l
  | n + 1, a :: l => a :: modifyAt rename n l

/-- Lines 343–356 and 373–385, the same code for both record types: look the key up in the
dedup table; a hit overwrites the stored name when the row is preferred, a miss appends the
record and stores its index. `none` is the runtime failure of an index out of range. -/
def upsert {ρ : Type} (rename : ρ → ρ) (key : GoString) (rec : ρ) (isPreferred : Bool)
    (batch : List ρ) (transMap : GoMap GoString Nat) :
    Option (List ρ × GoMap GoString Nat) :=
  match transMap.get? key with
  | some idx =>
    if isPreferred then
      if idx < batch.length then some (modifyAt rename idx batch, transMap) else none
    else some (batch, transMap)
  | none => some (batch ++ [rec], transMap.set key ((batch ++ [rec]).length - 1))

/-- Local variables of the loop, and the sink invocations made so far. -/
structure LoopState where
  cityBatch : List CityTranslation
  countryBatch : List CountryTranslation
  cityTransMap : GoMap GoString Nat
  countryTransMap : GoMap GoString Nat
  calls : List SinkCall
deriving DecidableEq, Repr

/-- How a piece of the loop body ends. -/
inductive Flow where
  | next (st : LoopState)
  | ret (calls : List SinkCall) (err : GoError)
  | outOfRange (calls : List SinkCall)
deriving DecidableEq, Repr

/-- The key `fmt.Sprintf("%d:%s", geonameID, lang)`. -/
def cityKey (geonameID : Int) (lang : GoString) : GoString :=
  formatInt geonameID ++ 58 :: lang

/-- The key `fmt.Sprintf("%s:%s", countryCode, lang)`. -/
def countryKey (countryCode lang : GoString) : GoString :=
  countryCode ++ 58 :: lang

/-- Lines 342–366: the body of `if cityIDs[geonameID]`. -/
def cityStep (batchSize : Int) (cityCallback : Option CityCallback) (r : AltName)
    (st : LoopState) : Flow :=
  match upsert (fun c => { c with Name := r.name }) (cityKey r.geonameID r.lang)
      { CityID := r.geonameID, Lang := r.lang, Name := r.name } r.isPreferred
      st.cityBatch st.cityTransMap with
  | none => Flow.outOfRange st.calls
  | some (batch, transMap) =>
    if (batch.length : Int) ≥ batchSize then
      match cityCallback with
      | some cb =>
        match cb st.calls batch with
        | some err =>
          Flow.ret (st.calls ++ [SinkCall.city batch]) (GoError.wrapped "city callback error" err)
        | none =>
          Flow.next { st with cityBatch := [], cityTransMap := [],
                              calls := st.calls ++ [SinkCall.city batch] }
      | none => Flow.next { st with cityBatch := [], cityTransMap := [] }
    else Flow.next { st with cityBatch := batch, cityTransMap := transMap }

/-- Lines 372–393: the body of the country test, for a row whose id maps to `countryCode`. -/
def countryStep (batchSize : Int) (countryCallback : CountryCallback) (countryCode : GoString)
    (r : AltName) (st : LoopState) : Flow :=
  match upsert (fun c => { c with Name := r.name }) (countryKey countryCode r.lang)
      { CountryCode := countryCode, Lang := r.lang, Name := r.name } r.isPreferred
      st.countryBatch st.countryTransMap with
  | none => Flow.outOfRange st.calls
  | some (batch, transMap) =>
    if (batch.length : Int) ≥ batchSize then
      match countryCallback st.calls batch with
      | some err =>
        Flow.ret (st.calls ++ [SinkCall.country batch])
          (GoError.wrapped "country callback error" err)
      | none =>
        Flow.next { st with countryBatch := [], countryTransMap := [],
                            calls := st.calls ++ [SinkCall.country batch] }
    else Flow.next { st with countryBatch := batch, countryTransMap := transMap }

/-- Lines 369–395: the country classification of an accepted row. -/
def countryPart (batchSize : Int) (countryCodes : GoMap GoString Bool)
    (geonameIDToCountryCode : Option (GoMap Int GoString))
    (countryCallback : Option CountryCallback) (r : AltName) (st : LoopState) : Flow :=
  match countryCallback, geonameIDToCountryCode with
  | some cb, some m =>
    match m.get? r.geonameID with
    | some countryCode =>
      if countryCodes.test countryCode then countryStep batchSize cb countryCode r st
      else Flow.next st
    | none => Flow.next st
  | _, _ => Flow.next st

/-- Lines 340–395: classification of an accepted row, city first, then country. -/
def classify (batchSize : Int) (cityIDs : GoMap Int Bool) (countryCodes : GoMap GoString Bool)
    (geonameIDToCountryCode : Option (GoMap Int GoString))
    (cityCallback : Option CityCallback) (countryCallback : Option CountryCallback)
    (r : AltName) (st : LoopState) : Flow :=
  match (if cityIDs.test r.geonameID then cityStep batchSize cityCallback r st
         else Flow.next st) with
  | Flow.next st1 =>
    countryPart batchSize countryCodes geonameIDToCountryCode countryCallback r st1
  | other => other

/-- One iteration of the loop of lines 291–396 on the line `line`. -/
def processRow (p : Parser) (batchSize : Int) (cityIDs : GoMap Int Bool)
    (countryCodes : GoMap GoString Bool) (geonameIDToCountryCode : Option (GoMap Int GoString))
    (cityCallback : Option CityCallback) (countryCallback : Option CountryCallback)
    (st : LoopState) (line : GoString) : Flow :=
  match parseRow p line with
  | none => Flow.next st
  | some r =>
    classify batchSize cityIDs countryCodes geonameIDToCountryCode cityCallback
      countryCallback r st

/-- The loop `for scanner.Scan()` over the lines the scanner yields. -/
def scanLoop (p : Parser) (batchSize : Int) (cityIDs : GoMap Int Bool)
    (countryCodes : GoMap GoString Bool) (geonameIDToCountryCode : Option (GoMap Int GoString))
    (cityCallback : Option CityCallback) (countryCallback : Option CountryCallback) :
    LoopState → List GoString → Flow
  | st, [] => Flow.next st
  | st, line :: rest =>
    match processRow p batchSize cityIDs countryCodes geonameIDToCountryCode cityCallback
        countryCallback st line with
    | Flow.next st1 =>
      scanLoop p batchSize cityIDs countryCodes geonameIDToCountryCode cityCallback
        countryCallback st1 rest
    | other => other

/-- How the pass ends: `return nil`, `return err`, or the runtime failure. -/
inductive Ending where
  | ok
  | failed (err : GoError)
  | outOfRange
deriving DecidableEq, Repr

/-- Result of a pass: the sink invocations it made, in order, and how it ended. -/
structure PassResult where
  calls : List SinkCall
  ending : Ending
deriving DecidableEq, Repr

/-- Lines 278–281: the batch size in force. -/
def effectiveBatchSize (p : Parser) : Int :=
  if p.batchSize ≤ 0 then 10000 else p.batchSize

/-- Lines 283–289: the state before the first row. -/
def initialState : LoopState :=
  { cityBatch := [], countryBatch := [], cityTransMap := [], countryTransMap := [],
    calls := [] }

/-- Lines 398–414: the scanner error test and the two final flushes. -/
def finish (reader : LineStream) (cityCallback : Option CityCallback)
    (countryCallback : Option CountryCallback) (st : LoopState) : PassResult :=
  match reader.err with
  | some err =>
    { calls := st.calls, ending := Ending.failed (GoError.wrapped "failed to scan alternateNames" err) }
  | none =>
    let afterCity : List SinkCall × Option GoError :=
      match cityCallback with
      | some cb =>
        if st.cityBatch.length > 0 then
          (st.calls ++ [SinkCall.city st.cityBatch], cb st.calls st.cityBatch)
        else (st.calls, none)
      | none => (st.calls, none)
    match afterCity with
    | (calls, some err) =>
      { calls := calls, ending := Ending.failed (GoError.wrapped "city callback error" err) }
    | (calls, none) =>
      match countryCallback with
      | some cb =>
        if st.countryBatch.length > 0 then
          match cb calls st.countryBatch with
          | some err =>
            { calls := calls ++ [SinkCall.country st.countryBatch],
              ending := Ending.failed (GoError.wrapped "country callback error" err) }
          | none => { calls := calls ++ [SinkCall.country st.countryBatch], ending := Ending.ok }
        else { calls := calls, ending := Ending.ok }
      | none => { calls := calls, ending := Ending.ok }

/-- The method `processAlternateNamesFromReaderWithCountryMapping`; `reader` is what the
scanner built on the reader yields. -/
def processAlternateNamesFromReaderWithCountryMapping (p : Parser) (reader : LineStream)
    (cityIDs : GoMap Int Bool) (countryCodes : GoMap GoString Bool)
    (geonameIDToCountryCode : Option (GoMap Int GoString))
    (cityCallback : Option CityCallback) (countryCallback : Option CountryCallback) :
    PassResult :=
  match scanLoop p (effectiveBatchSize p) cityIDs countryCodes geonameIDToCountryCode
      cityCallback countryCallback initialState reader.lines with
  | Flow.ret calls err => { calls := calls, ending := Ending.failed err }
  | Flow.outOfRange calls => { calls := calls, ending := Ending.outOfRange }
  | Flow.next st => finish reader cityCallback countryCallback st

/-- The batches handed to the city sink, in order. -/
def cityBatches : List SinkCall → List (List CityTranslation)
  | [] => []
  | SinkCall.city b :: rest => b :: cityBatches rest
  | SinkCall.country _ :: rest => cityBatches rest

/-- The batches handed to the country sink, in order. -/
def countryBatches : List SinkCall → List (List CountryTranslation)
  | [] => []
  | SinkCall.city _ :: rest => countryBatches rest
  | SinkCall.country b :: rest => b :: countryBatches rest

/-- The callback of the tests: it keeps what it is given and returns nil. -/
def collectCity : CityCallback := fun _ _ => none

/-- Country callback that keeps what it is given and returns nil. -/
def collectCountry : CountryCallback := fun _ _ => none

/-- The input of `TestParser_ProcessAlternateNames`. -/
def testInput : GoString :=
  utf8 "\n1\t100\ten\tLondon\t0\t0\t0\t0\n2\t100\tru\tЛондон\t0\t0\t0\t0\n3\t100\tlink\thttp://wiki...\t0\t0\t0\t0\n4\t100\ten\tLondres\t0\t0\t1\t0\n5\t100\ten\tOld London\t0\t0\t0\t1\n6\t100\tfr\tLondres\t0\t0\t0\t0\n7\t200\ten\tParis\t1\t0\t0\t0\n8\t200\ten\tParigi\t0\t0\t0\t0\n"

/-- The map `cityIDs` of the test. -/
def testCityIDs : GoMap Int Bool := [(100, true), (200, true)]

/-! ## Predicates on rows used to state the properties -/

/-- Fields of a row: `strings.Split(line, "\t")`. -/
def fields (line : GoString) : List GoString := Split line 9

/-- Row rejected as malformed: fewer than 4 fields, field 1 not an integer for `Atoi`, or an
empty language (field 2) or name (field 3). -/
def malformedRow (line : GoString) : Bool :=
  decide ((fields line).length < 4 ∨ (Atoi ((fields line).getD 1 [])).2 ≠ none ∨
    (fields line).getD 2 [] = [] ∨ (fields line).getD 3 [] = [])

/-- Row whose colloquial flag (field 6) or historic flag (field 7) is "1". -/
def flaggedRow (line : GoString) : Bool :=
  decide ((fields line)[6]? = some (utf8 "1") ∨ (fields line)[7]? = some (utf8 "1"))

/-- Row whose raw language code (field 2) is one of the technical tags. -/
def technicalRow (line : GoString) : Bool :=
  decide ((fields line).getD 2 [] ∈ technicalCodes)

/-- Language of a row after truncation: the first 2 bytes of field 2. -/
def truncatedLang (line : GoString) : GoString := ((fields line).getD 2 []).take 2

/-- Preferred flag of a row: field 4 is "1". -/
def preferredRow (line : GoString) : Bool :=
  decide ((fields line)[4]? = some (utf8 "1"))

/-- The sink invocations made by the loop on `lines`, whatever way it ends. -/
def callsOfFlow : Flow → List SinkCall
  | Flow.next st => st.calls
  | Flow.ret calls _ => calls
  | Flow.outOfRange calls => calls

/-! ## One sink seen from outside

The city sink and the country sink run the same buffer discipline. `SinkView` describes it
without the dedup table: the buffer, and the batches already handed over. The theorems below
show that the loop keeps its state in step with these views. -/

/-- The buffer of a sink and the batches it has handed over so far. -/
structure SinkView (ρ : Type) where
  batch : List ρ
  sent : List (List ρ)

/-- Effect of one candidate record on a buffer: a record with a new key is appended; for a
key already present the stored record is renamed when the row is preferred. -/
def putBatch {ρ : Type} (keyOf : ρ → GoString) (rename : ρ → ρ) (rec : ρ) (isPreferred : Bool)
    (batch : List ρ) : List ρ :=
  if keyOf rec ∈ batch.map keyOf then
    if isPreferred then batch.map (fun x => if keyOf x = keyOf rec then rename x else x)
    else batch
  else batch ++ [rec]

/-- Effect of one candidate record on a sink: the buffer is updated and, when it has reached
the batch size, handed over (if `deliver`) and emptied. -/
def SinkView.put {ρ : Type} (keyOf : ρ → GoString) (merge : ρ → ρ → ρ) (batchSize : Int)
    (deliver : Bool) (v : SinkView ρ) (item : ρ × Bool) : SinkView ρ :=
  let b := putBatch keyOf (fun x => merge x item.1) item.1 item.2 v.batch
  if (b.length : Int) ≥ batchSize then
    { batch := [], sent := if deliver then v.sent ++ [b] else v.sent }
  else { batch := b, sent := v.sent }

/-- The batches handed over once the stream has ended: a non-empty buffer is flushed. -/
def SinkView.close {ρ : Type} (deliver : Bool) (v : SinkView ρ) : List (List ρ) :=
  if v.batch.length > 0 ∧ deliver = true then v.sent ++ [v.batch] else v.sent

/-- Every record the sink holds or has handed over, in order. -/
def SinkView.stream {ρ : Type} (v : SinkView ρ) : List ρ := v.sent.flatten ++ v.batch

/-- Dedup key of a city record. -/
def cityKeyOf (c : CityTranslation) : GoString := cityKey c.CityID c.Lang

/-- Dedup key of a country record. -/
def countryKeyOf (c : CountryTranslation) : GoString := countryKey c.CountryCode c.Lang

/-- The overwrite `cityBatch[idx].Name = name` with the name of the new record. -/
def cityMerge (old new : CityTranslation) : CityTranslation := { old with Name := new.Name }

/-- The overwrite `countryBatch[idx].Name = name` with the name of the new record. -/
def countryMerge (old new : CountryTranslation) : CountryTranslation :=
  { old with Name := new.Name }

/-- The city-translation candidate of a line: the line is accepted and its id is a known
city id. The flag is the preferred-name flag of the row. -/
def cityItem (p : Parser) (cityIDs : GoMap Int Bool) (line : GoString) :
    Option (CityTranslation × Bool) :=
  match parseRow p line with
  | some r =>
    if cityIDs.test r.geonameID then
      some ({ CityID := r.geonameID, Lang := r.lang, Name := r.name }, r.isPreferred)
    else none
  | none => none

/-- The country-translation candidate of a line: the line is accepted, a country sink is
configured, and its id maps to a known country code. -/
def countryItem (p : Parser) (countryCodes : GoMap GoString Bool)
    (geonameIDToCountryCode : Option (GoMap Int GoString)) (configured : Bool)
    (line : GoString) : Option (CountryTranslation × Bool) :=
  match parseRow p line, geonameIDToCountryCode with
  | some r, some m =>
    match m.get? r.geonameID with
    | some countryCode =>
      if configured = true ∧ countryCodes.test countryCode = true then
        some ({ CountryCode := countryCode, Lang := r.lang, Name := r.name }, r.isPreferred)
      else none
    | none => none
  | _, _ => none

/-- The country code under which an entity id is a country-translation candidate: a country
sink is configured, `geonameIDToCountryCode` is not nil and maps the id to a code, and that
code is a known country code. -/
def countryCodeOf (countryCodes : GoMap GoString Bool)
    (geonameIDToCountryCode : Option (GoMap Int GoString)) (configured : Bool)
    (geonameID : Int) : Option GoString :=
  match geonameIDToCountryCode with
  | some m =>
    match m.get? geonameID with
    | some countryCode =>
      if configured = true ∧ countryCodes.test countryCode = true then some countryCode
      else none
    | none => none
  | none => none

/-- The city sink after the loop has consumed `lines`, started from `v`. -/
def cityView (p : Parser) (cityIDs : GoMap Int Bool) (deliver : Bool) (v : SinkView CityTranslation)
    (lines : List GoString) : SinkView CityTranslation :=
  (lines.filterMap (cityItem p cityIDs)).foldl
    (SinkView.put cityKeyOf cityMerge (effectiveBatchSize p) deliver) v

/-- The country sink after the loop has consumed `lines`, started from `v`. -/
def countryView (p : Parser) (countryCodes : GoMap GoString Bool)
    (geonameIDToCountryCode : Option (GoMap Int GoString)) (configured : Bool)
    (v : SinkView CountryTranslation) (lines : List GoString) : SinkView CountryTranslation :=
  (lines.filterMap (countryItem p countryCodes geonameIDToCountryCode configured)).foldl
    (SinkView.put countryKeyOf countryMerge (effectiveBatchSize p) true) v

/-- Value of a list of decimal digit bytes, least significant first. -/
def digitsValue : List UInt8 → Nat
  | [] => 0
  | d :: ds => (d.toNat - 48) + 10 * digitsValue ds

/-- First position of a key in a list of keys. -/
def keyIndex : List GoString → GoString → Option Nat
  | [], _ => none
  | x :: xs, k => if x = k then some 0 else (keyIndex xs k).map (fun i => i + 1)

/-- The dedup table indexes the buffer: the keys of the buffered records are distinct, and
the table maps exactly these keys, each to the position of its record. -/
def TableOk {ρ : Type} (keyOf : ρ → GoString) (batch : List ρ) (transMap : GoMap GoString Nat) :
    Prop :=
  (batch.map keyOf).Nodup ∧ ∀ k, transMap.get? k = keyIndex (batch.map keyOf) k

/-- The loop state agrees with the two sink views. -/
def InStep (st : LoopState) (cv : SinkView CityTranslation) (kv : SinkView CountryTranslation) :
    Prop :=
  st.cityBatch = cv.batch ∧ cityBatches st.calls = cv.sent ∧
  TableOk cityKeyOf st.cityBatch st.cityTransMap ∧
  st.countryBatch = kv.batch ∧ countryBatches st.calls = kv.sent ∧
  TableOk countryKeyOf st.countryBatch st.countryTransMap

/-- The loop on `lines` from the initial state, and the calls it has made. -/
def callsAfter (p : Parser) (cityIDs : GoMap Int Bool) (countryCodes : GoMap GoString Bool)
    (geonameIDToCountryCode : Option (GoMap Int GoString))
    (cityCallback : Option CityCallback) (countryCallback : Option CountryCallback)
    (lines : List GoString) : List SinkCall :=
  callsOfFlow (scanLoop p (effectiveBatchSize p) cityIDs countryCodes geonameIDToCountryCode
    cityCallback countryCallback initialState lines)

/-- The seven rows of the concrete scenario of the specification. -/
def scenarioRows : List GoString :=
  [utf8 "1\t100\ten\tLondon\t0\t0\t0\t0", utf8 "2\t100\tru\tЛондон\t0\t0\t0\t0",
   utf8 "3\t100\tlink\turl\t0\t0\t0\t0", utf8 "4\t100\ten\tLondres\t0\t0\t1\t0",
   utf8 "5\t100\ten\tOld London\t0\t0\t0\t1", utf8 "7\t200\ten\tParis\t1\t0\t0\t0",
   utf8 "8\t200\ten\tParigi\t0\t0\t0\t0"]

/-- Parser with batch size `batchSize` and no allow-list. -/
def batchParser (batchSize : Int) : Parser :=
  NewParser [] { BatchSize := batchSize, MinPopulation := 0, AllowedLanguages := [] }

/-- Five accepted rows for the cities 100 and 200 with pairwise distinct keys. -/
def fiveRows : List GoString :=
  [utf8 "1\t100\ten\tLondon", utf8 "2\t100\tru\tЛондон", utf8 "3\t100\tfr\tLondres",
   utf8 "4\t200\ten\tParis", utf8 "5\t200\tit\tParigi"]

/-- Parser of the tests: batch size 10 and the given allow-list. -/
def testParser (allowed : List GoString) : Parser :=
  NewParser [] { BatchSize := 10, MinPopulation := 0, AllowedLanguages := allowed }

/-! ## Outcomes of the sink invocations -/

/-- What the callback of the sink of `call` returns for it, given the invocations made
before it. -/
def callResult (cityCallback : Option CityCallback) (countryCallback : Option CountryCallback)
    (history : List SinkCall) : SinkCall → Option GoError
  | SinkCall.city batch =>
    match cityCallback with
    | some cb => cb history batch
    | none => none
  | SinkCall.country batch =>
    match countryCallback with
    | some cb => cb history batch
    | none => none

/-- The context `fmt.Errorf` puts before the error of a sink. -/
def sinkContext : SinkCall → String
  | SinkCall.city _ => "city callback error"
  | SinkCall.country _ => "country callback error"

/-- Every invocation in `calls` returned nil. -/
def AllSucceeded (cityCallback : Option CityCallback) (countryCallback : Option CountryCallback)
    (calls : List SinkCall) : Prop :=
  ∀ pre call post, calls = pre ++ call :: post →
    callResult cityCallback countryCallback pre call = none

/-- The last invocation in `calls` returned an error, every earlier one nil, and `err` is that
error wrapped with the context of its sink. -/
def FailedLast (cityCallback : Option CityCallback) (countryCallback : Option CountryCallback)
    (calls : List SinkCall) (err : GoError) : Prop :=
  ∃ pre call e, calls = pre ++ [call] ∧ AllSucceeded cityCallback countryCallback pre ∧
    callResult cityCallback countryCallback pre call = some e ∧
    err = GoError.wrapped (sinkContext call) e

/-- The calls recorded in a flow agree with what the callbacks returned. -/
def FlowCallsOk (cityCallback : Option CityCallback) (countryCallback : Option CountryCallback) :
    Flow → Prop
  | Flow.next st => AllSucceeded cityCallback countryCallback st.calls
  | Flow.ret calls err => FailedLast cityCallback countryCallback calls err
  | Flow.outOfRange calls => AllSucceeded cityCallback countryCallback calls

/-- City callback that always fails. -/
def failingCity : CityCallback := fun _ _ => some (GoError.base "insert failed")

/-- Country callback that always fails. -/
def failingCountry : CountryCallback := fun _ _ => some (GoError.base "insert failed")

/-! ## Bounds kept by the loop -/

/-- A delivered batch is well formed for batch size `batchSize`: its dedup keys are distinct,
it holds at most `batchSize` records and at least one. -/
def BatchOk {ρ : Type} (keyOf : ρ → GoString) (batchSize : Int) (b : List ρ) : Prop :=
  (b.map keyOf).Nodup ∧ (b.length : Int) ≤ batchSize ∧ b ≠ []

/-- Every delivered batch is well formed. -/
def CallsOk (batchSize : Int) (calls : List SinkCall) : Prop :=
  (∀ b ∈ cityBatches calls, BatchOk cityKeyOf batchSize b) ∧
  (∀ b ∈ countryBatches calls, BatchOk countryKeyOf batchSize b)

/-- Both buffers are below the batch size and indexed by their dedup tables. -/
def Bounded (batchSize : Int) (st : LoopState) : Prop :=
  (st.cityBatch.length : Int) < batchSize ∧ (st.countryBatch.length : Int) < batchSize ∧
  TableOk cityKeyOf st.cityBatch st.cityTransMap ∧
  TableOk countryKeyOf st.countryBatch st.countryTransMap

/-- The bounds hold wherever the loop body ends, and it never ends out of range. -/
def FlowSound (batchSize : Int) : Flow → Prop
  | Flow.next st => Bounded batchSize st ∧ CallsOk batchSize st.calls
  | Flow.ret calls _ => CallsOk batchSize calls
  | Flow.outOfRange _ => False

/-! ## The city and country record parsers -/

/-- Record `model.City`. The type `φ` stands for `float64`, whose values the parser only
stores. -/
structure City (φ : Type) where
  ID : Int
  CountryCode : GoString
  NameDefault : GoString
  Population : Int
  Lat : φ
  Lon : φ
  Elevation : Option Int
  Timezone : Option GoString
deriving DecidableEq, Repr

/-- Record `model.Country`. -/
structure Country where
  Code : GoString
  NameDefault : GoString
  GeonameID : Int
deriving DecidableEq, Repr

/-- Lines 136–186 of `parseCitiesFromReader`, the loop body up to the record: `none` is
`continue`. `ParseFloat s` is `strconv.ParseFloat(s, 64)`, taken as a parameter: `some v` for
a nil error, `none` for an error. -/
def parseCityLine {φ : Type} (ParseFloat : GoString → Option φ) (p : Parser)
    (line : GoString) : Option (City φ) :=
  let parts := Split line 9
  if parts.length < 19 then none
  else
    let id := Atoi (parts.getD 0 [])
    if id.2 ≠ none then none
    else
      let population := Atoi (parts.getD 14 [])
      if population.2 ≠ none ∨ population.1 < p.minPopulation then none
      else
        match ParseFloat (parts.getD 4 []) with
        | none => none
        | some lat =>
          match ParseFloat (parts.getD 5 []) with
          | none => none
          | some lon =>
            let elevation : Option Int :=
              if parts.getD 15 [] ≠ [] then
                (if (Atoi (parts.getD 15 [])).2 = none then some (Atoi (parts.getD 15 [])).1
                 else none)
              else none
            let timezone : Option GoString :=
              if parts.getD 17 [] ≠ [] then some (parts.getD 17 []) else none
            some { ID := id.1, CountryCode := parts.getD 8 [], NameDefault := parts.getD 1 [],
                   Population := population.1, Lat := lat, Lon := lon,
                   Elevation := elevation, Timezone := timezone }

/-- The loop `for scanner.Scan()` of `parseCitiesFromReader`, with `cities` the slice built
so far. -/
def citiesLoop {φ : Type} (ParseFloat : GoString → Option φ) (p : Parser) :
    List (City φ) → List GoString → List (City φ)
  | cities, [] => cities
  | cities, line :: rest =>
    match parseCityLine ParseFloat p line with
    | none => citiesLoop ParseFloat p cities rest
    | some city => citiesLoop ParseFloat p (cities ++ [city]) rest

/-- The method `parseCitiesFromReader`; `reader` is what the scanner built on the reader
yields. -/
def parseCitiesFromReader {φ : Type} (ParseFloat : GoString → Option φ) (p : Parser)
    (reader : LineStream) : Except GoError (List (City φ)) :=
  let cities := citiesLoop ParseFloat p [] reader.lines
  match reader.err with
  | some err => Except.error (GoError.wrapped "failed to scan cities" err)
  | none => Except.ok cities

/-- A stand-in for `strconv.ParseFloat` on the texts that are decimal integers for `Atoi`,
which `ParseFloat` accepts as well; the value is kept as an integer. -/
def parseWholeNumber (s : GoString) : Option Int :=
  if (Atoi s).2 = none then some (Atoi s).1 else none

/-- Parser with minimum population `minPopulation`. -/
def populationParser (minPopulation : Int) : Parser :=
  NewParser [] { BatchSize := 10, MinPopulation := minPopulation, AllowedLanguages := [] }

/-- A city line of 19 fields: id 100, population 7556900, elevation field `elevation`. -/
def londonLine (elevation : String) : GoString :=
  utf8 "100\tLondon\tLondon\t\t51\t0\tP\tPPLC\tGB\t\tENG\tGLA\t\t\t7556900\t" ++ utf8 elevation
    ++ utf8 "\t25\tEurope/London\t2022-03-09"

/-- A city line of 19 fields: id 2988507, Paris, population 2138551, no elevation. -/
def parisLine : GoString :=
  utf8 "2988507\tParis\tParis\t\t48\t2\tP\tPPLC\tFR\t\t11\t75\t751\t75056\t2138551\t\t42\tEurope/Paris\t2022-03-09"

/-! ## The country file parser and the index builders -/

/-- Go `strings.HasPrefix(s, pre)`. -/
def HasPrefix : GoString → GoString → Bool
  | _, [] => true
  | [], _ :: _ => false
  | c :: s, d :: pre => decide (c = d) && HasPrefix s pre

/-- Body of the loop of `ParseCountries` for one line: the Country appended, if any. -/
def parseCountryLine (line : GoString) : Option Country :=
  if HasPrefix line (utf8 "#") = true then none
  else
    let parts := Split line 9
    if parts.length < 17 then none
    else
      let code := parts.getD 0 []
      let name := parts.getD 4 []
      let geonameID := (Atoi (parts.getD 16 [])).1
      if code ≠ [] ∧ name ≠ [] then
        some { Code := code, NameDefault := name, GeonameID := geonameID }
      else none

/-- The loop `for scanner.Scan()` of `ParseCountries`, with the slice `countries` built so
far. -/
def countriesLoop : List Country → List GoString → List Country
  | countries, [] => countries
  | countries, line :: rest =>
    match parseCountryLine line with
    | some country => countriesLoop (countries ++ [country]) rest
    | none => countriesLoop countries rest

/-- Method `ParseCountries`. `Join` is `filepath.Join` and `Open` gives, for a path, the
failure of `os.Open` or what a scanner over the opened file yields. -/
def ParseCountries (Join : GoString → GoString → GoString)
    (Open : GoString → Except GoError LineStream) (p : Parser) :
    Except GoError (List Country) :=
  match Open (Join p.dataDir (utf8 "countryInfo.txt")) with
  | Except.error err => Except.error (GoError.wrapped "failed to open countryInfo.txt" err)
  | Except.ok file =>
    let countries := countriesLoop [] file.lines
    match file.err with
    | some err => Except.error (GoError.wrapped "failed to scan countryInfo.txt" err)
    | none => Except.ok countries

/-- Function `CreateCountryGeonameIDMap`. -/
def CreateCountryGeonameIDMap (countries : List Country) : GoMap Int GoString :=
  countries.foldl
    (fun m country => if country.GeonameID ≠ 0 then m.set country.GeonameID country.Code else m)
    []

/-- Function `CreateCityIDMap`. -/
def CreateCityIDMap {φ : Type} (cities : List (City φ)) : GoMap Int Bool :=
  cities.foldl (fun m city => m.set city.ID true) []

/-- Function `CreateCountryCodeMap`. -/
def CreateCountryCodeMap (countries : List Country) : GoMap GoString Bool :=
  countries.foldl (fun m country => m.set country.Code true) []

/-- Content of `testData` in `TestParser_ParseCountries`. -/
def countryTestData : GoString :=
  utf8 "#ISO\tISO3\tISO-Numeric\tfips\tCountry\tCapital\tArea(in sq km)\tPopulation\tContinent\ttld\tCurrencyCode\tCurrencyName\tPhone\tPostal Code Format\tPostal Code Regex\tLanguages\tgeonameid\tneighbours\tEquivalentFipsCode\nAD\tAND\t020\tAN\tAndorra\tAndorra la Vella\t468\t84000\tEU\t.ad\tEUR\tEuro\t376\tAD###\t^(?:AD)*(\\d\x7b3\x7d)$\tca\t3041565\tES,FR\t\nAE\tARE\t784\tAE\tUnited Arab Emirates\tAbu Dhabi\t82880\t4975593\tAS\t.ae\tAED\tDirham\t971\t\t^(\\\\d\x7b4\x7d)$\tar-AE,fa,en,hi,ur\t290557\tSA,OM\t"

/-- Path join used with the test directory: directory, separator, file name. -/
def joinPath (dir name : GoString) : GoString := dir ++ utf8 "/" ++ name

/-- File system holding one file `path` with content `data`, read by a scanner with the
default token limit of 64 KiB. -/
def oneFile (path data : GoString) (name : GoString) : Except GoError LineStream :=
  if name = path then Except.ok (scan 65536 data)
  else Except.error (GoError.base "open: no such file or directory")

/-- A country line with code "AD", name "Andorra" and the given field 16. -/
def andorraLine (geonameid : String) : GoString :=
  utf8 "AD\tAND\t020\tAN\tAndorra\tAndorra la Vella\t468\t84000\tEU\t.ad\tEUR\tEuro\t376\tAD\t\tca\t"
    ++ utf8 geonameid ++ utf8 "\tES,FR\t"

/-- The parser of `TestParser_ParseCountries`. -/
def countryTestParser : Parser :=
  NewParser (utf8 "/tmp/001") { BatchSize := 100, MinPopulation := 0, AllowedLanguages := [] }

/-- The text that `strconv.Atoi` reads after an optional sign. -/
def afterSign (s : GoString) : GoString :=
  if s.head? = some 43 ∨ s.head? = some 45 then s.tail else s

/-- Byte that is a decimal digit. -/
def isDigit (c : UInt8) : Bool := decide (48 ≤ c.toNat ∧ c.toNat ≤ 57)

/-! ## Inputs for the dedup keys -/

/-- A line of countryInfo.txt with the given code (field 0), name (field 4) and source
identifier (field 16), the other fields empty. -/
def plainCountryLine (code name geonameid : String) : GoString :=
  utf8 code ++ utf8 "\t\t\t\t" ++ utf8 name ++ utf8 "\t\t\t\t\t\t\t\t\t\t\t\t" ++ utf8 geonameid

/-- Two countries whose codes are "A" and "A:". -/
def colonCountries : List Country :=
  [{ Code := utf8 "A", NameDefault := utf8 "Aland", GeonameID := 10 },
   { Code := utf8 "A:", NameDefault := utf8 "Bland", GeonameID := 20 }]

/-- Two accepted rows: entity 10 with language ":b", and entity 20 with language "b",
preferred. -/
def colonRows : List GoString := [utf8 "1\t10\t:b\tAlpha", utf8 "2\t20\tb\tBeta\t1"]

/-! ## Choice of the input of the translation pass -/

/-- Go `strings.HasSuffix(s, suffix)`. -/
def HasSuffix (s suffix : GoString) : Bool :=
  decide (s.length ≥ suffix.length) && decide (s.drop (s.length - suffix.length) = suffix)

/-- Entry of a zip archive (`zip.File`): its name, and what `Open` followed by a scanner
gives. -/
structure ZipFile where
  Name : GoString
  content : Except GoError LineStream

/-- The loop of lines 228–237 over `r.File`, with the value of `targetFile` so far. The
first branch ends the loop (`break`). -/
def selectTarget : Option ZipFile → List ZipFile → Option ZipFile
  | targetFile, [] => targetFile
  | targetFile, f :: rest =>
    if HasSuffix f.Name (utf8 "alternateNames.txt") = true ∨
        HasSuffix f.Name (utf8 "alternateNamesV2.txt") = true then some f
    else if targetFile.isNone = true ∧ HasSuffix f.Name (utf8 ".txt") = true then
      selectTarget (some f) rest
    else selectTarget targetFile rest

/-- Text of a path inside an error message, one character per byte. -/
def pathText (s : GoString) : String := String.mk (s.map (fun b => Char.ofNat b.toNat))

/-- Method `ProcessAlternateNamesWithCountries`. `Join` is `filepath.Join`, `Stat` the error
of `os.Stat`, `OpenZip` the entries of `zip.OpenReader` or its error, `Open` what a scanner
over the file opened by `os.Open` yields, or its error. The debug lines written to standard
output are left out. -/
def ProcessAlternateNamesWithCountries (Join : GoString → GoString → GoString)
    (Stat : GoString → Option GoError) (OpenZip : GoString → Except GoError (List ZipFile))
    (Open : GoString → Except GoError LineStream) (p : Parser) (cityIDs : GoMap Int Bool)
    (countryCodes : GoMap GoString Bool) (geonameIDToCountryCode : Option (GoMap Int GoString))
    (cityCallback : Option CityCallback) (countryCallback : Option CountryCallback) :
    PassResult :=
  let filePath := Join p.dataDir (utf8 "alternateNames.txt")
  let zipPath := Join p.dataDir (utf8 "alternateNames.zip")
  match Stat zipPath with
  | none =>
    match OpenZip zipPath with
    | Except.error err =>
      { calls := [], ending := Ending.failed (GoError.wrapped "failed to open zip" err) }
    | Except.ok files =>
      match selectTarget none files with
      | none =>
        { calls := [],
          ending := Ending.failed (GoError.base "no alternateNames.txt file found in zip") }
      | some targetFile =>
        match targetFile.content with
        | Except.error err =>
          { calls := [],
            ending := Ending.failed (GoError.wrapped "failed to open file in zip" err) }
        | Except.ok rc =>
          processAlternateNamesFromReaderWithCountryMapping p rc cityIDs countryCodes
            geonameIDToCountryCode cityCallback countryCallback
  | some _ =>
    match Stat filePath with
    | some err =>
      { calls := [],
        ending := Ending.failed (GoError.wrapped
          ("alternateNames file not found (checked " ++ pathText zipPath ++ " and "
            ++ pathText filePath ++ ")") err) }
    | none =>
      match Open filePath with
      | Except.error err =>
        { calls := [],
          ending := Ending.failed (GoError.wrapped "failed to open alternateNames.txt" err) }
      | Except.ok file =>
        processAlternateNamesFromReaderWithCountryMapping p file cityIDs countryCodes
          geonameIDToCountryCode cityCallback countryCallback

/-- Entry name ending in one of the two alternate-names file names. -/
def namedTarget (f : ZipFile) : Bool :=
  HasSuffix f.Name (utf8 "alternateNames.txt") || HasSuffix f.Name (utf8 "alternateNamesV2.txt")

/-- Entry name ending in ".txt". -/
def textTarget (f : ZipFile) : Bool := HasSuffix f.Name (utf8 ".txt")

/-- An archive entry with the given name and rows. -/
def zipEntry (name : String) (rows : List GoString) : ZipFile :=
  { Name := utf8 name, content := Except.ok { lines := rows, err := none } }

/-- File system holding only the archive alternateNames.zip, with the entries `files`. -/
def zipOnly (files : List ZipFile) (path : GoString) : Except GoError (List ZipFile) :=
  if path = joinPath (utf8 "/data") (utf8 "alternateNames.zip") then Except.ok files
  else Except.error (GoError.base "open: no such file or directory")

/-- The result of `os.Stat` in a file system holding only alternateNames.zip. -/
def statZipOnly (path : GoString) : Option GoError :=
  if path = joinPath (utf8 "/data") (utf8 "alternateNames.zip") then none
  else some (GoError.base "stat: no such file or directory")

/-- Parser over the directory "/data" with batch size 10. -/
def dataParser : Parser :=
  NewParser (utf8 "/data") { BatchSize := 10, MinPopulation := 0, AllowedLanguages := [] }

/-- Archive with the versioned file first and the preferred file second. -/
def twoNamedEntries : List ZipFile :=
  [zipEntry "alternateNamesV2.txt" [utf8 "1\t100\ten\tFromV2"],
   zipEntry "alternateNames.txt" [utf8 "1\t100\ten\tFromPlain"]]

/-- Archive with a readme first, then the versioned file in a directory. -/
def readmeFirst : List ZipFile :=
  [zipEntry "readme.txt" [], zipEntry "iso.csv" [],
   zipEntry "dump/alternateNamesV2.txt" [utf8 "1\t100\ten\tFromV2"]]

/-! ## The suggestion service (`internal/service/city.go`) -/

/-- Record `model.SuggestRequest`. -/
structure SuggestRequest where
  Query : GoString
  Lang : GoString
  Limit : Int
deriving DecidableEq, Repr

/-- Record `model.CityResult`. -/
structure CityResult where
  ID : Int
  Name : GoString
  Country : GoString
  CountryCode : GoString
  Population : Int
deriving DecidableEq, Repr

/-- Record `model.SuggestResponse`. -/
structure SuggestResponse where
  Results : List CityResult
deriving DecidableEq, Repr

/-- One invocation of the repository method `SearchCitiesWithLang`, with its arguments. -/
structure SearchCall where
  query : GoString
  lang : GoString
  limit : Int
deriving DecidableEq, Repr

/-- What `SuggestCities` returns, and the repository invocations it made. -/
structure SuggestOutcome where
  response : Option SuggestResponse
  err : Option GoError
  repoCalls : List SearchCall
deriving DecidableEq, Repr

/-- Constant `defaultLang`. -/
def defaultLang : GoString := utf8 "en"

/-- Constant `defaultLimit`. -/
def defaultLimit : Int := 10

/-- Constant `minQueryLength`. -/
def minQueryLength : Int := 2

/-- Method `Service.SuggestCities`. The repository method `SearchCitiesWithLang` is a
parameter; `len(req.Query)` is the number of bytes of the query. -/
def SuggestCities (SearchCitiesWithLang : GoString → GoString → Int →
    Except GoError (List CityResult)) (req : SuggestRequest) : SuggestOutcome :=
  if (req.Query.length : Int) < minQueryLength then
    { response := none,
      err := some (GoError.base
        ("query must be at least " ++ pathText (formatInt minQueryLength) ++ " characters")),
      repoCalls := [] }
  else
    let lang := if req.Lang = [] then defaultLang else req.Lang
    let limit := if req.Limit ≤ 0 then defaultLimit else req.Limit
    match SearchCitiesWithLang req.Query lang limit with
    | Except.error err =>
      { response := none, err := some (GoError.wrapped "failed to search cities" err),
        repoCalls := [{ query := req.Query, lang := lang, limit := limit }] }
    | Except.ok results =>
      { response := some { Results := results }, err := none,
        repoCalls := [{ query := req.Query, lang := lang, limit := limit }] }

/-- The text of an error, `err.Error()`. -/
def GoError.Error : GoError → String
  | GoError.base msg => msg
  | GoError.wrapped context cause => context ++ ": " ++ GoError.Error cause

/-- The mock repository of `TestService_SuggestCities`: Dublin for the query "Dub" in "en"
with limit 10, no result otherwise. -/
def mockSearch (query lang : GoString) (limit : Int) : Except GoError (List CityResult) :=
  if query = utf8 "Dub" ∧ lang = utf8 "en" ∧ limit = 10 then
    Except.ok [{ ID := 1, Name := utf8 "Dublin", Country := utf8 "Ireland",
                 CountryCode := utf8 "IE", Population := 500000 }]
  else Except.ok []

/-! ## The dedup table as an index of the buffer -/

/-- Every value stored in the dedup table is a position of the buffer, and the record at
that position has the key under which the position is stored. -/
def IndexValid {ρ : Type} (keyOf : ρ → GoString) (batch : List ρ)
    (transMap : GoMap GoString Nat) : Prop :=
  ∀ (key : GoString) (idx : Nat), transMap.get? key = some idx →
    ∃ rec, batch[idx]? = some rec ∧ keyOf rec = key

/-- The records of `batch` whose key is not `key` are at the same positions in `b`,
unchanged. -/
def OthersKept {ρ : Type} (keyOf : ρ → GoString) (key : GoString) (batch b : List ρ) : Prop :=
  ∀ (j : Nat) (rec : ρ), batch[j]? = some rec → keyOf rec ≠ key → b[j]? = some rec

/-- The loop state after the first two rows of the scenario, with batch size 10: London and
Лондон are buffered at the positions 0 and 1, which the dedup table records. -/
def afterTwoRows : LoopState :=
  { cityBatch := [{ CityID := 100, Lang := utf8 "en", Name := utf8 "London" },
                  { CityID := 100, Lang := utf8 "ru", Name := utf8 "Лондон" }],
    countryBatch := [],
    cityTransMap := [(utf8 "100:ru", 1), (utf8 "100:en", 0)],
    countryTransMap := [],
    calls := [] }

/-! ## Batch windows

A batch window of a sink is a run of consecutive candidate records of that sink between two
flushes of its buffer. `bufferOf` is what the code makes of a window; `windowBatch` is what
the specification says a window gives. -/

/-- The buffer after the candidates of `window` have gone through the dedup step, one after
the other, starting from an empty buffer and an empty dedup table. -/
def bufferOf {ρ : Type} (keyOf : ρ → GoString) (merge : ρ → ρ → ρ) (window : List (ρ × Bool)) :
    List ρ :=
  window.foldl (fun b item => putBatch keyOf (fun x => merge x item.1) item.1 item.2 b) []

/-- The distinct keys of a list, in the order of their first occurrence. -/
def firstOccurrences : List GoString → List GoString
  | [] => []
  | k :: ks => k :: (firstOccurrences ks).filter (fun x => decide (x ≠ k))

/-- In the words of the specification: the record kept for a key whose first row in the
window is `first` and whose later rows in the window are `later`. It is the record of the
first row; its name is the name of the last preferred row among the later ones, if there is
one. -/
def keptRecord {ρ : Type} (merge : ρ → ρ → ρ) (first : ρ × Bool) (later : List (ρ × Bool)) : ρ :=
  match (later.filter (fun item => item.2)).getLast? with
  | some item => merge first.1 item.1
  | none => first.1

/-- In the words of the specification: the record a window gives for `key`, from the rows of
the window with that key, in file order. -/
def windowRecord {ρ : Type} (keyOf : ρ → GoString) (merge : ρ → ρ → ρ)
    (window : List (ρ × Bool)) (key : GoString) : Option ρ :=
  match window.filter (fun item => decide (keyOf item.1 = key)) with
  | [] => none
  | first :: later => some (keptRecord merge first later)

/-- In the words of the specification: the batch a window gives. One record per distinct
key, in the order of the first occurrence of the keys. -/
def windowBatch {ρ : Type} (keyOf : ρ → GoString) (merge : ρ → ρ → ρ)
    (window : List (ρ × Bool)) : List ρ :=
  (firstOccurrences (window.map (fun item => keyOf item.1))).filterMap
    (windowRecord keyOf merge window)

/-- A closed batch window for batch size `batchSize`: the buffer of the window has reached the
batch size, and the buffer of no shorter run from the same start has. -/
def WindowClosed {ρ : Type} (keyOf : ρ → GoString) (merge : ρ → ρ → ρ) (batchSize : Int)
    (window : List (ρ × Bool)) : Prop :=
  ((bufferOf keyOf merge window).length : Int) ≥ batchSize ∧
  ∀ w1 w2, window = w1 ++ w2 → w2 ≠ [] →
    ((bufferOf keyOf merge w1).length : Int) < batchSize

/-- An open batch window: the buffer of no run from its start has reached the batch size. -/
def WindowOpen {ρ : Type} (keyOf : ρ → GoString) (merge : ρ → ρ → ρ) (batchSize : Int)
    (window : List (ρ × Bool)) : Prop :=
  ∀ w1 w2, window = w1 ++ w2 → ((bufferOf keyOf merge w1).length : Int) < batchSize

/-! ## The pass with its failures left out -/

/-- The city callback that returns nil wherever `cityCallback` is invoked. -/
def quietCity (cityCallback : Option CityCallback) : Option CityCallback :=
  cityCallback.map (fun _ => collectCity)

/-- The country callback that returns nil wherever `countryCallback` is invoked. -/
def quietCountry (countryCallback : Option CountryCallback) : Option CountryCallback :=
  countryCallback.map (fun _ => collectCountry)

/-- The flow `g`, reached with callbacks that return nil, goes on from where the flow `f`
stands: the same state or the same runtime failure, or, where `f` has returned an error, the
invocations of `f` and possibly more. -/
def Follows (f g : Flow) : Prop :=
  match f with
  | Flow.next st => g = Flow.next st
  | Flow.ret calls _ => ∃ more, callsOfFlow g = calls ++ more
  | Flow.outOfRange calls => g = Flow.outOfRange calls

/-- Sequencing of two pieces of the loop body: the second runs when the first has ended
normally. -/
def Flow.andThen (f : Flow) (k : LoopState → Flow) : Flow :=
  match f with
  | Flow.next st => k st
  | Flow.ret calls err => Flow.ret calls err
  | Flow.outOfRange calls => Flow.outOfRange calls

/-- The batch windows `ws` of a sink, followed by the candidates `rest` that were not handed
over, make up the candidate records `items`; every window but the last is closed by a full
buffer, and the last one is either closed that way or is the open window flushed at the end
of the stream. -/
def WindowsOf {ρ : Type} (keyOf : ρ → GoString) (merge : ρ → ρ → ρ) (batchSize : Int)
    (items : List (ρ × Bool)) (ws : List (List (ρ × Bool))) (rest : List (ρ × Bool)) : Prop :=
  items = ws.flatten ++ rest ∧ (∀ w ∈ ws, w ≠ []) ∧
  ∀ pre w post, ws = pre ++ w :: post →
    WindowClosed keyOf merge batchSize w ∨
      (post = [] ∧ rest = [] ∧ WindowOpen keyOf merge batchSize w)

/-- The name the specification gives to the record of a key: the name of the last preferred
row among the later rows of the key, if there is one, and the name of the first row
otherwise. -/
def keptName {ρ : Type} (nameOf : ρ → GoString) (first : ρ × Bool) (later : List (ρ × Bool)) :
    GoString :=
  (((later.filter (fun item => item.2)).getLast?).map (fun item => nameOf item.1)).getD
    (nameOf first.1)

/-- The city candidates of the eight rows of the test: the rows 1, 2, 6, 7 and 8. -/
def testWindow : List (CityTranslation × Bool) :=
  [({ CityID := 100, Lang := utf8 "en", Name := utf8 "London" }, false),
   ({ CityID := 100, Lang := utf8 "ru", Name := utf8 "Лондон" }, false),
   ({ CityID := 100, Lang := utf8 "fr", Name := utf8 "Londres" }, false),
   ({ CityID := 200, Lang := utf8 "en", Name := utf8 "Paris" }, true),
   ({ CityID := 200, Lang := utf8 "en", Name := utf8 "Parigi" }, false)]

/-! ## Nearest-city search (`internal/repository/sqlite_impl.go`)

The type `φ` stands for `float64`. Its operations and the functions of package `math` are
the fields of `FloatOps`: the search is written over any such arithmetic. -/

/-- The operations of `float64` and of package `math` used by the search: `+`, `-`, `*`, `/`,
`<`, `<=` (the comparison behind SQL `BETWEEN`), the conversion of an integer constant,
`math.MaxFloat64`, `math.Pi`, `math.Sin`, `math.Cos`, `math.Sqrt` and `math.Atan2`. -/
structure FloatOps (φ : Type) where
  add : φ → φ → φ
  sub : φ → φ → φ
  mul : φ → φ → φ
  div : φ → φ → φ
  lt : φ → φ → Bool
  le : φ → φ → Bool
  ofInt : Int → φ
  MaxFloat64 : φ
  Pi : φ
  Sin : φ → φ
  Cos : φ → φ
  Sqrt : φ → φ
  Atan2 : φ → φ → φ

/-- Function `calculateDistance`. -/
def calculateDistance {φ : Type} (ops : FloatOps φ) (lat1 lon1 lat2 lon2 : φ) : φ :=
  let R := ops.ofInt 6371
  let dLat := ops.mul (ops.sub lat2 lat1) (ops.div ops.Pi (ops.ofInt 180))
  let dLon := ops.mul (ops.sub lon2 lon1) (ops.div ops.Pi (ops.ofInt 180))
  let lat1Rad := ops.mul lat1 (ops.div ops.Pi (ops.ofInt 180))
  let lat2Rad := ops.mul lat2 (ops.div ops.Pi (ops.ofInt 180))
  let a := ops.add
    (ops.mul (ops.Sin (ops.div dLat (ops.ofInt 2))) (ops.Sin (ops.div dLat (ops.ofInt 2))))
    (ops.mul
      (ops.mul
        (ops.mul (ops.Sin (ops.div dLon (ops.ofInt 2))) (ops.Sin (ops.div dLon (ops.ofInt 2))))
        (ops.Cos lat1Rad))
      (ops.Cos lat2Rad))
  let c := ops.mul (ops.ofInt 2) (ops.Atan2 (ops.Sqrt a) (ops.Sqrt (ops.sub (ops.ofInt 1) a)))
  ops.mul R c

/-- The two queries of `FindNearestCity`, as the database answers them: the query with
`lat BETWEEN ? AND ? AND lon BETWEEN ? AND ?` for its four arguments, and
`SELECT * FROM cities`. -/
structure CityQueries (φ : Type) where
  inBox : φ → φ → φ → φ → Except GoError (List (City φ))
  all : Except GoError (List (City φ))

/-- The row filter `lat BETWEEN latLo AND latHi AND lon BETWEEN lonLo AND lonHi`. -/
def inBox {φ : Type} (ops : FloatOps φ) (latLo latHi lonLo lonHi : φ) (c : City φ) : Bool :=
  ops.le latLo c.Lat && ops.le c.Lat latHi && ops.le lonLo c.Lon && ops.le c.Lon lonHi

/-- The queries over a table `cities` that holds the rows `cities`, answered in the order of
the rows. -/
def tableQueries {φ : Type} (ops : FloatOps φ) (cities : List (City φ)) : CityQueries φ :=
  { inBox := fun latLo latHi lonLo lonHi =>
      Except.ok (cities.filter (inBox ops latLo latHi lonLo lonHi))
    all := Except.ok cities }

/-- What `FindNearestCity` returns. -/
structure NearestResult (φ : Type) where
  city : Option (City φ)
  distance : φ
  err : Option GoError

/-- The loop of lines 92–99 over the candidates, with `nearest` and `minDist` so far. -/
def nearestLoop {φ : Type} (ops : FloatOps φ) (lat lon : φ) :
    List (City φ) → Option (City φ) → φ → Option (City φ) × φ
  | [], nearest, minDist => (nearest, minDist)
  | city :: rest, nearest, minDist =>
    if ops.lt (calculateDistance ops lat lon city.Lat city.Lon) minDist = true then
      nearestLoop ops lat lon rest (some city) (calculateDistance ops lat lon city.Lat city.Lon)
    else nearestLoop ops lat lon rest nearest minDist

/-- Method `sqliteCityRepository.FindNearestCity`. -/
def FindNearestCity {φ : Type} (ops : FloatOps φ) (db : CityQueries φ) (lat lon : φ) :
    NearestResult φ :=
  let delta := ops.ofInt 2
  match db.inBox (ops.sub lat delta) (ops.add lat delta) (ops.sub lon delta)
      (ops.add lon delta) with
  | Except.error err => { city := none, distance := ops.ofInt 0, err := some err }
  | Except.ok boxed =>
    match (if boxed.length = 0 then db.all else Except.ok boxed) with
    | Except.error err => { city := none, distance := ops.ofInt 0, err := some err }
    | Except.ok candidates =>
      match nearestLoop ops lat lon candidates none ops.MaxFloat64 with
      | (none, _) => { city := none, distance := ops.ofInt 0, err := none }
      | (some nearest, minDist) => { city := some nearest, distance := minDist, err := none }

/-- The cities of the ±2° box around the query point, in table order. -/
def boxOf {φ : Type} (ops : FloatOps φ) (cities : List (City φ)) (lat lon : φ) :
    List (City φ) :=
  cities.filter (inBox ops (ops.sub lat (ops.ofInt 2)) (ops.add lat (ops.ofInt 2))
    (ops.sub lon (ops.ofInt 2)) (ops.add lon (ops.ofInt 2)))

/-- The candidates of the search: the cities of the box if there is one, and all cities
otherwise. -/
def candidatesOf {φ : Type} (ops : FloatOps φ) (cities : List (City φ)) (lat lon : φ) :
    List (City φ) :=
  if (boxOf ops cities lat lon).length = 0 then cities else boxOf ops cities lat lon

/-- The values `ds` are ordered by `lt` as numbers are, and lie below `top`: `lt` is
asymmetric on them, a value below one that is not below a third is below the third, and
each value is below `top`. This holds for the `<` of float64 on values that are numbers below
`top`; it fails when a value is NaN. -/
def Comparable {φ : Type} (lt : φ → φ → Bool) (top : φ) (ds : List φ) : Prop :=
  (∀ a ∈ ds, lt a top = true) ∧
  (∀ a ∈ ds, ∀ b ∈ ds, lt a b = true → lt b a = false) ∧
  (∀ a ∈ ds, ∀ b ∈ ds, ∀ c ∈ ds, lt a c = true → lt b c = false → lt a b = true)

/-- A city with the given id and coordinates. -/
def cityAt {φ : Type} (id : Int) (lat lon : φ) : City φ :=
  { ID := id, CountryCode := [], NameDefault := [], Population := 0, Lat := lat, Lon := lon,
    Elevation := none, Timezone := none }

/-- Ideal arithmetic: the operations of `FloatOps` read as the operations of the real numbers,
without rounding. `math.MaxFloat64` is (2 - 2^-52) * 2^1023 and `math.Atan2(y, x)` is the
argument of the complex number x + iy. -/
structure IdealArithmetic (ops : FloatOps ℝ) : Prop where
  add : ∀ a b, ops.add a b = a + b
  sub : ∀ a b, ops.sub a b = a - b
  mul : ∀ a b, ops.mul a b = a * b
  div : ∀ a b, ops.div a b = a / b
  lt : ∀ a b, ops.lt a b = true ↔ a < b
  le : ∀ a b, ops.le a b = true ↔ a ≤ b
  ofInt : ∀ n : Int, ops.ofInt n = (n : ℝ)
  MaxFloat64 : ops.MaxFloat64 = (2 - 1 / 2 ^ 52) * 2 ^ 1023
  Pi : ops.Pi = Real.pi
  Sin : ∀ x, ops.Sin x = Real.sin x
  Cos : ∀ x, ops.Cos x = Real.cos x
  Sqrt : ∀ x, ops.Sqrt x = Real.sqrt x
  Atan2 : ∀ y x, ops.Atan2 y x = Complex.arg ⟨x, y⟩

/-- Two cities on the equator: city 1 at longitude 178, city 2 at longitude -180. -/
def antimeridianCities {φ : Type} (ops : FloatOps φ) : List (City φ) :=
  [cityAt 1 (ops.ofInt 0) (ops.ofInt 178), cityAt 2 (ops.ofInt 0) (ops.ofInt (-180))]

/-! ## Lines beyond the token limit of the scanner -/

/-- A line of `n` bytes "x": no tab, no line end. -/
def longLine (n : Nat) : GoString := List.replicate n 120

/-- The bytes of a file whose lines are `ls`, each ended by a line feed. -/
def joinLines : List GoString → GoString
  | [] => []
  | l :: ls => l ++ 10 :: joinLines ls

/-! ## Inputs on which a pass is cut short -/

/-- A country row of France (entity 300), a city row of London (entity 100), and a second
country row of France, in another language. -/
def mixedRows : List GoString :=
  [utf8 "1\t300\tfr\tFrance", utf8 "2\t100\ten\tLondon", utf8 "3\t300\tde\tFrankreich"]

/-! ## float64 with NaN -/

/-- A binary operation of float64 over an operation `f` of the numbers: NaN (`none`) when an
operand is NaN. -/
def nanOp {φ ψ : Type} (f : φ → φ → ψ) (a b : Option φ) : Option ψ :=
  match a, b with
  | some x, some y => some (f x y)
  | _, _ => none

/-- A comparison of float64 over a comparison `f` of the numbers: false when an operand is
NaN. -/
def nanCmp {φ : Type} (f : φ → φ → Bool) (a b : Option φ) : Bool :=
  match a, b with
  | some x, some y => f x y
  | _, _ => false

/-- float64 with its NaN, over an arithmetic `ops` of the numbers: `none` is NaN. An operation
or a function of package `math` with a NaN operand gives NaN, a comparison with a NaN operand
is false, and on numbers the operations are those of `ops`. -/
def withNaN {φ : Type} (ops : FloatOps φ) : FloatOps (Option φ) :=
  { add := nanOp ops.add, sub := nanOp ops.sub, mul := nanOp ops.mul, div := nanOp ops.div,
    lt := nanCmp ops.lt, le := nanCmp ops.le, ofInt := fun n => some (ops.ofInt n),
    MaxFloat64 := some ops.MaxFloat64, Pi := some ops.Pi, Sin := fun a => a.map ops.Sin,
    Cos := fun a => a.map ops.Cos, Sqrt := fun a => a.map ops.Sqrt,
    Atan2 := nanOp ops.Atan2 }

/-- A city whose coordinates are the numbers `lat` and `lon`, in float64 with NaN. -/
def numberCity {φ : Type} (id : Int) (lat lon : φ) : City (Option φ) :=
  cityAt id (some lat) (some lon)

end Seeder

namespace Seeder

/-! ## The row filter -/

theorem getD_eq_of_get? {α : Type} (l : List α) (i : Nat) (d x : α) (h : l[i]? = some x) :
    l.getD i d = x := by
  simp [List.getD, h]

theorem length_gt_of_get? {α : Type} (l : List α) (i : Nat) (x : α) (h : l[i]? = some x) :
    i < l.length := by
  by_contra hlt
  have h0 : l[i]? = none := List.getElem?_eq_none (Nat.le_of_not_lt hlt)
  simp [h0] at h

theorem getElem?_eq_some_iff_getD {α : Type} (l : List α) (i : Nat) (x d : α) :
    l[i]? = some x ↔ (l.length > i ∧ l.getD i d = x) := by
  constructor
  · intro h
    exact ⟨length_gt_of_get? l i x h, getD_eq_of_get? l i d x h⟩
  · rintro ⟨h1, h2⟩
    rw [List.getD_eq_getElem _ _ h1] at h2
    rw [List.getElem?_eq_getElem h1, h2]

theorem take_two_eq (lang : GoString) :
    (if lang.length > 2 then lang.take 2 else lang) = lang.take 2 := by
  split_ifs with h
  · rfl
  · exact (List.take_of_length_le (by omega)).symm

/-- The row filter of lines 292–338 in closed form. -/
theorem parseRow_eq (p : Parser) (line : GoString) :
    parseRow p line =
      if malformedRow line = true ∨ flaggedRow line = true ∨ technicalRow line = true ∨
          (p.allowedLanguages.len > 0 ∧ p.allowedLanguages.test (truncatedLang line) = false)
      then none
      else some { geonameID := (Atoi ((fields line).getD 1 [])).1, lang := truncatedLang line,
                  name := (fields line).getD 3 [], isPreferred := preferredRow line } := by
  unfold parseRow malformedRow flaggedRow technicalRow truncatedLang preferredRow fields
  simp only [take_two_eq, decide_eq_true_eq, getElem?_eq_some_iff_getD _ _ _ ([] : GoString)]
  generalize Split line 9 = parts
  generalize parts.getD 1 [] = f1
  generalize parts.getD 2 [] = f2
  generalize parts.getD 3 [] = f3
  generalize parts.getD 4 [] = f4
  generalize parts.getD 6 [] = f6
  generalize parts.getD 7 [] = f7
  generalize parts.length = n
  generalize (Atoi f1) = a
  split_ifs <;> first | rfl | (exfalso; tauto)

theorem parseRow_malformed (p : Parser) (line : GoString) (h : malformedRow line = true) :
    parseRow p line = none := by
  rw [parseRow_eq, if_pos (Or.inl h)]

theorem parseRow_flagged (p : Parser) (line : GoString) (h : flaggedRow line = true) :
    parseRow p line = none := by
  rw [parseRow_eq, if_pos (Or.inr (Or.inl h))]

theorem parseRow_technical (p : Parser) (line : GoString) (h : technicalRow line = true) :
    parseRow p line = none := by
  rw [parseRow_eq, if_pos (Or.inr (Or.inr (Or.inl h)))]

theorem parseRow_not_allowed (p : Parser) (line : GoString) (h1 : p.allowedLanguages.len > 0)
    (h2 : p.allowedLanguages.test (truncatedLang line) = false) :
    parseRow p line = none := by
  rw [parseRow_eq, if_pos (Or.inr (Or.inr (Or.inr ⟨h1, h2⟩)))]

theorem processRow_of_parseRow_none (p : Parser) (batchSize : Int) (cityIDs : GoMap Int Bool)
    (countryCodes : GoMap GoString Bool) (geonameIDToCountryCode : Option (GoMap Int GoString))
    (cityCallback : Option CityCallback) (countryCallback : Option CountryCallback)
    (st : LoopState) (line : GoString) (h : parseRow p line = none) :
    processRow p batchSize cityIDs countryCodes geonameIDToCountryCode cityCallback
      countryCallback st line = Flow.next st := by
  simp [processRow, h]

theorem scanLoop_filter (p : Parser) (batchSize : Int) (cityIDs : GoMap Int Bool)
    (countryCodes : GoMap GoString Bool) (geonameIDToCountryCode : Option (GoMap Int GoString))
    (cityCallback : Option CityCallback) (countryCallback : Option CountryCallback)
    (keep : GoString → Bool) (hkeep : ∀ l, keep l = false → parseRow p l = none)
    (lines : List GoString) :
    ∀ st : LoopState,
      scanLoop p batchSize cityIDs countryCodes geonameIDToCountryCode cityCallback
        countryCallback st (lines.filter keep)
      = scanLoop p batchSize cityIDs countryCodes geonameIDToCountryCode cityCallback
        countryCallback st lines := by
  induction lines with
  | nil => intro st; rfl
  | cons l rest ih =>
    intro st
    cases hk : keep l with
    | false =>
      rw [List.filter_cons_of_neg (by simp [hk])]
      rw [ih st]
      conv_rhs => unfold scanLoop
      rw [processRow_of_parseRow_none _ _ _ _ _ _ _ _ _ (hkeep l hk)]
    | true =>
      rw [List.filter_cons_of_pos (by simp [hk])]
      unfold scanLoop
      cases processRow p batchSize cityIDs countryCodes geonameIDToCountryCode cityCallback
        countryCallback st l with
      | next st1 => exact ih st1
      | ret c e => rfl
      | outOfRange c => rfl

theorem process_filter (p : Parser) (reader : LineStream) (cityIDs : GoMap Int Bool)
    (countryCodes : GoMap GoString Bool) (geonameIDToCountryCode : Option (GoMap Int GoString))
    (cityCallback : Option CityCallback) (countryCallback : Option CountryCallback)
    (keep : GoString → Bool) (hkeep : ∀ l, keep l = false → parseRow p l = none) :
    processAlternateNamesFromReaderWithCountryMapping p
      { lines := reader.lines.filter keep, err := reader.err } cityIDs countryCodes
      geonameIDToCountryCode cityCallback countryCallback
    = processAlternateNamesFromReaderWithCountryMapping p reader cityIDs countryCodes
      geonameIDToCountryCode cityCallback countryCallback := by
  unfold processAlternateNamesFromReaderWithCountryMapping
  simp only [scanLoop_filter p _ cityIDs countryCodes geonameIDToCountryCode cityCallback
    countryCallback keep hkeep]
  cases scanLoop p (effectiveBatchSize p) cityIDs countryCodes geonameIDToCountryCode
      cityCallback countryCallback initialState reader.lines with
  | next st => rfl
  | ret c e => rfl
  | outOfRange c => rfl

/-! ## Maps and the allow-list -/

theorem GoMap.get?_filter_ne {κ ν : Type} [DecidableEq κ] (m : GoMap κ ν) (k k1 : κ) :
    GoMap.get? (m.filter (fun e => decide (e.1 ≠ k))) k1 = if k1 = k then none else m.get? k1 := by
  induction m with
  | nil => simp [GoMap.get?]
  | cons e m ih =>
    obtain ⟨a, b⟩ := e
    by_cases ha : a = k
    · subst ha
      rw [List.filter_cons_of_neg (by simp), ih]
      by_cases h1 : k1 = a
      · simp [h1]
      · have : ¬ a = k1 := fun h => h1 h.symm
        simp [h1, GoMap.get?, this]
    · rw [List.filter_cons_of_pos (by simp [ha])]
      simp only [GoMap.get?, ih]
      by_cases h2 : a = k1
      · subst h2; simp [ha]
      · simp [h2]

theorem GoMap.get?_set {κ ν : Type} [DecidableEq κ] (m : GoMap κ ν) (k k1 : κ) (v : ν) :
    (m.set k v).get? k1 = if k = k1 then some v else m.get? k1 := by
  unfold GoMap.set
  simp only [GoMap.get?, GoMap.get?_filter_ne]
  by_cases h : k = k1
  · simp [h]
  · have : ¬ k1 = k := fun h1 => h h1.symm
    simp [h, this]

theorem GoMap.len_pos_iff {κ ν : Type} [DecidableEq κ] (m : GoMap κ ν) :
    m.len > 0 ↔ m ≠ [] := by
  unfold GoMap.len
  rw [gt_iff_lt, List.length_pos]
  simp [List.dedup_eq_nil]

theorem allowedLangsOf_test (langs : List GoString) :
    ∀ (m : GoMap GoString Bool) (x : GoString),
      (allowedLangsOf langs m).test x = true ↔ (x ∈ langs ∨ m.test x = true) := by
  induction langs with
  | nil => intro m x; simp [allowedLangsOf]
  | cons l rest ih =>
    intro m x
    rw [allowedLangsOf, ih]
    simp only [GoMap.test, GoMap.get?_set, List.mem_cons]
    by_cases h : l = x
    · simp [h]
    · have : ¬ x = l := fun h1 => h h1.symm
      simp [h, this]

theorem allowedLangsOf_ne_nil (langs : List GoString) :
    ∀ (m : GoMap GoString Bool), (langs ≠ [] ∨ m ≠ []) → allowedLangsOf langs m ≠ [] := by
  induction langs with
  | nil => intro m h; simpa [allowedLangsOf] using h
  | cons l rest ih =>
    intro m _
    rw [allowedLangsOf]
    exact ih _ (Or.inr (by simp [GoMap.set]))

theorem NewParser_allowed_len (dataDir : GoString) (cfg : SeederConfig) :
    (NewParser dataDir cfg).allowedLanguages.len > 0 ↔ cfg.AllowedLanguages ≠ [] := by
  rw [GoMap.len_pos_iff]
  constructor
  · intro h hnil
    apply h
    simp [NewParser, hnil, allowedLangsOf]
  · intro h
    exact allowedLangsOf_ne_nil _ _ (Or.inl h)

theorem NewParser_allowed_test (dataDir : GoString) (cfg : SeederConfig) (x : GoString) :
    (NewParser dataDir cfg).allowedLanguages.test x = true ↔ x ∈ cfg.AllowedLanguages := by
  show (allowedLangsOf cfg.AllowedLanguages []).test x = true ↔ _
  rw [allowedLangsOf_test]
  simp [GoMap.test, GoMap.get?]

/-! ## The scanner on a line beyond its token limit -/

theorem rawLines_line (l : GoString) (hl : (10 : UInt8) ∉ l) (rest : GoString) :
    ∀ cur : List UInt8, rawLines (l ++ 10 :: rest) cur = (cur.reverse ++ l) :: rawLines rest [] := by
  induction l with
  | nil =>
    intro cur
    rw [List.nil_append, rawLines, if_pos rfl, List.append_nil]
  | cons c cs ih =>
    intro cur
    have hc : c ≠ 10 := fun h => hl (h ▸ List.mem_cons_self _ _)
    have hcs : (10 : UInt8) ∉ cs := fun h => hl (List.mem_cons_of_mem _ h)
    rw [List.cons_append, rawLines, if_neg hc, ih hcs, List.reverse_cons, List.append_assoc,
      List.singleton_append]

theorem rawLines_last (l : GoString) (hl : (10 : UInt8) ∉ l) :
    ∀ cur : List UInt8, cur.reverse ++ l ≠ [] → rawLines l cur = [cur.reverse ++ l] := by
  induction l with
  | nil =>
    intro cur h
    rw [List.append_nil] at h
    have hcur : cur ≠ [] := fun e => h (by rw [e]; rfl)
    rw [rawLines, if_neg hcur, List.append_nil]
  | cons c cs ih =>
    intro cur _
    have hc : c ≠ 10 := fun h => hl (h ▸ List.mem_cons_self _ _)
    have hcs : (10 : UInt8) ∉ cs := fun h => hl (List.mem_cons_of_mem _ h)
    rw [rawLines, if_neg hc, ih hcs (c :: cur) (by simp), List.reverse_cons, List.append_assoc,
      List.singleton_append]

theorem newline_not_mem_longLine (n : Nat) : (10 : UInt8) ∉ longLine n := by
  intro h
  have := List.eq_of_mem_replicate h
  exact absurd this (by decide)

theorem tab_not_mem_longLine (n : Nat) : (9 : UInt8) ∉ longLine n := by
  intro h
  have := List.eq_of_mem_replicate h
  exact absurd this (by decide)

theorem length_longLine (n : Nat) : (longLine n).length = n := List.length_replicate _ _

/-- A first line of at least `maxTokenSize` bytes: the scanner hands over no line and
reports `ErrTooLong`. -/
theorem scan_long_first (maxTokenSize n : Nat) (h : maxTokenSize ≤ n) (rest : GoString) :
    scan maxTokenSize (longLine n ++ 10 :: rest) = { lines := [], err := some ErrTooLong } := by
  unfold scan
  dsimp only
  rw [rawLines_line _ (newline_not_mem_longLine n), List.reverse_nil, List.nil_append]
  have hlen : ¬ (longLine n).length < maxTokenSize := by
    rw [length_longLine]
    omega
  rw [List.takeWhile_cons_of_neg (by simpa using hlen)]
  simp

/-- A line below the limit followed by a last line of at least `maxTokenSize` bytes: the
scanner hands over the first line and reports `ErrTooLong`. -/
theorem scan_long_second (maxTokenSize n : Nat) (h : maxTokenSize ≤ n) (hn : 0 < n)
    (l : GoString) (hl : (10 : UInt8) ∉ l) (hlen : l.length < maxTokenSize) :
    scan maxTokenSize (l ++ 10 :: longLine n)
      = { lines := [dropCR l], err := some ErrTooLong } := by
  unfold scan
  dsimp only
  have hne : ([] : List UInt8).reverse ++ longLine n ≠ [] := by
    intro e
    have := congrArg List.length e
    rw [List.reverse_nil, List.nil_append, length_longLine] at this
    simp at this
    omega
  rw [rawLines_line _ hl, rawLines_last _ (newline_not_mem_longLine n) [] hne, List.reverse_nil,
    List.nil_append, List.nil_append]
  have hlong : ¬ (longLine n).length < maxTokenSize := by
    rw [length_longLine]
    omega
  rw [List.takeWhile_cons_of_pos (by simpa using hlen),
    List.takeWhile_cons_of_neg (by simpa using hlong)]
  simp

theorem splitAux_no_sep (sep : UInt8) (l : GoString) (hl : sep ∉ l) :
    ∀ cur : List UInt8, splitAux sep l cur = [cur.reverse ++ l] := by
  induction l with
  | nil =>
    intro cur
    rw [splitAux, List.append_nil]
  | cons c cs ih =>
    intro cur
    have hc : c ≠ sep := fun h => hl (h ▸ List.mem_cons_self _ _)
    have hcs : sep ∉ cs := fun h => hl (List.mem_cons_of_mem _ h)
    rw [splitAux, if_neg hc, ih hcs, List.reverse_cons, List.append_assoc,
      List.singleton_append]

theorem fields_longLine (n : Nat) : fields (longLine n) = [longLine n] := by
  unfold fields Split
  rw [splitAux_no_sep 9 _ (tab_not_mem_longLine n), List.reverse_nil, List.nil_append]

theorem malformedRow_longLine (n : Nat) : malformedRow (longLine n) = true := by
  unfold malformedRow
  rw [fields_longLine]
  simp

theorem rawLines_joinLines (ls : List GoString) (hls : ∀ l ∈ ls, (10 : UInt8) ∉ l) :
    rawLines (joinLines ls) [] = ls := by
  induction ls with
  | nil => rfl
  | cons l rest ih =>
    rw [joinLines, rawLines_line l (hls l (List.mem_cons_self _ _)), List.reverse_nil,
      List.nil_append, ih (fun x hx => hls x (List.mem_cons_of_mem _ hx))]

theorem scan_joinLines (maxTokenSize : Nat) (ls : List GoString)
    (hls : ∀ l ∈ ls, (10 : UInt8) ∉ l) :
    scan maxTokenSize (joinLines ls)
      = { lines := (ls.takeWhile (fun t => decide (t.length < maxTokenSize))).map dropCR
          err := if (ls.takeWhile (fun t => decide (t.length < maxTokenSize))).length
              < ls.length then some ErrTooLong else none } := by
  unfold scan
  rw [rawLines_joinLines ls hls]

theorem takeWhile_filter_of_short {α : Type} (keep short : α → Bool) (ls : List α)
    (h : ∀ l ∈ ls, keep l = false → short l = true) :
    (ls.filter keep).takeWhile short = (ls.takeWhile short).filter keep ∧
    (((ls.filter keep).takeWhile short).length < (ls.filter keep).length ↔
      (ls.takeWhile short).length < ls.length) := by
  induction ls with
  | nil => exact ⟨rfl, Iff.rfl⟩
  | cons x xs ih =>
    have ih1 := ih (fun l hl => h l (List.mem_cons_of_mem _ hl))
    cases hk : keep x with
    | false =>
      have hs : short x = true := h x (List.mem_cons_self _ _) hk
      rw [List.filter_cons_of_neg (by rw [hk]; exact Bool.false_ne_true),
        List.takeWhile_cons_of_pos hs,
        List.filter_cons_of_neg (by rw [hk]; exact Bool.false_ne_true)]
      refine ⟨ih1.1, ?_⟩
      rw [ih1.2, List.length_cons, List.length_cons]
      omega
    | true =>
      rw [List.filter_cons_of_pos hk]
      cases hs : short x with
      | false =>
        rw [List.takeWhile_cons_of_neg (by rw [hs]; exact Bool.false_ne_true),
          List.takeWhile_cons_of_neg (by rw [hs]; exact Bool.false_ne_true)]
        refine ⟨rfl, ?_⟩
        simp
      | true =>
        rw [List.takeWhile_cons_of_pos hs, List.takeWhile_cons_of_pos hs,
          List.filter_cons_of_pos hk]
        refine ⟨by rw [ih1.1], ?_⟩
        rw [List.length_cons, List.length_cons, List.length_cons, List.length_cons]
        have := ih1.2
        omega

/-- Removing from a file lines that are below the token limit removes them from what the
scanner hands over and leaves its error as it is. -/
theorem scan_joinLines_filter (maxTokenSize : Nat) (ls : List GoString)
    (hls : ∀ l ∈ ls, (10 : UInt8) ∉ l) (drop : GoString → Bool)
    (hshort : ∀ l ∈ ls, drop (dropCR l) = true → l.length < maxTokenSize) :
    scan maxTokenSize (joinLines (ls.filter (fun l => !drop (dropCR l))))
      = { lines := (scan maxTokenSize (joinLines ls)).lines.filter (fun t => !drop t)
          err := (scan maxTokenSize (joinLines ls)).err } := by
  have hsub : ∀ l ∈ ls.filter (fun l => !drop (dropCR l)), (10 : UInt8) ∉ l :=
    fun l hl => hls l (List.mem_filter.mp hl).1
  rw [scan_joinLines maxTokenSize _ hsub, scan_joinLines maxTokenSize ls hls]
  obtain ⟨h1, h2⟩ := takeWhile_filter_of_short (fun l => !drop (dropCR l))
    (fun t => decide (t.length < maxTokenSize)) ls
    (by
      intro l hl hk
      have : drop (dropCR l) = true := by simpa using hk
      simpa using hshort l hl this)
  have hlines : ((ls.filter (fun l => !drop (dropCR l))).takeWhile
      (fun t => decide (t.length < maxTokenSize))).map dropCR
      = ((ls.takeWhile (fun t => decide (t.length < maxTokenSize))).map dropCR).filter
          (fun t => !drop t) := by
    rw [h1, List.filter_map]
    rfl
  have herr : (if ((ls.filter (fun l => !drop (dropCR l))).takeWhile
        (fun t => decide (t.length < maxTokenSize))).length
        < (ls.filter (fun l => !drop (dropCR l))).length then some ErrTooLong else none)
      = (if (ls.takeWhile (fun t => decide (t.length < maxTokenSize))).length < ls.length
          then some ErrTooLong else none) := by
    by_cases hc : (ls.takeWhile (fun t => decide (t.length < maxTokenSize))).length < ls.length
    · rw [if_pos hc, if_pos (h2.mpr hc)]
    · rw [if_neg hc, if_neg (fun h => hc (h2.mp h))]
  rw [hlines, herr]

/-! ## Claims on skipped rows -/

/-- Claim C6, amended: a malformed alternate-name row that the scanner hands over (fewer than
4 fields, field 1 not an integer, empty language or empty name) leaves both batches, both
dedup tables and the sinks untouched, and the pass returns the same result and makes the
same sink deliveries as on the rows handed over without the malformed ones; for a file
whose malformed rows are all below the token limit of 1 MiB, the pass on the file equals
the pass on the file with the malformed rows removed; so such rows never cause an error. -/
theorem malformed_rows_are_skipped (p : Parser) (reader : LineStream) (cityIDs : GoMap Int Bool)
    (countryCodes : GoMap GoString Bool) (geonameIDToCountryCode : Option (GoMap Int GoString))
    (cityCallback : Option CityCallback) (countryCallback : Option CountryCallback) :
    (∀ (st : LoopState) (line : GoString), malformedRow line = true →
      processRow p (effectiveBatchSize p) cityIDs countryCodes geonameIDToCountryCode
        cityCallback countryCallback st line = Flow.next st) ∧
    processAlternateNamesFromReaderWithCountryMapping p reader cityIDs countryCodes
        geonameIDToCountryCode cityCallback countryCallback
      = processAlternateNamesFromReaderWithCountryMapping p
        { lines := reader.lines.filter (fun l => !malformedRow l), err := reader.err }
        cityIDs countryCodes geonameIDToCountryCode cityCallback countryCallback ∧
    (∀ ls : List GoString, (∀ l ∈ ls, (10 : UInt8) ∉ l) →
      (∀ l ∈ ls, malformedRow (dropCR l) = true → l.length < 1024 * 1024) →
      processAlternateNamesFromReaderWithCountryMapping p (scan (1024 * 1024) (joinLines ls))
          cityIDs countryCodes geonameIDToCountryCode cityCallback countryCallback
        = processAlternateNamesFromReaderWithCountryMapping p
          (scan (1024 * 1024) (joinLines (ls.filter (fun l => !malformedRow (dropCR l)))))
          cityIDs countryCodes geonameIDToCountryCode cityCallback countryCallback) := by
  have hfilter : ∀ reader : LineStream,
      processAlternateNamesFromReaderWithCountryMapping p reader cityIDs countryCodes
        geonameIDToCountryCode cityCallback countryCallback
      = processAlternateNamesFromReaderWithCountryMapping p
        { lines := reader.lines.filter (fun l => !malformedRow l), err := reader.err }
        cityIDs countryCodes geonameIDToCountryCode cityCallback countryCallback :=
    fun reader => (process_filter p reader cityIDs countryCodes geonameIDToCountryCode
      cityCallback countryCallback (fun l => !malformedRow l)
      (fun l hl => parseRow_malformed p l (by simpa using hl))).symm
  refine ⟨fun st line h => processRow_of_parseRow_none _ _ _ _ _ _ _ _ _
    (parseRow_malformed p line h), hfilter reader, ?_⟩
  intro ls hls hshort
  rw [scan_joinLines_filter (1024 * 1024) ls hls malformedRow hshort]
  exact hfilter _

/-- Witness of C6: a row with three fields is skipped at the initial state, and the pass on
the file made of that row and the London row equals the pass on the file with the London row
alone. -/
theorem malformed_rows_are_skipped_witness :
    malformedRow (utf8 "1\t100\ten") = true ∧
    processRow (testParser []) (effectiveBatchSize (testParser [])) testCityIDs [] none
      (some collectCity) none initialState (utf8 "1\t100\ten") = Flow.next initialState ∧
    [utf8 "1\t100\ten", utf8 "2\t100\ten\tLondon"].filter (fun l => !malformedRow (dropCR l))
      = [utf8 "2\t100\ten\tLondon"] ∧
    processAlternateNamesFromReaderWithCountryMapping (testParser [])
        (scan (1024 * 1024) (joinLines [utf8 "1\t100\ten", utf8 "2\t100\ten\tLondon"]))
        testCityIDs [] none (some collectCity) none
      = processAlternateNamesFromReaderWithCountryMapping (testParser [])
        (scan (1024 * 1024) (joinLines ([utf8 "1\t100\ten", utf8 "2\t100\ten\tLondon"].filter
          (fun l => !malformedRow (dropCR l)))))
        testCityIDs [] none (some collectCity) none :=
  ⟨by decide,
   (malformed_rows_are_skipped (testParser []) { lines := [], err := none } testCityIDs []
      none (some collectCity) none).1 initialState (utf8 "1\t100\ten") (by decide),
   by decide,
   (malformed_rows_are_skipped (testParser []) { lines := [], err := none } testCityIDs []
      none (some collectCity) none).2.2 [utf8 "1\t100\ten", utf8 "2\t100\ten\tLondon"]
      (by decide) (by decide)⟩

/-- Claim C7: a row whose colloquial flag (field 6) or historic flag (field 7) is "1" is
excluded from both sinks whatever its other fields, the allow-list and the index maps are:
processing it changes nothing, and the pass behaves as on the input without such rows. -/
theorem flagged_rows_are_excluded (p : Parser) (reader : LineStream) (cityIDs : GoMap Int Bool)
    (countryCodes : GoMap GoString Bool) (geonameIDToCountryCode : Option (GoMap Int GoString))
    (cityCallback : Option CityCallback) (countryCallback : Option CountryCallback) :
    (∀ (st : LoopState) (line : GoString), flaggedRow line = true →
      processRow p (effectiveBatchSize p) cityIDs countryCodes geonameIDToCountryCode
        cityCallback countryCallback st line = Flow.next st) ∧
    processAlternateNamesFromReaderWithCountryMapping p reader cityIDs countryCodes
        geonameIDToCountryCode cityCallback countryCallback
      = processAlternateNamesFromReaderWithCountryMapping p
        { lines := reader.lines.filter (fun l => !flaggedRow l), err := reader.err }
        cityIDs countryCodes geonameIDToCountryCode cityCallback countryCallback := by
  refine ⟨fun st line h => processRow_of_parseRow_none _ _ _ _ _ _ _ _ _
    (parseRow_flagged p line h), ?_⟩
  exact (process_filter p reader cityIDs countryCodes geonameIDToCountryCode cityCallback
    countryCallback (fun l => !flaggedRow l)
    (fun l hl => parseRow_flagged p l (by simpa using hl))).symm

/-- Witness of C7: the colloquial row of the test is skipped. -/
theorem flagged_rows_are_excluded_witness :
    flaggedRow (utf8 "4\t100\ten\tLondres\t0\t0\t1\t0") = true ∧
    processRow (testParser []) (effectiveBatchSize (testParser [])) testCityIDs [] none
      (some collectCity) none initialState (utf8 "4\t100\ten\tLondres\t0\t0\t1\t0")
      = Flow.next initialState :=
  ⟨by decide,
   (flagged_rows_are_excluded (testParser []) { lines := [], err := none } testCityIDs []
      none (some collectCity) none).1 initialState _ (by decide)⟩

/-- Claim C8: a row whose raw language code (field 2, before truncation) is one of the
technical tags link, post, iata, icao, faac, fr_1793, abbr, wkdt is excluded from both sinks;
and this step rejects nothing else: a row that is neither malformed nor flagged, whose raw
code is not a tag and whose truncated code passes the allow-list, is accepted. -/
theorem technical_codes_are_excluded (p : Parser) (cityIDs : GoMap Int Bool)
    (countryCodes : GoMap GoString Bool) (geonameIDToCountryCode : Option (GoMap Int GoString))
    (cityCallback : Option CityCallback) (countryCallback : Option CountryCallback)
    (line : GoString) :
    technicalCodes = [utf8 "link", utf8 "post", utf8 "iata", utf8 "icao", utf8 "faac",
      utf8 "fr_1793", utf8 "abbr", utf8 "wkdt"] ∧
    ((fields line).getD 2 [] ∈ technicalCodes → ∀ st : LoopState,
      processRow p (effectiveBatchSize p) cityIDs countryCodes geonameIDToCountryCode
        cityCallback countryCallback st line = Flow.next st) ∧
    (malformedRow line = false → flaggedRow line = false →
      (p.allowedLanguages.len > 0 → p.allowedLanguages.test (truncatedLang line) = true) →
      (parseRow p line = none ↔ (fields line).getD 2 [] ∈ technicalCodes)) := by
  refine ⟨rfl, ?_, ?_⟩
  · intro h st
    exact processRow_of_parseRow_none _ _ _ _ _ _ _ _ _
      (parseRow_technical p line (by simpa [technicalRow] using h))
  · intro hm hf ha
    rw [parseRow_eq]
    have ha2 : ¬ (p.allowedLanguages.len > 0 ∧
        p.allowedLanguages.test (truncatedLang line) = false) := by
      rintro ⟨h1, h2⟩
      rw [ha h1] at h2
      exact Bool.noConfusion h2
    by_cases ht : (fields line).getD 2 [] ∈ technicalCodes
    · have h3 : technicalRow line = true := by
        unfold technicalRow
        exact decide_eq_true ht
      rw [if_pos (Or.inr (Or.inr (Or.inl h3)))]
      exact iff_of_true rfl ht
    · have h3 : technicalRow line = false := by
        unfold technicalRow
        exact decide_eq_false ht
      rw [if_neg (by simp [hm, hf, h3, ha2])]
      exact iff_of_false (fun h => Option.noConfusion h) ht

/-- Witness of C8: "link" is rejected, and "linked", which only truncates like it, is not. -/
theorem technical_codes_are_excluded_witness :
    processRow (testParser []) (effectiveBatchSize (testParser [])) testCityIDs [] none
      (some collectCity) none initialState (utf8 "3\t100\tlink\turl") = Flow.next initialState ∧
    (parseRow (testParser []) (utf8 "3\t100\tlinked\turl") = none ↔
      (fields (utf8 "3\t100\tlinked\turl")).getD 2 [] ∈ technicalCodes) :=
  ⟨(technical_codes_are_excluded (testParser []) testCityIDs [] none (some collectCity) none
      (utf8 "3\t100\tlink\turl")).2.1 (by decide) initialState,
   (technical_codes_are_excluded (testParser []) testCityIDs [] none (some collectCity) none
      (utf8 "3\t100\tlinked\turl")).2.2 (by decide) (by decide) (by decide)⟩

/-- Claim C4: for a parser built by `NewParser` with a non-empty `AllowedLanguages`, a row
whose language truncated to 2 bytes is not in the list is excluded from both sinks; with an
empty list a row is rejected only for being malformed, flagged or technical, never for its
language; and the test input with allow-list {en, ru} and batch size 10 yields exactly the
3 city records London (en), Лондон (ru), Paris (en), none with language "fr". -/
theorem language_allow_list (dataDir : GoString) (cfg : SeederConfig) (line : GoString) :
    (cfg.AllowedLanguages ≠ [] → truncatedLang line ∉ cfg.AllowedLanguages →
      ∀ (cityIDs : GoMap Int Bool) (countryCodes : GoMap GoString Bool)
        (geonameIDToCountryCode : Option (GoMap Int GoString))
        (cityCallback : Option CityCallback) (countryCallback : Option CountryCallback)
        (st : LoopState),
        processRow (NewParser dataDir cfg) (effectiveBatchSize (NewParser dataDir cfg)) cityIDs
          countryCodes geonameIDToCountryCode cityCallback countryCallback st line
          = Flow.next st) ∧
    (cfg.AllowedLanguages = [] →
      (parseRow (NewParser dataDir cfg) line = none ↔
        (malformedRow line = true ∨ flaggedRow line = true ∨ technicalRow line = true))) ∧
    processAlternateNamesFromReaderWithCountryMapping (testParser [utf8 "en", utf8 "ru"])
        (scan (1024 * 1024) testInput) testCityIDs [] none (some collectCity) none
      = { calls := [SinkCall.city [⟨100, utf8 "en", utf8 "London"⟩,
            ⟨100, utf8 "ru", utf8 "Лондон"⟩, ⟨200, utf8 "en", utf8 "Paris"⟩]],
          ending := Ending.ok } := by
  refine ⟨?_, ?_, by decide⟩
  · intro hne hnot cityIDs countryCodes g2c ccb kcb st
    apply processRow_of_parseRow_none
    apply parseRow_not_allowed
    · exact (NewParser_allowed_len dataDir cfg).mpr hne
    · have h := (NewParser_allowed_test dataDir cfg (truncatedLang line)).not.mpr hnot
      simpa using h
  · intro hnil
    rw [parseRow_eq]
    have hlen : ¬ (NewParser dataDir cfg).allowedLanguages.len > 0 := by
      rw [NewParser_allowed_len]
      simp [hnil]
    by_cases h : malformedRow line = true ∨ flaggedRow line = true ∨ technicalRow line = true
    · have h2 : malformedRow line = true ∨ flaggedRow line = true ∨ technicalRow line = true ∨
          ((NewParser dataDir cfg).allowedLanguages.len > 0 ∧
            (NewParser dataDir cfg).allowedLanguages.test (truncatedLang line) = false) := by
        tauto
      simp only [if_pos h2, h]
    · have h2 : ¬ (malformedRow line = true ∨ flaggedRow line = true ∨
          technicalRow line = true ∨
          ((NewParser dataDir cfg).allowedLanguages.len > 0 ∧
            (NewParser dataDir cfg).allowedLanguages.test (truncatedLang line) = false)) := by
        tauto
      simp only [if_neg h2, h]
      simp

/-- Witness of C4: with allow-list {en, ru} the French row of the test is skipped, and with
an empty list it is accepted. -/
theorem language_allow_list_witness :
    processRow (testParser [utf8 "en", utf8 "ru"])
      (effectiveBatchSize (testParser [utf8 "en", utf8 "ru"])) testCityIDs [] none
      (some collectCity) none initialState (utf8 "6\t100\tfr\tLondres\t0\t0\t0\t0")
      = Flow.next initialState ∧
    (parseRow (testParser []) (utf8 "6\t100\tfr\tLondres\t0\t0\t0\t0") = none ↔
      (malformedRow (utf8 "6\t100\tfr\tLondres\t0\t0\t0\t0") = true ∨
       flaggedRow (utf8 "6\t100\tfr\tLondres\t0\t0\t0\t0") = true ∨
       technicalRow (utf8 "6\t100\tfr\tLondres\t0\t0\t0\t0") = true)) :=
  ⟨(language_allow_list [] ⟨10, 0, [utf8 "en", utf8 "ru"]⟩
      (utf8 "6\t100\tfr\tLondres\t0\t0\t0\t0")).1 (by decide) (by decide) testCityIDs [] none
      (some collectCity) none initialState,
   (language_allow_list [] ⟨10, 0, []⟩
      (utf8 "6\t100\tfr\tLondres\t0\t0\t0\t0")).2.1 rfl⟩

/-- Counterexample to C5: on the seven rows of the scenario the city sink receives 3
records, not 4. -/
theorem scenario_does_not_deliver_four :
    ¬ ((cityBatches (processAlternateNamesFromReaderWithCountryMapping (testParser [])
        { lines := scenarioRows, err := none } testCityIDs [] none (some collectCity)
        none).calls).flatten.length = 4) := by
  decide

/-- Claim C5, amended: on the seven rows of the scenario, with city ids {100, 200}, no
allow-list and batch size 10, the pass succeeds and delivers to the city sink one batch of
exactly 3 records, (100,en,London), (100,ru,Лондон), (200,en,Paris); rows 3, 4 and 5 are
rejected by the row filter, and row 8 passes the filter but is dropped by dedup. -/
theorem scenario_delivers_three :
    processAlternateNamesFromReaderWithCountryMapping (testParser [])
        { lines := scenarioRows, err := none } testCityIDs [] none (some collectCity) none
      = { calls := [SinkCall.city [⟨100, utf8 "en", utf8 "London"⟩,
            ⟨100, utf8 "ru", utf8 "Лондон"⟩, ⟨200, utf8 "en", utf8 "Paris"⟩]],
          ending := Ending.ok } ∧
    parseRow (testParser []) (scenarioRows.getD 2 []) = none ∧
    parseRow (testParser []) (scenarioRows.getD 3 []) = none ∧
    parseRow (testParser []) (scenarioRows.getD 4 []) = none ∧
    parseRow (testParser []) (scenarioRows.getD 6 [])
      = some { geonameID := 200, lang := utf8 "en", name := utf8 "Parigi",
               isPreferred := false } := by
  decide

/-- Counterexample to C9: a row with the one-byte language code "e" is accepted and its
record is delivered with that code, which is not a 2-letter code. -/
theorem emitted_language_not_always_two_letters :
    cityBatches (processAlternateNamesFromReaderWithCountryMapping (testParser [])
        { lines := [utf8 "1\t100\te\tLondon"], err := none } testCityIDs [] none
        (some collectCity) none).calls
      = [[⟨100, utf8 "e", utf8 "London"⟩]] ∧
    ¬ (∀ c ∈ (cityBatches (processAlternateNamesFromReaderWithCountryMapping (testParser [])
        { lines := [utf8 "1\t100\te\tLondon"], err := none } testCityIDs [] none
        (some collectCity) none).calls).flatten, c.Lang.length = 2) := by
  decide

/-! ## The dedup table -/

theorem keyIndex_eq_none_iff (ks : List GoString) (k : GoString) :
    keyIndex ks k = none ↔ k ∉ ks := by
  induction ks with
  | nil => simp [keyIndex]
  | cons x xs ih =>
    by_cases h : x = k
    · simp [keyIndex, h]
    · have h1 : ¬ k = x := fun e => h e.symm
      simp [keyIndex, h, h1, ih]

theorem keyIndex_lt (ks : List GoString) (k : GoString) :
    ∀ i, keyIndex ks k = some i → i < ks.length := by
  induction ks with
  | nil => intro i h; simp [keyIndex] at h
  | cons x xs ih =>
    intro i h
    by_cases hx : x = k
    · simp [keyIndex, hx] at h
      subst h
      simp
    · simp only [keyIndex, hx, if_false, Option.map_eq_some'] at h
      obtain ⟨j, hj, rfl⟩ := h
      have := ih j hj
      simp
      omega

theorem keyIndex_append_of_not_mem (ks : List GoString) (k k1 : GoString) (h : k ∉ ks) :
    keyIndex (ks ++ [k]) k1 = if k = k1 then some ks.length else keyIndex ks k1 := by
  induction ks with
  | nil => simp [keyIndex]
  | cons x xs ih =>
    have hx : ¬ x = k := fun e => h (by simp [e])
    have hxs : k ∉ xs := fun e => h (by simp [e])
    by_cases h1 : x = k1
    · have : ¬ k = k1 := fun e => hx (h1.trans e.symm)
      simp [keyIndex, h1, this]
    · show keyIndex (x :: (xs ++ [k])) k1 = _
      have e1 : keyIndex (x :: (xs ++ [k])) k1
          = (keyIndex (xs ++ [k]) k1).map (fun i => i + 1) := by
        simp [keyIndex, h1]
      have e2 : keyIndex (x :: xs) k1 = (keyIndex xs k1).map (fun i => i + 1) := by
        simp [keyIndex, h1]
      rw [e1, e2, ih hxs]
      by_cases h2 : k = k1
      · simp [h2]
      · simp [h2]

theorem modifyAt_eq_map {ρ : Type} (keyOf : ρ → GoString) (f : ρ → ρ) (k : GoString) :
    ∀ (batch : List ρ) (i : Nat), (batch.map keyOf).Nodup →
      keyIndex (batch.map keyOf) k = some i →
      modifyAt f i batch = batch.map (fun x => if keyOf x = k then f x else x) := by
  intro batch
  induction batch with
  | nil => intro i _ h; simp [keyIndex] at h
  | cons a l ih =>
    intro i hnd h
    rw [List.map_cons, List.nodup_cons] at hnd
    by_cases ha : keyOf a = k
    · simp only [List.map_cons, keyIndex, ha, if_true, Option.some.injEq] at h
      subst h
      simp only [modifyAt, List.map_cons, ha, if_true, List.cons.injEq, true_and]
      have hk : k ∉ l.map keyOf := ha ▸ hnd.1
      symm
      calc l.map (fun x => if keyOf x = k then f x else x)
          = l.map (fun x => x) := by
            apply List.map_congr_left
            intro x hx
            have : ¬ keyOf x = k := fun e => hk (e ▸ List.mem_map_of_mem keyOf hx)
            simp [this]
        _ = l := by simp
    · simp only [List.map_cons, keyIndex, ha, if_false, Option.map_eq_some'] at h
      obtain ⟨j, hj, rfl⟩ := h
      simp only [modifyAt, List.map_cons, ha, if_false, List.cons.injEq, true_and]
      exact ih j hnd.2 hj

theorem map_keyOf_rename {ρ : Type} (keyOf : ρ → GoString) (f : ρ → ρ) (k : GoString)
    (hf : ∀ x, keyOf (f x) = keyOf x) (batch : List ρ) :
    (batch.map (fun x => if keyOf x = k then f x else x)).map keyOf = batch.map keyOf := by
  rw [List.map_map]
  apply List.map_congr_left
  intro x _
  by_cases h : keyOf x = k
  · simp [h, hf]
  · simp [h]

theorem putBatch_keys {ρ : Type} (keyOf : ρ → GoString) (rename : ρ → ρ) (rec : ρ)
    (isPreferred : Bool) (batch : List ρ) (hren : ∀ x, keyOf (rename x) = keyOf x) :
    (putBatch keyOf rename rec isPreferred batch).map keyOf =
      if keyOf rec ∈ batch.map keyOf then batch.map keyOf
      else batch.map keyOf ++ [keyOf rec] := by
  unfold putBatch
  by_cases h : keyOf rec ∈ batch.map keyOf
  · rw [if_pos h, if_pos h]
    cases isPreferred with
    | true => simpa using map_keyOf_rename keyOf rename (keyOf rec) hren batch
    | false => simp
  · rw [if_neg h, if_neg h]
    simp

theorem putBatch_length_of_mem {ρ : Type} (keyOf : ρ → GoString) (rename : ρ → ρ) (rec : ρ)
    (isPreferred : Bool) (batch : List ρ) (h : keyOf rec ∈ batch.map keyOf) :
    (putBatch keyOf rename rec isPreferred batch).length = batch.length := by
  unfold putBatch
  rw [if_pos h]
  cases isPreferred <;> simp

theorem putBatch_of_not_mem {ρ : Type} (keyOf : ρ → GoString) (rename : ρ → ρ) (rec : ρ)
    (isPreferred : Bool) (batch : List ρ) (h : keyOf rec ∉ batch.map keyOf) :
    putBatch keyOf rename rec isPreferred batch = batch ++ [rec] := by
  unfold putBatch
  rw [if_neg h]

theorem TableOk_nil {ρ : Type} (keyOf : ρ → GoString) : TableOk keyOf [] [] := by
  refine ⟨by simp, ?_⟩
  intro k
  simp [GoMap.get?, keyIndex]

/-- Under the table invariant `upsert` never fails, computes `putBatch`, and keeps the
invariant. -/
theorem upsert_eq {ρ : Type} (keyOf : ρ → GoString) (rename : ρ → ρ) (key : GoString) (rec : ρ)
    (isPreferred : Bool) (batch : List ρ) (transMap : GoMap GoString Nat)
    (hok : TableOk keyOf batch transMap) (hkey : keyOf rec = key)
    (hren : ∀ x, keyOf (rename x) = keyOf x) :
    ∃ transMap1, upsert rename key rec isPreferred batch transMap
        = some (putBatch keyOf rename rec isPreferred batch, transMap1) ∧
      TableOk keyOf (putBatch keyOf rename rec isPreferred batch) transMap1 := by
  obtain ⟨hnd, htab⟩ := hok
  subst hkey
  unfold upsert
  rw [htab]
  cases hidx : keyIndex (batch.map keyOf) (keyOf rec) with
  | none =>
    have hnot : keyOf rec ∉ batch.map keyOf := (keyIndex_eq_none_iff _ _).mp hidx
    refine ⟨_, by rw [putBatch_of_not_mem _ _ _ _ _ hnot], ?_⟩
    rw [putBatch_of_not_mem _ _ _ _ _ hnot]
    constructor
    · rw [List.map_append, List.map_singleton]
      exact List.Nodup.append hnd (by simp) (by simpa using hnot)
    · intro k
      rw [GoMap.get?_set, htab, List.map_append, List.map_singleton,
        keyIndex_append_of_not_mem _ _ _ hnot]
      simp
  | some idx =>
    have hmem : keyOf rec ∈ batch.map keyOf := by
      by_contra hnot
      rw [(keyIndex_eq_none_iff _ _).mpr hnot] at hidx
      exact Option.noConfusion hidx
    have hlt : idx < batch.length := by
      have := keyIndex_lt _ _ _ hidx
      simpa using this
    have hkeys := putBatch_keys keyOf rename rec isPreferred batch hren
    rw [if_pos hmem] at hkeys
    refine ⟨transMap, ?_, ?_⟩
    · cases isPreferred with
      | true =>
        simp only [if_true, hlt]
        rw [modifyAt_eq_map keyOf rename (keyOf rec) batch idx hnd hidx]
        simp [putBatch, hmem]
      | false =>
        simp [putBatch, hmem]
    · exact ⟨by rw [hkeys]; exact hnd, by intro k; rw [hkeys]; exact htab k⟩

/-! ## The loop keeps in step with the sink views -/

theorem cityBatches_append (a b : List SinkCall) :
    cityBatches (a ++ b) = cityBatches a ++ cityBatches b := by
  induction a with
  | nil => rfl
  | cons c rest ih => cases c <;> simp [cityBatches, ih]

theorem countryBatches_append (a b : List SinkCall) :
    countryBatches (a ++ b) = countryBatches a ++ countryBatches b := by
  induction a with
  | nil => rfl
  | cons c rest ih => cases c <;> simp [countryBatches, ih]

theorem SinkView.put_eq {ρ : Type} (keyOf : ρ → GoString) (merge : ρ → ρ → ρ) (batchSize : Int)
    (deliver : Bool) (v : SinkView ρ) (rec : ρ) (isPreferred : Bool) :
    SinkView.put keyOf merge batchSize deliver v (rec, isPreferred) =
      if ((putBatch keyOf (fun x => merge x rec) rec isPreferred v.batch).length : Int)
          ≥ batchSize then
        { batch := [],
          sent := if deliver then
            v.sent ++ [putBatch keyOf (fun x => merge x rec) rec isPreferred v.batch]
          else v.sent }
      else { batch := putBatch keyOf (fun x => merge x rec) rec isPreferred v.batch,
             sent := v.sent } := rfl

theorem cityStep_sim (batchSize : Int) (cityCallback : Option CityCallback) (r : AltName)
    (st : LoopState) (cv : SinkView CityTranslation) (kv : SinkView CountryTranslation)
    (h : InStep st cv kv) :
    (∀ calls, cityStep batchSize cityCallback r st ≠ Flow.outOfRange calls) ∧
    (∀ st1, cityStep batchSize cityCallback r st = Flow.next st1 →
      InStep st1 (cv.put cityKeyOf cityMerge batchSize cityCallback.isSome
        ({ CityID := r.geonameID, Lang := r.lang, Name := r.name }, r.isPreferred)) kv) := by
  obtain ⟨h1, h2, h3, h4, h5, h6⟩ := h
  obtain ⟨tm, he, hok⟩ := upsert_eq cityKeyOf
    (fun x => cityMerge x { CityID := r.geonameID, Lang := r.lang, Name := r.name })
    (cityKey r.geonameID r.lang) { CityID := r.geonameID, Lang := r.lang, Name := r.name }
    r.isPreferred st.cityBatch st.cityTransMap h3 rfl (fun _ => rfl)
  rw [SinkView.put_eq, ← h1]
  generalize putBatch cityKeyOf
    (fun x => cityMerge x { CityID := r.geonameID, Lang := r.lang, Name := r.name })
    { CityID := r.geonameID, Lang := r.lang, Name := r.name } r.isPreferred st.cityBatch
    = b at he hok ⊢
  have hstep : cityStep batchSize cityCallback r st =
      if (b.length : Int) ≥ batchSize then
        match cityCallback with
        | some cb =>
          match cb st.calls b with
          | some err =>
            Flow.ret (st.calls ++ [SinkCall.city b]) (GoError.wrapped "city callback error" err)
          | none =>
            Flow.next { st with cityBatch := [], cityTransMap := [],
                                calls := st.calls ++ [SinkCall.city b] }
        | none => Flow.next { st with cityBatch := [], cityTransMap := [] }
      else Flow.next { st with cityBatch := b, cityTransMap := tm } := by
    unfold cityStep
    exact (congrArg (fun o => match o with
      | none => Flow.outOfRange st.calls
      | some (batch, transMap) =>
        if (batch.length : Int) ≥ batchSize then
          match cityCallback with
          | some cb =>
            match cb st.calls batch with
            | some err =>
              Flow.ret (st.calls ++ [SinkCall.city batch])
                (GoError.wrapped "city callback error" err)
            | none =>
              Flow.next { st with cityBatch := [], cityTransMap := [],
                                  calls := st.calls ++ [SinkCall.city batch] }
          | none => Flow.next { st with cityBatch := [], cityTransMap := [] }
        else Flow.next { st with cityBatch := batch, cityTransMap := transMap }) he)
  rw [hstep]
  by_cases hB : (b.length : Int) ≥ batchSize
  · rw [if_pos hB, if_pos hB]
    cases cityCallback with
    | none =>
      refine ⟨fun calls hc => Flow.noConfusion hc, ?_⟩
      intro st1 hst
      injection hst with hst
      subst hst
      exact ⟨rfl, by simpa using h2, TableOk_nil _, h4, h5, h6⟩
    | some cb =>
      dsimp only
      cases hcb : cb st.calls b with
      | some err =>
        exact ⟨fun calls hc => Flow.noConfusion hc, fun st1 hst => Flow.noConfusion hst⟩
      | none =>
        refine ⟨fun calls hc => Flow.noConfusion hc, ?_⟩
        intro st1 hst
        injection hst with hst
        subst hst
        refine ⟨rfl, ?_, TableOk_nil _, h4, ?_, h6⟩
        · simp [cityBatches_append, cityBatches, h2]
        · simp [countryBatches_append, countryBatches, h5]
  · rw [if_neg hB, if_neg hB]
    refine ⟨fun calls hc => Flow.noConfusion hc, ?_⟩
    intro st1 hst
    injection hst with hst
    subst hst
    exact ⟨rfl, h2, hok, h4, h5, h6⟩

theorem countryStep_sim (batchSize : Int) (cb : CountryCallback) (countryCode : GoString)
    (r : AltName) (st : LoopState) (cv : SinkView CityTranslation)
    (kv : SinkView CountryTranslation) (h : InStep st cv kv) :
    (∀ calls, countryStep batchSize cb countryCode r st ≠ Flow.outOfRange calls) ∧
    (∀ st1, countryStep batchSize cb countryCode r st = Flow.next st1 →
      InStep st1 cv (kv.put countryKeyOf countryMerge batchSize true
        ({ CountryCode := countryCode, Lang := r.lang, Name := r.name }, r.isPreferred))) := by
  obtain ⟨h1, h2, h3, h4, h5, h6⟩ := h
  obtain ⟨tm, he, hok⟩ := upsert_eq countryKeyOf
    (fun x => countryMerge x { CountryCode := countryCode, Lang := r.lang, Name := r.name })
    (countryKey countryCode r.lang)
    { CountryCode := countryCode, Lang := r.lang, Name := r.name }
    r.isPreferred st.countryBatch st.countryTransMap h6 rfl (fun _ => rfl)
  rw [SinkView.put_eq, ← h4]
  generalize putBatch countryKeyOf
    (fun x => countryMerge x { CountryCode := countryCode, Lang := r.lang, Name := r.name })
    { CountryCode := countryCode, Lang := r.lang, Name := r.name } r.isPreferred
    st.countryBatch = b at he hok ⊢
  have hstep : countryStep batchSize cb countryCode r st =
      if (b.length : Int) ≥ batchSize then
        match cb st.calls b with
        | some err =>
          Flow.ret (st.calls ++ [SinkCall.country b])
            (GoError.wrapped "country callback error" err)
        | none =>
          Flow.next { st with countryBatch := [], countryTransMap := [],
                              calls := st.calls ++ [SinkCall.country b] }
      else Flow.next { st with countryBatch := b, countryTransMap := tm } := by
    unfold countryStep
    exact (congrArg (fun o => match o with
      | none => Flow.outOfRange st.calls
      | some (batch, transMap) =>
        if (batch.length : Int) ≥ batchSize then
          match cb st.calls batch with
          | some err =>
            Flow.ret (st.calls ++ [SinkCall.country batch])
              (GoError.wrapped "country callback error" err)
          | none =>
            Flow.next { st with countryBatch := [], countryTransMap := [],
                                calls := st.calls ++ [SinkCall.country batch] }
        else Flow.next { st with countryBatch := batch, countryTransMap := transMap }) he)
  rw [hstep]
  by_cases hB : (b.length : Int) ≥ batchSize
  · rw [if_pos hB, if_pos hB]
    cases hcb : cb st.calls b with
    | some err =>
      exact ⟨fun calls hc => Flow.noConfusion hc, fun st1 hst => Flow.noConfusion hst⟩
    | none =>
      refine ⟨fun calls hc => Flow.noConfusion hc, ?_⟩
      intro st1 hst
      injection hst with hst
      subst hst
      refine ⟨h1, ?_, h3, rfl, ?_, TableOk_nil _⟩
      · simp [cityBatches_append, cityBatches, h2]
      · simp [countryBatches_append, countryBatches, h5]
  · rw [if_neg hB, if_neg hB]
    refine ⟨fun calls hc => Flow.noConfusion hc, ?_⟩
    intro st1 hst
    injection hst with hst
    subst hst
    exact ⟨h1, h2, h3, rfl, h5, hok⟩

theorem processRow_sim (p : Parser) (cityIDs : GoMap Int Bool)
    (countryCodes : GoMap GoString Bool) (geonameIDToCountryCode : Option (GoMap Int GoString))
    (cityCallback : Option CityCallback) (countryCallback : Option CountryCallback)
    (st : LoopState) (line : GoString) (cv : SinkView CityTranslation)
    (kv : SinkView CountryTranslation) (h : InStep st cv kv) :
    (∀ calls, processRow p (effectiveBatchSize p) cityIDs countryCodes geonameIDToCountryCode
      cityCallback countryCallback st line ≠ Flow.outOfRange calls) ∧
    (∀ st1, processRow p (effectiveBatchSize p) cityIDs countryCodes geonameIDToCountryCode
      cityCallback countryCallback st line = Flow.next st1 →
      InStep st1
        (match cityItem p cityIDs line with
          | some item => cv.put cityKeyOf cityMerge (effectiveBatchSize p) cityCallback.isSome item
          | none => cv)
        (match countryItem p countryCodes geonameIDToCountryCode countryCallback.isSome line with
          | some item => kv.put countryKeyOf countryMerge (effectiveBatchSize p) true item
          | none => kv)) := by
  unfold processRow cityItem countryItem
  cases hrow : parseRow p line with
  | none =>
    dsimp only
    refine ⟨fun calls hc => Flow.noConfusion hc, ?_⟩
    intro st1 hst
    injection hst with hst
    subst hst
    simpa using h
  | some r =>
    dsimp only
    unfold classify
    -- the country part, from any state in step
    have hcountry : ∀ (s : LoopState) (cv1 : SinkView CityTranslation), InStep s cv1 kv →
        (∀ calls, countryPart (effectiveBatchSize p) countryCodes geonameIDToCountryCode
          countryCallback r s ≠ Flow.outOfRange calls) ∧
        (∀ st1, countryPart (effectiveBatchSize p) countryCodes geonameIDToCountryCode
          countryCallback r s = Flow.next st1 →
          InStep st1 cv1
            (match (match some r, geonameIDToCountryCode with
              | some r, some m =>
                match m.get? r.geonameID with
                | some countryCode =>
                  if countryCallback.isSome = true ∧ countryCodes.test countryCode = true then
                    some (({ CountryCode := countryCode, Lang := r.lang, Name := r.name } :
                      CountryTranslation), r.isPreferred)
                  else none
                | none => none
              | _, _ => none) with
              | some item => kv.put countryKeyOf countryMerge (effectiveBatchSize p) true item
              | none => kv)) := by
      intro s cv1 hs
      unfold countryPart
      cases countryCallback with
      | none =>
        refine ⟨fun calls hc => Flow.noConfusion hc, ?_⟩
        intro st1 hst
        injection hst with hst
        subst hst
        cases geonameIDToCountryCode with
        | none => simpa using hs
        | some m =>
          dsimp only
          cases m.get? r.geonameID <;> simpa using hs
      | some cb =>
        cases geonameIDToCountryCode with
        | none =>
          refine ⟨fun calls hc => Flow.noConfusion hc, ?_⟩
          intro st1 hst
          injection hst with hst
          subst hst
          simpa using hs
        | some m =>
          dsimp only
          cases m.get? r.geonameID with
          | none =>
            refine ⟨fun calls hc => Flow.noConfusion hc, ?_⟩
            intro st1 hst
            injection hst with hst
            subst hst
            simpa using hs
          | some code =>
            dsimp only
            by_cases hcode : countryCodes.test code = true
            · simp only [hcode, if_true, Option.isSome_some, and_self]
              exact countryStep_sim _ cb code r s cv1 kv hs
            · simp only [hcode, if_false, and_false]
              refine ⟨fun calls hc => Flow.noConfusion hc, ?_⟩
              intro st1 hst
              injection hst with hst
              subst hst
              exact hs
    by_cases hcity : cityIDs.test r.geonameID = true
    · simp only [hcity, if_true]
      have hc := cityStep_sim (effectiveBatchSize p) cityCallback r st cv kv h
      cases hstep : cityStep (effectiveBatchSize p) cityCallback r st with
      | next s =>
        dsimp only
        exact hcountry s _ (hc.2 s hstep)
      | ret c e =>
        exact ⟨fun calls hcc => Flow.noConfusion hcc, fun st1 hst => Flow.noConfusion hst⟩
      | outOfRange c => exact absurd hstep (hc.1 c)
    · simp only [hcity, if_false]
      exact hcountry st cv h

theorem cityView_cons (p : Parser) (cityIDs : GoMap Int Bool) (deliver : Bool)
    (v : SinkView CityTranslation) (line : GoString) (rest : List GoString) :
    cityView p cityIDs deliver v (line :: rest)
      = cityView p cityIDs deliver
          (match cityItem p cityIDs line with
            | some item => v.put cityKeyOf cityMerge (effectiveBatchSize p) deliver item
            | none => v) rest := by
  unfold cityView
  cases h : cityItem p cityIDs line <;> simp [List.filterMap_cons, h]

theorem countryView_cons (p : Parser) (countryCodes : GoMap GoString Bool)
    (geonameIDToCountryCode : Option (GoMap Int GoString)) (configured : Bool)
    (v : SinkView CountryTranslation) (line : GoString) (rest : List GoString) :
    countryView p countryCodes geonameIDToCountryCode configured v (line :: rest)
      = countryView p countryCodes geonameIDToCountryCode configured
          (match countryItem p countryCodes geonameIDToCountryCode configured line with
            | some item => v.put countryKeyOf countryMerge (effectiveBatchSize p) true item
            | none => v) rest := by
  unfold countryView
  cases h : countryItem p countryCodes geonameIDToCountryCode configured line <;>
    simp [List.filterMap_cons, h]

theorem scanLoop_sim (p : Parser) (cityIDs : GoMap Int Bool)
    (countryCodes : GoMap GoString Bool) (geonameIDToCountryCode : Option (GoMap Int GoString))
    (cityCallback : Option CityCallback) (countryCallback : Option CountryCallback)
    (lines : List GoString) :
    ∀ (st : LoopState) (cv : SinkView CityTranslation) (kv : SinkView CountryTranslation),
      InStep st cv kv →
      (∀ calls, scanLoop p (effectiveBatchSize p) cityIDs countryCodes geonameIDToCountryCode
        cityCallback countryCallback st lines ≠ Flow.outOfRange calls) ∧
      (∀ st1, scanLoop p (effectiveBatchSize p) cityIDs countryCodes geonameIDToCountryCode
        cityCallback countryCallback st lines = Flow.next st1 →
        InStep st1 (cityView p cityIDs cityCallback.isSome cv lines)
          (countryView p countryCodes geonameIDToCountryCode countryCallback.isSome kv
            lines)) := by
  induction lines with
  | nil =>
    intro st cv kv h
    refine ⟨fun calls hc => Flow.noConfusion hc, ?_⟩
    intro st1 hst
    injection hst with hst
    subst hst
    simpa [cityView, countryView] using h
  | cons line rest ih =>
    intro st cv kv h
    have hrow := processRow_sim p cityIDs countryCodes geonameIDToCountryCode cityCallback
      countryCallback st line cv kv h
    rw [cityView_cons, countryView_cons]
    unfold scanLoop
    cases hstep : processRow p (effectiveBatchSize p) cityIDs countryCodes
        geonameIDToCountryCode cityCallback countryCallback st line with
    | next s =>
      dsimp only
      exact ih s _ _ (hrow.2 s hstep)
    | ret c e =>
      exact ⟨fun calls hc => Flow.noConfusion hc, fun st1 hst => Flow.noConfusion hst⟩
    | outOfRange c => exact absurd hstep (hrow.1 c)

theorem InStep_initial : InStep initialState { batch := [], sent := [] }
    { batch := [], sent := [] } :=
  ⟨rfl, rfl, TableOk_nil _, rfl, rfl, TableOk_nil _⟩

/-- A callback that never returns an error. -/
theorem cityStep_ne_ret (batchSize : Int) (cityCallback : Option CityCallback) (r : AltName)
    (st : LoopState) (hcity : ∀ cb, cityCallback = some cb → ∀ h b, cb h b = none) :
    ∀ c e, cityStep batchSize cityCallback r st ≠ Flow.ret c e := by
  intro c e
  unfold cityStep
  split
  · exact fun h => Flow.noConfusion h
  · split
    · cases cityCallback with
      | none => exact fun h => Flow.noConfusion h
      | some cb =>
        dsimp only
        rw [hcity cb rfl]
        exact fun h => Flow.noConfusion h
    · exact fun h => Flow.noConfusion h

theorem countryStep_ne_ret (batchSize : Int) (cb : CountryCallback) (countryCode : GoString)
    (r : AltName) (st : LoopState) (hcb : ∀ h b, cb h b = none) :
    ∀ c e, countryStep batchSize cb countryCode r st ≠ Flow.ret c e := by
  intro c e
  unfold countryStep
  split
  · exact fun h => Flow.noConfusion h
  · split
    · rw [hcb]
      exact fun h => Flow.noConfusion h
    · exact fun h => Flow.noConfusion h

theorem countryPart_ne_ret (batchSize : Int) (countryCodes : GoMap GoString Bool)
    (geonameIDToCountryCode : Option (GoMap Int GoString))
    (countryCallback : Option CountryCallback) (r : AltName) (st : LoopState)
    (hcountry : ∀ cb, countryCallback = some cb → ∀ h b, cb h b = none) :
    ∀ c e, countryPart batchSize countryCodes geonameIDToCountryCode countryCallback r st
      ≠ Flow.ret c e := by
  intro c e
  unfold countryPart
  split
  · next cb m =>
    split
    · split
      · exact countryStep_ne_ret _ _ _ _ _ (hcountry cb rfl) c e
      · exact fun h => Flow.noConfusion h
    · exact fun h => Flow.noConfusion h
  · exact fun h => Flow.noConfusion h

theorem processRow_ne_ret (p : Parser) (batchSize : Int) (cityIDs : GoMap Int Bool)
    (countryCodes : GoMap GoString Bool) (geonameIDToCountryCode : Option (GoMap Int GoString))
    (cityCallback : Option CityCallback) (countryCallback : Option CountryCallback)
    (hcity : ∀ cb, cityCallback = some cb → ∀ h b, cb h b = none)
    (hcountry : ∀ cb, countryCallback = some cb → ∀ h b, cb h b = none)
    (st : LoopState) (line : GoString) :
    ∀ c e, processRow p batchSize cityIDs countryCodes geonameIDToCountryCode cityCallback
      countryCallback st line ≠ Flow.ret c e := by
  intro c e
  unfold processRow
  split
  · exact fun h => Flow.noConfusion h
  · next r _ =>
    unfold classify
    by_cases hc : cityIDs.test r.geonameID = true
    · simp only [hc, if_true]
      cases hstep : cityStep batchSize cityCallback r st with
      | next s => exact countryPart_ne_ret _ _ _ _ _ _ hcountry c e
      | ret c1 e1 => exact absurd hstep (cityStep_ne_ret _ _ _ _ hcity c1 e1)
      | outOfRange c1 => exact fun h => Flow.noConfusion h
    · simp only [hc, if_false]
      exact countryPart_ne_ret _ _ _ _ _ _ hcountry c e

theorem scanLoop_ne_ret (p : Parser) (batchSize : Int) (cityIDs : GoMap Int Bool)
    (countryCodes : GoMap GoString Bool) (geonameIDToCountryCode : Option (GoMap Int GoString))
    (cityCallback : Option CityCallback) (countryCallback : Option CountryCallback)
    (hcity : ∀ cb, cityCallback = some cb → ∀ h b, cb h b = none)
    (hcountry : ∀ cb, countryCallback = some cb → ∀ h b, cb h b = none)
    (lines : List GoString) :
    ∀ (st : LoopState) c e, scanLoop p batchSize cityIDs countryCodes geonameIDToCountryCode
      cityCallback countryCallback st lines ≠ Flow.ret c e := by
  induction lines with
  | nil => intro st c e; exact fun h => Flow.noConfusion h
  | cons line rest ih =>
    intro st c e
    unfold scanLoop
    cases hstep : processRow p batchSize cityIDs countryCodes geonameIDToCountryCode
        cityCallback countryCallback st line with
    | next s => exact ih s c e
    | ret c1 e1 =>
      exact absurd hstep (processRow_ne_ret p batchSize cityIDs countryCodes
        geonameIDToCountryCode cityCallback countryCallback hcity hcountry st line c1 e1)
    | outOfRange c1 => exact fun h => Flow.noConfusion h

/-- With callbacks that never fail the loop runs through every line and ends in step with
the two sink views. -/
theorem scanLoop_next (p : Parser) (cityIDs : GoMap Int Bool)
    (countryCodes : GoMap GoString Bool) (geonameIDToCountryCode : Option (GoMap Int GoString))
    (cityCallback : Option CityCallback) (countryCallback : Option CountryCallback)
    (hcity : ∀ cb, cityCallback = some cb → ∀ h b, cb h b = none)
    (hcountry : ∀ cb, countryCallback = some cb → ∀ h b, cb h b = none)
    (lines : List GoString) :
    ∃ st, scanLoop p (effectiveBatchSize p) cityIDs countryCodes geonameIDToCountryCode
        cityCallback countryCallback initialState lines = Flow.next st ∧
      InStep st (cityView p cityIDs cityCallback.isSome { batch := [], sent := [] } lines)
        (countryView p countryCodes geonameIDToCountryCode countryCallback.isSome
          { batch := [], sent := [] } lines) := by
  have hsim := scanLoop_sim p cityIDs countryCodes geonameIDToCountryCode cityCallback
    countryCallback lines initialState _ _ InStep_initial
  cases hl : scanLoop p (effectiveBatchSize p) cityIDs countryCodes geonameIDToCountryCode
      cityCallback countryCallback initialState lines with
  | next st => exact ⟨st, rfl, hsim.2 st hl⟩
  | ret c e =>
    exact absurd hl (scanLoop_ne_ret p _ cityIDs countryCodes geonameIDToCountryCode
      cityCallback countryCallback hcity hcountry lines initialState c e)
  | outOfRange c => exact absurd hl (hsim.1 c)

/-- With callbacks that never fail and a scanner that reports no error, the pass returns nil
and each sink has received exactly the batches of its view. -/
theorem process_nonfailing (p : Parser) (reader : LineStream) (cityIDs : GoMap Int Bool)
    (countryCodes : GoMap GoString Bool) (geonameIDToCountryCode : Option (GoMap Int GoString))
    (cityCallback : Option CityCallback) (countryCallback : Option CountryCallback)
    (hcity : ∀ cb, cityCallback = some cb → ∀ h b, cb h b = none)
    (hcountry : ∀ cb, countryCallback = some cb → ∀ h b, cb h b = none)
    (herr : reader.err = none) :
    (processAlternateNamesFromReaderWithCountryMapping p reader cityIDs countryCodes
      geonameIDToCountryCode cityCallback countryCallback).ending = Ending.ok ∧
    cityBatches (processAlternateNamesFromReaderWithCountryMapping p reader cityIDs
      countryCodes geonameIDToCountryCode cityCallback countryCallback).calls
      = (cityView p cityIDs cityCallback.isSome { batch := [], sent := [] }
          reader.lines).close cityCallback.isSome ∧
    countryBatches (processAlternateNamesFromReaderWithCountryMapping p reader cityIDs
      countryCodes geonameIDToCountryCode cityCallback countryCallback).calls
      = (countryView p countryCodes geonameIDToCountryCode countryCallback.isSome
          { batch := [], sent := [] } reader.lines).close countryCallback.isSome := by
  obtain ⟨st, hl, h1, h2, _, h4, h5, _⟩ := scanLoop_next p cityIDs countryCodes
    geonameIDToCountryCode cityCallback countryCallback hcity hcountry reader.lines
  unfold processAlternateNamesFromReaderWithCountryMapping
  rw [hl]
  dsimp only
  unfold finish
  rw [herr]
  dsimp only
  unfold SinkView.close
  rw [← h1, ← h2, ← h4, ← h5]
  cases cityCallback with
  | none =>
    cases countryCallback with
    | none => simp
    | some kb =>
      by_cases hk : st.countryBatch.length > 0
      · simp [hk, hcountry kb rfl, cityBatches_append, countryBatches_append, cityBatches,
          countryBatches]
      · simp [hk]
  | some cb =>
    by_cases hc : st.cityBatch.length > 0
    · cases countryCallback with
      | none =>
        simp [hc, hcity cb rfl, cityBatches_append, countryBatches_append, cityBatches,
          countryBatches]
      | some kb =>
        by_cases hk : st.countryBatch.length > 0
        · simp [hc, hk, hcity cb rfl, hcountry kb rfl, cityBatches_append,
            countryBatches_append, cityBatches, countryBatches]
        · simp [hc, hk, hcity cb rfl, cityBatches_append, countryBatches_append, cityBatches,
            countryBatches]
    · cases countryCallback with
      | none => simp [hc]
      | some kb =>
        by_cases hk : st.countryBatch.length > 0
        · simp [hc, hk, hcountry kb rfl, cityBatches_append, countryBatches_append,
            cityBatches, countryBatches]
        · simp [hc, hk]

/-- The calls made by the loop on a prefix of the input, seen by each sink. -/
theorem callsAfter_nonfailing (p : Parser) (cityIDs : GoMap Int Bool)
    (countryCodes : GoMap GoString Bool) (geonameIDToCountryCode : Option (GoMap Int GoString))
    (cityCallback : Option CityCallback) (countryCallback : Option CountryCallback)
    (hcity : ∀ cb, cityCallback = some cb → ∀ h b, cb h b = none)
    (hcountry : ∀ cb, countryCallback = some cb → ∀ h b, cb h b = none)
    (lines : List GoString) :
    cityBatches (callsAfter p cityIDs countryCodes geonameIDToCountryCode cityCallback
      countryCallback lines)
      = (cityView p cityIDs cityCallback.isSome { batch := [], sent := [] } lines).sent ∧
    countryBatches (callsAfter p cityIDs countryCodes geonameIDToCountryCode cityCallback
      countryCallback lines)
      = (countryView p countryCodes geonameIDToCountryCode countryCallback.isSome
          { batch := [], sent := [] } lines).sent := by
  obtain ⟨st, hl, _, h2, _, _, h5, _⟩ := scanLoop_next p cityIDs countryCodes
    geonameIDToCountryCode cityCallback countryCallback hcity hcountry lines
  unfold callsAfter
  rw [hl]
  exact ⟨h2, h5⟩

/-! ## The dedup keys -/

theorem toNat_digit (d : Nat) (h : d < 10) : (UInt8.ofNat (48 + d)).toNat = 48 + d := by
  interval_cases d <;> rfl

theorem digitsRev_digits : ∀ (fuel n : Nat) (b : UInt8), b ∈ digitsRev fuel n →
    48 ≤ b.toNat ∧ b.toNat ≤ 57 := by
  intro fuel
  induction fuel with
  | zero => intro n b h; simp [digitsRev] at h
  | succ f ih =>
    intro n b h
    unfold digitsRev at h
    split_ifs at h with hn
    · rw [List.mem_singleton] at h
      subst h
      rw [toNat_digit n hn]
      omega
    · rw [List.mem_cons] at h
      rcases h with h | h
      · subst h
        rw [toNat_digit _ (Nat.mod_lt _ (by norm_num))]
        have := Nat.mod_lt n (show 10 > 0 by norm_num)
        omega
      · exact ih _ b h

theorem digitsRev_value : ∀ (fuel n : Nat), n < fuel → digitsValue (digitsRev fuel n) = n := by
  intro fuel
  induction fuel with
  | zero => intro n h; omega
  | succ f ih =>
    intro n h
    unfold digitsRev
    split_ifs with hn
    · simp [digitsValue, toNat_digit n hn]
    · have h10 : n / 10 < f := by omega
      simp only [digitsValue, toNat_digit _ (Nat.mod_lt n (show 10 > 0 by norm_num)), ih _ h10]
      omega

theorem digitsRev_ne_nil (fuel n : Nat) : digitsRev (fuel + 1) n ≠ [] := by
  unfold digitsRev
  split_ifs <;> simp

theorem formatNat_injective (a b : Nat) (h : formatNat a = formatNat b) : a = b := by
  unfold formatNat at h
  have h1 := List.reverse_injective h
  have h2 := congrArg digitsValue h1
  rwa [digitsRev_value _ _ (Nat.lt_succ_self a), digitsRev_value _ _ (Nat.lt_succ_self b)] at h2

theorem formatNat_digits (n : Nat) (b : UInt8) (h : b ∈ formatNat n) :
    48 ≤ b.toNat ∧ b.toNat ≤ 57 := by
  unfold formatNat at h
  exact digitsRev_digits _ _ b (List.mem_reverse.mp h)

theorem formatNat_ne_nil (n : Nat) : formatNat n ≠ [] := by
  unfold formatNat
  simpa using digitsRev_ne_nil n n

theorem minus_not_mem_formatNat (n : Nat) : (45 : UInt8) ∉ formatNat n := by
  intro h
  have := formatNat_digits n 45 h
  have h45 : (45 : UInt8).toNat = 45 := rfl
  omega

theorem formatInt_injective (i j : Int) (h : formatInt i = formatInt j) : i = j := by
  unfold formatInt at h
  by_cases hi : i < 0
  · by_cases hj : j < 0
    · rw [if_pos hi, if_pos hj] at h
      have := formatNat_injective _ _ (List.cons_injective h)
      omega
    · rw [if_pos hi, if_neg hj] at h
      exact absurd (h ▸ List.mem_cons_self _ _) (minus_not_mem_formatNat _)
  · by_cases hj : j < 0
    · rw [if_neg hi, if_pos hj] at h
      exact absurd (h.symm ▸ List.mem_cons_self _ _) (minus_not_mem_formatNat _)
    · rw [if_neg hi, if_neg hj] at h
      have := formatNat_injective _ _ h
      omega

theorem colon_not_mem_formatInt (i : Int) : (58 : UInt8) ∉ formatInt i := by
  have h58 : (58 : UInt8).toNat = 58 := rfl
  have hnat : ∀ n, (58 : UInt8) ∉ formatNat n := by
    intro n h
    have := formatNat_digits n 58 h
    omega
  unfold formatInt
  split_ifs
  · intro h
    rw [List.mem_cons] at h
    rcases h with h | h
    · exact absurd h (by decide)
    · exact hnat _ h
  · exact hnat _

theorem append_sep_injective {α : Type} (c : α) :
    ∀ (a a1 l l1 : List α), c ∉ a → c ∉ a1 → a ++ c :: l = a1 ++ c :: l1 → a = a1 ∧ l = l1 := by
  intro a
  induction a with
  | nil =>
    intro a1 l l1 _ h1 h
    cases a1 with
    | nil => simpa using h
    | cons x xs =>
      simp only [List.nil_append, List.cons_append, List.cons.injEq] at h
      exact absurd (h.1 ▸ List.mem_cons_self _ _) h1
  | cons y ys ih =>
    intro a1 l l1 h0 h1 h
    cases a1 with
    | nil =>
      simp only [List.nil_append, List.cons_append, List.cons.injEq] at h
      exact absurd (h.1.symm ▸ List.mem_cons_self _ _) h0
    | cons x xs =>
      simp only [List.cons_append, List.cons.injEq] at h
      have := ih xs l l1 (fun hc => h0 (List.mem_cons_of_mem _ hc))
        (fun hc => h1 (List.mem_cons_of_mem _ hc)) h.2
      exact ⟨by rw [h.1, this.1], this.2⟩

/-- The city key determines the city id and the language. -/
theorem cityKey_injective (g g1 : Int) (l l1 : GoString) (h : cityKey g l = cityKey g1 l1) :
    g = g1 ∧ l = l1 := by
  unfold cityKey at h
  have := append_sep_injective 58 _ _ _ _ (colon_not_mem_formatInt g)
    (colon_not_mem_formatInt g1) h
  exact ⟨formatInt_injective _ _ this.1, this.2⟩

theorem cityKeyOf_eq_iff (c : CityTranslation) (g : Int) (l : GoString) :
    cityKeyOf c = cityKey g l ↔ (c.CityID = g ∧ c.Lang = l) := by
  constructor
  · exact cityKey_injective _ _ _ _
  · rintro ⟨h1, h2⟩
    rw [cityKeyOf, h1, h2]

/-! ## Properties of a sink view -/

theorem stream_put {ρ : Type} (keyOf : ρ → GoString) (merge : ρ → ρ → ρ) (batchSize : Int)
    (v : SinkView ρ) (rec : ρ) (isPreferred : Bool) :
    (SinkView.put keyOf merge batchSize true v (rec, isPreferred)).stream
      = v.sent.flatten ++ putBatch keyOf (fun x => merge x rec) rec isPreferred v.batch := by
  rw [SinkView.put_eq]
  by_cases h : ((putBatch keyOf (fun x => merge x rec) rec isPreferred v.batch).length : Int)
      ≥ batchSize
  · simp [h, SinkView.stream]
  · simp [h, SinkView.stream]

theorem close_flatten {ρ : Type} (v : SinkView ρ) :
    (SinkView.close true v).flatten = v.stream := by
  unfold SinkView.close SinkView.stream
  by_cases h : v.batch.length > 0
  · simp [h]
  · have : v.batch = [] := List.length_eq_zero.mp (by omega)
    simp [this]

theorem filter_key_eq_nil_iff {ρ : Type} (keyOf : ρ → GoString) (k : GoString) (batch : List ρ) :
    batch.filter (fun x => decide (keyOf x = k)) = [] ↔ k ∉ batch.map keyOf := by
  rw [List.filter_eq_nil_iff]
  simp only [decide_eq_true_eq, List.mem_map, not_exists, not_and]

theorem filter_map_rename_of_ne {ρ : Type} (keyOf : ρ → GoString) (rename : ρ → ρ)
    (kr k : GoString) (hren : ∀ x, keyOf (rename x) = keyOf x) (hne : kr ≠ k) (batch : List ρ) :
    (batch.map (fun x => if keyOf x = kr then rename x else x)).filter
        (fun x => decide (keyOf x = k))
      = batch.filter (fun x => decide (keyOf x = k)) := by
  induction batch with
  | nil => rfl
  | cons a l ih =>
    rw [List.map_cons]
    by_cases ha : keyOf a = kr
    · have hak : ¬ keyOf a = k := fun e => hne (ha.symm.trans e)
      have hrk : ¬ keyOf (rename a) = k := by rw [hren]; exact hak
      rw [if_pos ha, List.filter_cons_of_neg (by simpa using hrk),
        List.filter_cons_of_neg (by simpa using hak), ih]
    · rw [if_neg ha]
      by_cases hak : keyOf a = k
      · rw [List.filter_cons_of_pos (by simpa using hak),
          List.filter_cons_of_pos (by simpa using hak), ih]
      · rw [List.filter_cons_of_neg (by simpa using hak),
          List.filter_cons_of_neg (by simpa using hak), ih]

theorem filter_map_rename_of_eq {ρ : Type} (keyOf : ρ → GoString) (rename : ρ → ρ)
    (k : GoString) (hren : ∀ x, keyOf (rename x) = keyOf x) (batch : List ρ) :
    (batch.map (fun x => if keyOf x = k then rename x else x)).filter
        (fun x => decide (keyOf x = k))
      = (batch.filter (fun x => decide (keyOf x = k))).map rename := by
  induction batch with
  | nil => rfl
  | cons a l ih =>
    rw [List.map_cons]
    by_cases ha : keyOf a = k
    · have hrk : keyOf (rename a) = k := by rw [hren]; exact ha
      rw [if_pos ha, List.filter_cons_of_pos (by simpa using hrk),
        List.filter_cons_of_pos (by simpa using ha), ih, List.map_cons]
    · rw [if_neg ha, List.filter_cons_of_neg (by simpa using ha),
        List.filter_cons_of_neg (by simpa using ha), ih]

/-- A candidate with another key leaves the records of key `k` alone. -/
theorem filter_putBatch_of_ne {ρ : Type} (keyOf : ρ → GoString) (rename : ρ → ρ) (rec : ρ)
    (isPreferred : Bool) (batch : List ρ) (k : GoString)
    (hren : ∀ x, keyOf (rename x) = keyOf x) (hne : keyOf rec ≠ k) :
    (putBatch keyOf rename rec isPreferred batch).filter (fun x => decide (keyOf x = k))
      = batch.filter (fun x => decide (keyOf x = k)) := by
  unfold putBatch
  by_cases hmem : keyOf rec ∈ batch.map keyOf
  · rw [if_pos hmem]
    cases isPreferred with
    | false => rfl
    | true =>
      simp only [if_true]
      exact filter_map_rename_of_ne keyOf rename _ k hren hne batch
  · rw [if_neg hmem, List.filter_append]
    simp [hne]

/-- A first candidate of key `k` is appended. -/
theorem filter_putBatch_new {ρ : Type} (keyOf : ρ → GoString) (rename : ρ → ρ) (rec : ρ)
    (isPreferred : Bool) (batch : List ρ)
    (hnil : batch.filter (fun x => decide (keyOf x = keyOf rec)) = []) :
    (putBatch keyOf rename rec isPreferred batch).filter
        (fun x => decide (keyOf x = keyOf rec)) = [rec] := by
  have hmem : keyOf rec ∉ batch.map keyOf := (filter_key_eq_nil_iff keyOf _ batch).mp hnil
  unfold putBatch
  rw [if_neg hmem, List.filter_append, hnil]
  simp

/-- A later candidate of key `k` renames the stored record when it is preferred, and is
dropped otherwise. -/
theorem filter_putBatch_old {ρ : Type} (keyOf : ρ → GoString) (rename : ρ → ρ) (rec : ρ)
    (isPreferred : Bool) (batch : List ρ) (hren : ∀ x, keyOf (rename x) = keyOf x)
    (hne : batch.filter (fun x => decide (keyOf x = keyOf rec)) ≠ []) :
    (putBatch keyOf rename rec isPreferred batch).filter
        (fun x => decide (keyOf x = keyOf rec))
      = if isPreferred then
          (batch.filter (fun x => decide (keyOf x = keyOf rec))).map rename
        else batch.filter (fun x => decide (keyOf x = keyOf rec)) := by
  have hmem : keyOf rec ∈ batch.map keyOf := by
    by_contra h
    exact hne ((filter_key_eq_nil_iff keyOf _ batch).mpr h)
  unfold putBatch
  rw [if_pos hmem]
  cases isPreferred with
  | false => rfl
  | true =>
    simp only [if_true]
    exact filter_map_rename_of_eq keyOf rename _ hren batch

/-- Candidates with other keys leave the records of key `k` in the stream alone. -/
theorem filter_stream_foldl {ρ : Type} (keyOf : ρ → GoString) (merge : ρ → ρ → ρ)
    (batchSize : Int) (k : GoString) (hmerge : ∀ x y, keyOf (merge x y) = keyOf x)
    (items : List (ρ × Bool)) :
    ∀ v : SinkView ρ, (∀ item ∈ items, keyOf item.1 ≠ k) →
      ((items.foldl (SinkView.put keyOf merge batchSize true) v).stream).filter
          (fun x => decide (keyOf x = k))
        = v.stream.filter (fun x => decide (keyOf x = k)) := by
  induction items with
  | nil => intro v _; rfl
  | cons item rest ih =>
    intro v h
    obtain ⟨rec, pref⟩ := item
    rw [List.foldl_cons, ih _ (fun it hit => h it (List.mem_cons_of_mem _ hit)), stream_put,
      List.filter_append,
      filter_putBatch_of_ne keyOf _ rec pref v.batch k (fun x => hmerge x rec)
        (h (rec, pref) (List.mem_cons_self _ _))]
    simp [SinkView.stream]

theorem filter_stream_eq {ρ : Type} (q : ρ → Bool) (v : SinkView ρ) :
    v.stream.filter q = v.sent.flatten.filter q ++ v.batch.filter q := by
  unfold SinkView.stream
  rw [List.filter_append]

/-- Two candidates of the same key in one window of a sink, and no other candidate of that
key: the sink hands over exactly one record of that key, the first one, renamed by the
second when the second is preferred. -/
theorem pair_in_window {ρ : Type} (keyOf : ρ → GoString) (merge : ρ → ρ → ρ) (batchSize : Int)
    (hmerge : ∀ x y, keyOf (merge x y) = keyOf x)
    (A M P : List (ρ × Bool)) (rec1 rec2 : ρ) (pref1 pref2 : Bool) (v : SinkView ρ)
    (hk : keyOf rec2 = keyOf rec1)
    (hv : v.stream.filter (fun x => decide (keyOf x = keyOf rec1)) = [])
    (hA : ∀ item ∈ A, keyOf item.1 ≠ keyOf rec1)
    (hM : ∀ item ∈ M, keyOf item.1 ≠ keyOf rec1)
    (hP : ∀ item ∈ P, keyOf item.1 ≠ keyOf rec1)
    (hwin : ((A ++ (rec1, pref1) :: M).foldl (SinkView.put keyOf merge batchSize true) v).sent
      = (A.foldl (SinkView.put keyOf merge batchSize true) v).sent) :
    (((A ++ (rec1, pref1) :: (M ++ (rec2, pref2) :: P)).foldl
        (SinkView.put keyOf merge batchSize true) v).stream).filter
        (fun x => decide (keyOf x = keyOf rec1))
      = [if pref2 then merge rec1 rec2 else rec1] := by
  rw [List.foldl_append, List.foldl_cons, List.foldl_append, List.foldl_cons,
    filter_stream_foldl keyOf merge batchSize _ hmerge P _ hP]
  rw [List.foldl_append, List.foldl_cons] at hwin
  generalize hV0 : A.foldl (SinkView.put keyOf merge batchSize true) v = V0 at hwin ⊢
  have F0 : V0.stream.filter (fun x => decide (keyOf x = keyOf rec1)) = [] := by
    rw [← hV0, filter_stream_foldl keyOf merge batchSize _ hmerge A _ hA, hv]
  rw [filter_stream_eq, List.append_eq_nil] at F0
  have F1 : (SinkView.put keyOf merge batchSize true V0 (rec1, pref1)).stream.filter
      (fun x => decide (keyOf x = keyOf rec1)) = [rec1] := by
    rw [stream_put, List.filter_append, F0.1, filter_putBatch_new keyOf _ rec1 pref1 _ F0.2]
    rfl
  generalize hV1 : SinkView.put keyOf merge batchSize true V0 (rec1, pref1) = V1 at hwin F1 ⊢
  have F2 : (M.foldl (SinkView.put keyOf merge batchSize true) V1).stream.filter
      (fun x => decide (keyOf x = keyOf rec1)) = [rec1] := by
    rw [filter_stream_foldl keyOf merge batchSize _ hmerge M _ hM, F1]
  generalize hV2 : M.foldl (SinkView.put keyOf merge batchSize true) V1 = V2 at hwin F2 ⊢
  rw [filter_stream_eq, hwin, F0.1, List.nil_append] at F2
  rw [stream_put, List.filter_append, hwin, F0.1, List.nil_append, ← hk]
  have hne : V2.batch.filter (fun x => decide (keyOf x = keyOf rec2)) ≠ [] := by
    rw [hk, F2]
    simp
  rw [filter_putBatch_old keyOf _ rec2 pref2 _ (fun x => hmerge x rec2) hne, hk, F2]
  cases pref2 <;> rfl

theorem cityView_append (p : Parser) (cityIDs : GoMap Int Bool) (deliver : Bool)
    (v : SinkView CityTranslation) (a b : List GoString) :
    cityView p cityIDs deliver v (a ++ b)
      = cityView p cityIDs deliver (cityView p cityIDs deliver v a) b := by
  unfold cityView
  rw [List.filterMap_append, List.foldl_append]

theorem cityItem_of_parseRow (p : Parser) (cityIDs : GoMap Int Bool) (line : GoString)
    (r : AltName) (h : parseRow p line = some r) (hknown : cityIDs.test r.geonameID = true) :
    cityItem p cityIDs line
      = some ({ CityID := r.geonameID, Lang := r.lang, Name := r.name }, r.isPreferred) := by
  simp [cityItem, h, hknown]

theorem cityItem_some (p : Parser) (cityIDs : GoMap Int Bool) (line : GoString)
    (item : CityTranslation × Bool) (h : cityItem p cityIDs line = some item) :
    ∃ r, parseRow p line = some r ∧ cityIDs.test r.geonameID = true ∧
      item = ({ CityID := r.geonameID, Lang := r.lang, Name := r.name }, r.isPreferred) := by
  unfold cityItem at h
  cases hrow : parseRow p line with
  | none => simp [hrow] at h
  | some r =>
    rw [hrow] at h
    dsimp only at h
    by_cases hk : cityIDs.test r.geonameID = true
    · rw [if_pos hk] at h
      exact ⟨r, rfl, hk, (Option.some.inj h).symm⟩
    · rw [if_neg hk] at h
      exact Option.noConfusion h

/-- Lines that hold no accepted row of the pair (id, language) yield no city candidate with
the key of that pair. -/
theorem cityItems_other_key (p : Parser) (cityIDs : GoMap Int Bool) (lines : List GoString)
    (g : Int) (lang : GoString)
    (hothers : ∀ l ∈ lines, ∀ r, parseRow p l = some r → ¬ (r.geonameID = g ∧ r.lang = lang)) :
    ∀ item ∈ lines.filterMap (cityItem p cityIDs), cityKeyOf item.1 ≠ cityKey g lang := by
  intro item hitem
  rw [List.mem_filterMap] at hitem
  obtain ⟨l, hl, hsome⟩ := hitem
  obtain ⟨r, hr, _, rfl⟩ := cityItem_some p cityIDs l item hsome
  intro hkey
  exact hothers l hl r hr ((cityKeyOf_eq_iff _ g lang).mp hkey)

/-- Two accepted rows of a known city with the same id and language, no other accepted row
of that pair, and no city flush between them: the city sink receives exactly one record of
that pair, named by the later row if it is preferred and by the earlier row otherwise. -/
theorem city_pair_in_window (p : Parser) (pre mid post : List GoString) (l1 l2 : GoString)
    (r1 r2 : AltName) (cityIDs : GoMap Int Bool) (countryCodes : GoMap GoString Bool)
    (geonameIDToCountryCode : Option (GoMap Int GoString)) (cb : CityCallback)
    (countryCallback : Option CountryCallback)
    (hcity : ∀ h b, cb h b = none)
    (hcountry : ∀ kb, countryCallback = some kb → ∀ h b, kb h b = none)
    (h1 : parseRow p l1 = some r1) (h2 : parseRow p l2 = some r2)
    (hknown : cityIDs.test r1.geonameID = true)
    (hid : r2.geonameID = r1.geonameID) (hlang : r2.lang = r1.lang)
    (hothers : ∀ l ∈ pre ++ mid ++ post, ∀ r, parseRow p l = some r →
      ¬ (r.geonameID = r1.geonameID ∧ r.lang = r1.lang))
    (hwin : cityBatches (callsAfter p cityIDs countryCodes geonameIDToCountryCode (some cb)
        countryCallback (pre ++ l1 :: mid))
      = cityBatches (callsAfter p cityIDs countryCodes geonameIDToCountryCode (some cb)
        countryCallback pre)) :
    (processAlternateNamesFromReaderWithCountryMapping p
      { lines := pre ++ l1 :: (mid ++ l2 :: post), err := none } cityIDs countryCodes
      geonameIDToCountryCode (some cb) countryCallback).ending = Ending.ok ∧
    ((cityBatches (processAlternateNamesFromReaderWithCountryMapping p
      { lines := pre ++ l1 :: (mid ++ l2 :: post), err := none } cityIDs countryCodes
      geonameIDToCountryCode (some cb) countryCallback).calls).flatten).filter
        (fun c => decide (c.CityID = r1.geonameID ∧ c.Lang = r1.lang))
      = [{ CityID := r1.geonameID, Lang := r1.lang,
           Name := if r2.isPreferred then r2.name else r1.name }] := by
  have hcity1 : ∀ c, some cb = some c → ∀ h b, c h b = none := by
    intro c hc
    cases hc
    exact hcity
  obtain ⟨hend, hcb, _⟩ := process_nonfailing p
    { lines := pre ++ l1 :: (mid ++ l2 :: post), err := none } cityIDs countryCodes
    geonameIDToCountryCode (some cb) countryCallback hcity1 hcountry rfl
  refine ⟨hend, ?_⟩
  rw [hcb, Option.isSome_some, close_flatten]
  have hpred : (fun c : CityTranslation => decide (c.CityID = r1.geonameID ∧ c.Lang = r1.lang))
      = (fun c => decide (cityKeyOf c = cityKeyOf
          { CityID := r1.geonameID, Lang := r1.lang, Name := r1.name })) := by
    funext c
    have := cityKeyOf_eq_iff c r1.geonameID r1.lang
    simp only [cityKeyOf] at this ⊢
    simp only [this]
  rw [hpred]
  have hknown2 : cityIDs.test r2.geonameID = true := by rw [hid]; exact hknown
  have e1 := cityItem_of_parseRow p cityIDs l1 r1 h1 hknown
  have e2 := cityItem_of_parseRow p cityIDs l2 r2 h2 hknown2
  have hw := (callsAfter_nonfailing p cityIDs countryCodes geonameIDToCountryCode (some cb)
    countryCallback hcity1 hcountry (pre ++ l1 :: mid)).1
  have hw0 := (callsAfter_nonfailing p cityIDs countryCodes geonameIDToCountryCode (some cb)
    countryCallback hcity1 hcountry pre).1
  rw [hw, hw0] at hwin
  simp only [cityView, Option.isSome_some, List.filterMap_append, List.filterMap_cons, e1, e2]
    at hwin ⊢
  have hoth : ∀ ls : List GoString, (∀ l ∈ ls, l ∈ pre ++ mid ++ post) →
      ∀ item ∈ ls.filterMap (cityItem p cityIDs),
        cityKeyOf item.1 ≠ cityKeyOf { CityID := r1.geonameID, Lang := r1.lang, Name := r1.name }
      := by
    intro ls hls
    exact cityItems_other_key p cityIDs ls r1.geonameID r1.lang
      (fun l hl => hothers l (hls l hl))
  have hres := pair_in_window cityKeyOf cityMerge (effectiveBatchSize p) (fun _ _ => rfl)
    (pre.filterMap (cityItem p cityIDs)) (mid.filterMap (cityItem p cityIDs))
    (post.filterMap (cityItem p cityIDs))
    { CityID := r1.geonameID, Lang := r1.lang, Name := r1.name }
    { CityID := r2.geonameID, Lang := r2.lang, Name := r2.name }
    r1.isPreferred r2.isPreferred { batch := [], sent := [] }
    (by simp only [cityKeyOf, hid, hlang]) rfl
    (hoth pre (fun l hl => by simp [hl]))
    (hoth mid (fun l hl => by simp [hl]))
    (hoth post (fun l hl => by simp [hl]))
    hwin
  rw [hres]
  cases r2.isPreferred <;> simp [cityMerge]

/-- Counterexample to C1: with batch size 1 the non-preferred row "London" and the later
preferred row "Londinium" of the same city and language are flushed in two batches, so the
name "London" is emitted for the key as well as the later row's name. -/
theorem preferred_later_row_not_alone_across_batches :
    cityBatches (processAlternateNamesFromReaderWithCountryMapping (batchParser 1)
        { lines := [utf8 "1\t100\ten\tLondon\t0", utf8 "2\t100\ten\tLondinium\t1"],
          err := none }
        testCityIDs [] none (some collectCity) none).calls
      = [[⟨100, utf8 "en", utf8 "London"⟩], [⟨100, utf8 "en", utf8 "Londinium"⟩]] ∧
    ¬ (∀ c ∈ (cityBatches (processAlternateNamesFromReaderWithCountryMapping (batchParser 1)
        { lines := [utf8 "1\t100\ten\tLondon\t0", utf8 "2\t100\ten\tLondinium\t1"],
          err := none }
        testCityIDs [] none (some collectCity) none).calls).flatten,
      c.CityID = 100 → c.Lang = utf8 "en" → c.Name = utf8 "Londinium") := by
  decide

/-- Claim C1, amended: take two accepted rows of a known city with the same (entity id,
truncated language), with no other accepted row of that pair in the input and no flush of
the city buffer between them (the city sink has received the same batches when the later row
is read as before the earlier row was read), callbacks that do not fail and a scanner without
error. Then the pass returns nil and the city sink receives exactly one record of that pair:
if the earlier row is non-preferred and the later one preferred it carries the later row's
name, and if the earlier row is preferred and the later one non-preferred it carries the
earlier row's name. -/
theorem dedup_law_within_window (p : Parser) (pre mid post : List GoString) (l1 l2 : GoString)
    (r1 r2 : AltName) (cityIDs : GoMap Int Bool) (countryCodes : GoMap GoString Bool)
    (geonameIDToCountryCode : Option (GoMap Int GoString)) (cb : CityCallback)
    (countryCallback : Option CountryCallback)
    (hcity : ∀ h b, cb h b = none)
    (hcountry : ∀ kb, countryCallback = some kb → ∀ h b, kb h b = none)
    (h1 : parseRow p l1 = some r1) (h2 : parseRow p l2 = some r2)
    (hknown : cityIDs.test r1.geonameID = true)
    (hid : r2.geonameID = r1.geonameID) (hlang : r2.lang = r1.lang)
    (hothers : ∀ l ∈ pre ++ mid ++ post, ∀ r, parseRow p l = some r →
      ¬ (r.geonameID = r1.geonameID ∧ r.lang = r1.lang))
    (hwin : cityBatches (callsAfter p cityIDs countryCodes geonameIDToCountryCode (some cb)
        countryCallback (pre ++ l1 :: mid))
      = cityBatches (callsAfter p cityIDs countryCodes geonameIDToCountryCode (some cb)
        countryCallback pre)) :
    (processAlternateNamesFromReaderWithCountryMapping p
      { lines := pre ++ l1 :: (mid ++ l2 :: post), err := none } cityIDs countryCodes
      geonameIDToCountryCode (some cb) countryCallback).ending = Ending.ok ∧
    (r1.isPreferred = false → r2.isPreferred = true →
      ((cityBatches (processAlternateNamesFromReaderWithCountryMapping p
        { lines := pre ++ l1 :: (mid ++ l2 :: post), err := none } cityIDs countryCodes
        geonameIDToCountryCode (some cb) countryCallback).calls).flatten).filter
          (fun c => decide (c.CityID = r1.geonameID ∧ c.Lang = r1.lang))
        = [{ CityID := r1.geonameID, Lang := r1.lang, Name := r2.name }]) ∧
    (r1.isPreferred = true → r2.isPreferred = false →
      ((cityBatches (processAlternateNamesFromReaderWithCountryMapping p
        { lines := pre ++ l1 :: (mid ++ l2 :: post), err := none } cityIDs countryCodes
        geonameIDToCountryCode (some cb) countryCallback).calls).flatten).filter
          (fun c => decide (c.CityID = r1.geonameID ∧ c.Lang = r1.lang))
        = [{ CityID := r1.geonameID, Lang := r1.lang, Name := r1.name }]) := by
  obtain ⟨hend, hf⟩ := city_pair_in_window p pre mid post l1 l2 r1 r2 cityIDs countryCodes
    geonameIDToCountryCode cb countryCallback hcity hcountry h1 h2 hknown hid hlang hothers hwin
  refine ⟨hend, ?_, ?_⟩
  · intro _ hp2
    rw [hf, hp2]
    rfl
  · intro _ hp2
    rw [hf, hp2]
    rfl

/-- Witness of C1: batch size 10, the rows "London" (non-preferred), a Russian row in
between, and "Londinium" (preferred): the one record for (100, en) is "Londinium". -/
theorem dedup_law_within_window_witness :
    ((cityBatches (processAlternateNamesFromReaderWithCountryMapping (testParser [])
        { lines := [] ++ utf8 "1\t100\ten\tLondon\t0" ::
            ([utf8 "2\t100\tru\tЛондон\t0"] ++ utf8 "3\t100\ten\tLondinium\t1" :: []),
          err := none }
        testCityIDs [] none (some collectCity) none).calls).flatten).filter
          (fun c => decide (c.CityID = 100 ∧ c.Lang = utf8 "en"))
      = [{ CityID := 100, Lang := utf8 "en", Name := utf8 "Londinium" }] :=
  (dedup_law_within_window (testParser []) [] [utf8 "2\t100\tru\tЛондон\t0"] []
    (utf8 "1\t100\ten\tLondon\t0") (utf8 "3\t100\ten\tLondinium\t1")
    { geonameID := 100, lang := utf8 "en", name := utf8 "London", isPreferred := false }
    { geonameID := 100, lang := utf8 "en", name := utf8 "Londinium", isPreferred := true }
    testCityIDs [] none collectCity none (fun _ _ => rfl)
    (fun _ hkb => Option.noConfusion hkb) (by decide) (by decide) (by decide) rfl rfl
    (by
      intro l hl r hr
      simp only [List.nil_append, List.append_nil, List.mem_singleton] at hl
      subst hl
      have hrow : parseRow (testParser []) (utf8 "2\t100\tru\tЛондон\t0")
          = some { geonameID := 100, lang := utf8 "ru", name := utf8 "Лондон",
                   isPreferred := false } := by decide
      rw [hrow] at hr
      cases hr
      decide)
    (by decide)).2.1 rfl rfl

/-- Counterexample to C2: of two preferred rows with the same key in one batch, the name of
the later one, "Londinium", is emitted, not the name "London" of the first preferred row. -/
theorem first_preferred_does_not_win :
    cityBatches (processAlternateNamesFromReaderWithCountryMapping (testParser [])
        { lines := [utf8 "1\t100\ten\tLondon\t1", utf8 "2\t100\ten\tLondinium\t1"],
          err := none }
        testCityIDs [] none (some collectCity) none).calls
      = [[⟨100, utf8 "en", utf8 "Londinium"⟩]] ∧
    ¬ (∀ c ∈ (cityBatches (processAlternateNamesFromReaderWithCountryMapping (testParser [])
        { lines := [utf8 "1\t100\ten\tLondon\t1", utf8 "2\t100\ten\tLondinium\t1"],
          err := none }
        testCityIDs [] none (some collectCity) none).calls).flatten,
      c.CityID = 100 → c.Lang = utf8 "en" → c.Name = utf8 "London") := by
  decide

/-- Claim C2, amended: deduplication is last-preferred-wins inside a batch window. Take two
accepted rows of a known city with the same (entity id, truncated language), with no other
accepted row of that pair and no flush of the city buffer between them, callbacks that do
not fail and a scanner without error. If both rows are preferred, the one record emitted for
the pair carries the name of the later row; in general a later preferred row overrides the
earlier row whether or not that one is preferred, and a later non-preferred row overrides
nothing. -/
theorem last_preferred_wins_within_window (p : Parser) (pre mid post : List GoString)
    (l1 l2 : GoString) (r1 r2 : AltName) (cityIDs : GoMap Int Bool)
    (countryCodes : GoMap GoString Bool) (geonameIDToCountryCode : Option (GoMap Int GoString))
    (cb : CityCallback) (countryCallback : Option CountryCallback)
    (hcity : ∀ h b, cb h b = none)
    (hcountry : ∀ kb, countryCallback = some kb → ∀ h b, kb h b = none)
    (h1 : parseRow p l1 = some r1) (h2 : parseRow p l2 = some r2)
    (hknown : cityIDs.test r1.geonameID = true)
    (hid : r2.geonameID = r1.geonameID) (hlang : r2.lang = r1.lang)
    (hothers : ∀ l ∈ pre ++ mid ++ post, ∀ r, parseRow p l = some r →
      ¬ (r.geonameID = r1.geonameID ∧ r.lang = r1.lang))
    (hwin : cityBatches (callsAfter p cityIDs countryCodes geonameIDToCountryCode (some cb)
        countryCallback (pre ++ l1 :: mid))
      = cityBatches (callsAfter p cityIDs countryCodes geonameIDToCountryCode (some cb)
        countryCallback pre)) :
    (r1.isPreferred = true → r2.isPreferred = true →
      ((cityBatches (processAlternateNamesFromReaderWithCountryMapping p
        { lines := pre ++ l1 :: (mid ++ l2 :: post), err := none } cityIDs countryCodes
        geonameIDToCountryCode (some cb) countryCallback).calls).flatten).filter
          (fun c => decide (c.CityID = r1.geonameID ∧ c.Lang = r1.lang))
        = [{ CityID := r1.geonameID, Lang := r1.lang, Name := r2.name }]) ∧
    ((cityBatches (processAlternateNamesFromReaderWithCountryMapping p
        { lines := pre ++ l1 :: (mid ++ l2 :: post), err := none } cityIDs countryCodes
        geonameIDToCountryCode (some cb) countryCallback).calls).flatten).filter
          (fun c => decide (c.CityID = r1.geonameID ∧ c.Lang = r1.lang))
        = [{ CityID := r1.geonameID, Lang := r1.lang,
             Name := if r2.isPreferred then r2.name else r1.name }] := by
  obtain ⟨_, hf⟩ := city_pair_in_window p pre mid post l1 l2 r1 r2 cityIDs countryCodes
    geonameIDToCountryCode cb countryCallback hcity hcountry h1 h2 hknown hid hlang hothers hwin
  refine ⟨?_, hf⟩
  intro _ hp2
  rw [hf, hp2]
  rfl

/-- Witness of C2: two preferred rows for (100, en) in one batch; "Londinium", the later
one, is emitted. -/
theorem last_preferred_wins_within_window_witness :
    ((cityBatches (processAlternateNamesFromReaderWithCountryMapping (testParser [])
        { lines := [] ++ utf8 "1\t100\ten\tLondon\t1" ::
            ([] ++ utf8 "2\t100\ten\tLondinium\t1" :: []),
          err := none }
        testCityIDs [] none (some collectCity) none).calls).flatten).filter
          (fun c => decide (c.CityID = 100 ∧ c.Lang = utf8 "en"))
      = [{ CityID := 100, Lang := utf8 "en", Name := utf8 "Londinium" }] :=
  (last_preferred_wins_within_window (testParser []) [] [] []
    (utf8 "1\t100\ten\tLondon\t1") (utf8 "2\t100\ten\tLondinium\t1")
    { geonameID := 100, lang := utf8 "en", name := utf8 "London", isPreferred := true }
    { geonameID := 100, lang := utf8 "en", name := utf8 "Londinium", isPreferred := true }
    testCityIDs [] none collectCity none (fun _ _ => rfl)
    (fun _ hkb => Option.noConfusion hkb) (by decide) (by decide) (by decide) rfl rfl
    (by
      intro l hl
      simp at hl)
    (by decide)).1 rfl rfl

/-! ## Counting the batches -/

theorem ceil_div_eq (n b : Nat) (hb : 0 < b) :
    (n + b - 1) / b = n / b + if n % b > 0 then 1 else 0 := by
  have hn := Nat.div_add_mod n b
  by_cases hr : n % b > 0
  · rw [if_pos hr]
    have h1 : n + b - 1 = (n % b - 1) + (n / b + 1) * b := by
      have : (n / b + 1) * b = b * (n / b) + b := by ring
      omega
    rw [h1, Nat.add_mul_div_right _ _ hb, Nat.div_eq_of_lt (by
      have := Nat.mod_lt n hb
      omega)]
    omega
  · rw [if_neg hr]
    have h0 : n % b = 0 := by omega
    have h1 : n + b - 1 = (b - 1) + (n / b) * b := by
      have : (n / b) * b = b * (n / b) := by ring
      omega
    rw [h1, Nat.add_mul_div_right _ _ hb, Nat.div_eq_of_lt (by omega)]
    omega

/-- Candidates with pairwise distinct keys, none of them in the buffer: every one is
appended, and a batch is handed over each time the buffer holds `b` records. -/
theorem foldl_put_distinct {ρ : Type} (keyOf : ρ → GoString) (merge : ρ → ρ → ρ) (b : Nat)
    (hb : 0 < b) (items : List (ρ × Bool)) :
    ∀ v : SinkView ρ,
      (v.batch.map keyOf ++ items.map (fun item => keyOf item.1)).Nodup →
      v.batch.length < b → (∀ s ∈ v.sent, s.length = b) →
      ((items.foldl (SinkView.put keyOf merge (b : Int) true) v).sent.length
          = v.sent.length + (v.batch.length + items.length) / b) ∧
      ((items.foldl (SinkView.put keyOf merge (b : Int) true) v).batch.length
          = (v.batch.length + items.length) % b) ∧
      (∀ s ∈ (items.foldl (SinkView.put keyOf merge (b : Int) true) v).sent,
          s.length = b) := by
  induction items with
  | nil =>
    intro v _ hlt hsent
    simp only [List.foldl_nil, List.length_nil, Nat.add_zero]
    rw [Nat.div_eq_of_lt hlt, Nat.mod_eq_of_lt hlt]
    exact ⟨rfl, rfl, hsent⟩
  | cons item rest ih =>
    intro v hnd hlt hsent
    obtain ⟨rec, pref⟩ := item
    have hnew : keyOf rec ∉ v.batch.map keyOf := by
      intro hmem
      rw [List.map_cons, List.nodup_append] at hnd
      exact hnd.2.2 hmem (List.mem_cons_self _ _)
    have hput : putBatch keyOf (fun x => merge x rec) rec pref v.batch = v.batch ++ [rec] :=
      putBatch_of_not_mem _ _ _ _ _ hnew
    rw [List.foldl_cons, SinkView.put_eq, hput]
    have hrest : (rest.map (fun item => keyOf item.1)).Nodup := by
      rw [List.map_cons, List.nodup_append] at hnd
      exact (List.nodup_cons.mp hnd.2.1).2
    by_cases hfull : ((v.batch ++ [rec]).length : Int) ≥ (b : Int)
    · rw [if_pos hfull]
      have hlen : v.batch.length + 1 = b := by
        have : (v.batch ++ [rec]).length = v.batch.length + 1 := by simp
        rw [this] at hfull
        omega
      have := ih { batch := [], sent := v.sent ++ [v.batch ++ [rec]] }
        (by simpa using hrest) (by simpa using hb)
        (by
          intro s hs
          rw [List.mem_append, List.mem_singleton] at hs
          rcases hs with hs | hs
          · exact hsent s hs
          · rw [hs]
            simpa using hlen)
      simp only [if_true] at this ⊢
      obtain ⟨t1, t2, t3⟩ := this
      refine ⟨?_, ?_, t3⟩
      · rw [t1]
        simp only [List.length_append, List.length_singleton, List.length_nil, Nat.zero_add,
          List.length_cons]
        have e : v.batch.length + (rest.length + 1) = rest.length + b := by omega
        rw [e, Nat.add_div_right _ hb]
        omega
      · rw [t2]
        simp only [List.length_nil, Nat.zero_add, List.length_cons]
        have e : v.batch.length + (rest.length + 1) = rest.length + b := by omega
        rw [e, Nat.add_mod_right]
    · rw [if_neg hfull]
      have hlen : v.batch.length + 1 < b := by
        have : (v.batch ++ [rec]).length = v.batch.length + 1 := by simp
        rw [this] at hfull
        omega
      have := ih { batch := v.batch ++ [rec], sent := v.sent }
        (by
          simp only [List.map_append, List.map_singleton, List.append_assoc,
            List.singleton_append]
          simpa using hnd)
        (by simpa using hlen) hsent
      obtain ⟨t1, t2, t3⟩ := this
      have e : (v.batch ++ [rec]).length + rest.length
          = v.batch.length + ((rec, pref) :: rest).length := by
        rw [List.length_append, List.length_singleton, List.length_cons]
        clear t1 t2 t3 ih hnd hsent hfull
        omega
      refine ⟨?_, ?_, t3⟩
      · rw [t1]
        show v.sent.length + ((v.batch ++ [rec]).length + rest.length) / b = _
        rw [e]
      · rw [t2]
        show ((v.batch ++ [rec]).length + rest.length) % b = _
        rw [e]

/-- Claim C3, amended: for an input whose accepted city rows (accepted rows with a known
city id) are N rows with pairwise distinct dedup keys, a configured batch size B > 0,
callbacks that do not fail and a scanner without error, the pass returns nil, the city sink
callback is invoked exactly ⌈N/B⌉ = (N + B - 1) / B times, and every invocation except the
last carries exactly B records. -/
theorem batch_size_law (p : Parser) (lines : List GoString) (cityIDs : GoMap Int Bool)
    (countryCodes : GoMap GoString Bool) (geonameIDToCountryCode : Option (GoMap Int GoString))
    (cb : CityCallback) (countryCallback : Option CountryCallback)
    (hcity : ∀ h b, cb h b = none)
    (hcountry : ∀ kb, countryCallback = some kb → ∀ h b, kb h b = none)
    (hB : 0 < p.batchSize)
    (hdistinct : ((lines.filterMap (cityItem p cityIDs)).map
      (fun item => cityKey item.1.CityID item.1.Lang)).Nodup) :
    (processAlternateNamesFromReaderWithCountryMapping p { lines := lines, err := none }
      cityIDs countryCodes geonameIDToCountryCode (some cb) countryCallback).ending
      = Ending.ok ∧
    (cityBatches (processAlternateNamesFromReaderWithCountryMapping p
      { lines := lines, err := none } cityIDs countryCodes geonameIDToCountryCode (some cb)
      countryCallback).calls).length
      = ((lines.filterMap (cityItem p cityIDs)).length + p.batchSize.toNat - 1)
          / p.batchSize.toNat ∧
    (∀ s ∈ (cityBatches (processAlternateNamesFromReaderWithCountryMapping p
      { lines := lines, err := none } cityIDs countryCodes geonameIDToCountryCode (some cb)
      countryCallback).calls).dropLast, (s.length : Int) = p.batchSize) := by
  have hcity1 : ∀ c, some cb = some c → ∀ h b, c h b = none := by
    intro c hc
    cases hc
    exact hcity
  obtain ⟨hend, hcb, _⟩ := process_nonfailing p { lines := lines, err := none } cityIDs
    countryCodes geonameIDToCountryCode (some cb) countryCallback hcity1 hcountry rfl
  refine ⟨hend, ?_⟩
  rw [hcb, Option.isSome_some]
  have hbn : 0 < p.batchSize.toNat := by omega
  have hbs : effectiveBatchSize p = ((p.batchSize.toNat : Nat) : Int) := by
    unfold effectiveBatchSize
    rw [if_neg (by omega)]
    omega
  have hcount := foldl_put_distinct cityKeyOf cityMerge p.batchSize.toNat hbn
    (lines.filterMap (cityItem p cityIDs)) { batch := [], sent := [] }
    (by simpa [cityKeyOf] using hdistinct) (by simpa using hbn) (by simp)
  simp only [List.length_nil, Nat.zero_add] at hcount
  obtain ⟨c1, c2, c3⟩ := hcount
  unfold cityView
  simp only [hbs]
  generalize (lines.filterMap (cityItem p cityIDs)).foldl
    (SinkView.put cityKeyOf cityMerge ((p.batchSize.toNat : Nat) : Int) true)
    { batch := [], sent := [] } = w at c1 c2 c3 ⊢
  generalize (lines.filterMap (cityItem p cityIDs)).length = n at c1 c2 ⊢
  have hp : (p.batchSize.toNat : Int) = p.batchSize := by omega
  unfold SinkView.close
  by_cases hw : w.batch.length > 0
  · rw [if_pos ⟨hw, rfl⟩]
    constructor
    · rw [List.length_append, List.length_singleton, c1, ceil_div_eq n _ hbn, if_pos (by omega)]
    · intro s hs
      rw [List.dropLast_concat] at hs
      rw [c3 s hs, hp]
  · rw [if_neg (fun h => hw h.1)]
    constructor
    · rw [c1, ceil_div_eq n _ hbn, if_neg (by omega)]
      rfl
    · intro s hs
      rw [c3 s (List.mem_of_mem_dropLast hs), hp]

/-- Witness of C3: five accepted city rows with distinct keys and batch size 2 give three
invocations. -/
theorem batch_size_law_witness :
    (cityBatches (processAlternateNamesFromReaderWithCountryMapping (batchParser 2)
      { lines := fiveRows, err := none } testCityIDs [] none (some collectCity)
      none).calls).length = 3 :=
  (batch_size_law (batchParser 2) fiveRows testCityIDs [] none collectCity none
    (fun _ _ => rfl) (fun _ hkb => Option.noConfusion hkb) (by decide)
    (by decide)).2.1.trans (by decide)

/-! ## Records in a sink view -/

theorem putBatch_all {ρ : Type} (keyOf : ρ → GoString) (rename : ρ → ρ) (rec : ρ)
    (isPreferred : Bool) (batch : List ρ) (Q : ρ → Prop) (hb : ∀ x ∈ batch, Q x) (hrec : Q rec)
    (hren : ∀ x, Q x → Q (rename x)) :
    ∀ x ∈ putBatch keyOf rename rec isPreferred batch, Q x := by
  unfold putBatch
  intro x hx
  split_ifs at hx
  · rw [List.mem_map] at hx
    obtain ⟨y, hy, rfl⟩ := hx
    split_ifs
    · exact hren y (hb y hy)
    · exact hb y hy
  · exact hb x hx
  · rw [List.mem_append, List.mem_singleton] at hx
    rcases hx with hx | hx
    · exact hb x hx
    · rw [hx]; exact hrec

/-- A property of the candidates that renaming keeps holds of every record the sink buffers
or hands over. -/
theorem foldl_put_all {ρ : Type} (keyOf : ρ → GoString) (merge : ρ → ρ → ρ) (batchSize : Int)
    (deliver : Bool) (Q : ρ → Prop) (hQ : ∀ x y, Q x → Q (merge x y))
    (items : List (ρ × Bool)) :
    ∀ v : SinkView ρ, (∀ x ∈ v.batch, Q x) → (∀ s ∈ v.sent, ∀ x ∈ s, Q x) →
      (∀ item ∈ items, Q item.1) →
      (∀ x ∈ (items.foldl (SinkView.put keyOf merge batchSize deliver) v).batch, Q x) ∧
      (∀ s ∈ (items.foldl (SinkView.put keyOf merge batchSize deliver) v).sent,
        ∀ x ∈ s, Q x) := by
  induction items with
  | nil => intro v hb hs _; exact ⟨hb, hs⟩
  | cons item rest ih =>
    intro v hb hs hitems
    obtain ⟨rec, pref⟩ := item
    have hnew := putBatch_all keyOf (fun x => merge x rec) rec pref v.batch Q hb
      (hitems (rec, pref) (List.mem_cons_self _ _)) (fun x hx => hQ x rec hx)
    rw [List.foldl_cons, SinkView.put_eq]
    have hrest : ∀ item ∈ rest, Q item.1 := fun it hit => hitems it (List.mem_cons_of_mem _ hit)
    by_cases hB : ((putBatch keyOf (fun x => merge x rec) rec pref v.batch).length : Int)
        ≥ batchSize
    · rw [if_pos hB]
      apply ih _ _ _ hrest
      · intro x hx
        simp at hx
      · cases deliver with
        | false => exact hs
        | true =>
          intro s hs1 x hx
          simp only [if_true, List.mem_append, List.mem_singleton] at hs1
          rcases hs1 with hs1 | hs1
          · exact hs s hs1 x hx
          · rw [hs1] at hx
            exact hnew x hx
    · rw [if_neg hB]
      exact ih _ hnew hs hrest

theorem close_all {ρ : Type} (deliver : Bool) (v : SinkView ρ) (Q : ρ → Prop)
    (hb : ∀ x ∈ v.batch, Q x) (hs : ∀ s ∈ v.sent, ∀ x ∈ s, Q x) :
    ∀ s ∈ v.close deliver, ∀ x ∈ s, Q x := by
  unfold SinkView.close
  intro s hs1 x hx
  split_ifs at hs1
  · rw [List.mem_append, List.mem_singleton] at hs1
    rcases hs1 with hs1 | hs1
    · exact hs s hs1 x hx
    · rw [hs1] at hx; exact hb x hx
  · exact hs s hs1 x hx

theorem countryItem_some (p : Parser) (countryCodes : GoMap GoString Bool)
    (geonameIDToCountryCode : Option (GoMap Int GoString)) (configured : Bool)
    (line : GoString) (item : CountryTranslation × Bool)
    (h : countryItem p countryCodes geonameIDToCountryCode configured line = some item) :
    ∃ r m code, parseRow p line = some r ∧ geonameIDToCountryCode = some m ∧
      m.get? r.geonameID = some code ∧ configured = true ∧ countryCodes.test code = true ∧
      item = ({ CountryCode := code, Lang := r.lang, Name := r.name }, r.isPreferred) := by
  unfold countryItem at h
  cases hrow : parseRow p line with
  | none => simp [hrow] at h
  | some r =>
    cases hm : geonameIDToCountryCode with
    | none => simp [hrow, hm] at h
    | some m =>
      rw [hrow, hm] at h
      dsimp only at h
      cases hg : m.get? r.geonameID with
      | none => simp [hg] at h
      | some code =>
        rw [hg] at h
        dsimp only at h
        by_cases hc : configured = true ∧ countryCodes.test code = true
        · rw [if_pos hc] at h
          exact ⟨r, m, code, rfl, rfl, hg, hc.1, hc.2, (Option.some.inj h).symm⟩
        · rw [if_neg hc] at h
          exact Option.noConfusion h

/-- With callbacks that do not fail, a property of the accepted rows' records that renaming
keeps holds of every record delivered to either sink. -/
theorem delivered_records_all (p : Parser) (lines : List GoString) (cityIDs : GoMap Int Bool)
    (countryCodes : GoMap GoString Bool) (geonameIDToCountryCode : Option (GoMap Int GoString))
    (cityCallback : Option CityCallback) (countryCallback : Option CountryCallback)
    (hcity : ∀ cb, cityCallback = some cb → ∀ h b, cb h b = none)
    (hcountry : ∀ cb, countryCallback = some cb → ∀ h b, cb h b = none)
    (Qc : CityTranslation → Prop) (Qk : CountryTranslation → Prop)
    (hQc : ∀ x y, Qc x → Qc (cityMerge x y)) (hQk : ∀ x y, Qk x → Qk (countryMerge x y))
    (hc : ∀ item ∈ lines.filterMap (cityItem p cityIDs), Qc item.1)
    (hk : ∀ item ∈ lines.filterMap
      (countryItem p countryCodes geonameIDToCountryCode countryCallback.isSome), Qk item.1) :
    (∀ s ∈ cityBatches (processAlternateNamesFromReaderWithCountryMapping p
      { lines := lines, err := none } cityIDs countryCodes geonameIDToCountryCode cityCallback
      countryCallback).calls, ∀ c ∈ s, Qc c) ∧
    (∀ s ∈ countryBatches (processAlternateNamesFromReaderWithCountryMapping p
      { lines := lines, err := none } cityIDs countryCodes geonameIDToCountryCode cityCallback
      countryCallback).calls, ∀ c ∈ s, Qk c) := by
  obtain ⟨_, hcb, hkb⟩ := process_nonfailing p { lines := lines, err := none } cityIDs
    countryCodes geonameIDToCountryCode cityCallback countryCallback hcity hcountry rfl
  rw [hcb, hkb]
  constructor
  · have := foldl_put_all cityKeyOf cityMerge (effectiveBatchSize p) cityCallback.isSome Qc hQc
      (lines.filterMap (cityItem p cityIDs)) { batch := [], sent := [] } (by simp) (by simp) hc
    exact close_all _ _ Qc this.1 this.2
  · have := foldl_put_all countryKeyOf countryMerge (effectiveBatchSize p) true Qk hQk
      (lines.filterMap (countryItem p countryCodes geonameIDToCountryCode
        countryCallback.isSome)) { batch := [], sent := [] } (by simp) (by simp) hk
    exact close_all _ _ Qk this.1 this.2

theorem truncatedLang_of_parseRow (p : Parser) (line : GoString) (r : AltName)
    (h : parseRow p line = some r) :
    r.lang = truncatedLang line ∧ r.lang ≠ [] ∧ r.lang.length ≤ 2 ∧
    (p.allowedLanguages.len > 0 → p.allowedLanguages.test r.lang = true) := by
  rw [parseRow_eq] at h
  split_ifs at h with hrej
  have hr := Option.some.inj h
  have hlang : r.lang = truncatedLang line := by rw [← hr]
  have hmal : ¬ malformedRow line = true := fun e => hrej (Or.inl e)
  have hall : ¬ (p.allowedLanguages.len > 0 ∧
      p.allowedLanguages.test (truncatedLang line) = false) :=
    fun e => hrej (Or.inr (Or.inr (Or.inr e)))
  refine ⟨hlang, ?_, ?_, ?_⟩
  · rw [hlang]
    unfold truncatedLang
    intro hnil
    apply hmal
    unfold malformedRow
    apply decide_eq_true
    right; right; left
    cases hf : (fields line).getD 2 [] with
    | nil => rfl
    | cons a l => rw [hf] at hnil; simp at hnil
  · rw [hlang]
    unfold truncatedLang
    simp
  · intro hlen
    rw [hlang]
    by_contra hne
    exact hall ⟨hlen, by simpa using hne⟩

/-- Claim C9, amended: for every accepted row the language carried into classification (the
one tested against the allow-list and put into the dedup key and the record) is the raw
language code cut to its first 2 bytes, which is the raw code itself when that has at most 2
bytes; it is not empty and at most 2 bytes long, so it may be a single byte. With callbacks
that do not fail every record delivered to either sink carries the truncated code of an
accepted input row, and the locale variant "en-GB" collapses to "en". -/
theorem emitted_language_is_truncated (p : Parser) (lines : List GoString)
    (cityIDs : GoMap Int Bool) (countryCodes : GoMap GoString Bool)
    (geonameIDToCountryCode : Option (GoMap Int GoString))
    (cityCallback : Option CityCallback) (countryCallback : Option CountryCallback)
    (hcity : ∀ cb, cityCallback = some cb → ∀ h b, cb h b = none)
    (hcountry : ∀ cb, countryCallback = some cb → ∀ h b, cb h b = none) :
    (∀ line r, parseRow p line = some r →
      r.lang = ((fields line).getD 2 []).take 2 ∧ r.lang ≠ [] ∧ r.lang.length ≤ 2 ∧
      (((fields line).getD 2 []).length ≤ 2 → r.lang = (fields line).getD 2 []) ∧
      (p.allowedLanguages.len > 0 → p.allowedLanguages.test r.lang = true)) ∧
    (∀ s ∈ cityBatches (processAlternateNamesFromReaderWithCountryMapping p
        { lines := lines, err := none } cityIDs countryCodes geonameIDToCountryCode
        cityCallback countryCallback).calls, ∀ c ∈ s,
      c.Lang ≠ [] ∧ c.Lang.length ≤ 2 ∧
      ∃ line ∈ lines, ∃ r, parseRow p line = some r ∧ c.CityID = r.geonameID ∧
        c.Lang = ((fields line).getD 2 []).take 2) ∧
    (∀ s ∈ countryBatches (processAlternateNamesFromReaderWithCountryMapping p
        { lines := lines, err := none } cityIDs countryCodes geonameIDToCountryCode
        cityCallback countryCallback).calls, ∀ c ∈ s,
      c.Lang ≠ [] ∧ c.Lang.length ≤ 2 ∧
      ∃ line ∈ lines, ∃ r, parseRow p line = some r ∧
        c.Lang = ((fields line).getD 2 []).take 2) ∧
    parseRow (testParser []) (utf8 "1\t100\ten-GB\tLondon")
      = some { geonameID := 100, lang := utf8 "en", name := utf8 "London",
               isPreferred := false } := by
  have hrow : ∀ line r, parseRow p line = some r →
      r.lang = ((fields line).getD 2 []).take 2 ∧ r.lang ≠ [] ∧ r.lang.length ≤ 2 ∧
      (((fields line).getD 2 []).length ≤ 2 → r.lang = (fields line).getD 2 []) ∧
      (p.allowedLanguages.len > 0 → p.allowedLanguages.test r.lang = true) := by
    intro line r h
    obtain ⟨a, b, c, d⟩ := truncatedLang_of_parseRow p line r h
    refine ⟨a, b, c, ?_, d⟩
    intro hlen
    rw [a]
    exact List.take_of_length_le hlen
  have hdel := delivered_records_all p lines cityIDs countryCodes geonameIDToCountryCode
    cityCallback countryCallback hcity hcountry
    (fun c => c.Lang ≠ [] ∧ c.Lang.length ≤ 2 ∧
      ∃ line ∈ lines, ∃ r, parseRow p line = some r ∧ c.CityID = r.geonameID ∧
        c.Lang = ((fields line).getD 2 []).take 2)
    (fun c => c.Lang ≠ [] ∧ c.Lang.length ≤ 2 ∧
      ∃ line ∈ lines, ∃ r, parseRow p line = some r ∧
        c.Lang = ((fields line).getD 2 []).take 2)
    (fun x _ hx => hx) (fun x _ hx => hx)
    (by
      intro item hitem
      rw [List.mem_filterMap] at hitem
      obtain ⟨l, hl, hsome⟩ := hitem
      obtain ⟨r, hr, _, rfl⟩ := cityItem_some p cityIDs l item hsome
      obtain ⟨a, b, c, _⟩ := hrow l r hr
      exact ⟨b, c, l, hl, r, hr, rfl, a⟩)
    (by
      intro item hitem
      rw [List.mem_filterMap] at hitem
      obtain ⟨l, hl, hsome⟩ := hitem
      obtain ⟨r, m, code, hr, _, _, _, _, rfl⟩ := countryItem_some p countryCodes
        geonameIDToCountryCode countryCallback.isSome l item hsome
      obtain ⟨a, b, c, _⟩ := hrow l r hr
      exact ⟨b, c, l, hl, r, hr, a⟩)
  exact ⟨hrow, hdel.1, hdel.2, by decide⟩

/-- Witness of C9: the row with the locale variant "en-GB" is accepted with the language
"en", the first 2 bytes of its raw code. -/
theorem emitted_language_is_truncated_witness :
    parseRow (testParser []) (utf8 "1\t100\ten-GB\tLondon")
      = some { geonameID := 100, lang := utf8 "en", name := utf8 "London",
               isPreferred := false } ∧
    utf8 "en" = ((fields (utf8 "1\t100\ten-GB\tLondon")).getD 2 []).take 2 ∧
    (utf8 "en").length ≤ 2 :=
  ⟨by decide,
   ((emitted_language_is_truncated (testParser []) [utf8 "1\t100\ten-GB\tLondon"]
      testCityIDs [] none (some collectCity) none
      (fun cb hcb => by cases hcb; exact fun _ _ => rfl)
      (fun _ hkb => Option.noConfusion hkb)).1 (utf8 "1\t100\ten-GB\tLondon")
      { geonameID := 100, lang := utf8 "en", name := utf8 "London", isPreferred := false }
      (by decide)).1,
   ((emitted_language_is_truncated (testParser []) [utf8 "1\t100\ten-GB\tLondon"]
      testCityIDs [] none (some collectCity) none
      (fun cb hcb => by cases hcb; exact fun _ _ => rfl)
      (fun _ hkb => Option.noConfusion hkb)).1 (utf8 "1\t100\ten-GB\tLondon")
      { geonameID := 100, lang := utf8 "en", name := utf8 "London", isPreferred := false }
      (by decide)).2.2.1⟩

theorem single_put_close {ρ : Type} (keyOf : ρ → GoString) (merge : ρ → ρ → ρ)
    (batchSize : Int) (deliver : Bool) (rec : ρ) (pref : Bool) :
    (SinkView.put keyOf merge batchSize deliver { batch := [], sent := [] }
        (rec, pref)).close deliver
      = if deliver = true then [[rec]] else [] := by
  rw [SinkView.put_eq]
  have hput : putBatch keyOf (fun x => merge x rec) rec pref [] = [rec] := by
    simp [putBatch]
  rw [hput]
  by_cases hB : (([rec] : List ρ).length : Int) ≥ batchSize
  · rw [if_pos hB]
    cases deliver <;> simp [SinkView.close]
  · rw [if_neg hB]
    cases deliver <;> simp [SinkView.close]

theorem countryCodeOf_eq_some_iff (countryCodes : GoMap GoString Bool)
    (geonameIDToCountryCode : Option (GoMap Int GoString)) (configured : Bool)
    (geonameID : Int) (code : GoString) :
    countryCodeOf countryCodes geonameIDToCountryCode configured geonameID = some code ↔
      (configured = true ∧ ∃ m, geonameIDToCountryCode = some m ∧
        m.get? geonameID = some code ∧ countryCodes.test code = true) := by
  unfold countryCodeOf
  cases geonameIDToCountryCode with
  | none => simp
  | some m =>
    dsimp only
    cases hg : m.get? geonameID with
    | none =>
      dsimp only
      constructor
      · intro h
        exact Option.noConfusion h
      · rintro ⟨_, m1, hm, hcode, _⟩
        cases hm
        rw [hg] at hcode
        exact Option.noConfusion hcode
    | some c =>
      dsimp only
      constructor
      · intro h
        by_cases hc : configured = true ∧ countryCodes.test c = true
        · rw [if_pos hc] at h
          cases h
          exact ⟨hc.1, m, rfl, hg, hc.2⟩
        · rw [if_neg hc] at h
          exact Option.noConfusion h
      · rintro ⟨h1, m1, hm, hcode, h2⟩
        cases hm
        rw [hg] at hcode
        cases hcode
        rw [if_pos ⟨h1, h2⟩]

theorem countryItem_eq (p : Parser) (countryCodes : GoMap GoString Bool)
    (geonameIDToCountryCode : Option (GoMap Int GoString)) (configured : Bool)
    (line : GoString) (r : AltName) (hrow : parseRow p line = some r) :
    countryItem p countryCodes geonameIDToCountryCode configured line
      = (countryCodeOf countryCodes geonameIDToCountryCode configured r.geonameID).map
          (fun code => ({ CountryCode := code, Lang := r.lang, Name := r.name },
            r.isPreferred)) := by
  unfold countryItem countryCodeOf
  rw [hrow]
  cases geonameIDToCountryCode with
  | none => rfl
  | some m =>
    dsimp only
    cases hg : m.get? r.geonameID with
    | none => rfl
    | some c =>
      dsimp only
      by_cases hc : configured = true ∧ countryCodes.test c = true
      · rw [if_pos hc, if_pos hc]
        rfl
      · rw [if_neg hc, if_neg hc]
        rfl

/-! ## Sink failures -/

theorem AllSucceeded_nil (cityCallback : Option CityCallback)
    (countryCallback : Option CountryCallback) :
    AllSucceeded cityCallback countryCallback [] := by
  intro pre call post h
  simp at h

theorem AllSucceeded_concat (cityCallback : Option CityCallback)
    (countryCallback : Option CountryCallback) (calls : List SinkCall) (call : SinkCall)
    (h : AllSucceeded cityCallback countryCallback calls)
    (hcall : callResult cityCallback countryCallback calls call = none) :
    AllSucceeded cityCallback countryCallback (calls ++ [call]) := by
  intro pre c post heq
  rcases List.eq_nil_or_concat post with hp | ⟨post1, y, hp⟩
  · subst hp
    have := List.append_inj' heq rfl
    obtain ⟨h1, h2⟩ := this
    subst h1
    cases h2
    exact hcall
  · subst hp
    have heq2 : calls ++ [call] = (pre ++ c :: post1) ++ [y] := by
      rw [heq]
      simp
    have := List.append_inj' heq2 rfl
    exact h pre c post1 this.1

/-- In a list of calls that ends with the one failing invocation, an invocation that
returned an error is the last one. -/
theorem FailedLast_unique (cityCallback : Option CityCallback)
    (countryCallback : Option CountryCallback) (calls : List SinkCall) (err : GoError)
    (h : FailedLast cityCallback countryCallback calls err)
    (pre : List SinkCall) (call : SinkCall) (post : List SinkCall) (e : GoError)
    (heq : calls = pre ++ call :: post)
    (hres : callResult cityCallback countryCallback pre call = some e) :
    post = [] ∧ err = GoError.wrapped (sinkContext call) e := by
  obtain ⟨pre0, call0, e0, hc, hgood, hfail, herr⟩ := h
  rcases List.eq_nil_or_concat post with hp | ⟨post1, y, hp⟩
  · subst hp
    rw [hc] at heq
    obtain ⟨h1, h2⟩ := List.append_inj' heq rfl
    subst h1
    cases h2
    rw [hres] at hfail
    cases hfail
    exact ⟨rfl, herr⟩
  · subst hp
    have heq2 : pre0 ++ [call0] = (pre ++ call :: post1) ++ [y] := by
      rw [← hc, heq]
      simp
    have := (List.append_inj' heq2 rfl).1
    have hn := hgood pre call post1 this
    rw [hres] at hn
    exact Option.noConfusion hn

theorem cityStep_calls (batchSize : Int) (cityCallback : Option CityCallback)
    (countryCallback : Option CountryCallback) (r : AltName) (st : LoopState)
    (h : AllSucceeded cityCallback countryCallback st.calls) :
    FlowCallsOk cityCallback countryCallback (cityStep batchSize cityCallback r st) := by
  unfold cityStep
  split
  · exact h
  · next batch transMap _ =>
    split
    · cases cityCallback with
      | none => exact h
      | some cb =>
        dsimp only
        cases hres : cb st.calls batch with
        | some err =>
          exact ⟨st.calls, SinkCall.city batch, err, rfl, h, by simp [callResult, hres], rfl⟩
        | none =>
          exact AllSucceeded_concat (some cb) countryCallback st.calls (SinkCall.city batch)
            h (by simp [callResult, hres])
    · exact h

theorem countryStep_calls (batchSize : Int) (cityCallback : Option CityCallback)
    (cb : CountryCallback) (countryCode : GoString) (r : AltName) (st : LoopState)
    (h : AllSucceeded cityCallback (some cb) st.calls) :
    FlowCallsOk cityCallback (some cb) (countryStep batchSize cb countryCode r st) := by
  unfold countryStep
  split
  · exact h
  · next batch transMap _ =>
    split
    · cases hres : cb st.calls batch with
      | some err =>
        exact ⟨st.calls, SinkCall.country batch, err, rfl, h, by simp [callResult, hres], rfl⟩
      | none =>
        exact AllSucceeded_concat cityCallback (some cb) st.calls (SinkCall.country batch) h
          (by simp [callResult, hres])
    · exact h

theorem countryPart_calls (batchSize : Int) (countryCodes : GoMap GoString Bool)
    (geonameIDToCountryCode : Option (GoMap Int GoString))
    (cityCallback : Option CityCallback) (countryCallback : Option CountryCallback)
    (r : AltName) (st : LoopState)
    (h : AllSucceeded cityCallback countryCallback st.calls) :
    FlowCallsOk cityCallback countryCallback
      (countryPart batchSize countryCodes geonameIDToCountryCode countryCallback r st) := by
  unfold countryPart
  split
  · next cb m =>
    split
    · split
      · exact countryStep_calls _ _ cb _ r st h
      · exact h
    · exact h
  · exact h

theorem processRow_calls (p : Parser) (batchSize : Int) (cityIDs : GoMap Int Bool)
    (countryCodes : GoMap GoString Bool) (geonameIDToCountryCode : Option (GoMap Int GoString))
    (cityCallback : Option CityCallback) (countryCallback : Option CountryCallback)
    (st : LoopState) (line : GoString)
    (h : AllSucceeded cityCallback countryCallback st.calls) :
    FlowCallsOk cityCallback countryCallback
      (processRow p batchSize cityIDs countryCodes geonameIDToCountryCode cityCallback
        countryCallback st line) := by
  unfold processRow
  split
  · exact h
  · next r _ =>
    unfold classify
    by_cases hc : cityIDs.test r.geonameID = true
    · simp only [hc, if_true]
      have hcity := cityStep_calls batchSize cityCallback countryCallback r st h
      cases hstep : cityStep batchSize cityCallback r st with
      | next s =>
        rw [hstep] at hcity
        exact countryPart_calls _ _ _ _ _ r s hcity
      | ret c e => rw [hstep] at hcity; exact hcity
      | outOfRange c => rw [hstep] at hcity; exact hcity
    · simp only [hc, if_false]
      exact countryPart_calls _ _ _ _ _ r st h

theorem scanLoop_calls (p : Parser) (batchSize : Int) (cityIDs : GoMap Int Bool)
    (countryCodes : GoMap GoString Bool) (geonameIDToCountryCode : Option (GoMap Int GoString))
    (cityCallback : Option CityCallback) (countryCallback : Option CountryCallback)
    (lines : List GoString) :
    ∀ st : LoopState, AllSucceeded cityCallback countryCallback st.calls →
      FlowCallsOk cityCallback countryCallback
        (scanLoop p batchSize cityIDs countryCodes geonameIDToCountryCode cityCallback
          countryCallback st lines) := by
  induction lines with
  | nil => intro st h; exact h
  | cons line rest ih =>
    intro st h
    have hrow := processRow_calls p batchSize cityIDs countryCodes geonameIDToCountryCode
      cityCallback countryCallback st line h
    unfold scanLoop
    cases hstep : processRow p batchSize cityIDs countryCodes geonameIDToCountryCode
        cityCallback countryCallback st line with
    | next s => rw [hstep] at hrow; exact ih s hrow
    | ret c e => rw [hstep] at hrow; exact hrow
    | outOfRange c => rw [hstep] at hrow; exact hrow

/-- Once the loop has returned an error on a prefix of the lines, the lines after it are
not looked at. -/
theorem scanLoop_ret_append (p : Parser) (batchSize : Int) (cityIDs : GoMap Int Bool)
    (countryCodes : GoMap GoString Bool) (geonameIDToCountryCode : Option (GoMap Int GoString))
    (cityCallback : Option CityCallback) (countryCallback : Option CountryCallback)
    (pre post : List GoString) (c : List SinkCall) (e : GoError) :
    ∀ st : LoopState,
      scanLoop p batchSize cityIDs countryCodes geonameIDToCountryCode cityCallback
        countryCallback st pre = Flow.ret c e →
      scanLoop p batchSize cityIDs countryCodes geonameIDToCountryCode cityCallback
        countryCallback st (pre ++ post) = Flow.ret c e := by
  induction pre with
  | nil => intro st h; exact Flow.noConfusion h
  | cons line rest ih =>
    intro st h
    rw [List.cons_append]
    unfold scanLoop at h ⊢
    cases hstep : processRow p batchSize cityIDs countryCodes geonameIDToCountryCode
        cityCallback countryCallback st line with
    | next s =>
      rw [hstep] at h
      exact ih s h
    | ret c1 e1 => rw [hstep] at h; exact h
    | outOfRange c1 => rw [hstep] at h; exact h

theorem finish_calls (reader : LineStream) (cityCallback : Option CityCallback)
    (countryCallback : Option CountryCallback) (st : LoopState)
    (h : AllSucceeded cityCallback countryCallback st.calls) :
    AllSucceeded cityCallback countryCallback
        (finish reader cityCallback countryCallback st).calls ∨
    ∃ err, (finish reader cityCallback countryCallback st).ending = Ending.failed err ∧
      FailedLast cityCallback countryCallback
        (finish reader cityCallback countryCallback st).calls err := by
  unfold finish
  cases reader.err with
  | some e0 => exact Or.inl h
  | none =>
    dsimp only
    -- the country flush, after calls `c` that all succeeded
    have hcountry : ∀ c : List SinkCall, AllSucceeded cityCallback countryCallback c →
        AllSucceeded cityCallback countryCallback
          (match countryCallback with
            | some cb =>
              if st.countryBatch.length > 0 then
                match cb c st.countryBatch with
                | some err =>
                  ({ calls := c ++ [SinkCall.country st.countryBatch],
                     ending := Ending.failed (GoError.wrapped "country callback error" err) } :
                    PassResult)
                | none =>
                  { calls := c ++ [SinkCall.country st.countryBatch], ending := Ending.ok }
              else { calls := c, ending := Ending.ok }
            | none => { calls := c, ending := Ending.ok }).calls ∨
        ∃ err, (match countryCallback with
            | some cb =>
              if st.countryBatch.length > 0 then
                match cb c st.countryBatch with
                | some err =>
                  ({ calls := c ++ [SinkCall.country st.countryBatch],
                     ending := Ending.failed (GoError.wrapped "country callback error" err) } :
                    PassResult)
                | none =>
                  { calls := c ++ [SinkCall.country st.countryBatch], ending := Ending.ok }
              else { calls := c, ending := Ending.ok }
            | none => { calls := c, ending := Ending.ok }).ending = Ending.failed err ∧
          FailedLast cityCallback countryCallback
            (match countryCallback with
            | some cb =>
              if st.countryBatch.length > 0 then
                match cb c st.countryBatch with
                | some err =>
                  ({ calls := c ++ [SinkCall.country st.countryBatch],
                     ending := Ending.failed (GoError.wrapped "country callback error" err) } :
                    PassResult)
                | none =>
                  { calls := c ++ [SinkCall.country st.countryBatch], ending := Ending.ok }
              else { calls := c, ending := Ending.ok }
            | none => { calls := c, ending := Ending.ok }).calls err := by
      intro c hc
      cases countryCallback with
      | none => exact Or.inl hc
      | some kb =>
        dsimp only
        by_cases hk : st.countryBatch.length > 0
        · rw [if_pos hk]
          cases hres : kb c st.countryBatch with
          | some err =>
            exact Or.inr ⟨_, rfl, c, SinkCall.country st.countryBatch, err, rfl, hc,
              by simp [callResult, hres], rfl⟩
          | none =>
            exact Or.inl (AllSucceeded_concat cityCallback (some kb) c _ hc
              (by simp [callResult, hres]))
        · rw [if_neg hk]
          exact Or.inl hc
    cases cityCallback with
    | none => exact hcountry st.calls h
    | some cb =>
      dsimp only
      by_cases hc : st.cityBatch.length > 0
      · rw [if_pos hc]
        cases hres : cb st.calls st.cityBatch with
        | some err =>
          exact Or.inr ⟨_, rfl, st.calls, SinkCall.city st.cityBatch, err, rfl, h,
            by simp [callResult, hres], rfl⟩
        | none =>
          exact hcountry _ (AllSucceeded_concat (some cb) countryCallback st.calls _ h
            (by simp [callResult, hres]))
      · rw [if_neg hc]
        exact hcountry st.calls h

theorem process_calls (p : Parser) (reader : LineStream) (cityIDs : GoMap Int Bool)
    (countryCodes : GoMap GoString Bool) (geonameIDToCountryCode : Option (GoMap Int GoString))
    (cityCallback : Option CityCallback) (countryCallback : Option CountryCallback) :
    AllSucceeded cityCallback countryCallback
        (processAlternateNamesFromReaderWithCountryMapping p reader cityIDs countryCodes
          geonameIDToCountryCode cityCallback countryCallback).calls ∨
    ∃ err, (processAlternateNamesFromReaderWithCountryMapping p reader cityIDs countryCodes
          geonameIDToCountryCode cityCallback countryCallback).ending = Ending.failed err ∧
      FailedLast cityCallback countryCallback
        (processAlternateNamesFromReaderWithCountryMapping p reader cityIDs countryCodes
          geonameIDToCountryCode cityCallback countryCallback).calls err := by
  have hloop := scanLoop_calls p (effectiveBatchSize p) cityIDs countryCodes
    geonameIDToCountryCode cityCallback countryCallback reader.lines initialState
    (AllSucceeded_nil _ _)
  unfold processAlternateNamesFromReaderWithCountryMapping
  cases hl : scanLoop p (effectiveBatchSize p) cityIDs countryCodes geonameIDToCountryCode
      cityCallback countryCallback initialState reader.lines with
  | next st =>
    rw [hl] at hloop
    exact finish_calls reader cityCallback countryCallback st hloop
  | ret c e =>
    rw [hl] at hloop
    exact Or.inr ⟨e, rfl, hloop⟩
  | outOfRange c =>
    rw [hl] at hloop
    exact Or.inl hloop

/-- Claim C11: a sink failure aborts the pass. If an invocation of the city or country sink
callback made by the pass returns an error e, then it is the last invocation of the pass (no
callback is invoked after it, final flushes included) and the pass returns e wrapped with
"city callback error" or "country callback error" according to the sink that failed; and
once the loop has returned such an error on a prefix of the rows, the result is the same
whatever rows follow and whatever the scanner reports, so no later row is processed. -/
theorem sink_failure_aborts_the_pass (p : Parser) (reader : LineStream)
    (cityIDs : GoMap Int Bool) (countryCodes : GoMap GoString Bool)
    (geonameIDToCountryCode : Option (GoMap Int GoString))
    (cityCallback : Option CityCallback) (countryCallback : Option CountryCallback) :
    (∀ (pre : List SinkCall) (call : SinkCall) (post : List SinkCall) (e : GoError),
      (processAlternateNamesFromReaderWithCountryMapping p reader cityIDs countryCodes
        geonameIDToCountryCode cityCallback countryCallback).calls = pre ++ call :: post →
      callResult cityCallback countryCallback pre call = some e →
      post = [] ∧
      (processAlternateNamesFromReaderWithCountryMapping p reader cityIDs countryCodes
        geonameIDToCountryCode cityCallback countryCallback).ending
        = Ending.failed (GoError.wrapped (sinkContext call) e)) ∧
    (sinkContext (SinkCall.city []) = "city callback error" ∧
      sinkContext (SinkCall.country []) = "country callback error") ∧
    (∀ (pre post : List GoString) (c : List SinkCall) (e : GoError) (err : Option GoError),
      scanLoop p (effectiveBatchSize p) cityIDs countryCodes geonameIDToCountryCode
        cityCallback countryCallback initialState pre = Flow.ret c e →
      processAlternateNamesFromReaderWithCountryMapping p
        { lines := pre ++ post, err := err } cityIDs countryCodes geonameIDToCountryCode
        cityCallback countryCallback = { calls := c, ending := Ending.failed e }) := by
  refine ⟨?_, ⟨rfl, rfl⟩, ?_⟩
  · intro pre call post e heq hres
    rcases process_calls p reader cityIDs countryCodes geonameIDToCountryCode cityCallback
      countryCallback with hgood | ⟨err, hend, hfail⟩
    · have := hgood pre call post heq
      rw [hres] at this
      exact Option.noConfusion this
    · obtain ⟨h1, h2⟩ := FailedLast_unique _ _ _ _ hfail pre call post e heq hres
      exact ⟨h1, by rw [hend, h2]⟩
  · intro pre post c e err h
    unfold processAlternateNamesFromReaderWithCountryMapping
    dsimp only
    rw [scanLoop_ret_append p _ cityIDs countryCodes geonameIDToCountryCode cityCallback
      countryCallback pre post c e initialState h]

/-- Witness of C11: with batch size 1 and a city sink that always fails, the first row is
handed over, the pass returns the wrapped error, and the second row is never delivered. -/
theorem sink_failure_aborts_the_pass_witness :
    (processAlternateNamesFromReaderWithCountryMapping (batchParser 1)
        { lines := fiveRows, err := none } testCityIDs [] none (some failingCity) none).calls
      = [] ++ SinkCall.city [⟨100, utf8 "en", utf8 "London"⟩] :: [] ∧
    (processAlternateNamesFromReaderWithCountryMapping (batchParser 1)
        { lines := fiveRows, err := none } testCityIDs [] none (some failingCity) none).ending
      = Ending.failed (GoError.wrapped "city callback error" (GoError.base "insert failed")) :=
  ⟨by decide,
   ((sink_failure_aborts_the_pass (batchParser 1) { lines := fiveRows, err := none }
      testCityIDs [] none (some failingCity) none).1 []
      (SinkCall.city [⟨100, utf8 "en", utf8 "London"⟩]) [] (GoError.base "insert failed")
      (by decide) (by decide)).2⟩

/-! ## Bounds kept by the loop -/

theorem effectiveBatchSize_pos (p : Parser) : 0 < effectiveBatchSize p := by
  unfold effectiveBatchSize
  split_ifs <;> omega

theorem modifyAt_length {ρ : Type} (f : ρ → ρ) : ∀ (i : Nat) (l : List ρ),
    (modifyAt f i l).length = l.length := by
  intro i l
  induction l generalizing i with
  | nil => cases i <;> rfl
  | cons a l ih =>
    cases i with
    | zero => rfl
    | succ n => simp [modifyAt, ih]

/-- The dedup insert grows the buffer by at most one record. -/
theorem upsert_length_le {ρ : Type} (rename : ρ → ρ) (key : GoString) (rec : ρ)
    (isPreferred : Bool) (batch : List ρ) (transMap : GoMap GoString Nat) (b : List ρ)
    (m : GoMap GoString Nat)
    (h : upsert rename key rec isPreferred batch transMap = some (b, m)) :
    b.length ≤ batch.length + 1 := by
  unfold upsert at h
  split at h
  · split_ifs at h
    · cases h
      rw [modifyAt_length]
      omega
    · cases h
      omega
  · cases h
    simp

theorem putBatch_length_le {ρ : Type} (keyOf : ρ → GoString) (rename : ρ → ρ) (rec : ρ)
    (isPreferred : Bool) (batch : List ρ) :
    (putBatch keyOf rename rec isPreferred batch).length ≤ batch.length + 1 := by
  unfold putBatch
  split_ifs <;> simp

theorem CallsOk_city (batchSize : Int) (calls : List SinkCall) (b : List CityTranslation)
    (h : CallsOk batchSize calls) (hb : BatchOk cityKeyOf batchSize b) :
    CallsOk batchSize (calls ++ [SinkCall.city b]) := by
  constructor
  · intro x hx
    rw [cityBatches_append] at hx
    simp only [cityBatches, List.mem_append, List.mem_singleton] at hx
    rcases hx with hx | hx
    · exact h.1 x hx
    · rw [hx]; exact hb
  · intro x hx
    rw [countryBatches_append] at hx
    simp only [countryBatches, List.append_nil] at hx
    exact h.2 x hx

theorem CallsOk_country (batchSize : Int) (calls : List SinkCall)
    (b : List CountryTranslation)
    (h : CallsOk batchSize calls) (hb : BatchOk countryKeyOf batchSize b) :
    CallsOk batchSize (calls ++ [SinkCall.country b]) := by
  constructor
  · intro x hx
    rw [cityBatches_append] at hx
    simp only [cityBatches, List.append_nil] at hx
    exact h.1 x hx
  · intro x hx
    rw [countryBatches_append] at hx
    simp only [countryBatches, List.mem_append, List.mem_singleton] at hx
    rcases hx with hx | hx
    · exact h.2 x hx
    · rw [hx]; exact hb

/-- The city branch in closed form, under the table invariant. -/
theorem cityStep_eq (batchSize : Int) (cityCallback : Option CityCallback) (r : AltName)
    (st : LoopState) (h3 : TableOk cityKeyOf st.cityBatch st.cityTransMap) :
    ∃ (b : List CityTranslation) (tm : GoMap GoString Nat),
      b = putBatch cityKeyOf
        (fun x => cityMerge x { CityID := r.geonameID, Lang := r.lang, Name := r.name })
        { CityID := r.geonameID, Lang := r.lang, Name := r.name } r.isPreferred st.cityBatch ∧
      TableOk cityKeyOf b tm ∧
      cityStep batchSize cityCallback r st =
        if (b.length : Int) ≥ batchSize then
          match cityCallback with
          | some cb =>
            match cb st.calls b with
            | some err =>
              Flow.ret (st.calls ++ [SinkCall.city b])
                (GoError.wrapped "city callback error" err)
            | none =>
              Flow.next { st with cityBatch := [], cityTransMap := [],
                                  calls := st.calls ++ [SinkCall.city b] }
          | none => Flow.next { st with cityBatch := [], cityTransMap := [] }
        else Flow.next { st with cityBatch := b, cityTransMap := tm } := by
  obtain ⟨tm, he, hok⟩ := upsert_eq cityKeyOf
    (fun x => cityMerge x { CityID := r.geonameID, Lang := r.lang, Name := r.name })
    (cityKey r.geonameID r.lang) { CityID := r.geonameID, Lang := r.lang, Name := r.name }
    r.isPreferred st.cityBatch st.cityTransMap h3 rfl (fun _ => rfl)
  refine ⟨_, tm, rfl, hok, ?_⟩
  unfold cityStep
  exact (congrArg (fun o => match o with
    | none => Flow.outOfRange st.calls
    | some (batch, transMap) =>
      if (batch.length : Int) ≥ batchSize then
        match cityCallback with
        | some cb =>
          match cb st.calls batch with
          | some err =>
            Flow.ret (st.calls ++ [SinkCall.city batch])
              (GoError.wrapped "city callback error" err)
          | none =>
            Flow.next { st with cityBatch := [], cityTransMap := [],
                                calls := st.calls ++ [SinkCall.city batch] }
        | none => Flow.next { st with cityBatch := [], cityTransMap := [] }
      else Flow.next { st with cityBatch := batch, cityTransMap := transMap }) he)

/-- The country branch in closed form, under the table invariant. -/
theorem countryStep_eq (batchSize : Int) (cb : CountryCallback) (countryCode : GoString)
    (r : AltName) (st : LoopState)
    (h6 : TableOk countryKeyOf st.countryBatch st.countryTransMap) :
    ∃ (b : List CountryTranslation) (tm : GoMap GoString Nat),
      b = putBatch countryKeyOf
        (fun x => countryMerge x
          { CountryCode := countryCode, Lang := r.lang, Name := r.name })
        { CountryCode := countryCode, Lang := r.lang, Name := r.name } r.isPreferred
        st.countryBatch ∧
      TableOk countryKeyOf b tm ∧
      countryStep batchSize cb countryCode r st =
        if (b.length : Int) ≥ batchSize then
          match cb st.calls b with
          | some err =>
            Flow.ret (st.calls ++ [SinkCall.country b])
              (GoError.wrapped "country callback error" err)
          | none =>
            Flow.next { st with countryBatch := [], countryTransMap := [],
                                calls := st.calls ++ [SinkCall.country b] }
        else Flow.next { st with countryBatch := b, countryTransMap := tm } := by
  obtain ⟨tm, he, hok⟩ := upsert_eq countryKeyOf
    (fun x => countryMerge x { CountryCode := countryCode, Lang := r.lang, Name := r.name })
    (countryKey countryCode r.lang)
    { CountryCode := countryCode, Lang := r.lang, Name := r.name }
    r.isPreferred st.countryBatch st.countryTransMap h6 rfl (fun _ => rfl)
  refine ⟨_, tm, rfl, hok, ?_⟩
  unfold countryStep
  exact (congrArg (fun o => match o with
    | none => Flow.outOfRange st.calls
    | some (batch, transMap) =>
      if (batch.length : Int) ≥ batchSize then
        match cb st.calls batch with
        | some err =>
          Flow.ret (st.calls ++ [SinkCall.country batch])
            (GoError.wrapped "country callback error" err)
        | none =>
          Flow.next { st with countryBatch := [], countryTransMap := [],
                              calls := st.calls ++ [SinkCall.country batch] }
      else Flow.next { st with countryBatch := batch, countryTransMap := transMap }) he)

theorem cityStep_sound (batchSize : Int) (hB : 0 < batchSize)
    (cityCallback : Option CityCallback) (r : AltName) (st : LoopState)
    (hst : Bounded batchSize st) (hcalls : CallsOk batchSize st.calls) :
    FlowSound batchSize (cityStep batchSize cityCallback r st) := by
  obtain ⟨h1, h2, h3, h4⟩ := hst
  obtain ⟨b, tm, hb, hok, hstep⟩ := cityStep_eq batchSize cityCallback r st h3
  have hlen : b.length ≤ st.cityBatch.length + 1 := by
    rw [hb]
    exact putBatch_length_le _ _ _ _ _
  rw [hstep]
  by_cases hfull : (b.length : Int) ≥ batchSize
  · rw [if_pos hfull]
    have hbok : BatchOk cityKeyOf batchSize b := by
      refine ⟨hok.1, by omega, ?_⟩
      intro hnil
      rw [hnil] at hfull
      simp at hfull
      omega
    have hempty : Bounded batchSize { st with cityBatch := [], cityTransMap := [] } :=
      ⟨by simpa using hB, h2, TableOk_nil _, h4⟩
    cases cityCallback with
    | none => exact ⟨hempty, hcalls⟩
    | some cb =>
      dsimp only
      cases cb st.calls b with
      | some err => exact CallsOk_city _ _ _ hcalls hbok
      | none =>
        exact ⟨⟨by simpa using hB, h2, TableOk_nil _, h4⟩, CallsOk_city _ _ _ hcalls hbok⟩
  · rw [if_neg hfull]
    exact ⟨⟨by simpa using hfull, h2, hok, h4⟩, hcalls⟩

theorem countryStep_sound (batchSize : Int) (hB : 0 < batchSize) (cb : CountryCallback)
    (countryCode : GoString) (r : AltName) (st : LoopState)
    (hst : Bounded batchSize st) (hcalls : CallsOk batchSize st.calls) :
    FlowSound batchSize (countryStep batchSize cb countryCode r st) := by
  obtain ⟨h1, h2, h3, h4⟩ := hst
  obtain ⟨b, tm, hb, hok, hstep⟩ := countryStep_eq batchSize cb countryCode r st h4
  have hlen : b.length ≤ st.countryBatch.length + 1 := by
    rw [hb]
    exact putBatch_length_le _ _ _ _ _
  rw [hstep]
  by_cases hfull : (b.length : Int) ≥ batchSize
  · rw [if_pos hfull]
    have hbok : BatchOk countryKeyOf batchSize b := by
      refine ⟨hok.1, by omega, ?_⟩
      intro hnil
      rw [hnil] at hfull
      simp at hfull
      omega
    cases cb st.calls b with
    | some err => exact CallsOk_country _ _ _ hcalls hbok
    | none =>
      exact ⟨⟨h1, by simpa using hB, h3, TableOk_nil _⟩, CallsOk_country _ _ _ hcalls hbok⟩
  · rw [if_neg hfull]
    exact ⟨⟨h1, by simpa using hfull, h3, hok⟩, hcalls⟩

theorem countryPart_sound (batchSize : Int) (hB : 0 < batchSize)
    (countryCodes : GoMap GoString Bool) (geonameIDToCountryCode : Option (GoMap Int GoString))
    (countryCallback : Option CountryCallback) (r : AltName) (st : LoopState)
    (hst : Bounded batchSize st) (hcalls : CallsOk batchSize st.calls) :
    FlowSound batchSize
      (countryPart batchSize countryCodes geonameIDToCountryCode countryCallback r st) := by
  unfold countryPart
  split
  · next cb m =>
    split
    · split
      · exact countryStep_sound _ hB cb _ r st hst hcalls
      · exact ⟨hst, hcalls⟩
    · exact ⟨hst, hcalls⟩
  · exact ⟨hst, hcalls⟩

theorem processRow_sound (p : Parser) (batchSize : Int) (hB : 0 < batchSize)
    (cityIDs : GoMap Int Bool) (countryCodes : GoMap GoString Bool)
    (geonameIDToCountryCode : Option (GoMap Int GoString))
    (cityCallback : Option CityCallback) (countryCallback : Option CountryCallback)
    (st : LoopState) (line : GoString)
    (hst : Bounded batchSize st) (hcalls : CallsOk batchSize st.calls) :
    FlowSound batchSize
      (processRow p batchSize cityIDs countryCodes geonameIDToCountryCode cityCallback
        countryCallback st line) := by
  unfold processRow
  split
  · exact ⟨hst, hcalls⟩
  · next r _ =>
    unfold classify
    by_cases hc : cityIDs.test r.geonameID = true
    · simp only [hc, if_true]
      have hcity := cityStep_sound batchSize hB cityCallback r st hst hcalls
      cases hstep : cityStep batchSize cityCallback r st with
      | next s =>
        rw [hstep] at hcity
        exact countryPart_sound _ hB _ _ _ r s hcity.1 hcity.2
      | ret c e => rw [hstep] at hcity; exact hcity
      | outOfRange c => rw [hstep] at hcity; exact hcity
    · simp only [hc, if_false]
      exact countryPart_sound _ hB _ _ _ r st hst hcalls

theorem scanLoop_sound (p : Parser) (batchSize : Int) (hB : 0 < batchSize)
    (cityIDs : GoMap Int Bool) (countryCodes : GoMap GoString Bool)
    (geonameIDToCountryCode : Option (GoMap Int GoString))
    (cityCallback : Option CityCallback) (countryCallback : Option CountryCallback)
    (lines : List GoString) :
    ∀ st : LoopState, Bounded batchSize st → CallsOk batchSize st.calls →
      FlowSound batchSize
        (scanLoop p batchSize cityIDs countryCodes geonameIDToCountryCode cityCallback
          countryCallback st lines) := by
  induction lines with
  | nil => intro st h1 h2; exact ⟨h1, h2⟩
  | cons line rest ih =>
    intro st h1 h2
    have hrow := processRow_sound p batchSize hB cityIDs countryCodes geonameIDToCountryCode
      cityCallback countryCallback st line h1 h2
    unfold scanLoop
    cases hstep : processRow p batchSize cityIDs countryCodes geonameIDToCountryCode
        cityCallback countryCallback st line with
    | next s => rw [hstep] at hrow; exact ih s hrow.1 hrow.2
    | ret c e => rw [hstep] at hrow; exact hrow
    | outOfRange c => rw [hstep] at hrow; exact hrow

theorem Bounded_initial (batchSize : Int) (hB : 0 < batchSize) :
    Bounded batchSize initialState ∧ CallsOk batchSize initialState.calls := by
  refine ⟨⟨by simpa [initialState] using hB, by simpa [initialState] using hB,
    TableOk_nil _, TableOk_nil _⟩, ?_, ?_⟩
  · intro b hb
    simp [initialState, cityBatches] at hb
  · intro b hb
    simp [initialState, countryBatches] at hb

theorem finish_sound (batchSize : Int) (reader : LineStream)
    (cityCallback : Option CityCallback) (countryCallback : Option CountryCallback)
    (st : LoopState) (hst : Bounded batchSize st) (hcalls : CallsOk batchSize st.calls) :
    CallsOk batchSize (finish reader cityCallback countryCallback st).calls ∧
    (finish reader cityCallback countryCallback st).ending ≠ Ending.outOfRange := by
  obtain ⟨h1, h2, h3, h4⟩ := hst
  unfold finish
  cases reader.err with
  | some e0 => exact ⟨hcalls, fun h => Ending.noConfusion h⟩
  | none =>
    dsimp only
    have hcountry : ∀ c : List SinkCall, CallsOk batchSize c →
        CallsOk batchSize
          (match countryCallback with
            | some cb =>
              if st.countryBatch.length > 0 then
                match cb c st.countryBatch with
                | some err =>
                  ({ calls := c ++ [SinkCall.country st.countryBatch],
                     ending := Ending.failed (GoError.wrapped "country callback error" err) } :
                    PassResult)
                | none =>
                  { calls := c ++ [SinkCall.country st.countryBatch], ending := Ending.ok }
              else { calls := c, ending := Ending.ok }
            | none => { calls := c, ending := Ending.ok }).calls ∧
        (match countryCallback with
            | some cb =>
              if st.countryBatch.length > 0 then
                match cb c st.countryBatch with
                | some err =>
                  ({ calls := c ++ [SinkCall.country st.countryBatch],
                     ending := Ending.failed (GoError.wrapped "country callback error" err) } :
                    PassResult)
                | none =>
                  { calls := c ++ [SinkCall.country st.countryBatch], ending := Ending.ok }
              else { calls := c, ending := Ending.ok }
            | none => { calls := c, ending := Ending.ok }).ending ≠ Ending.outOfRange := by
      intro c hc
      cases countryCallback with
      | none => exact ⟨hc, fun h => Ending.noConfusion h⟩
      | some kb =>
        dsimp only
        by_cases hk : st.countryBatch.length > 0
        · rw [if_pos hk]
          have hbok : BatchOk countryKeyOf batchSize st.countryBatch :=
            ⟨h4.1, by omega, fun hnil => by rw [hnil] at hk; simp at hk⟩
          cases kb c st.countryBatch with
          | some err =>
            exact ⟨CallsOk_country _ _ _ hc hbok, fun h => Ending.noConfusion h⟩
          | none => exact ⟨CallsOk_country _ _ _ hc hbok, fun h => Ending.noConfusion h⟩
        · rw [if_neg hk]
          exact ⟨hc, fun h => Ending.noConfusion h⟩
    cases cityCallback with
    | none => exact hcountry st.calls hcalls
    | some cb =>
      dsimp only
      by_cases hc : st.cityBatch.length > 0
      · rw [if_pos hc]
        have hbok : BatchOk cityKeyOf batchSize st.cityBatch :=
          ⟨h3.1, by omega, fun hnil => by rw [hnil] at hc; simp at hc⟩
        cases cb st.calls st.cityBatch with
        | some err => exact ⟨CallsOk_city _ _ _ hcalls hbok, fun h => Ending.noConfusion h⟩
        | none => exact hcountry _ (CallsOk_city _ _ _ hcalls hbok)
      · rw [if_neg hc]
        exact hcountry st.calls hcalls

/-- Whatever the callbacks return, every batch the pass hands over is well formed, and the
pass never fails with an index out of range. -/
theorem process_sound (p : Parser) (reader : LineStream) (cityIDs : GoMap Int Bool)
    (countryCodes : GoMap GoString Bool) (geonameIDToCountryCode : Option (GoMap Int GoString))
    (cityCallback : Option CityCallback) (countryCallback : Option CountryCallback) :
    CallsOk (effectiveBatchSize p)
      (processAlternateNamesFromReaderWithCountryMapping p reader cityIDs countryCodes
        geonameIDToCountryCode cityCallback countryCallback).calls ∧
    (processAlternateNamesFromReaderWithCountryMapping p reader cityIDs countryCodes
        geonameIDToCountryCode cityCallback countryCallback).ending ≠ Ending.outOfRange := by
  have hB := effectiveBatchSize_pos p
  have hloop := scanLoop_sound p (effectiveBatchSize p) hB cityIDs countryCodes
    geonameIDToCountryCode cityCallback countryCallback reader.lines initialState
    (Bounded_initial _ hB).1 (Bounded_initial _ hB).2
  unfold processAlternateNamesFromReaderWithCountryMapping
  cases hl : scanLoop p (effectiveBatchSize p) cityIDs countryCodes geonameIDToCountryCode
      cityCallback countryCallback initialState reader.lines with
  | next st =>
    rw [hl] at hloop
    exact finish_sound _ reader cityCallback countryCallback st hloop.1 hloop.2
  | ret c e =>
    rw [hl] at hloop
    exact ⟨hloop, fun h => Ending.noConfusion h⟩
  | outOfRange c =>
    rw [hl] at hloop
    exact hloop.elim

theorem nodup_pairs_of_keys {ρ κ : Type} (pairOf : ρ → κ) (enc : κ → GoString) (b : List ρ)
    (h : (b.map (fun c => enc (pairOf c))).Nodup) : (b.map pairOf).Nodup := by
  have : b.map (fun c => enc (pairOf c)) = (b.map pairOf).map enc := by
    rw [List.map_map]
    rfl
  rw [this] at h
  exact List.Nodup.of_map enc h

/-- Counterexample to C12: with batch size 1 the city sink receives two records for the
pair (100, en) over the whole pass, one in each batch. -/
theorem whole_pass_keeps_both_duplicates :
    ¬ (((cityBatches (processAlternateNamesFromReaderWithCountryMapping (batchParser 1)
        { lines := [utf8 "1\t100\ten\tLondon\t0", utf8 "2\t100\ten\tLondinium\t1"],
          err := none }
        testCityIDs [] none (some collectCity) none).calls).flatten.map
          (fun c => (c.CityID, c.Lang))).Nodup) := by
  decide

/-- Claim C12, amended: for every input, every batch size and all callbacks, each batch
delivered to the city sink holds at most one record per (city identifier, language) and each
batch delivered to the country sink at most one record per (country code, language); its
dedup keys are pairwise distinct, and the pass never fails with an index out of range. (The
dedup table is emptied with the buffer, so the same pair may come again in a later batch.) -/
theorem one_record_per_key_in_each_batch (p : Parser) (reader : LineStream)
    (cityIDs : GoMap Int Bool) (countryCodes : GoMap GoString Bool)
    (geonameIDToCountryCode : Option (GoMap Int GoString))
    (cityCallback : Option CityCallback) (countryCallback : Option CountryCallback) :
    (∀ b ∈ cityBatches (processAlternateNamesFromReaderWithCountryMapping p reader cityIDs
        countryCodes geonameIDToCountryCode cityCallback countryCallback).calls,
      (b.map (fun c => (c.CityID, c.Lang))).Nodup ∧
      (b.map (fun c => cityKey c.CityID c.Lang)).Nodup) ∧
    (∀ b ∈ countryBatches (processAlternateNamesFromReaderWithCountryMapping p reader cityIDs
        countryCodes geonameIDToCountryCode cityCallback countryCallback).calls,
      (b.map (fun c => (c.CountryCode, c.Lang))).Nodup ∧
      (b.map (fun c => countryKey c.CountryCode c.Lang)).Nodup) ∧
    (processAlternateNamesFromReaderWithCountryMapping p reader cityIDs countryCodes
        geonameIDToCountryCode cityCallback countryCallback).ending ≠ Ending.outOfRange := by
  obtain ⟨⟨hc, hk⟩, hend⟩ := process_sound p reader cityIDs countryCodes
    geonameIDToCountryCode cityCallback countryCallback
  refine ⟨?_, ?_, hend⟩
  · intro b hb
    have h := (hc b hb).1
    exact ⟨nodup_pairs_of_keys (fun c : CityTranslation => (c.CityID, c.Lang))
      (fun q => cityKey q.1 q.2) b h, h⟩
  · intro b hb
    have h := (hk b hb).1
    exact ⟨nodup_pairs_of_keys (fun c : CountryTranslation => (c.CountryCode, c.Lang))
      (fun q => countryKey q.1 q.2) b h, h⟩

/-- Witness of C12: the one batch of the scenario holds three records with pairwise
distinct (city identifier, language) pairs. -/
theorem one_record_per_key_in_each_batch_witness :
    ([⟨100, utf8 "en", utf8 "London"⟩, ⟨100, utf8 "ru", utf8 "Лондон"⟩,
        ⟨200, utf8 "en", utf8 "Paris"⟩] : List CityTranslation)
      ∈ cityBatches (processAlternateNamesFromReaderWithCountryMapping (testParser [])
          { lines := scenarioRows, err := none } testCityIDs [] none (some collectCity)
          none).calls ∧
    (([⟨100, utf8 "en", utf8 "London"⟩, ⟨100, utf8 "ru", utf8 "Лондон"⟩,
        ⟨200, utf8 "en", utf8 "Paris"⟩] : List CityTranslation).map
        (fun c => (c.CityID, c.Lang))).Nodup :=
  ⟨by decide,
   ((one_record_per_key_in_each_batch (testParser []) { lines := scenarioRows, err := none }
      testCityIDs [] none (some collectCity) none).1 _ (by decide)).1⟩

/-- Claim C13: memory bound. With B the configured batch size if it is positive and 10000
otherwise: whenever a new row is read (and when the stream has ended) the city buffer and
the country buffer each hold fewer than B records; while a row is processed a dedup insert
adds at most one record, so a buffer holds at most B records, also the country buffer after
the city branch has run; and no sink invocation receives more than B records. -/
theorem memory_bound (p : Parser) (reader : LineStream) (cityIDs : GoMap Int Bool)
    (countryCodes : GoMap GoString Bool) (geonameIDToCountryCode : Option (GoMap Int GoString))
    (cityCallback : Option CityCallback) (countryCallback : Option CountryCallback) :
    effectiveBatchSize p = (if 0 < p.batchSize then p.batchSize else 10000) ∧
    (∀ (pre : List GoString) (st : LoopState),
      scanLoop p (effectiveBatchSize p) cityIDs countryCodes geonameIDToCountryCode
        cityCallback countryCallback initialState pre = Flow.next st →
      (st.cityBatch.length : Int) < effectiveBatchSize p ∧
      (st.countryBatch.length : Int) < effectiveBatchSize p ∧
      (∀ (r : AltName) (b : List CityTranslation) (m : GoMap GoString Nat),
        upsert (fun c => { c with Name := r.name }) (cityKey r.geonameID r.lang)
          { CityID := r.geonameID, Lang := r.lang, Name := r.name } r.isPreferred
          st.cityBatch st.cityTransMap = some (b, m) →
        (b.length : Int) ≤ effectiveBatchSize p) ∧
      (∀ (r : AltName) (st1 : LoopState),
        cityStep (effectiveBatchSize p) cityCallback r st = Flow.next st1 →
        (st1.cityBatch.length : Int) < effectiveBatchSize p ∧
        (st1.countryBatch.length : Int) < effectiveBatchSize p ∧
        ∀ (countryCode : GoString) (b : List CountryTranslation) (m : GoMap GoString Nat),
          upsert (fun c => { c with Name := r.name }) (countryKey countryCode r.lang)
            { CountryCode := countryCode, Lang := r.lang, Name := r.name } r.isPreferred
            st1.countryBatch st1.countryTransMap = some (b, m) →
          (b.length : Int) ≤ effectiveBatchSize p)) ∧
    (∀ b ∈ cityBatches (processAlternateNamesFromReaderWithCountryMapping p reader cityIDs
        countryCodes geonameIDToCountryCode cityCallback countryCallback).calls,
      (b.length : Int) ≤ effectiveBatchSize p) ∧
    (∀ b ∈ countryBatches (processAlternateNamesFromReaderWithCountryMapping p reader cityIDs
        countryCodes geonameIDToCountryCode cityCallback countryCallback).calls,
      (b.length : Int) ≤ effectiveBatchSize p) := by
  have hB := effectiveBatchSize_pos p
  refine ⟨?_, ?_, ?_, ?_⟩
  · unfold effectiveBatchSize
    by_cases h : p.batchSize ≤ 0
    · rw [if_pos h, if_neg (by omega)]
    · rw [if_neg h, if_pos (by omega)]
  · intro pre st hst
    have hloop := scanLoop_sound p (effectiveBatchSize p) hB cityIDs countryCodes
      geonameIDToCountryCode cityCallback countryCallback pre initialState
      (Bounded_initial _ hB).1 (Bounded_initial _ hB).2
    rw [hst] at hloop
    obtain ⟨⟨h1, h2, h3, h4⟩, hcalls⟩ := hloop
    refine ⟨h1, h2, ?_, ?_⟩
    · intro r b m hup
      have := upsert_length_le _ _ _ _ _ _ b m hup
      omega
    · intro r st1 hstep
      have hcity := cityStep_sound (effectiveBatchSize p) hB cityCallback r st
        ⟨h1, h2, h3, h4⟩ hcalls
      rw [hstep] at hcity
      obtain ⟨⟨g1, g2, _, _⟩, _⟩ := hcity
      refine ⟨g1, g2, ?_⟩
      intro code b m hup
      have := upsert_length_le _ _ _ _ _ _ b m hup
      omega
  · intro b hb
    exact ((process_sound p reader cityIDs countryCodes geonameIDToCountryCode cityCallback
      countryCallback).1.1 b hb).2.1
  · intro b hb
    exact ((process_sound p reader cityIDs countryCodes geonameIDToCountryCode cityCallback
      countryCallback).1.2 b hb).2.1

/-- Witness of C13: after the first three of the five rows, with batch size 2, the city
buffer holds one record, fewer than 2. -/
theorem memory_bound_witness :
    scanLoop (batchParser 2) (effectiveBatchSize (batchParser 2)) testCityIDs [] none
        (some collectCity) none initialState (fiveRows.take 3)
      = Flow.next
          { cityBatch := [⟨100, utf8 "fr", utf8 "Londres"⟩], countryBatch := [],
            cityTransMap := [(cityKey 100 (utf8 "fr"), 0)], countryTransMap := [],
            calls := [SinkCall.city [⟨100, utf8 "en", utf8 "London"⟩,
              ⟨100, utf8 "ru", utf8 "Лондон"⟩]] } ∧
    ((1 : Nat) : Int) < effectiveBatchSize (batchParser 2) :=
  ⟨by decide,
   ((memory_bound (batchParser 2) { lines := fiveRows, err := none } testCityIDs [] none
      (some collectCity) none).2.1 (fiveRows.take 3)
      { cityBatch := [⟨100, utf8 "fr", utf8 "Londres"⟩], countryBatch := [],
        cityTransMap := [(cityKey 100 (utf8 "fr"), 0)], countryTransMap := [],
        calls := [SinkCall.city [⟨100, utf8 "en", utf8 "London"⟩,
          ⟨100, utf8 "ru", utf8 "Лондон"⟩]] } (by decide)).1⟩

/-! ## The city record parser -/

theorem citiesLoop_eq {φ : Type} (ParseFloat : GoString → Option φ) (p : Parser)
    (lines : List GoString) :
    ∀ cities : List (City φ),
      citiesLoop ParseFloat p cities lines
        = cities ++ lines.filterMap (parseCityLine ParseFloat p) := by
  induction lines with
  | nil => intro cities; simp [citiesLoop]
  | cons line rest ih =>
    intro cities
    unfold citiesLoop
    cases h : parseCityLine ParseFloat p line with
    | none => simp [List.filterMap_cons, h, ih]
    | some c => simp [List.filterMap_cons, h, ih]

theorem parseCitiesFromReader_ok {φ : Type} (ParseFloat : GoString → Option φ) (p : Parser)
    (lines : List GoString) :
    parseCitiesFromReader ParseFloat p { lines := lines, err := none }
      = Except.ok (lines.filterMap (parseCityLine ParseFloat p)) := by
  simp [parseCitiesFromReader, citiesLoop_eq]

theorem parseCitiesFromReader_eq_ok {φ : Type} (ParseFloat : GoString → Option φ) (p : Parser)
    (reader : LineStream) (cities : List (City φ))
    (h : parseCitiesFromReader ParseFloat p reader = Except.ok cities) :
    cities = reader.lines.filterMap (parseCityLine ParseFloat p) := by
  unfold parseCitiesFromReader at h
  cases herr : reader.err with
  | some e => simp [herr] at h
  | none =>
    simp only [herr, citiesLoop_eq, List.nil_append] at h
    cases h
    rfl

/-- The loop body of the city parser in closed form. -/
theorem parseCityLine_eq_some {φ : Type} (ParseFloat : GoString → Option φ) (p : Parser)
    (line : GoString) (c : City φ) :
    parseCityLine ParseFloat p line = some c ↔
      ((fields line).length ≥ 19 ∧ (Atoi ((fields line).getD 0 [])).2 = none ∧
        (Atoi ((fields line).getD 14 [])).2 = none ∧
        p.minPopulation ≤ (Atoi ((fields line).getD 14 [])).1 ∧
        ParseFloat ((fields line).getD 4 []) = some c.Lat ∧
        ParseFloat ((fields line).getD 5 []) = some c.Lon ∧
        c.ID = (Atoi ((fields line).getD 0 [])).1 ∧
        c.CountryCode = (fields line).getD 8 [] ∧
        c.NameDefault = (fields line).getD 1 [] ∧
        c.Population = (Atoi ((fields line).getD 14 [])).1 ∧
        c.Elevation = (if (fields line).getD 15 [] ≠ [] ∧
            (Atoi ((fields line).getD 15 [])).2 = none
          then some (Atoi ((fields line).getD 15 [])).1 else none) ∧
        c.Timezone = (if (fields line).getD 17 [] ≠ [] then some ((fields line).getD 17 [])
          else none)) := by
  unfold parseCityLine fields
  dsimp only
  generalize Split line 9 = parts
  generalize parts.getD 0 [] = f0
  generalize parts.getD 1 [] = f1
  generalize parts.getD 4 [] = f4
  generalize parts.getD 5 [] = f5
  generalize parts.getD 8 [] = f8
  generalize parts.getD 14 [] = f14
  generalize parts.getD 15 [] = f15
  generalize parts.getD 17 [] = f17
  generalize parts.length = n
  obtain ⟨cid, ccode, cname, cpop, clat, clon, celev, ctz⟩ := c
  dsimp only
  by_cases h1 : n < 19
  · simp only [h1, if_true]
    constructor
    · intro h; exact Option.noConfusion h
    · rintro ⟨h, _⟩; omega
  · rw [if_neg h1]
    by_cases h2 : (Atoi f0).2 ≠ none
    · rw [if_pos h2]
      constructor
      · intro h; exact Option.noConfusion h
      · rintro ⟨_, h, _⟩; exact absurd h h2
    · rw [if_neg h2]
      by_cases h3 : (Atoi f14).2 ≠ none ∨ (Atoi f14).1 < p.minPopulation
      · rw [if_pos h3]
        constructor
        · intro h; exact Option.noConfusion h
        · rintro ⟨_, _, h, h', _⟩
          rcases h3 with h3 | h3
          · exact absurd h h3
          · omega
      · rw [if_neg h3]
        have h3a : (Atoi f14).2 = none := by
          by_contra hh; exact h3 (Or.inl hh)
        have h3b : p.minPopulation ≤ (Atoi f14).1 := by
          by_contra hh; exact h3 (Or.inr (by omega))
        have h2a : (Atoi f0).2 = none := by
          by_contra hh; exact h2 hh
        cases hlat : ParseFloat f4 with
        | none =>
          dsimp only
          constructor
          · intro h; exact Option.noConfusion h
          · rintro ⟨_, _, _, _, h, _⟩; exact Option.noConfusion h
        | some lat =>
          dsimp only
          cases hlon : ParseFloat f5 with
          | none =>
            dsimp only
            constructor
            · intro h; exact Option.noConfusion h
            · rintro ⟨_, _, _, _, _, h, _⟩; exact Option.noConfusion h
          | some lon =>
            dsimp only
            have helev : (if f15 ≠ [] then
                (if (Atoi f15).2 = none then some (Atoi f15).1 else none) else none)
                = (if f15 ≠ [] ∧ (Atoi f15).2 = none then some (Atoi f15).1 else none) := by
              by_cases ha : f15 ≠ [] <;> by_cases hb : (Atoi f15).2 = none <;> simp [ha, hb]
            rw [helev]
            constructor
            · intro h
              have h' := Option.some.inj h
              simp only [City.mk.injEq] at h'
              obtain ⟨e1, e2, e3, e4, e5, e6, e7, e8⟩ := h'
              exact ⟨by omega, h2a, h3a, h3b, by rw [e5], by rw [e6], e1.symm, e2.symm,
                e3.symm, e4.symm, e7.symm, e8.symm⟩
            · rintro ⟨_, _, _, _, e5, e6, e1, e2, e3, e4, e7, e8⟩
              have e5' := Option.some.inj e5
              have e6' := Option.some.inj e6
              rw [e1, e2, e3, e4, e7, e8, e5', e6']

/-- Claim C14, amended: population filter of `parseCitiesFromReader`. For every input and every
configured minimum m, no returned City has a population below m; and, when the scanner
reports no error, every line with at least 19 fields whose identifier (field 0) and
population (field 14) parse as integers, whose latitude and longitude (fields 4, 5) parse as
numbers, and whose population is exactly m, yields a City of the output. -/
theorem population_filter {φ : Type} (ParseFloat : GoString → Option φ) (p : Parser) :
    (∀ (reader : LineStream) (cities : List (City φ)),
      parseCitiesFromReader ParseFloat p reader = Except.ok cities →
      ∀ c ∈ cities, p.minPopulation ≤ c.Population) ∧
    (∀ (lines : List GoString) (line : GoString), line ∈ lines →
      (fields line).length ≥ 19 → (Atoi ((fields line).getD 0 [])).2 = none →
      (Atoi ((fields line).getD 14 [])).2 = none →
      (ParseFloat ((fields line).getD 4 [])).isSome = true →
      (ParseFloat ((fields line).getD 5 [])).isSome = true →
      (Atoi ((fields line).getD 14 [])).1 = p.minPopulation →
      ∃ cities c, parseCitiesFromReader ParseFloat p { lines := lines, err := none }
          = Except.ok cities ∧ c ∈ cities ∧ parseCityLine ParseFloat p line = some c ∧
        c.ID = (Atoi ((fields line).getD 0 [])).1 ∧ c.Population = p.minPopulation) := by
  constructor
  · intro reader cities h c hc
    rw [parseCitiesFromReader_eq_ok ParseFloat p reader cities h, List.mem_filterMap] at hc
    obtain ⟨line, _, hline⟩ := hc
    have := (parseCityLine_eq_some ParseFloat p line c).mp hline
    obtain ⟨_, _, _, hpop, _, _, _, _, _, hp, _⟩ := this
    rw [hp]
    exact hpop
  · intro lines line hmem h19 hid hpop hlat hlon hm
    obtain ⟨lat, hlat⟩ := Option.isSome_iff_exists.mp hlat
    obtain ⟨lon, hlon⟩ := Option.isSome_iff_exists.mp hlon
    have hsome := (parseCityLine_eq_some ParseFloat p line
      { ID := (Atoi ((fields line).getD 0 [])).1, CountryCode := (fields line).getD 8 [],
        NameDefault := (fields line).getD 1 [],
        Population := (Atoi ((fields line).getD 14 [])).1, Lat := lat, Lon := lon,
        Elevation := (if (fields line).getD 15 [] ≠ [] ∧
            (Atoi ((fields line).getD 15 [])).2 = none
          then some (Atoi ((fields line).getD 15 [])).1 else none),
        Timezone := (if (fields line).getD 17 [] ≠ [] then some ((fields line).getD 17 [])
          else none) }).mpr
      ⟨h19, hid, hpop, by omega, hlat, hlon, rfl, rfl, rfl, rfl, rfl, rfl⟩
    exact ⟨_, _, parseCitiesFromReader_ok ParseFloat p lines,
      List.mem_filterMap.mpr ⟨line, hmem, hsome⟩, hsome, rfl, hm⟩

/-- Witness of C14: with minimum population 7556900 the London line, whose population is
exactly that, is in the output. -/
theorem population_filter_witness :
    parseCitiesFromReader parseWholeNumber (populationParser 7556900)
        { lines := [londonLine ""], err := none }
      = Except.ok [{ ID := 100, CountryCode := utf8 "GB", NameDefault := utf8 "London",
                     Population := 7556900, Lat := 51, Lon := 0, Elevation := none,
                     Timezone := some (utf8 "Europe/London") }] ∧
    (7556900 : Int) ≤ 7556900 :=
  ⟨rfl,
   (population_filter parseWholeNumber (populationParser 7556900)).1
      { lines := [londonLine ""], err := none } _ rfl
      { ID := 100, CountryCode := utf8 "GB", NameDefault := utf8 "London",
        Population := 7556900, Lat := 51, Lon := 0, Elevation := none,
        Timezone := some (utf8 "Europe/London") } (by decide)⟩

/-- Claim C15, amended: when the scanner reports no error, `parseCitiesFromReader` returns, in file
order, exactly one City per line that has at least 19 tab-separated fields, an identifier
(field 0) and a population (field 14) that parse as integers, a population not below the
configured minimum, and a latitude (field 4) and longitude (field 5) that parse; the record
has id = field 0, default name = field 1, latitude = field 4, longitude = field 5, country
code = field 8 and population = field 14; every other line is skipped without error. -/
theorem cities_in_file_order {φ : Type} (ParseFloat : GoString → Option φ) (p : Parser)
    (lines : List GoString) :
    parseCitiesFromReader ParseFloat p { lines := lines, err := none }
      = Except.ok (lines.filterMap (parseCityLine ParseFloat p)) ∧
    (∀ line, (parseCityLine ParseFloat p line).isSome = true ↔
      ((fields line).length ≥ 19 ∧ (Atoi ((fields line).getD 0 [])).2 = none ∧
        (Atoi ((fields line).getD 14 [])).2 = none ∧
        p.minPopulation ≤ (Atoi ((fields line).getD 14 [])).1 ∧
        (ParseFloat ((fields line).getD 4 [])).isSome = true ∧
        (ParseFloat ((fields line).getD 5 [])).isSome = true)) ∧
    (∀ line c, parseCityLine ParseFloat p line = some c →
      c.ID = (Atoi ((fields line).getD 0 [])).1 ∧ c.NameDefault = (fields line).getD 1 [] ∧
      ParseFloat ((fields line).getD 4 []) = some c.Lat ∧
      ParseFloat ((fields line).getD 5 []) = some c.Lon ∧
      c.CountryCode = (fields line).getD 8 [] ∧
      c.Population = (Atoi ((fields line).getD 14 [])).1) := by
  refine ⟨parseCitiesFromReader_ok ParseFloat p lines, ?_, ?_⟩
  · intro line
    constructor
    · intro h
      obtain ⟨c, hc⟩ := Option.isSome_iff_exists.mp h
      obtain ⟨a1, a2, a3, a4, a5, a6, _⟩ := (parseCityLine_eq_some ParseFloat p line c).mp hc
      exact ⟨a1, a2, a3, a4, by rw [a5]; rfl, by rw [a6]; rfl⟩
    · rintro ⟨a1, a2, a3, a4, a5, a6⟩
      obtain ⟨lat, hlat⟩ := Option.isSome_iff_exists.mp a5
      obtain ⟨lon, hlon⟩ := Option.isSome_iff_exists.mp a6
      have hsome := (parseCityLine_eq_some ParseFloat p line
        { ID := (Atoi ((fields line).getD 0 [])).1, CountryCode := (fields line).getD 8 [],
          NameDefault := (fields line).getD 1 [],
          Population := (Atoi ((fields line).getD 14 [])).1, Lat := lat, Lon := lon,
          Elevation := (if (fields line).getD 15 [] ≠ [] ∧
              (Atoi ((fields line).getD 15 [])).2 = none
            then some (Atoi ((fields line).getD 15 [])).1 else none),
          Timezone := (if (fields line).getD 17 [] ≠ [] then some ((fields line).getD 17 [])
            else none) }).mpr
        ⟨a1, a2, a3, a4, hlat, hlon, rfl, rfl, rfl, rfl, rfl, rfl⟩
      rw [hsome]
      rfl
  · intro line c hc
    obtain ⟨_, _, _, _, a5, a6, a7, a8, a9, a10, _⟩ :=
      (parseCityLine_eq_some ParseFloat p line c).mp hc
    exact ⟨a7, a9, a5, a6, a8, a10⟩

set_option maxRecDepth 100000 in
/-- Witness of C15: of the lines London, a line of two fields and Paris, the cities London
and Paris are returned, in that order; the London line is accepted with minimum population
1000 and has 19 fields. -/
theorem cities_in_file_order_witness :
    parseCitiesFromReader parseWholeNumber (populationParser 1000)
        { lines := [londonLine "11", utf8 "no\tcity", parisLine], err := none }
      = Except.ok [{ ID := 100, CountryCode := utf8 "GB", NameDefault := utf8 "London",
                     Population := 7556900, Lat := 51, Lon := 0, Elevation := some 11,
                     Timezone := some (utf8 "Europe/London") },
                   { ID := 2988507, CountryCode := utf8 "FR", NameDefault := utf8 "Paris",
                     Population := 2138551, Lat := 48, Lon := 2, Elevation := none,
                     Timezone := some (utf8 "Europe/Paris") }] ∧
    (parseCityLine parseWholeNumber (populationParser 1000) (londonLine "11")).isSome = true ∧
    (fields (londonLine "11")).length ≥ 19 :=
  ⟨(cities_in_file_order parseWholeNumber (populationParser 1000)
      [londonLine "11", utf8 "no\tcity", parisLine]).1.trans rfl,
   by decide,
   (((cities_in_file_order parseWholeNumber (populationParser 1000) []).2.1
      (londonLine "11")).mp (by decide)).1⟩

/-- Counterexample to C16: a line whose elevation field is the non-empty text "n/a" is
accepted, and its record has no elevation. -/
theorem elevation_absent_for_non_empty_field :
    parseCityLine parseWholeNumber (populationParser 1000) (londonLine "n/a")
      = some { ID := 100, CountryCode := utf8 "GB", NameDefault := utf8 "London",
               Population := 7556900, Lat := 51, Lon := 0, Elevation := none,
               Timezone := some (utf8 "Europe/London") } ∧
    (fields (londonLine "n/a")).getD 15 [] ≠ [] := by
  decide

/-- Claim C16, amended: for every line accepted by `parseCitiesFromReader`, the record's
elevation is absent if and only if field 15 is the empty string or does not parse as an
integer, and otherwise it is the integer value of field 15; the record's timezone is absent
if and only if field 17 is the empty string, and otherwise it equals field 17. -/
theorem optional_elevation_and_timezone {φ : Type} (ParseFloat : GoString → Option φ)
    (p : Parser) (line : GoString) (c : City φ)
    (h : parseCityLine ParseFloat p line = some c) :
    (c.Elevation = none ↔
      ((fields line).getD 15 [] = [] ∨ (Atoi ((fields line).getD 15 [])).2 ≠ none)) ∧
    (¬ ((fields line).getD 15 [] = [] ∨ (Atoi ((fields line).getD 15 [])).2 ≠ none) →
      c.Elevation = some (Atoi ((fields line).getD 15 [])).1) ∧
    (c.Timezone = none ↔ (fields line).getD 17 [] = []) ∧
    ((fields line).getD 17 [] ≠ [] → c.Timezone = some ((fields line).getD 17 [])) := by
  obtain ⟨_, _, _, _, _, _, _, _, _, _, he, ht⟩ :=
    (parseCityLine_eq_some ParseFloat p line c).mp h
  rw [he, ht]
  generalize (fields line).getD 15 [] = f15
  generalize (fields line).getD 17 [] = f17
  by_cases h15 : f15 = [] <;> by_cases ha : (Atoi f15).2 = none <;>
    by_cases h17 : f17 = [] <;> simp [h15, ha, h17]

/-- Witness of C16: the London line with elevation field "11" has elevation 11 and the
timezone of field 17. -/
theorem optional_elevation_and_timezone_witness :
    parseCityLine parseWholeNumber (populationParser 1000) (londonLine "11")
      = some { ID := 100, CountryCode := utf8 "GB", NameDefault := utf8 "London",
               Population := 7556900, Lat := 51, Lon := 0, Elevation := some 11,
               Timezone := some (utf8 "Europe/London") } ∧
    (some (11 : Int) = none ↔
      ((fields (londonLine "11")).getD 15 [] = [] ∨
        (Atoi ((fields (londonLine "11")).getD 15 [])).2 ≠ none)) :=
  ⟨by decide,
   (optional_elevation_and_timezone parseWholeNumber (populationParser 1000)
      (londonLine "11")
      { ID := 100, CountryCode := utf8 "GB", NameDefault := utf8 "London",
        Population := 7556900, Lat := 51, Lon := 0, Elevation := some 11,
        Timezone := some (utf8 "Europe/London") } (by decide)).1⟩

theorem map_filterMap_eq {α β γ : Type} (f : α → Option β) (g : β → γ) (h : α → γ)
    (hfg : ∀ x c, f x = some c → g c = h x) (l : List α) :
    (l.filterMap f).map g = (l.filter (fun x => (f x).isSome)).map h := by
  induction l with
  | nil => rfl
  | cons a l ih =>
    cases hfa : f a with
    | none =>
      rw [List.filterMap_cons, hfa, List.filter_cons_of_neg (by simp [hfa]), ih]
    | some c =>
      rw [List.filterMap_cons, hfa, List.filter_cons_of_pos (by simp [hfa]), List.map_cons,
        List.map_cons, ih, hfg a c hfa]

/-- Counterexample to C17: the same accepted line twice gives two City records with the
identifier 100. -/
theorem city_identifiers_can_repeat :
    ¬ (((parseCitiesFromReader parseWholeNumber (populationParser 1000)
        { lines := [londonLine "", londonLine ""], err := none }).toOption.getD []).map
          (fun c => c.ID)).Nodup := by
  decide

/-- Claim C17, amended: the identifiers of the City records returned by
`parseCitiesFromReader` are, in file order, the integer values of field 0 of the accepted
lines, one per accepted line; so they are pairwise distinct if and only if no two accepted
lines of the input carry the same identifier (the parser removes no duplicate). -/
theorem city_identifiers_follow_input {φ : Type} (ParseFloat : GoString → Option φ)
    (p : Parser) (reader : LineStream) (cities : List (City φ))
    (h : parseCitiesFromReader ParseFloat p reader = Except.ok cities) :
    cities.map (fun c => c.ID)
      = (reader.lines.filter (fun l => (parseCityLine ParseFloat p l).isSome)).map
          (fun l => (Atoi ((fields l).getD 0 [])).1) ∧
    ((cities.map (fun c => c.ID)).Nodup ↔
      ((reader.lines.filter (fun l => (parseCityLine ParseFloat p l).isSome)).map
          (fun l => (Atoi ((fields l).getD 0 [])).1)).Nodup) := by
  have hids : cities.map (fun c => c.ID)
      = (reader.lines.filter (fun l => (parseCityLine ParseFloat p l).isSome)).map
          (fun l => (Atoi ((fields l).getD 0 [])).1) := by
    rw [parseCitiesFromReader_eq_ok ParseFloat p reader cities h]
    apply map_filterMap_eq
    intro x c hx
    exact ((parseCityLine_eq_some ParseFloat p x c).mp hx).2.2.2.2.2.2.1
  exact ⟨hids, by rw [hids]⟩

/-- Witness of C17: a one-line input gives the one identifier 100. -/
theorem city_identifiers_follow_input_witness :
    parseCitiesFromReader parseWholeNumber (populationParser 1000)
        { lines := [londonLine ""], err := none }
      = Except.ok [{ ID := 100, CountryCode := utf8 "GB", NameDefault := utf8 "London",
                     Population := 7556900, Lat := 51, Lon := 0, Elevation := none,
                     Timezone := some (utf8 "Europe/London") }] ∧
    [(100 : Int)]
      = ([londonLine ""].filter
          (fun l => (parseCityLine parseWholeNumber (populationParser 1000) l).isSome)).map
          (fun l => (Atoi ((fields l).getD 0 [])).1) :=
  ⟨rfl,
   (city_identifiers_follow_input parseWholeNumber (populationParser 1000)
      { lines := [londonLine ""], err := none }
      [{ ID := 100, CountryCode := utf8 "GB", NameDefault := utf8 "London",
         Population := 7556900, Lat := 51, Lon := 0, Elevation := none,
         Timezone := some (utf8 "Europe/London") }] rfl).1⟩

/-! ## The country file parser -/

theorem countriesLoop_eq (countries : List Country) (lines : List GoString) :
    countriesLoop countries lines = countries ++ lines.filterMap parseCountryLine := by
  induction lines generalizing countries with
  | nil => simp [countriesLoop]
  | cons line rest ih =>
    cases h : parseCountryLine line with
    | none => simp [countriesLoop, h, ih]
    | some c => simp [countriesLoop, h, ih]

theorem HasPrefix_hash (line : GoString) :
    HasPrefix line (utf8 "#") = true ↔ line.head? = some 35 := by
  have : utf8 "#" = [35] := by decide
  rw [this]
  cases line with
  | nil => simp [HasPrefix]
  | cons c s => simp [HasPrefix]

theorem parseCountryLine_eq_some (line : GoString) (c : Country) :
    parseCountryLine line = some c ↔
      (HasPrefix line (utf8 "#") = false ∧ (fields line).length ≥ 17 ∧
        (fields line).getD 0 [] ≠ [] ∧ (fields line).getD 4 [] ≠ [] ∧
        c.Code = (fields line).getD 0 [] ∧ c.NameDefault = (fields line).getD 4 [] ∧
        c.GeonameID = (Atoi ((fields line).getD 16 [])).1) := by
  unfold parseCountryLine fields
  dsimp only
  generalize (Split line 9).getD 0 [] = f0
  generalize (Split line 9).getD 4 [] = f4
  generalize (Atoi ((Split line 9).getD 16 [])).1 = g
  generalize (Split line 9).length = n
  obtain ⟨code, name, gid⟩ := c
  by_cases h1 : HasPrefix line (utf8 "#") = true
  · simp [h1]
  · by_cases h2 : n < 17
    · simp [h1, h2]
    · by_cases h3 : f0 ≠ [] ∧ f4 ≠ []
      · have h2a : 17 ≤ n := by omega
        simp only [h1, h2, h3, if_false, if_true, Bool.false_eq_true, not_false_eq_true,
          and_self, Option.some.injEq, Country.mk.injEq, ge_iff_le, h2a, true_and, ne_eq]
        constructor <;> rintro ⟨rfl, rfl, rfl⟩ <;> exact ⟨rfl, rfl, rfl⟩
      · rw [if_neg h1, if_neg h2, if_neg h3]
        simp only [false_iff, reduceCtorEq]
        rintro ⟨_, _, a, b, _⟩
        exact h3 ⟨a, b⟩

theorem ParseCountries_ok (Join : GoString → GoString → GoString)
    (Open : GoString → Except GoError LineStream) (p : Parser) (lines : List GoString)
    (h : Open (Join p.dataDir (utf8 "countryInfo.txt"))
      = Except.ok { lines := lines, err := none }) :
    ParseCountries Join Open p = Except.ok (lines.filterMap parseCountryLine) := by
  unfold ParseCountries
  rw [h]
  simp [countriesLoop_eq]

theorem ParseCountries_eq_ok (Join : GoString → GoString → GoString)
    (Open : GoString → Except GoError LineStream) (p : Parser) (countries : List Country)
    (h : ParseCountries Join Open p = Except.ok countries) :
    ∃ file, Open (Join p.dataDir (utf8 "countryInfo.txt")) = Except.ok file ∧
      countries = file.lines.filterMap parseCountryLine := by
  unfold ParseCountries at h
  cases hopen : Open (Join p.dataDir (utf8 "countryInfo.txt")) with
  | error e => rw [hopen] at h; simp at h
  | ok file =>
    rw [hopen] at h
    refine ⟨file, rfl, ?_⟩
    cases herr : file.err with
    | some e => simp [herr] at h
    | none =>
      simp [herr, countriesLoop_eq] at h
      exact h.symm

/-! ## Values of `Atoi` on failure -/

theorem Atoi_cases (s : GoString) :
    (Atoi s).2 = none ∨ Atoi s = (0, some NumError.ErrSyntax) ∨
      Atoi s = (2 ^ 63 - 1, some NumError.ErrRange) ∨
      Atoi s = (-(2 ^ 63), some NumError.ErrRange) := by
  unfold Atoi
  dsimp only
  generalize (if s.head? = some 43 ∨ s.head? = some 45 then s.tail else s) = ds
  generalize decide (s.head? = some 45) = neg
  by_cases hds : ds = []
  · simp [hds]
  · rw [if_neg hds]
    generalize parseUint ds 0 = r
    obtain ⟨un, e⟩ := r
    rcases e with _ | e
    · dsimp only
      split_ifs <;> simp
    · cases e
      · simp
      · dsimp only
        split_ifs <;> simp

theorem Atoi_syntax_value (s : GoString) (h : (Atoi s).2 = some NumError.ErrSyntax) :
    (Atoi s).1 = 0 := by
  rcases Atoi_cases s with h1 | h1 | h1 | h1 <;> rw [h1] at h <;> simp at h
  rw [h1]

theorem Atoi_range_value (s : GoString) (h : (Atoi s).2 = some NumError.ErrRange) :
    (Atoi s).1 = 2 ^ 63 - 1 ∨ (Atoi s).1 = -(2 ^ 63) := by
  rcases Atoi_cases s with h1 | h1 | h1 | h1 <;> rw [h1] at h <;> simp at h
  · left; rw [h1]
  · right; rw [h1]

theorem parseUint_non_digit (pre : List UInt8) (b : UInt8) (post : List UInt8) (n k : Nat)
    (hn : n < 10 ^ k) (hk : k + pre.length ≤ 19) (hpre : ∀ d ∈ pre, isDigit d = true)
    (hb : isDigit b = false) :
    parseUint (pre ++ b :: post) n = (0, some NumError.ErrSyntax) := by
  induction pre generalizing n k with
  | nil =>
    have hb1 : ¬ (48 ≤ b.toNat ∧ b.toNat ≤ 57) := by simpa [isDigit] using hb
    simp only [List.nil_append, parseUint, if_neg hb1]
  | cons d pre ih =>
    have hd : 48 ≤ d.toNat ∧ d.toNat ≤ 57 := by
      simpa [isDigit] using hpre d (List.mem_cons_self d pre)
    have hlen : k + 1 + pre.length ≤ 19 := by
      simp only [List.length_cons] at hk
      omega
    have hk1 : k + 1 ≤ 19 := by omega
    have hpow : 10 ^ (k + 1) ≤ 10 ^ 19 := Nat.pow_le_pow_right (by norm_num) hk1
    have hstep : n * 10 + (d.toNat - 48) < 10 ^ (k + 1) := by
      rw [pow_succ]
      omega
    have hsmall : ¬ n * 10 + (d.toNat - 48) ≥ 2 ^ 64 := by
      have : (10 : Nat) ^ 19 < 2 ^ 64 := by norm_num
      omega
    simp only [List.cons_append, parseUint, if_pos hd, if_neg hsmall]
    exact ih _ (k + 1) hstep hlen (fun x hx => hpre x (List.mem_cons_of_mem d hx))

theorem Atoi_non_digit (s pre : GoString) (b : UInt8) (post : GoString)
    (hs : afterSign s = pre ++ b :: post) (hlen : pre.length ≤ 18)
    (hpre : ∀ d ∈ pre, isDigit d = true) (hb : isDigit b = false) :
    Atoi s = (0, some NumError.ErrSyntax) := by
  unfold afterSign at hs
  unfold Atoi
  dsimp only
  rw [hs]
  have hne : ¬ (pre ++ b :: post = []) := by simp
  rw [if_neg hne, parseUint_non_digit pre b post 0 0 (by norm_num) (by omega) hpre hb]

/-! ## Index builders -/

theorem foldl_set_get? {α κ ν : Type} [DecidableEq κ] (q : α → Prop) [DecidablePred q]
    (k : α → κ) (v : α → ν) (l : List α) (m0 : GoMap κ ν) (x : κ) :
    (l.foldl (fun m a => if q a then m.set (k a) (v a) else m) m0).get? x
      = (((l.filter (fun a => decide (q a ∧ k a = x))).getLast?).map v).orElse
          (fun _ => m0.get? x) := by
  induction l generalizing m0 with
  | nil => simp
  | cons a l ih =>
    rw [List.foldl_cons, ih]
    by_cases hq : q a
    · by_cases hk : k a = x
      · rw [List.filter_cons_of_pos (by simp [hq, hk]), if_pos hq, GoMap.get?_set, if_pos hk]
        cases hl : (l.filter (fun a => decide (q a ∧ k a = x))).getLast? with
        | none =>
          have : l.filter (fun a => decide (q a ∧ k a = x)) = [] :=
            List.getLast?_eq_none_iff.mp hl
          rw [this]
          rfl
        | some b =>
          rw [List.getLast?_cons, hl]
          simp
      · rw [List.filter_cons_of_neg (by simp [hq, hk]), if_pos hq, GoMap.get?_set, if_neg hk]
    · rw [List.filter_cons_of_neg (by simp [hq]), if_neg hq]

theorem CreateCityIDMap_get? {φ : Type} (cities : List (City φ)) (x : Int) :
    (CreateCityIDMap cities).get? x
      = ((cities.filter (fun c => decide (c.ID = x))).getLast?).map (fun _ => true) := by
  have h := foldl_set_get? (fun _ : City φ => True) (fun c => c.ID) (fun _ => true) cities [] x
  simp only [if_true, true_and, GoMap.get?] at h
  unfold CreateCityIDMap
  rw [h]
  cases (cities.filter (fun c => decide (c.ID = x))).getLast? <;> rfl

theorem CreateCountryCodeMap_get? (countries : List Country) (code : GoString) :
    (CreateCountryCodeMap countries).get? code
      = ((countries.filter (fun c => decide (c.Code = code))).getLast?).map
          (fun _ => true) := by
  have h := foldl_set_get? (fun _ : Country => True) (fun c => c.Code) (fun _ => true)
    countries [] code
  simp only [if_true, true_and, GoMap.get?] at h
  unfold CreateCountryCodeMap
  rw [h]
  cases (countries.filter (fun c => decide (c.Code = code))).getLast? <;> rfl

theorem CreateCountryGeonameIDMap_get? (countries : List Country) (g : Int) :
    (CreateCountryGeonameIDMap countries).get? g
      = if g = 0 then none
        else ((countries.filter (fun c => decide (c.GeonameID = g))).getLast?).map
          (fun c => c.Code) := by
  have h := foldl_set_get? (fun c : Country => c.GeonameID ≠ 0) (fun c => c.GeonameID)
    (fun c => c.Code) countries [] g
  unfold CreateCountryGeonameIDMap
  rw [h]
  by_cases hg : g = 0
  · subst hg
    have : countries.filter (fun a => decide (a.GeonameID ≠ 0 ∧ a.GeonameID = 0)) = [] := by
      rw [List.filter_eq_nil_iff]
      intro a _
      simp
    rw [this]
    rfl
  · have : (fun a : Country => decide (a.GeonameID ≠ 0 ∧ a.GeonameID = g))
        = (fun c => decide (c.GeonameID = g)) := by
      funext a
      by_cases ha : a.GeonameID = g
      · simp [ha, hg]
      · simp [ha]
    rw [this, if_neg hg]
    cases (countries.filter (fun c => decide (c.GeonameID = g))).getLast? <;> rfl

theorem getLast?_filter_isSome {α : Type} (q : α → Bool) (l : List α) :
    ((l.filter q).getLast?).isSome = true ↔ ∃ a ∈ l, q a = true := by
  constructor
  · intro h
    obtain ⟨a, ha⟩ := Option.isSome_iff_exists.mp h
    have := List.mem_of_getLast?_eq_some ha
    rw [List.mem_filter] at this
    exact ⟨a, this.1, this.2⟩
  · rintro ⟨a, ha, hq⟩
    have hmem : a ∈ l.filter q := List.mem_filter.mpr ⟨ha, hq⟩
    cases h : (l.filter q).getLast? with
    | none =>
      rw [List.getLast?_eq_none_iff.mp h] at hmem
      simp at hmem
    | some b => rfl

/-! ## Claims on the country parser and the index builders -/

/-- Claim C18, amended: when the file opens and the scanner reports no error, `ParseCountries`
returns, in file order, exactly one Country per line that does not begin with the comment
marker '#', has at least 17 tab-separated fields and has a non-empty code (field 0) and a
non-empty default name (field 4); the record has code = field 0, default name = field 4 and
source identifier = integer value of field 16; comment lines and lines with fewer than 17
fields give no record and no error; every Country that `ParseCountries` returns has a
non-empty code and name. -/
theorem countries_in_file_order (Join : GoString → GoString → GoString)
    (Open : GoString → Except GoError LineStream) (p : Parser) :
    (∀ lines, Open (Join p.dataDir (utf8 "countryInfo.txt"))
        = Except.ok { lines := lines, err := none } →
      ParseCountries Join Open p = Except.ok (lines.filterMap parseCountryLine)) ∧
    (∀ line, (parseCountryLine line).isSome = true ↔
      (line.head? ≠ some 35 ∧ (fields line).length ≥ 17 ∧ (fields line).getD 0 [] ≠ [] ∧
        (fields line).getD 4 [] ≠ [])) ∧
    (∀ line c, parseCountryLine line = some c →
      c.Code = (fields line).getD 0 [] ∧ c.NameDefault = (fields line).getD 4 [] ∧
      c.GeonameID = (Atoi ((fields line).getD 16 [])).1) ∧
    (∀ line, (line.head? = some 35 ∨ (fields line).length < 17) →
      parseCountryLine line = none) ∧
    (∀ countries, ParseCountries Join Open p = Except.ok countries →
      ∀ c ∈ countries, c.Code ≠ [] ∧ c.NameDefault ≠ []) := by
  have hsome : ∀ line, (parseCountryLine line).isSome = true ↔
      (line.head? ≠ some 35 ∧ (fields line).length ≥ 17 ∧ (fields line).getD 0 [] ≠ [] ∧
        (fields line).getD 4 [] ≠ []) := by
    intro line
    constructor
    · intro h
      obtain ⟨c, hc⟩ := Option.isSome_iff_exists.mp h
      obtain ⟨a1, a2, a3, a4, _⟩ := (parseCountryLine_eq_some line c).mp hc
      refine ⟨?_, a2, a3, a4⟩
      intro hh
      rw [(HasPrefix_hash line).mpr hh] at a1
      exact Bool.noConfusion a1
    · rintro ⟨a1, a2, a3, a4⟩
      have hp : HasPrefix line (utf8 "#") = false := by
        cases hh : HasPrefix line (utf8 "#") with
        | false => rfl
        | true => exact absurd ((HasPrefix_hash line).mp hh) a1
      rw [(parseCountryLine_eq_some line
        { Code := (fields line).getD 0 [], NameDefault := (fields line).getD 4 [],
          GeonameID := (Atoi ((fields line).getD 16 [])).1 }).mpr
        ⟨hp, a2, a3, a4, rfl, rfl, rfl⟩]
      rfl
  refine ⟨fun lines h => ParseCountries_ok Join Open p lines h, hsome, ?_, ?_, ?_⟩
  · intro line c hc
    obtain ⟨_, _, _, _, a5, a6, a7⟩ := (parseCountryLine_eq_some line c).mp hc
    exact ⟨a5, a6, a7⟩
  · intro line h
    cases hc : parseCountryLine line with
    | none => rfl
    | some c =>
      have := (hsome line).mp (by rw [hc]; rfl)
      rcases h with h | h
      · exact absurd h this.1
      · have := this.2.1
        omega
  · intro countries h c hc
    obtain ⟨file, _, hfile⟩ := ParseCountries_eq_ok Join Open p countries h
    rw [hfile, List.mem_filterMap] at hc
    obtain ⟨line, _, hline⟩ := hc
    obtain ⟨_, _, a3, a4, a5, a6, _⟩ := (parseCountryLine_eq_some line c).mp hline
    rw [a5, a6]
    exact ⟨a3, a4⟩

set_option maxRecDepth 100000 in
/-- Witness of C18: the file of `TestParser_ParseCountries` gives the two countries of the
test, Andorra first with source identifier 3041565. -/
theorem countries_in_file_order_witness :
    ParseCountries joinPath
        (oneFile (joinPath (utf8 "/tmp/001") (utf8 "countryInfo.txt")) countryTestData)
        countryTestParser
      = Except.ok [{ Code := utf8 "AD", NameDefault := utf8 "Andorra", GeonameID := 3041565 },
          { Code := utf8 "AE", NameDefault := utf8 "United Arab Emirates",
            GeonameID := 290557 }] :=
  (countries_in_file_order joinPath
      (oneFile (joinPath (utf8 "/tmp/001") (utf8 "countryInfo.txt")) countryTestData)
      countryTestParser).1 (scan 65536 countryTestData).lines rfl

/-- Counterexample to C19: an accepted line whose field 16 is a digit string outside the
integer range, which `Atoi` rejects with a range error, gives the source identifier
9223372036854775807. -/
theorem out_of_range_identifier_is_not_zero :
    parseCountryLine (andorraLine "99999999999999999999")
      = some { Code := utf8 "AD", NameDefault := utf8 "Andorra",
               GeonameID := 9223372036854775807 } ∧
    (fields (andorraLine "99999999999999999999")).getD 16 [] = utf8 "99999999999999999999" ∧
    (Atoi (utf8 "99999999999999999999")).2 = some NumError.ErrRange := by
  decide

/-- Claim C19, amended: for every country line accepted by `ParseCountries` whose field 16
cannot be parsed as an integer by `strconv.Atoi`, the record is still produced; its source
identifier is 0 when the failure is a syntax error, which is the case for the empty string
and for every text with a non-digit among the first 19 bytes after an optional sign; and it
is the nearest representable integer, 2^63 - 1 or -2^63, when the failure is a range error
(digit strings outside the integer range). -/
theorem unparsable_source_identifier (line : GoString)
    (hcomment : line.head? ≠ some 35) (hfields : (fields line).length ≥ 17)
    (hcode : (fields line).getD 0 [] ≠ []) (hname : (fields line).getD 4 [] ≠ [])
    (herr : (Atoi ((fields line).getD 16 [])).2 ≠ none) :
    ∃ c, parseCountryLine line = some c ∧
      (∀ Join Open p lines, Open (Join p.dataDir (utf8 "countryInfo.txt"))
          = Except.ok { lines := lines, err := none } → line ∈ lines →
        ∃ countries, ParseCountries Join Open p = Except.ok countries ∧ c ∈ countries) ∧
      c.Code = (fields line).getD 0 [] ∧ c.NameDefault = (fields line).getD 4 [] ∧
      ((Atoi ((fields line).getD 16 [])).2 = some NumError.ErrSyntax → c.GeonameID = 0) ∧
      ((fields line).getD 16 [] = [] → c.GeonameID = 0) ∧
      (∀ pre b post, afterSign ((fields line).getD 16 []) = pre ++ b :: post →
        pre.length ≤ 18 → (∀ d ∈ pre, isDigit d = true) → isDigit b = false →
        c.GeonameID = 0) ∧
      ((Atoi ((fields line).getD 16 [])).2 = some NumError.ErrRange →
        c.GeonameID = 2 ^ 63 - 1 ∨ c.GeonameID = -(2 ^ 63)) ∧
      (c.GeonameID = 0 ∨ c.GeonameID = 2 ^ 63 - 1 ∨ c.GeonameID = -(2 ^ 63)) := by
  have hp : HasPrefix line (utf8 "#") = false := by
    cases hh : HasPrefix line (utf8 "#") with
    | false => rfl
    | true => exact absurd ((HasPrefix_hash line).mp hh) hcomment
  have hsome := (parseCountryLine_eq_some line
    { Code := (fields line).getD 0 [], NameDefault := (fields line).getD 4 [],
      GeonameID := (Atoi ((fields line).getD 16 [])).1 }).mpr
    ⟨hp, hfields, hcode, hname, rfl, rfl, rfl⟩
  refine ⟨_, hsome, ?_, rfl, rfl, ?_, ?_, ?_, ?_, ?_⟩
  · intro Join Open p lines hopen hmem
    exact ⟨_, ParseCountries_ok Join Open p lines hopen,
      List.mem_filterMap.mpr ⟨line, hmem, hsome⟩⟩
  · exact Atoi_syntax_value _
  · intro h16
    show (Atoi ((fields line).getD 16 [])).1 = 0
    rw [h16]
    rfl
  · intro pre b post hs hlen hpre hb
    show (Atoi ((fields line).getD 16 [])).1 = 0
    rw [Atoi_non_digit _ pre b post hs hlen hpre hb]
  · exact Atoi_range_value _
  · show (Atoi ((fields line).getD 16 [])).1 = 0 ∨ (Atoi ((fields line).getD 16 [])).1
      = 2 ^ 63 - 1 ∨ (Atoi ((fields line).getD 16 [])).1 = -(2 ^ 63)
    rcases Atoi_cases ((fields line).getD 16 []) with h1 | h1 | h1 | h1
    · exact absurd h1 herr
    · rw [h1]; exact Or.inl rfl
    · rw [h1]; exact Or.inr (Or.inl rfl)
    · rw [h1]; exact Or.inr (Or.inr rfl)

/-- Witness of C19: the Andorra line with the non-numeric field 16 "n/a" is accepted and
gives the source identifier 0. -/
theorem unparsable_source_identifier_witness :
    parseCountryLine (andorraLine "n/a")
      = some { Code := utf8 "AD", NameDefault := utf8 "Andorra", GeonameID := 0 } ∧
    (Atoi ((fields (andorraLine "n/a")).getD 16 [])).2 = some NumError.ErrSyntax ∧
    ∃ c, parseCountryLine (andorraLine "n/a") = some c ∧ c.GeonameID = 0 :=
  ⟨by decide, by decide,
   (unparsable_source_identifier (andorraLine "n/a") (by decide) (by decide) (by decide)
      (by decide) (by decide)).elim
    (fun c hc => ⟨c, hc.1, hc.2.2.2.2.1 (by decide)⟩)⟩

/-- Claim C20: the index builders agree with their inputs. `CreateCityIDMap(cities)[x]` is
true if and only if some city has ID x; `CreateCountryCodeMap(countries)[c]` is true if and
only if some country has code c; `CreateCountryGeonameIDMap(countries)` contains key g if
and only if g is non-zero and some country has source identifier g, and the value is then
the code of the last such country in list order. -/
theorem index_builders_agree :
    (∀ (φ : Type) (cities : List (City φ)) (x : Int),
      (CreateCityIDMap cities).test x = true ↔ ∃ c ∈ cities, c.ID = x) ∧
    (∀ (countries : List Country) (code : GoString),
      (CreateCountryCodeMap countries).test code = true ↔ ∃ c ∈ countries, c.Code = code) ∧
    (∀ (countries : List Country) (g : Int),
      ((CreateCountryGeonameIDMap countries).get? g).isSome = true ↔
        (g ≠ 0 ∧ ∃ c ∈ countries, c.GeonameID = g)) ∧
    (∀ (countries : List Country) (g : Int),
      (CreateCountryGeonameIDMap countries).get? g
        = if g = 0 then none
          else ((countries.filter (fun c => decide (c.GeonameID = g))).getLast?).map
            (fun c => c.Code)) := by
  refine ⟨?_, ?_, ?_, CreateCountryGeonameIDMap_get?⟩
  · intro φ cities x
    unfold GoMap.test
    have h1 : ∀ o : Option (City φ), (o.map (fun _ => true)).getD false = o.isSome := by
      intro o
      cases o <;> rfl
    rw [CreateCityIDMap_get?, h1, getLast?_filter_isSome]
    simp
  · intro countries code
    unfold GoMap.test
    have h1 : ∀ o : Option Country, (o.map (fun _ => true)).getD false = o.isSome := by
      intro o
      cases o <;> rfl
    rw [CreateCountryCodeMap_get?, h1, getLast?_filter_isSome]
    simp
  · intro countries g
    rw [CreateCountryGeonameIDMap_get?]
    by_cases hg : g = 0
    · simp [hg]
    · have h1 : ∀ o : Option Country, (o.map (fun c => c.Code)).isSome = o.isSome := by
        intro o
        cases o <;> rfl
      rw [if_neg hg, h1, getLast?_filter_isSome]
      simp [hg]

/-- Witness of C20: the maps of `TestCreateCityIDMap` and `TestCreateCountryCodeMap`. -/
theorem index_builders_agree_witness :
    (CreateCityIDMap (φ := Int)
        [⟨1, [], utf8 "City1", 0, 0, 0, none, none⟩, ⟨2, [], utf8 "City2", 0, 0, 0, none, none⟩,
         ⟨3, [], utf8 "City3", 0, 0, 0, none, none⟩]).test 4 = false ∧
    ((CreateCityIDMap (φ := Int)
        [⟨1, [], utf8 "City1", 0, 0, 0, none, none⟩, ⟨2, [], utf8 "City2", 0, 0, 0, none, none⟩,
         ⟨3, [], utf8 "City3", 0, 0, 0, none, none⟩]).test 2 = true ↔
      ∃ c ∈ ([⟨1, [], utf8 "City1", 0, 0, 0, none, none⟩,
          ⟨2, [], utf8 "City2", 0, 0, 0, none, none⟩,
          ⟨3, [], utf8 "City3", 0, 0, 0, none, none⟩] : List (City Int)), c.ID = 2) ∧
    (CreateCountryCodeMap [⟨utf8 "RU", utf8 "Russia", 0⟩,
        ⟨utf8 "US", utf8 "United States", 0⟩]).test (utf8 "RU") = true ∧
    (CreateCountryCodeMap [⟨utf8 "RU", utf8 "Russia", 0⟩,
        ⟨utf8 "US", utf8 "United States", 0⟩]).test (utf8 "FR") = false ∧
    CreateCountryGeonameIDMap [⟨utf8 "AD", utf8 "Andorra", 3041565⟩,
        ⟨utf8 "XX", utf8 "Nowhere", 0⟩, ⟨utf8 "AN", utf8 "Andorra", 3041565⟩]
      = [(3041565, utf8 "AN")] :=
  ⟨by decide, index_builders_agree.1 Int _ 2, by decide, by decide, by decide⟩

/-! ## Injectivity of the dedup keys -/

/-- Counterexample to C30: the codes "A" and "A:" come from a parsed country list, the
languages ":b" and "b" reach the dedup step, and the two country keys are the same string
"A::b"; the pass treats the two rows as duplicates and hands over one record, the one of
"A" and ":b" with the name of the row of "A:" and "b". -/
theorem country_keys_collide :
    [plainCountryLine "A" "Aland" "10", plainCountryLine "A:" "Bland" "20"].filterMap
        parseCountryLine = colonCountries ∧
    colonRows.filterMap (fun line => (parseRow (batchParser 10) line).map (fun r => r.lang))
      = [utf8 ":b", utf8 "b"] ∧
    countryKey (utf8 "A") (utf8 ":b") = countryKey (utf8 "A:") (utf8 "b") ∧
    countryBatches (processAlternateNamesFromReaderWithCountryMapping (batchParser 10)
        { lines := colonRows, err := none } [] (CreateCountryCodeMap colonCountries)
        (some (CreateCountryGeonameIDMap colonCountries)) none (some collectCountry)).calls
      = [[{ CountryCode := utf8 "A", Lang := utf8 ":b", Name := utf8 "Beta" }]] := by
  decide

/-- Claim C30, amended: the city key strings "<g1>:<l1>" and "<g2>:<l2>" are equal only if
g1 = g2 and l1 = l2, for all integer ids and all language codes; the country key strings
"<c1>:<l1>" and "<c2>:<l2>" are equal only if c1 = c2 and l1 = l2 provided neither country
code contains the byte ':'. -/
theorem dedup_keys_injective :
    (∀ (g1 g2 : Int) (l1 l2 : GoString), cityKey g1 l1 = cityKey g2 l2 → g1 = g2 ∧ l1 = l2) ∧
    (∀ (c1 c2 l1 l2 : GoString), (58 : UInt8) ∉ c1 → (58 : UInt8) ∉ c2 →
      countryKey c1 l1 = countryKey c2 l2 → c1 = c2 ∧ l1 = l2) :=
  ⟨cityKey_injective, fun c1 c2 l1 l2 h1 h2 h => append_sep_injective 58 c1 c2 l1 l2 h1 h2 h⟩

/-- Witness of C30: the keys of (100, "en") and of ("FR", "en"). -/
theorem dedup_keys_injective_witness :
    cityKey 100 (utf8 "en") = utf8 "100:en" ∧ countryKey (utf8 "FR") (utf8 "en") = utf8 "FR:en" ∧
    ((100 : Int) = 100 ∧ utf8 "en" = utf8 "en") ∧ (utf8 "FR" = utf8 "FR" ∧ utf8 "en" = utf8 "en") :=
  ⟨by decide, by decide, dedup_keys_injective.1 100 100 (utf8 "en") (utf8 "en") rfl,
   dedup_keys_injective.2 (utf8 "FR") (utf8 "FR") (utf8 "en") (utf8 "en") (by decide) (by decide)
     rfl⟩

/-! ## Choice of the archive entry -/

theorem selectTarget_eq (files : List ZipFile) :
    ∀ targetFile : Option ZipFile,
      selectTarget targetFile files
        = match files.find? namedTarget with
          | some f => some f
          | none => targetFile.orElse (fun _ => files.find? textTarget) := by
  induction files with
  | nil => intro t; cases t <;> rfl
  | cons f rest ih =>
    intro t
    unfold selectTarget
    by_cases h1 : HasSuffix f.Name (utf8 "alternateNames.txt") = true ∨
        HasSuffix f.Name (utf8 "alternateNamesV2.txt") = true
    · have hn : namedTarget f = true := by
        unfold namedTarget
        rcases h1 with h | h <;> simp [h]
      rw [if_pos h1, List.find?_cons_of_pos _ hn]
    · have hn : ¬ namedTarget f = true := by
        unfold namedTarget
        intro h
        rw [Bool.or_eq_true] at h
        exact h1 h
      rw [if_neg h1, List.find?_cons_of_neg _ hn]
      by_cases h2 : t.isNone = true ∧ HasSuffix f.Name (utf8 ".txt") = true
      · rw [if_pos h2, ih]
        have ht : t = none := by
          cases t with
          | none => rfl
          | some x => simp at h2
        subst ht
        have htxt : textTarget f = true := h2.2
        rw [List.find?_cons_of_pos _ htxt]
        cases rest.find? namedTarget <;> rfl
      · rw [if_neg h2, ih]
        cases t with
        | some x => rfl
        | none =>
          have htxt : ¬ textTarget f = true := fun h => h2 ⟨rfl, h⟩
          rw [List.find?_cons_of_neg _ htxt]

theorem HasSuffix_iff (s suffix : GoString) :
    HasSuffix s suffix = true ↔ ∃ pre, s = pre ++ suffix := by
  unfold HasSuffix
  rw [Bool.and_eq_true, decide_eq_true_iff, decide_eq_true_iff]
  constructor
  · rintro ⟨_, h⟩
    refine ⟨s.take (s.length - suffix.length), ?_⟩
    conv_lhs => rw [← List.take_append_drop (s.length - suffix.length) s]
    rw [h]
  · rintro ⟨pre, rfl⟩
    refine ⟨by simp, ?_⟩
    have : (pre ++ suffix).length - suffix.length = pre.length := by simp
    rw [this, List.drop_left]

theorem textTarget_of_namedTarget (f : ZipFile) (h : namedTarget f = true) :
    textTarget f = true := by
  unfold namedTarget at h
  unfold textTarget
  rw [Bool.or_eq_true] at h
  have e1 : utf8 "alternateNames.txt" = utf8 "alternateNames" ++ utf8 ".txt" := by decide
  have e2 : utf8 "alternateNamesV2.txt" = utf8 "alternateNamesV2" ++ utf8 ".txt" := by decide
  rcases h with h | h
  · obtain ⟨pre, hpre⟩ := (HasSuffix_iff _ _).mp h
    exact (HasSuffix_iff _ _).mpr ⟨pre ++ utf8 "alternateNames", by rw [hpre, e1]; simp⟩
  · obtain ⟨pre, hpre⟩ := (HasSuffix_iff _ _).mp h
    exact (HasSuffix_iff _ _).mpr ⟨pre ++ utf8 "alternateNamesV2", by rw [hpre, e2]; simp⟩

/-- Counterexample to C25: in an archive that lists "alternateNamesV2.txt" before
"alternateNames.txt" the versioned entry is selected although an entry with the preferred
name exists, and the pass reads the rows of the versioned entry. -/
theorem versioned_entry_selected_before_preferred :
    (selectTarget none twoNamedEntries).map (fun f => f.Name)
      = some (utf8 "alternateNamesV2.txt") ∧
    (twoNamedEntries.map (fun f => HasSuffix f.Name (utf8 "alternateNames.txt")))
      = [false, true] ∧
    ProcessAlternateNamesWithCountries joinPath statZipOnly (zipOnly twoNamedEntries)
        (fun _ => Except.error (GoError.base "open: no such file or directory")) dataParser
        testCityIDs [] none (some collectCity) none
      = { calls := [SinkCall.city [{ CityID := 100, Lang := utf8 "en", Name := utf8 "FromV2" }]],
          ending := Ending.ok } := by
  decide

/-- Claim C25, amended: for every ordered list of archive entries, the entry selected by
`ProcessAlternateNamesWithCountries` is the first entry whose name ends in
"alternateNames.txt" or in "alternateNamesV2.txt", whichever comes first, if any such entry
exists; otherwise the first entry whose name ends in ".txt"; the pass then runs on the
selected entry; and if no entry name ends in ".txt" the pass fails with the error
"no alternateNames.txt file found in zip". -/
theorem archive_entry_selection (files : List ZipFile) :
    selectTarget none files
      = ((files.find? namedTarget).orElse (fun _ => files.find? textTarget)) ∧
    (selectTarget none files = none ↔ ∀ f ∈ files, textTarget f = false) ∧
    (∀ (Join : GoString → GoString → GoString) (Stat : GoString → Option GoError)
        (OpenZip : GoString → Except GoError (List ZipFile))
        (Open : GoString → Except GoError LineStream) (p : Parser) (cityIDs : GoMap Int Bool)
        (countryCodes : GoMap GoString Bool)
        (geonameIDToCountryCode : Option (GoMap Int GoString))
        (cityCallback : Option CityCallback) (countryCallback : Option CountryCallback),
      Stat (Join p.dataDir (utf8 "alternateNames.zip")) = none →
      OpenZip (Join p.dataDir (utf8 "alternateNames.zip")) = Except.ok files →
      ((∀ f ∈ files, textTarget f = false) →
        ProcessAlternateNamesWithCountries Join Stat OpenZip Open p cityIDs countryCodes
            geonameIDToCountryCode cityCallback countryCallback
          = { calls := [],
              ending := Ending.failed
                (GoError.base "no alternateNames.txt file found in zip") }) ∧
      (∀ f rc, selectTarget none files = some f → f.content = Except.ok rc →
        ProcessAlternateNamesWithCountries Join Stat OpenZip Open p cityIDs countryCodes
            geonameIDToCountryCode cityCallback countryCallback
          = processAlternateNamesFromReaderWithCountryMapping p rc cityIDs countryCodes
              geonameIDToCountryCode cityCallback countryCallback)) := by
  have hsel : selectTarget none files
      = ((files.find? namedTarget).orElse (fun _ => files.find? textTarget)) := by
    rw [selectTarget_eq]
    cases files.find? namedTarget <;> rfl
  have hnone : selectTarget none files = none ↔ ∀ f ∈ files, textTarget f = false := by
    rw [hsel]
    constructor
    · intro h f hf
      cases hn : files.find? namedTarget with
      | some g => rw [hn] at h; exact Option.noConfusion h
      | none =>
        rw [hn] at h
        have h1 : files.find? textTarget = none := h
        have := List.find?_eq_none.mp h1 f hf
        simpa using this
    · intro h
      have h1 : files.find? namedTarget = none := by
        rw [List.find?_eq_none]
        intro f hf hn
        have := textTarget_of_namedTarget f hn
        rw [h f hf] at this
        exact Bool.noConfusion this
      have h2 : files.find? textTarget = none := by
        rw [List.find?_eq_none]
        intro f hf
        simp [h f hf]
      rw [h1]
      exact h2
  refine ⟨hsel, hnone, ?_⟩
  intro Join Stat OpenZip Open p cityIDs countryCodes geonameIDToCountryCode cityCallback
    countryCallback hstat hopen
  constructor
  · intro hno
    unfold ProcessAlternateNamesWithCountries
    simp only [hstat, hopen, hnone.mpr hno]
  · intro f rc hf hrc
    unfold ProcessAlternateNamesWithCountries
    simp only [hstat, hopen, hf, hrc]

/-- Witness of C25: a readme comes first, so it is held until the versioned file is met,
which is then selected; an archive without any ".txt" entry makes the pass fail. -/
theorem archive_entry_selection_witness :
    (selectTarget none readmeFirst).map (fun f => f.Name)
      = some (utf8 "dump/alternateNamesV2.txt") ∧
    (selectTarget none [zipEntry "iso.csv" []] = none ↔
      ∀ f ∈ [zipEntry "iso.csv" []], textTarget f = false) ∧
    ProcessAlternateNamesWithCountries joinPath statZipOnly (zipOnly [zipEntry "iso.csv" []])
        (fun _ => Except.error (GoError.base "open: no such file or directory")) dataParser
        testCityIDs [] none (some collectCity) none
      = { calls := [],
          ending := Ending.failed (GoError.base "no alternateNames.txt file found in zip") } :=
  ⟨by decide, (archive_entry_selection [zipEntry "iso.csv" []]).2.1,
   ((archive_entry_selection [zipEntry "iso.csv" []]).2.2 joinPath statZipOnly
      (zipOnly [zipEntry "iso.csv" []])
      (fun _ => Except.error (GoError.base "open: no such file or directory")) dataParser
      testCityIDs [] none (some collectCity) none (by decide) rfl).1 (by decide)⟩

/-! ## Query validation of the suggestion service -/

/-- Counterexample to C26: the query "é" has one character, which takes two bytes; it is
not rejected, the repository is called with it and a response is returned. -/
theorem one_character_query_reaches_repository :
    "é".length = 1 ∧ (utf8 "é").length = 2 ∧
    SuggestCities mockSearch { Query := utf8 "é", Lang := utf8 "en", Limit := 10 }
      = { response := some { Results := [] }, err := none,
          repoCalls := [{ query := utf8 "é", lang := utf8 "en", limit := 10 }] } := by
  decide

/-- Claim C26, amended: for every request whose query has fewer than 2 bytes (the empty
query and every one-byte query), `SuggestCities` returns a nil response and the error
"query must be at least 2 characters" without calling the repository; for every request
whose query has at least 2 bytes it calls `SearchCitiesWithLang` once, with that query, the
language ("en" when empty) and the limit (10 when not positive), and fails if and only if
the repository fails, with the repository error wrapped. -/
theorem query_validation (SearchCitiesWithLang : GoString → GoString → Int →
    Except GoError (List CityResult)) (req : SuggestRequest) :
    (req.Query.length < 2 →
      SuggestCities SearchCitiesWithLang req
        = { response := none,
            err := some (GoError.base "query must be at least 2 characters"),
            repoCalls := [] } ∧
      (GoError.base "query must be at least 2 characters").Error
        = "query must be at least 2 characters") ∧
    (2 ≤ req.Query.length →
      (SuggestCities SearchCitiesWithLang req).repoCalls
        = [{ query := req.Query, lang := if req.Lang = [] then utf8 "en" else req.Lang,
             limit := if req.Limit ≤ 0 then 10 else req.Limit }] ∧
      (∀ results, SearchCitiesWithLang req.Query (if req.Lang = [] then utf8 "en" else req.Lang)
          (if req.Limit ≤ 0 then 10 else req.Limit) = Except.ok results →
        (SuggestCities SearchCitiesWithLang req).response = some { Results := results } ∧
        (SuggestCities SearchCitiesWithLang req).err = none) ∧
      (∀ e, SearchCitiesWithLang req.Query (if req.Lang = [] then utf8 "en" else req.Lang)
          (if req.Limit ≤ 0 then 10 else req.Limit) = Except.error e →
        (SuggestCities SearchCitiesWithLang req).response = none ∧
        (SuggestCities SearchCitiesWithLang req).err
          = some (GoError.wrapped "failed to search cities" e))) := by
  have hmsg : ("query must be at least " ++ pathText (formatInt minQueryLength) ++ " characters")
      = "query must be at least 2 characters" := by decide
  constructor
  · intro h
    have h1 : (req.Query.length : Int) < minQueryLength := by
      unfold minQueryLength
      omega
    unfold SuggestCities
    rw [if_pos h1, hmsg]
    exact ⟨rfl, rfl⟩
  · intro h
    have h1 : ¬ (req.Query.length : Int) < minQueryLength := by
      unfold minQueryLength
      omega
    unfold SuggestCities
    rw [if_neg h1]
    dsimp only [defaultLang, defaultLimit]
    cases hrepo : SearchCitiesWithLang req.Query (if req.Lang = [] then utf8 "en" else req.Lang)
        (if req.Limit ≤ 0 then 10 else req.Limit) with
    | error e =>
      refine ⟨rfl, ?_, ?_⟩
      · intro results hres
        exact Except.noConfusion hres
      · intro e1 he
        cases he
        exact ⟨rfl, rfl⟩
    | ok results =>
      refine ⟨rfl, ?_, ?_⟩
      · intro r1 hres
        cases hres
        exact ⟨rfl, rfl⟩
      · intro e he
        exact Except.noConfusion he

/-- Witness of C26: the three cases of `TestService_SuggestCities`. -/
theorem query_validation_witness :
    SuggestCities mockSearch { Query := utf8 "D", Lang := utf8 "en", Limit := 0 }
      = { response := none, err := some (GoError.base "query must be at least 2 characters"),
          repoCalls := [] } ∧
    SuggestCities mockSearch { Query := [], Lang := utf8 "en", Limit := 0 }
      = { response := none, err := some (GoError.base "query must be at least 2 characters"),
          repoCalls := [] } ∧
    (SuggestCities mockSearch { Query := utf8 "Dub", Lang := utf8 "en", Limit := 10 }).repoCalls
      = [{ query := utf8 "Dub", lang := utf8 "en", limit := 10 }] ∧
    (SuggestCities mockSearch { Query := utf8 "Dub", Lang := utf8 "en", Limit := 10 }).response
      = some { Results := [{ ID := 1, Name := utf8 "Dublin", Country := utf8 "Ireland",
                             CountryCode := utf8 "IE", Population := 500000 }] } :=
  ⟨((query_validation mockSearch { Query := utf8 "D", Lang := utf8 "en", Limit := 0 }).1
      (by decide)).1,
   by decide,
   ((query_validation mockSearch { Query := utf8 "Dub", Lang := utf8 "en", Limit := 10 }).2
      (by decide)).1,
   by decide⟩

/-! ## The dedup table as an index of the buffer -/

theorem keyIndex_getElem (ks : List GoString) (k : GoString) :
    ∀ i, keyIndex ks k = some i → ks[i]? = some k := by
  induction ks with
  | nil => intro i h; simp [keyIndex] at h
  | cons x xs ih =>
    intro i h
    by_cases hx : x = k
    · simp [keyIndex, hx] at h
      subst h
      simp [hx]
    · simp only [keyIndex, hx, if_false, Option.map_eq_some'] at h
      obtain ⟨j, hj, rfl⟩ := h
      simpa using ih j hj

theorem IndexValid_of_TableOk {ρ : Type} (keyOf : ρ → GoString) (batch : List ρ)
    (transMap : GoMap GoString Nat) (h : TableOk keyOf batch transMap) :
    IndexValid keyOf batch transMap := by
  intro key idx hget
  rw [h.2 key] at hget
  have hk := keyIndex_getElem _ _ _ hget
  rw [List.getElem?_map] at hk
  cases hb : batch[idx]? with
  | none => rw [hb] at hk; simp at hk
  | some rec =>
    rw [hb] at hk
    simp only [Option.map_some', Option.some.injEq] at hk
    exact ⟨rec, rfl, hk⟩

theorem putBatch_others {ρ : Type} (keyOf : ρ → GoString) (rename : ρ → ρ) (rec : ρ)
    (isPreferred : Bool) (batch : List ρ) :
    OthersKept keyOf (keyOf rec) batch (putBatch keyOf rename rec isPreferred batch) := by
  intro j x hj hx
  unfold putBatch
  by_cases hmem : keyOf rec ∈ batch.map keyOf
  · rw [if_pos hmem]
    cases isPreferred with
    | false => simpa using hj
    | true =>
      simp only [if_true, List.getElem?_map, hj, Option.map_some', if_neg hx]
  · rw [if_neg hmem]
    have hlt : j < batch.length := by
      rcases Nat.lt_or_ge j batch.length with h | h
      · exact h
      · rw [List.getElem?_eq_none h] at hj
        exact Option.noConfusion hj
    rw [List.getElem?_append_left hlt]
    exact hj

theorem upsert_others {ρ : Type} (keyOf : ρ → GoString) (rename : ρ → ρ) (key : GoString)
    (rec : ρ) (isPreferred : Bool) (batch : List ρ) (transMap : GoMap GoString Nat)
    (hok : TableOk keyOf batch transMap) (hkey : keyOf rec = key)
    (hren : ∀ x, keyOf (rename x) = keyOf x) :
    ∃ b m, upsert rename key rec isPreferred batch transMap = some (b, m) ∧
      OthersKept keyOf key batch b ∧ IndexValid keyOf b m := by
  obtain ⟨tm, hup, hok1⟩ := upsert_eq keyOf rename key rec isPreferred batch transMap hok hkey hren
  refine ⟨_, tm, hup, ?_, IndexValid_of_TableOk _ _ _ hok1⟩
  rw [← hkey]
  exact putBatch_others keyOf rename rec isPreferred batch

/-- Claim C29: dedup index invariant. At every step of
`processAlternateNamesFromReaderWithCountryMapping`, that is in the state `st` in which a
row is read and in the state `st1` between the city branch and the country branch of a
row, every value stored in `cityTransMap` (resp. `countryTransMap`) is a valid index into
the current `cityBatch` (resp. `countryBatch`), and the record at that index has the
(entity, language) pair from which the map key was built; so the dedup step never fails by
an index out of range, the pass never ends that way, and the overwrite leaves every record
with a different key unchanged at its position. -/
theorem dedup_index_invariant (p : Parser) (cityIDs : GoMap Int Bool)
    (countryCodes : GoMap GoString Bool) (geonameIDToCountryCode : Option (GoMap Int GoString))
    (cityCallback : Option CityCallback) (countryCallback : Option CountryCallback)
    (pre : List GoString) (st : LoopState)
    (hst : scanLoop p (effectiveBatchSize p) cityIDs countryCodes geonameIDToCountryCode
      cityCallback countryCallback initialState pre = Flow.next st) :
    (∀ (key : GoString) (idx : Nat), st.cityTransMap.get? key = some idx →
      ∃ rec, st.cityBatch[idx]? = some rec ∧ cityKey rec.CityID rec.Lang = key) ∧
    (∀ (key : GoString) (idx : Nat), st.countryTransMap.get? key = some idx →
      ∃ rec, st.countryBatch[idx]? = some rec ∧ countryKey rec.CountryCode rec.Lang = key) ∧
    (∀ r : AltName, ∃ b m,
      upsert (fun c => { c with Name := r.name }) (cityKey r.geonameID r.lang)
        { CityID := r.geonameID, Lang := r.lang, Name := r.name } r.isPreferred
        st.cityBatch st.cityTransMap = some (b, m) ∧
      OthersKept cityKeyOf (cityKey r.geonameID r.lang) st.cityBatch b ∧
      IndexValid cityKeyOf b m) ∧
    (∀ (r : AltName) (countryCode : GoString), ∃ b m,
      upsert (fun c => { c with Name := r.name }) (countryKey countryCode r.lang)
        { CountryCode := countryCode, Lang := r.lang, Name := r.name } r.isPreferred
        st.countryBatch st.countryTransMap = some (b, m) ∧
      OthersKept countryKeyOf (countryKey countryCode r.lang) st.countryBatch b ∧
      IndexValid countryKeyOf b m) ∧
    (∀ (r : AltName) (st1 : LoopState),
      cityStep (effectiveBatchSize p) cityCallback r st = Flow.next st1 →
      IndexValid cityKeyOf st1.cityBatch st1.cityTransMap ∧
      IndexValid countryKeyOf st1.countryBatch st1.countryTransMap ∧
      ∀ countryCode : GoString, ∃ b m,
        upsert (fun c => { c with Name := r.name }) (countryKey countryCode r.lang)
          { CountryCode := countryCode, Lang := r.lang, Name := r.name } r.isPreferred
          st1.countryBatch st1.countryTransMap = some (b, m) ∧
        OthersKept countryKeyOf (countryKey countryCode r.lang) st1.countryBatch b ∧
        IndexValid countryKeyOf b m) ∧
    (∀ (line : GoString) (calls : List SinkCall),
      processRow p (effectiveBatchSize p) cityIDs countryCodes geonameIDToCountryCode
        cityCallback countryCallback st line ≠ Flow.outOfRange calls) ∧
    (∀ reader : LineStream,
      (processAlternateNamesFromReaderWithCountryMapping p reader cityIDs countryCodes
        geonameIDToCountryCode cityCallback countryCallback).ending ≠ Ending.outOfRange) := by
  have hB := effectiveBatchSize_pos p
  have hloop := scanLoop_sound p (effectiveBatchSize p) hB cityIDs countryCodes
    geonameIDToCountryCode cityCallback countryCallback pre initialState
    (Bounded_initial _ hB).1 (Bounded_initial _ hB).2
  rw [hst] at hloop
  obtain ⟨⟨h1, h2, h3, h4⟩, hcalls⟩ := hloop
  refine ⟨IndexValid_of_TableOk _ _ _ h3, IndexValid_of_TableOk _ _ _ h4, ?_, ?_, ?_, ?_, ?_⟩
  · intro r
    exact upsert_others cityKeyOf _ _ _ _ _ _ h3 rfl (fun _ => rfl)
  · intro r countryCode
    exact upsert_others countryKeyOf _ _ _ _ _ _ h4 rfl (fun _ => rfl)
  · intro r st1 hstep
    have hcity := cityStep_sound (effectiveBatchSize p) hB cityCallback r st
      ⟨h1, h2, h3, h4⟩ hcalls
    rw [hstep] at hcity
    obtain ⟨⟨_, _, g3, g4⟩, _⟩ := hcity
    refine ⟨IndexValid_of_TableOk _ _ _ g3, IndexValid_of_TableOk _ _ _ g4, ?_⟩
    intro countryCode
    exact upsert_others countryKeyOf _ _ _ _ _ _ g4 rfl (fun _ => rfl)
  · intro line calls hrow
    have := processRow_sound p (effectiveBatchSize p) hB cityIDs countryCodes
      geonameIDToCountryCode cityCallback countryCallback st line ⟨h1, h2, h3, h4⟩ hcalls
    rw [hrow] at this
    exact this
  · intro reader
    exact (process_sound p reader cityIDs countryCodes geonameIDToCountryCode cityCallback
      countryCallback).2

/-- Witness of C29: after the first two rows of the scenario the table stores position 1
under "100:ru", where the record of (100, "ru") is. -/
theorem dedup_index_invariant_witness :
    afterTwoRows.cityTransMap.get? (utf8 "100:ru") = some 1 ∧
    ∃ rec, afterTwoRows.cityBatch[1]? = some rec ∧ cityKey rec.CityID rec.Lang = utf8 "100:ru" :=
  ⟨by decide,
   (dedup_index_invariant (batchParser 10) testCityIDs [] none (some collectCity) none
      (scenarioRows.take 2) afterTwoRows (by decide)).1 (utf8 "100:ru") 1 (by decide)⟩

/-! ## Batch windows -/

theorem mem_firstOccurrences (ks : List GoString) (k : GoString) :
    k ∈ firstOccurrences ks ↔ k ∈ ks := by
  induction ks with
  | nil => simp [firstOccurrences]
  | cons x xs ih =>
    simp only [firstOccurrences, List.mem_cons, List.mem_filter, ih, decide_eq_true_eq]
    constructor
    · rintro (h | ⟨h, _⟩)
      · exact Or.inl h
      · exact Or.inr h
    · rintro (h | h)
      · exact Or.inl h
      · by_cases hk : k = x
        · exact Or.inl hk
        · exact Or.inr ⟨h, hk⟩

theorem nodup_firstOccurrences (ks : List GoString) : (firstOccurrences ks).Nodup := by
  induction ks with
  | nil => simp [firstOccurrences]
  | cons x xs ih =>
    simp only [firstOccurrences, List.nodup_cons, List.mem_filter, decide_eq_true_eq]
    exact ⟨fun h => h.2 rfl, ih.filter _⟩

theorem firstOccurrences_concat (ks : List GoString) (k : GoString) :
    firstOccurrences (ks ++ [k])
      = if k ∈ ks then firstOccurrences ks else firstOccurrences ks ++ [k] := by
  induction ks with
  | nil => simp [firstOccurrences]
  | cons x xs ih =>
    show x :: (firstOccurrences (xs ++ [k])).filter (fun y => decide (y ≠ x)) = _
    rw [ih]
    by_cases hk : k ∈ xs
    · rw [if_pos hk, if_pos (List.mem_cons_of_mem x hk)]
      rfl
    · rw [if_neg hk]
      by_cases hx : k = x
      · subst hx
        rw [if_pos (List.mem_cons_self k xs), List.filter_append]
        simp [firstOccurrences]
      · have hnot : ¬ k ∈ x :: xs := by
          intro h
          rcases List.mem_cons.mp h with h | h
          · exact hx h
          · exact hk h
        rw [if_neg hnot, List.filter_append]
        simp [firstOccurrences, hx]

theorem keptRecord_key {ρ : Type} (keyOf : ρ → GoString) (merge : ρ → ρ → ρ)
    (hmerge : ∀ x y, keyOf (merge x y) = keyOf x) (first : ρ × Bool)
    (later : List (ρ × Bool)) : keyOf (keptRecord merge first later) = keyOf first.1 := by
  unfold keptRecord
  cases (later.filter (fun item => item.2)).getLast? with
  | none => rfl
  | some item => exact hmerge _ _

theorem merge_keptRecord {ρ : Type} (merge : ρ → ρ → ρ)
    (hlast : ∀ x y z, merge (merge x y) z = merge x z) (first : ρ × Bool)
    (later : List (ρ × Bool)) (z : ρ) :
    merge (keptRecord merge first later) z = merge first.1 z := by
  unfold keptRecord
  cases (later.filter (fun item => item.2)).getLast? with
  | none => rfl
  | some item => exact hlast _ _ _

theorem keptRecord_concat {ρ : Type} (merge : ρ → ρ → ρ) (first : ρ × Bool)
    (later : List (ρ × Bool)) (item : ρ × Bool) :
    keptRecord merge first (later ++ [item])
      = if item.2 = true then merge first.1 item.1 else keptRecord merge first later := by
  unfold keptRecord
  rw [List.filter_append]
  cases hp : item.2 with
  | false =>
    rw [List.filter_cons_of_neg (by simp [hp]), List.filter_nil, List.append_nil]
    simp
  | true =>
    rw [List.filter_cons_of_pos (by simp [hp]), List.filter_nil, List.getLast?_append,
      List.getLast?_singleton]
    simp

theorem windowRecord_of_filter {ρ : Type} (keyOf : ρ → GoString) (merge : ρ → ρ → ρ)
    (window : List (ρ × Bool)) (key : GoString) (first : ρ × Bool) (later : List (ρ × Bool))
    (hf : window.filter (fun item => decide (keyOf item.1 = key)) = first :: later) :
    windowRecord keyOf merge window key = some (keptRecord merge first later) := by
  unfold windowRecord
  rw [hf]

theorem windowRecord_of_filter_nil {ρ : Type} (keyOf : ρ → GoString) (merge : ρ → ρ → ρ)
    (window : List (ρ × Bool)) (key : GoString)
    (hf : window.filter (fun item => decide (keyOf item.1 = key)) = []) :
    windowRecord keyOf merge window key = none := by
  unfold windowRecord
  rw [hf]

theorem windowRecord_eq_some {ρ : Type} (keyOf : ρ → GoString) (merge : ρ → ρ → ρ)
    (window : List (ρ × Bool)) (key : GoString) (x : ρ)
    (h : windowRecord keyOf merge window key = some x) :
    ∃ first later, window.filter (fun item => decide (keyOf item.1 = key)) = first :: later ∧
      x = keptRecord merge first later := by
  cases hf : window.filter (fun item => decide (keyOf item.1 = key)) with
  | nil =>
    rw [windowRecord_of_filter_nil keyOf merge window key hf] at h
    exact Option.noConfusion h
  | cons first later =>
    rw [windowRecord_of_filter keyOf merge window key first later hf] at h
    cases h
    exact ⟨first, later, rfl, rfl⟩

theorem key_of_filter_head {ρ : Type} (keyOf : ρ → GoString) (window : List (ρ × Bool))
    (key : GoString) (first : ρ × Bool) (later : List (ρ × Bool))
    (hf : window.filter (fun item => decide (keyOf item.1 = key)) = first :: later) :
    first ∈ window ∧ keyOf first.1 = key := by
  have hfirst : first ∈ window.filter (fun item => decide (keyOf item.1 = key)) := by
    rw [hf]
    exact List.mem_cons_self _ _
  rw [List.mem_filter] at hfirst
  exact ⟨hfirst.1, by simpa using hfirst.2⟩

theorem windowRecord_concat_of_ne {ρ : Type} (keyOf : ρ → GoString) (merge : ρ → ρ → ρ)
    (window : List (ρ × Bool)) (item : ρ × Bool) (key : GoString) (h : keyOf item.1 ≠ key) :
    windowRecord keyOf merge (window ++ [item]) key = windowRecord keyOf merge window key := by
  unfold windowRecord
  rw [List.filter_append, List.filter_cons_of_neg (by simpa using h), List.filter_nil,
    List.append_nil]

theorem windowRecord_eq_none_iff {ρ : Type} (keyOf : ρ → GoString) (merge : ρ → ρ → ρ)
    (window : List (ρ × Bool)) (key : GoString) :
    windowRecord keyOf merge window key = none ↔
      key ∉ window.map (fun item => keyOf item.1) := by
  cases hf : window.filter (fun item => decide (keyOf item.1 = key)) with
  | nil =>
    rw [windowRecord_of_filter_nil keyOf merge window key hf]
    simp only [true_iff]
    rw [List.filter_eq_nil_iff] at hf
    intro hmem
    obtain ⟨item, hitem, hk⟩ := List.mem_map.mp hmem
    exact hf item hitem (by simpa using hk)
  | cons first later =>
    rw [windowRecord_of_filter keyOf merge window key first later hf]
    have hfirst := key_of_filter_head keyOf window key first later hf
    have hmem : key ∈ window.map (fun item => keyOf item.1) :=
      List.mem_map.mpr ⟨first, hfirst.1, hfirst.2⟩
    simp [hmem]

theorem windowRecord_key {ρ : Type} (keyOf : ρ → GoString) (merge : ρ → ρ → ρ)
    (hmerge : ∀ x y, keyOf (merge x y) = keyOf x)
    (window : List (ρ × Bool)) (key : GoString) (x : ρ)
    (h : windowRecord keyOf merge window key = some x) : keyOf x = key := by
  obtain ⟨first, later, hf, rfl⟩ := windowRecord_eq_some keyOf merge window key x h
  rw [keptRecord_key keyOf merge hmerge]
  exact (key_of_filter_head keyOf window key first later hf).2

theorem windowRecord_concat_new {ρ : Type} (keyOf : ρ → GoString) (merge : ρ → ρ → ρ)
    (window : List (ρ × Bool)) (item : ρ × Bool)
    (h : keyOf item.1 ∉ window.map (fun it => keyOf it.1)) :
    windowRecord keyOf merge (window ++ [item]) (keyOf item.1) = some item.1 := by
  have hf : window.filter (fun it => decide (keyOf it.1 = keyOf item.1)) = [] := by
    rw [List.filter_eq_nil_iff]
    intro it hit hk
    exact h (List.mem_map.mpr ⟨it, hit, by simpa using hk⟩)
  have hf1 : (window ++ [item]).filter (fun it => decide (keyOf it.1 = keyOf item.1))
      = item :: [] := by
    rw [List.filter_append, hf, List.filter_cons_of_pos (by simp), List.filter_nil,
      List.nil_append]
  rw [windowRecord_of_filter keyOf merge _ _ _ _ hf1]
  rfl

theorem windowRecord_concat_old {ρ : Type} (keyOf : ρ → GoString) (merge : ρ → ρ → ρ)
    (hlast : ∀ x y z, merge (merge x y) z = merge x z)
    (window : List (ρ × Bool)) (item : ρ × Bool) (x : ρ)
    (h : windowRecord keyOf merge window (keyOf item.1) = some x) :
    windowRecord keyOf merge (window ++ [item]) (keyOf item.1)
      = some (if item.2 = true then merge x item.1 else x) := by
  obtain ⟨first, later, hf, rfl⟩ := windowRecord_eq_some keyOf merge window _ x h
  have hf1 : (window ++ [item]).filter (fun it => decide (keyOf it.1 = keyOf item.1))
      = first :: (later ++ [item]) := by
    rw [List.filter_append, hf, List.filter_cons_of_pos (by simp), List.filter_nil,
      List.cons_append]
  rw [windowRecord_of_filter keyOf merge _ _ _ _ hf1, keptRecord_concat,
    merge_keptRecord merge hlast]

theorem windowBatch_keys {ρ : Type} (keyOf : ρ → GoString) (merge : ρ → ρ → ρ)
    (hmerge : ∀ x y, keyOf (merge x y) = keyOf x) (window : List (ρ × Bool)) :
    (windowBatch keyOf merge window).map keyOf
      = firstOccurrences (window.map (fun item => keyOf item.1)) := by
  unfold windowBatch
  have hgen : ∀ ks : List GoString, (∀ k ∈ ks, k ∈ window.map (fun item => keyOf item.1)) →
      (ks.filterMap (windowRecord keyOf merge window)).map keyOf = ks := by
    intro ks
    induction ks with
    | nil => intro _; rfl
    | cons k ks ih =>
      intro hks
      cases hr : windowRecord keyOf merge window k with
      | none =>
        exact absurd (hks k (List.mem_cons_self _ _))
          ((windowRecord_eq_none_iff keyOf merge window k).mp hr)
      | some x =>
        rw [List.filterMap_cons, hr, List.map_cons, windowRecord_key keyOf merge hmerge _ _ _ hr,
          ih (fun k1 h1 => hks k1 (List.mem_cons_of_mem _ h1))]
  exact hgen _ (fun k hk => (mem_firstOccurrences _ k).mp hk)

theorem bufferOf_concat {ρ : Type} (keyOf : ρ → GoString) (merge : ρ → ρ → ρ)
    (window : List (ρ × Bool)) (item : ρ × Bool) :
    bufferOf keyOf merge (window ++ [item])
      = putBatch keyOf (fun x => merge x item.1) item.1 item.2 (bufferOf keyOf merge window) := by
  unfold bufferOf
  rw [List.foldl_append]
  rfl

theorem filterMap_congr_mem {α β : Type} (f g : α → Option β) (l : List α)
    (h : ∀ x ∈ l, f x = g x) : l.filterMap f = l.filterMap g := by
  induction l with
  | nil => rfl
  | cons a l ih =>
    rw [List.filterMap_cons, List.filterMap_cons, h a (List.mem_cons_self _ _),
      ih (fun x hx => h x (List.mem_cons_of_mem _ hx))]

/-- The buffer the code makes of a window is the batch the specification describes. -/
theorem bufferOf_eq_windowBatch {ρ : Type} (keyOf : ρ → GoString) (merge : ρ → ρ → ρ)
    (hmerge : ∀ x y, keyOf (merge x y) = keyOf x)
    (hlast : ∀ x y z, merge (merge x y) z = merge x z) (window : List (ρ × Bool)) :
    bufferOf keyOf merge window = windowBatch keyOf merge window := by
  induction window using List.reverseRecOn with
  | nil => rfl
  | append_singleton w item ih =>
    rw [bufferOf_concat, ih]
    have hkeys := windowBatch_keys keyOf merge hmerge w
    unfold putBatch
    rw [hkeys]
    have hcat : windowBatch keyOf merge (w ++ [item])
        = (if keyOf item.1 ∈ w.map (fun it => keyOf it.1)
            then firstOccurrences (w.map (fun it => keyOf it.1))
            else firstOccurrences (w.map (fun it => keyOf it.1)) ++ [keyOf item.1]).filterMap
              (windowRecord keyOf merge (w ++ [item])) := by
      unfold windowBatch
      rw [List.map_append, List.map_singleton, firstOccurrences_concat]
    rw [hcat]
    have hwb : windowBatch keyOf merge w
        = (firstOccurrences (w.map (fun it => keyOf it.1))).filterMap
            (windowRecord keyOf merge w) := rfl
    by_cases hmem : keyOf item.1 ∈ w.map (fun it => keyOf it.1)
    · rw [if_pos ((mem_firstOccurrences _ _).mpr hmem), if_pos hmem, hwb]
      obtain ⟨x, hx⟩ : ∃ x, windowRecord keyOf merge w (keyOf item.1) = some x := by
        cases hr : windowRecord keyOf merge w (keyOf item.1) with
        | none => exact absurd hmem ((windowRecord_eq_none_iff keyOf merge w _).mp hr)
        | some x => exact ⟨x, rfl⟩
      have hold := windowRecord_concat_old keyOf merge hlast w item x hx
      cases hp : item.2 with
      | false =>
        rw [hp] at hold
        simp only [Bool.false_eq_true, if_false] at hold ⊢
        apply filterMap_congr_mem
        intro k1 _
        by_cases hk : keyOf item.1 = k1
        · rw [← hk, hold, hx]
        · rw [windowRecord_concat_of_ne keyOf merge w item k1 hk]
      | true =>
        rw [hp] at hold
        simp only [if_true] at hold ⊢
        rw [List.map_filterMap]
        apply filterMap_congr_mem
        intro k1 _
        by_cases hk : keyOf item.1 = k1
        · rw [← hk, hold, hx]
          simp [windowRecord_key keyOf merge hmerge w _ x hx]
        · rw [windowRecord_concat_of_ne keyOf merge w item k1 hk]
          cases hr : windowRecord keyOf merge w k1 with
          | none => rfl
          | some y =>
            have hy := windowRecord_key keyOf merge hmerge w k1 y hr
            have hne : ¬ keyOf y = keyOf item.1 := by
              rw [hy]
              exact fun e => hk e.symm
            simp [hne]
    · rw [if_neg (fun h => hmem ((mem_firstOccurrences _ _).mp h)), if_neg hmem,
        List.filterMap_append, hwb]
      have hnew := windowRecord_concat_new keyOf merge w item hmem
      congr 1
      · apply filterMap_congr_mem
        intro k1 hk1
        have hk : keyOf item.1 ≠ k1 := by
          intro e
          rw [← e, mem_firstOccurrences] at hk1
          exact hmem hk1
        rw [windowRecord_concat_of_ne keyOf merge w item k1 hk]
      · simp [hnew]

theorem eq_nil_or_snoc {α : Type} (l : List α) : l = [] ∨ ∃ L b, l = L ++ [b] := by
  rcases List.eq_nil_or_concat l with e | ⟨L, b, e⟩
  · exact Or.inl e
  · exact Or.inr ⟨L, b, by rw [e, List.concat_eq_append]⟩

theorem putBatch_ne_nil {ρ : Type} (keyOf : ρ → GoString) (rename : ρ → ρ) (rec : ρ)
    (isPreferred : Bool) (batch : List ρ) :
    putBatch keyOf rename rec isPreferred batch ≠ [] := by
  unfold putBatch
  by_cases hmem : keyOf rec ∈ batch.map keyOf
  · rw [if_pos hmem]
    have hne : batch ≠ [] := by
      intro e
      rw [e] at hmem
      simp at hmem
    cases isPreferred with
    | false => simpa using hne
    | true => simpa using hne
  · rw [if_neg hmem]
    simp

theorem bufferOf_eq_nil_iff {ρ : Type} (keyOf : ρ → GoString) (merge : ρ → ρ → ρ)
    (window : List (ρ × Bool)) : bufferOf keyOf merge window = [] ↔ window = [] := by
  constructor
  · intro h
    rcases eq_nil_or_snoc window with e | ⟨w, item, e⟩
    · exact e
    · rw [e, bufferOf_concat] at h
      exact absurd h (putBatch_ne_nil _ _ _ _ _)
  · intro h
    rw [h]
    rfl

theorem WindowOpen_concat {ρ : Type} (keyOf : ρ → GoString) (merge : ρ → ρ → ρ) (batchSize : Int)
    (cur : List (ρ × Bool)) (item : ρ × Bool) (hopen : WindowOpen keyOf merge batchSize cur)
    (hlen : ((bufferOf keyOf merge (cur ++ [item])).length : Int) < batchSize) :
    WindowOpen keyOf merge batchSize (cur ++ [item]) := by
  intro w1 w2 h
  rcases eq_nil_or_snoc w2 with e | ⟨L, b, e⟩
  · subst e
    rw [List.append_nil] at h
    rw [← h]
    exact hlen
  · subst e
    rw [← List.append_assoc] at h
    have := List.append_inj' h (by simp)
    exact hopen w1 L this.1

theorem WindowClosed_concat {ρ : Type} (keyOf : ρ → GoString) (merge : ρ → ρ → ρ)
    (batchSize : Int) (cur : List (ρ × Bool)) (item : ρ × Bool)
    (hopen : WindowOpen keyOf merge batchSize cur)
    (hlen : ((bufferOf keyOf merge (cur ++ [item])).length : Int) ≥ batchSize) :
    WindowClosed keyOf merge batchSize (cur ++ [item]) := by
  refine ⟨hlen, ?_⟩
  intro w1 w2 h hne
  rcases eq_nil_or_snoc w2 with e | ⟨L, b, e⟩
  · exact absurd e hne
  · subst e
    rw [← List.append_assoc] at h
    have := List.append_inj' h (by simp)
    exact hopen w1 L this.1

/-- The batches a sink hands over are the buffers of consecutive closed windows of its
candidate records, and its buffer is the buffer of the open window after them. -/
theorem foldl_put_windows {ρ : Type} (keyOf : ρ → GoString) (merge : ρ → ρ → ρ)
    (batchSize : Int) (hB : 0 < batchSize) (deliver : Bool) (items : List (ρ × Bool)) :
    ∃ (ws : List (List (ρ × Bool))) (cur : List (ρ × Bool)),
      items = ws.flatten ++ cur ∧
      (∀ w ∈ ws, WindowClosed keyOf merge batchSize w) ∧
      WindowOpen keyOf merge batchSize cur ∧
      (items.foldl (SinkView.put keyOf merge batchSize deliver) { batch := [], sent := [] }).batch
        = bufferOf keyOf merge cur ∧
      (items.foldl (SinkView.put keyOf merge batchSize deliver) { batch := [], sent := [] }).sent
        = if deliver = true then ws.map (bufferOf keyOf merge) else [] := by
  induction items using List.reverseRecOn with
  | nil =>
    refine ⟨[], [], rfl, ?_, ?_, rfl, ?_⟩
    · intro w hw
      simp at hw
    · intro w1 w2 h
      have : w1 = [] := by
        cases w1 with
        | nil => rfl
        | cons a l => simp at h
      rw [this]
      exact hB
    · cases deliver <;> rfl
  | append_singleton items item ih =>
    obtain ⟨ws, cur, hitems, hclosed, hopen, hbatch, hsent⟩ := ih
    rw [List.foldl_append, List.foldl_cons, List.foldl_nil]
    generalize items.foldl (SinkView.put keyOf merge batchSize deliver)
      { batch := [], sent := [] } = v at hbatch hsent
    have hb : putBatch keyOf (fun x => merge x item.1) item.1 item.2 v.batch
        = bufferOf keyOf merge (cur ++ [item]) := by
      rw [bufferOf_concat, hbatch]
    unfold SinkView.put
    dsimp only
    rw [hb]
    by_cases hfull : ((bufferOf keyOf merge (cur ++ [item])).length : Int) ≥ batchSize
    · rw [if_pos hfull]
      refine ⟨ws ++ [cur ++ [item]], [], ?_, ?_, ?_, rfl, ?_⟩
      · rw [hitems]
        simp
      · intro w hw
        rcases List.mem_append.mp hw with h | h
        · exact hclosed w h
        · rw [List.mem_singleton] at h
          rw [h]
          exact WindowClosed_concat keyOf merge batchSize cur item hopen hfull
      · intro w1 w2 h
        have : w1 = [] := by
          cases w1 with
          | nil => rfl
          | cons a l => simp at h
        rw [this]
        exact hB
      · cases deliver with
        | false => simpa using hsent
        | true =>
          simp only [if_true] at hsent ⊢
          rw [hsent, List.map_append, List.map_singleton]
    · rw [if_neg hfull]
      refine ⟨ws, cur ++ [item], ?_, hclosed, ?_, rfl, hsent⟩
      · rw [hitems, List.append_assoc]
      · exact WindowOpen_concat keyOf merge batchSize cur item hopen (by omega)

/-! ## The pass with its failures left out -/

theorem cityStep_grow (batchSize : Int) (cityCallback : Option CityCallback) (r : AltName)
    (st : LoopState) :
    ∃ more, callsOfFlow (cityStep batchSize cityCallback r st) = st.calls ++ more := by
  unfold cityStep
  cases upsert (fun c => { c with Name := r.name }) (cityKey r.geonameID r.lang)
      { CityID := r.geonameID, Lang := r.lang, Name := r.name } r.isPreferred
      st.cityBatch st.cityTransMap with
  | none => exact ⟨[], by simp [callsOfFlow]⟩
  | some bt =>
    obtain ⟨b, tm⟩ := bt
    dsimp only
    by_cases hfull : (b.length : Int) ≥ batchSize
    · rw [if_pos hfull]
      cases cityCallback with
      | none => exact ⟨[], by simp [callsOfFlow]⟩
      | some cb =>
        dsimp only
        cases cb st.calls b with
        | none => exact ⟨[SinkCall.city b], rfl⟩
        | some err => exact ⟨[SinkCall.city b], rfl⟩
    · rw [if_neg hfull]
      exact ⟨[], by simp [callsOfFlow]⟩

theorem cityStep_follows (batchSize : Int) (cityCallback : Option CityCallback) (r : AltName)
    (st : LoopState) :
    Follows (cityStep batchSize cityCallback r st)
      (cityStep batchSize (quietCity cityCallback) r st) := by
  unfold cityStep
  cases upsert (fun c => { c with Name := r.name }) (cityKey r.geonameID r.lang)
      { CityID := r.geonameID, Lang := r.lang, Name := r.name } r.isPreferred
      st.cityBatch st.cityTransMap with
  | none => exact rfl
  | some bt =>
    obtain ⟨b, tm⟩ := bt
    dsimp only
    by_cases hfull : (b.length : Int) ≥ batchSize
    · rw [if_pos hfull, if_pos hfull]
      cases cityCallback with
      | none => exact rfl
      | some cb =>
        dsimp only [quietCity, Option.map, collectCity]
        cases cb st.calls b with
        | none => exact rfl
        | some err => exact ⟨[], by simp [callsOfFlow]⟩
    · rw [if_neg hfull, if_neg hfull]
      exact rfl

theorem countryStep_grow (batchSize : Int) (cb : CountryCallback) (countryCode : GoString)
    (r : AltName) (st : LoopState) :
    ∃ more, callsOfFlow (countryStep batchSize cb countryCode r st) = st.calls ++ more := by
  unfold countryStep
  cases upsert (fun c => { c with Name := r.name }) (countryKey countryCode r.lang)
      { CountryCode := countryCode, Lang := r.lang, Name := r.name } r.isPreferred
      st.countryBatch st.countryTransMap with
  | none => exact ⟨[], by simp [callsOfFlow]⟩
  | some bt =>
    obtain ⟨b, tm⟩ := bt
    dsimp only
    by_cases hfull : (b.length : Int) ≥ batchSize
    · rw [if_pos hfull]
      cases cb st.calls b with
      | none => exact ⟨[SinkCall.country b], rfl⟩
      | some err => exact ⟨[SinkCall.country b], rfl⟩
    · rw [if_neg hfull]
      exact ⟨[], by simp [callsOfFlow]⟩

theorem countryStep_follows (batchSize : Int) (cb : CountryCallback) (countryCode : GoString)
    (r : AltName) (st : LoopState) :
    Follows (countryStep batchSize cb countryCode r st)
      (countryStep batchSize collectCountry countryCode r st) := by
  unfold countryStep
  cases upsert (fun c => { c with Name := r.name }) (countryKey countryCode r.lang)
      { CountryCode := countryCode, Lang := r.lang, Name := r.name } r.isPreferred
      st.countryBatch st.countryTransMap with
  | none => exact rfl
  | some bt =>
    obtain ⟨b, tm⟩ := bt
    dsimp only
    by_cases hfull : (b.length : Int) ≥ batchSize
    · rw [if_pos hfull, if_pos hfull]
      dsimp only [collectCountry]
      cases cb st.calls b with
      | none => exact rfl
      | some err => exact ⟨[], by simp [callsOfFlow]⟩
    · rw [if_neg hfull, if_neg hfull]
      exact rfl

theorem countryPart_grow (batchSize : Int) (countryCodes : GoMap GoString Bool)
    (geonameIDToCountryCode : Option (GoMap Int GoString))
    (countryCallback : Option CountryCallback) (r : AltName) (st : LoopState) :
    ∃ more, callsOfFlow (countryPart batchSize countryCodes geonameIDToCountryCode
      countryCallback r st) = st.calls ++ more := by
  unfold countryPart
  cases countryCallback with
  | none => exact ⟨[], by simp [callsOfFlow]⟩
  | some cb =>
    cases geonameIDToCountryCode with
    | none => exact ⟨[], by simp [callsOfFlow]⟩
    | some m =>
      dsimp only
      cases m.get? r.geonameID with
      | none => exact ⟨[], by simp [callsOfFlow]⟩
      | some code =>
        dsimp only
        by_cases hc : countryCodes.test code = true
        · rw [if_pos hc]
          exact countryStep_grow batchSize cb code r st
        · rw [if_neg hc]
          exact ⟨[], by simp [callsOfFlow]⟩

theorem countryPart_follows (batchSize : Int) (countryCodes : GoMap GoString Bool)
    (geonameIDToCountryCode : Option (GoMap Int GoString))
    (countryCallback : Option CountryCallback) (r : AltName) (st : LoopState) :
    Follows (countryPart batchSize countryCodes geonameIDToCountryCode countryCallback r st)
      (countryPart batchSize countryCodes geonameIDToCountryCode (quietCountry countryCallback)
        r st) := by
  unfold countryPart
  cases countryCallback with
  | none => exact rfl
  | some cb =>
    cases geonameIDToCountryCode with
    | none => exact rfl
    | some m =>
      dsimp only [quietCountry, Option.map]
      cases m.get? r.geonameID with
      | none => exact rfl
      | some code =>
        dsimp only
        by_cases hc : countryCodes.test code = true
        · rw [if_pos hc, if_pos hc]
          exact countryStep_follows batchSize cb code r st
        · rw [if_neg hc, if_neg hc]
          exact rfl

theorem andThen_grow (f : Flow) (k : LoopState → Flow) (base : List SinkCall)
    (hf : ∃ more, callsOfFlow f = base ++ more)
    (hk : ∀ st, ∃ more, callsOfFlow (k st) = st.calls ++ more) :
    ∃ more, callsOfFlow (f.andThen k) = base ++ more := by
  obtain ⟨m, hm⟩ := hf
  cases f with
  | next st =>
    obtain ⟨m2, hm2⟩ := hk st
    refine ⟨m ++ m2, ?_⟩
    have : st.calls = base ++ m := hm
    show callsOfFlow (k st) = _
    rw [hm2, this, List.append_assoc]
  | ret c e => exact ⟨m, hm⟩
  | outOfRange c => exact ⟨m, hm⟩

theorem andThen_follows (f g : Flow) (k k1 : LoopState → Flow) (hfg : Follows f g)
    (hk : ∀ st, Follows (k st) (k1 st))
    (hgrow : ∀ st, ∃ more, callsOfFlow (k1 st) = st.calls ++ more) :
    Follows (f.andThen k) (g.andThen k1) := by
  cases f with
  | next st =>
    have hg : g = Flow.next st := hfg
    rw [hg]
    exact hk st
  | ret c e =>
    obtain ⟨m, hm⟩ := hfg
    exact andThen_grow g k1 c ⟨m, hm⟩ hgrow
  | outOfRange c =>
    have hg : g = Flow.outOfRange c := hfg
    rw [hg]
    exact rfl

theorem classify_eq_andThen (batchSize : Int) (cityIDs : GoMap Int Bool)
    (countryCodes : GoMap GoString Bool) (geonameIDToCountryCode : Option (GoMap Int GoString))
    (cityCallback : Option CityCallback) (countryCallback : Option CountryCallback)
    (r : AltName) (st : LoopState) :
    classify batchSize cityIDs countryCodes geonameIDToCountryCode cityCallback countryCallback
        r st
      = (if cityIDs.test r.geonameID = true then cityStep batchSize cityCallback r st
          else Flow.next st).andThen
          (countryPart batchSize countryCodes geonameIDToCountryCode countryCallback r) := by
  unfold classify Flow.andThen
  cases (if cityIDs.test r.geonameID = true then cityStep batchSize cityCallback r st
    else Flow.next st) <;> rfl

theorem scanLoop_cons_eq_andThen (p : Parser) (batchSize : Int) (cityIDs : GoMap Int Bool)
    (countryCodes : GoMap GoString Bool) (geonameIDToCountryCode : Option (GoMap Int GoString))
    (cityCallback : Option CityCallback) (countryCallback : Option CountryCallback)
    (st : LoopState) (line : GoString) (rest : List GoString) :
    scanLoop p batchSize cityIDs countryCodes geonameIDToCountryCode cityCallback
        countryCallback st (line :: rest)
      = (processRow p batchSize cityIDs countryCodes geonameIDToCountryCode cityCallback
          countryCallback st line).andThen
          (fun st1 => scanLoop p batchSize cityIDs countryCodes geonameIDToCountryCode
            cityCallback countryCallback st1 rest) := by
  rw [scanLoop]
  unfold Flow.andThen
  cases processRow p batchSize cityIDs countryCodes geonameIDToCountryCode cityCallback
    countryCallback st line <;> rfl

theorem processRow_grow (p : Parser) (batchSize : Int) (cityIDs : GoMap Int Bool)
    (countryCodes : GoMap GoString Bool) (geonameIDToCountryCode : Option (GoMap Int GoString))
    (cityCallback : Option CityCallback) (countryCallback : Option CountryCallback)
    (st : LoopState) (line : GoString) :
    ∃ more, callsOfFlow (processRow p batchSize cityIDs countryCodes geonameIDToCountryCode
      cityCallback countryCallback st line) = st.calls ++ more := by
  unfold processRow
  cases parseRow p line with
  | none => exact ⟨[], by simp [callsOfFlow]⟩
  | some r =>
    dsimp only
    rw [classify_eq_andThen]
    apply andThen_grow
    · by_cases hc : cityIDs.test r.geonameID = true
      · rw [if_pos hc]
        exact cityStep_grow batchSize cityCallback r st
      · rw [if_neg hc]
        exact ⟨[], by simp [callsOfFlow]⟩
    · intro st1
      exact countryPart_grow batchSize countryCodes geonameIDToCountryCode countryCallback r st1

theorem processRow_follows (p : Parser) (batchSize : Int) (cityIDs : GoMap Int Bool)
    (countryCodes : GoMap GoString Bool) (geonameIDToCountryCode : Option (GoMap Int GoString))
    (cityCallback : Option CityCallback) (countryCallback : Option CountryCallback)
    (st : LoopState) (line : GoString) :
    Follows
      (processRow p batchSize cityIDs countryCodes geonameIDToCountryCode cityCallback
        countryCallback st line)
      (processRow p batchSize cityIDs countryCodes geonameIDToCountryCode
        (quietCity cityCallback) (quietCountry countryCallback) st line) := by
  unfold processRow
  cases parseRow p line with
  | none => exact rfl
  | some r =>
    dsimp only
    rw [classify_eq_andThen, classify_eq_andThen]
    apply andThen_follows
    · by_cases hc : cityIDs.test r.geonameID = true
      · rw [if_pos hc, if_pos hc]
        exact cityStep_follows batchSize cityCallback r st
      · rw [if_neg hc, if_neg hc]
        exact rfl
    · intro st1
      exact countryPart_follows batchSize countryCodes geonameIDToCountryCode countryCallback
        r st1
    · intro st1
      exact countryPart_grow batchSize countryCodes geonameIDToCountryCode _ r st1

theorem scanLoop_grow (p : Parser) (batchSize : Int) (cityIDs : GoMap Int Bool)
    (countryCodes : GoMap GoString Bool) (geonameIDToCountryCode : Option (GoMap Int GoString))
    (cityCallback : Option CityCallback) (countryCallback : Option CountryCallback)
    (lines : List GoString) :
    ∀ st : LoopState, ∃ more, callsOfFlow (scanLoop p batchSize cityIDs countryCodes
      geonameIDToCountryCode cityCallback countryCallback st lines) = st.calls ++ more := by
  induction lines with
  | nil =>
    intro st
    exact ⟨[], by simp [scanLoop, callsOfFlow]⟩
  | cons line rest ih =>
    intro st
    rw [scanLoop_cons_eq_andThen]
    exact andThen_grow _ _ _ (processRow_grow p batchSize cityIDs countryCodes
      geonameIDToCountryCode cityCallback countryCallback st line) ih

theorem scanLoop_follows (p : Parser) (batchSize : Int) (cityIDs : GoMap Int Bool)
    (countryCodes : GoMap GoString Bool) (geonameIDToCountryCode : Option (GoMap Int GoString))
    (cityCallback : Option CityCallback) (countryCallback : Option CountryCallback)
    (lines : List GoString) :
    ∀ st : LoopState,
      Follows
        (scanLoop p batchSize cityIDs countryCodes geonameIDToCountryCode cityCallback
          countryCallback st lines)
        (scanLoop p batchSize cityIDs countryCodes geonameIDToCountryCode
          (quietCity cityCallback) (quietCountry countryCallback) st lines) := by
  induction lines with
  | nil =>
    intro st
    simp only [scanLoop]
    exact rfl
  | cons line rest ih =>
    intro st
    rw [scanLoop_cons_eq_andThen, scanLoop_cons_eq_andThen]
    exact andThen_follows _ _ _ _ (processRow_follows p batchSize cityIDs countryCodes
      geonameIDToCountryCode cityCallback countryCallback st line) ih
      (scanLoop_grow p batchSize cityIDs countryCodes geonameIDToCountryCode _ _ rest)

theorem finish_follows (reader : LineStream) (cityCallback : Option CityCallback)
    (countryCallback : Option CountryCallback) (st : LoopState) :
    (∃ more, (finish { lines := reader.lines, err := none } (quietCity cityCallback)
        (quietCountry countryCallback) st).calls
      = (finish reader cityCallback countryCallback st).calls ++ more) ∧
    ((finish reader cityCallback countryCallback st).ending = Ending.ok →
      (finish { lines := reader.lines, err := none } (quietCity cityCallback)
        (quietCountry countryCallback) st).calls
        = (finish reader cityCallback countryCallback st).calls ∧ reader.err = none) := by
  unfold finish
  cases herr : reader.err with
  | some e =>
    dsimp only
    constructor
    · cases cityCallback <;> cases countryCallback <;>
        simp only [quietCity, quietCountry, Option.map, collectCity, collectCountry] <;>
        (try split_ifs) <;> simp
    · intro h
      exact Ending.noConfusion h
  | none =>
    dsimp only
    cases cityCallback with
    | none =>
      cases countryCallback with
      | none => exact ⟨⟨[], by simp [quietCity, quietCountry]⟩, fun _ => ⟨rfl, rfl⟩⟩
      | some g =>
        simp only [quietCity, quietCountry, Option.map, collectCountry]
        by_cases hk : st.countryBatch.length > 0
        · simp only [hk, if_true]
          cases g st.calls st.countryBatch with
          | none => exact ⟨⟨[], by simp⟩, fun _ => ⟨rfl, trivial⟩⟩
          | some err => exact ⟨⟨[], by simp⟩, fun _ => ⟨rfl, trivial⟩⟩
        · simp only [hk, if_false]
          exact ⟨⟨[], by simp⟩, fun _ => by simp⟩
    | some f =>
      simp only [quietCity, quietCountry, Option.map, collectCity]
      by_cases hc : st.cityBatch.length > 0
      · simp only [hc, if_true]
        cases f st.calls st.cityBatch with
        | some err =>
          dsimp only
          refine ⟨?_, fun h => Ending.noConfusion h⟩
          cases countryCallback with
          | none => exact ⟨[], by simp⟩
          | some g =>
            dsimp only [collectCountry]
            split_ifs <;> simp
        | none =>
          dsimp only
          cases countryCallback with
          | none => exact ⟨⟨[], by simp⟩, fun _ => ⟨rfl, trivial⟩⟩
          | some g =>
            dsimp only [collectCountry]
            by_cases hk : st.countryBatch.length > 0
            · simp only [hk, if_true]
              cases g (st.calls ++ [SinkCall.city st.cityBatch]) st.countryBatch with
              | none => exact ⟨⟨[], by simp⟩, fun _ => ⟨rfl, trivial⟩⟩
              | some err => exact ⟨⟨[], by simp⟩, fun _ => ⟨rfl, trivial⟩⟩
            · simp only [hk, if_false]
              exact ⟨⟨[], by simp⟩, fun _ => by simp⟩
      · simp only [hc, if_false]
        cases countryCallback with
        | none => exact ⟨⟨[], by simp⟩, fun _ => ⟨rfl, trivial⟩⟩
        | some g =>
          dsimp only [collectCountry]
          by_cases hk : st.countryBatch.length > 0
          · simp only [hk, if_true]
            cases g st.calls st.countryBatch with
            | none => exact ⟨⟨[], by simp⟩, fun _ => ⟨rfl, trivial⟩⟩
            | some err => exact ⟨⟨[], by simp⟩, fun _ => ⟨rfl, trivial⟩⟩
          · simp only [hk, if_false]
            exact ⟨⟨[], by simp⟩, fun _ => by simp⟩

theorem finish_grow (reader : LineStream) (cityCallback : Option CityCallback)
    (countryCallback : Option CountryCallback) (st : LoopState) :
    ∃ more, (finish reader cityCallback countryCallback st).calls = st.calls ++ more := by
  have hcountry : ∀ (c : List SinkCall) (m : List SinkCall), c = st.calls ++ m →
      ∃ more, (match countryCallback with
        | some cb =>
          if st.countryBatch.length > 0 then
            match cb c st.countryBatch with
            | some err =>
              ({ calls := c ++ [SinkCall.country st.countryBatch],
                 ending := Ending.failed (GoError.wrapped "country callback error" err) } :
                 PassResult)
            | none => { calls := c ++ [SinkCall.country st.countryBatch], ending := Ending.ok }
          else { calls := c, ending := Ending.ok }
        | none => { calls := c, ending := Ending.ok }).calls = st.calls ++ more := by
    intro c m hc
    cases countryCallback with
    | none => exact ⟨m, hc⟩
    | some g =>
      dsimp only
      by_cases hk : st.countryBatch.length > 0
      · rw [if_pos hk]
        cases g c st.countryBatch with
        | none => exact ⟨m ++ [SinkCall.country st.countryBatch], by simp [hc]⟩
        | some err => exact ⟨m ++ [SinkCall.country st.countryBatch], by simp [hc]⟩
      · rw [if_neg hk]
        exact ⟨m, hc⟩
  unfold finish
  cases reader.err with
  | some e => exact ⟨[], by simp⟩
  | none =>
    dsimp only
    cases cityCallback with
    | none => exact hcountry st.calls [] (by simp)
    | some f =>
      dsimp only
      by_cases hc : st.cityBatch.length > 0
      · rw [if_pos hc]
        cases f st.calls st.cityBatch with
        | some err => exact ⟨[SinkCall.city st.cityBatch], rfl⟩
        | none => exact hcountry _ [SinkCall.city st.cityBatch] rfl
      · rw [if_neg hc]
        exact hcountry st.calls [] (by simp)

/-- The pass with callbacks that return nil and no scanner error makes the invocations of
the pass, in the same order, and possibly more after them; it makes the same invocations
when the pass returns nil. -/
theorem process_follows (p : Parser) (reader : LineStream) (cityIDs : GoMap Int Bool)
    (countryCodes : GoMap GoString Bool) (geonameIDToCountryCode : Option (GoMap Int GoString))
    (cityCallback : Option CityCallback) (countryCallback : Option CountryCallback) :
    (∃ more, (processAlternateNamesFromReaderWithCountryMapping p
        { lines := reader.lines, err := none } cityIDs countryCodes geonameIDToCountryCode
        (quietCity cityCallback) (quietCountry countryCallback)).calls
      = (processAlternateNamesFromReaderWithCountryMapping p reader cityIDs countryCodes
          geonameIDToCountryCode cityCallback countryCallback).calls ++ more) ∧
    ((processAlternateNamesFromReaderWithCountryMapping p reader cityIDs countryCodes
        geonameIDToCountryCode cityCallback countryCallback).ending = Ending.ok →
      (processAlternateNamesFromReaderWithCountryMapping p
        { lines := reader.lines, err := none } cityIDs countryCodes geonameIDToCountryCode
        (quietCity cityCallback) (quietCountry countryCallback)).calls
        = (processAlternateNamesFromReaderWithCountryMapping p reader cityIDs countryCodes
            geonameIDToCountryCode cityCallback countryCallback).calls ∧
      reader.err = none) := by
  have hf := scanLoop_follows p (effectiveBatchSize p) cityIDs countryCodes
    geonameIDToCountryCode cityCallback countryCallback reader.lines initialState
  unfold processAlternateNamesFromReaderWithCountryMapping
  dsimp only
  cases hF : scanLoop p (effectiveBatchSize p) cityIDs countryCodes geonameIDToCountryCode
      cityCallback countryCallback initialState reader.lines with
  | next st =>
    rw [hF] at hf
    have hG : scanLoop p (effectiveBatchSize p) cityIDs countryCodes geonameIDToCountryCode
        (quietCity cityCallback) (quietCountry countryCallback) initialState reader.lines
        = Flow.next st := hf
    rw [hG]
    exact finish_follows reader cityCallback countryCallback st
  | ret c e =>
    rw [hF] at hf
    obtain ⟨m, hm⟩ := hf
    refine ⟨?_, fun h => Ending.noConfusion h⟩
    cases hG : scanLoop p (effectiveBatchSize p) cityIDs countryCodes geonameIDToCountryCode
        (quietCity cityCallback) (quietCountry countryCallback) initialState reader.lines with
    | next st1 =>
      rw [hG] at hm
      have hm1 : st1.calls = c ++ m := hm
      obtain ⟨m2, hm2⟩ := finish_grow { lines := reader.lines, err := none }
        (quietCity cityCallback) (quietCountry countryCallback) st1
      exact ⟨m ++ m2, by rw [hm2, hm1, List.append_assoc]⟩
    | ret c1 e1 =>
      rw [hG] at hm
      exact ⟨m, hm⟩
    | outOfRange c1 =>
      rw [hG] at hm
      exact ⟨m, hm⟩
  | outOfRange c =>
    rw [hF] at hf
    have hG : scanLoop p (effectiveBatchSize p) cityIDs countryCodes geonameIDToCountryCode
        (quietCity cityCallback) (quietCountry countryCallback) initialState reader.lines
        = Flow.outOfRange c := hf
    rw [hG]
    exact ⟨⟨[], by simp⟩, fun h => Ending.noConfusion h⟩

/-! ## The delivered batches are the buffers of the batch windows -/

theorem WindowClosed_ne_nil {ρ : Type} (keyOf : ρ → GoString) (merge : ρ → ρ → ρ)
    (batchSize : Int) (hB : 0 < batchSize) (w : List (ρ × Bool))
    (h : WindowClosed keyOf merge batchSize w) : w ≠ [] := by
  intro e
  have h1 := h.1
  rw [e] at h1
  have : (bufferOf keyOf merge ([] : List (ρ × Bool))).length = 0 := rfl
  rw [this] at h1
  simp at h1
  omega

theorem close_windows {ρ : Type} (keyOf : ρ → GoString) (merge : ρ → ρ → ρ)
    (batchSize : Int) (hB : 0 < batchSize) (deliver : Bool) (items : List (ρ × Bool)) :
    ∃ (ws : List (List (ρ × Bool))) (rest : List (ρ × Bool)),
      WindowsOf keyOf merge batchSize items ws rest ∧
      (deliver = true → rest = []) ∧
      (items.foldl (SinkView.put keyOf merge batchSize deliver)
        { batch := [], sent := [] }).close deliver = ws.map (bufferOf keyOf merge) := by
  obtain ⟨ws, cur, hitems, hclosed, hopen, hbatch, hsent⟩ :=
    foldl_put_windows keyOf merge batchSize hB deliver items
  unfold SinkView.close
  rw [hbatch, hsent]
  cases deliver with
  | false =>
    refine ⟨[], items, ⟨by simp, by simp, ?_⟩, by simp, by simp⟩
    intro pre w post h
    simp at h
  | true =>
    simp only [if_true, and_true]
    by_cases hcur : cur = []
    · subst hcur
      refine ⟨ws, [], ⟨hitems, ?_, ?_⟩, fun _ => rfl, ?_⟩
      · intro w hw
        exact WindowClosed_ne_nil keyOf merge batchSize hB w (hclosed w hw)
      · intro pre w post h
        exact Or.inl (hclosed w (by rw [h]; simp))
      · have : ¬ (bufferOf keyOf merge ([] : List (ρ × Bool))).length > 0 := by
          have : (bufferOf keyOf merge ([] : List (ρ × Bool))).length = 0 := rfl
          omega
        rw [if_neg this]
    · have hpos : (bufferOf keyOf merge cur).length > 0 := by
        have := (bufferOf_eq_nil_iff keyOf merge cur).not.mpr hcur
        exact List.length_pos.mpr this
      rw [if_pos hpos]
      refine ⟨ws ++ [cur], [], ⟨by simp [hitems], ?_, ?_⟩, fun _ => rfl, by simp⟩
      · intro w hw
        rcases List.mem_append.mp hw with h | h
        · exact WindowClosed_ne_nil keyOf merge batchSize hB w (hclosed w h)
        · rw [List.mem_singleton] at h
          rw [h]
          exact hcur
      · intro pre w post h
        rcases eq_nil_or_snoc post with e | ⟨L, b, e⟩
        · subst e
          have := List.append_inj' h (by simp)
          have hw : w = cur := by
            have h2 := this.2
            simp at h2
            exact h2.symm
          rw [hw]
          exact Or.inr ⟨rfl, rfl, hopen⟩
        · subst e
          have h1 : ws ++ [cur] = (pre ++ w :: L) ++ [b] := by
            rw [h]
            simp
          have := List.append_inj' h1 (by simp)
          exact Or.inl (hclosed w (by rw [this.1]; simp))

theorem WindowsOf_take {ρ : Type} (keyOf : ρ → GoString) (merge : ρ → ρ → ρ) (batchSize : Int)
    (items : List (ρ × Bool)) (a b : List (List (ρ × Bool))) (rest : List (ρ × Bool))
    (h : WindowsOf keyOf merge batchSize items (a ++ b) rest) :
    WindowsOf keyOf merge batchSize items a (b.flatten ++ rest) := by
  obtain ⟨h1, h2, h3⟩ := h
  refine ⟨by rw [h1]; simp, fun w hw => h2 w (List.mem_append_left _ hw), ?_⟩
  intro pre w post hsplit
  have hab : a ++ b = pre ++ w :: (post ++ b) := by
    rw [hsplit]
    simp
  rcases h3 pre w (post ++ b) hab with hc | ⟨hp, hr, ho⟩
  · exact Or.inl hc
  · have hpost : post = [] := List.append_eq_nil.mp hp |>.1
    have hb : b = [] := List.append_eq_nil.mp hp |>.2
    refine Or.inr ⟨hpost, ?_, ho⟩
    rw [hb, hr]
    rfl

theorem map_append_split {α β : Type} (f : α → β) (ys : List α) (xs more : List β)
    (h : ys.map f = xs ++ more) : ∃ a b, ys = a ++ b ∧ xs = a.map f := by
  obtain ⟨a, b, hab, ha, _⟩ := List.map_eq_append_iff.mp h
  exact ⟨a, b, hab, ha.symm⟩

theorem quietCity_isSome (cityCallback : Option CityCallback) :
    (quietCity cityCallback).isSome = cityCallback.isSome := by
  cases cityCallback <;> rfl

theorem quietCountry_isSome (countryCallback : Option CountryCallback) :
    (quietCountry countryCallback).isSome = countryCallback.isSome := by
  cases countryCallback <;> rfl

theorem quietCity_nonfailing (cityCallback : Option CityCallback) :
    ∀ cb, quietCity cityCallback = some cb → ∀ h b, cb h b = none := by
  intro cb hcb h b
  cases cityCallback with
  | none => exact Option.noConfusion hcb
  | some f =>
    simp only [quietCity, Option.map, Option.some.injEq] at hcb
    rw [← hcb]
    rfl

theorem quietCountry_nonfailing (countryCallback : Option CountryCallback) :
    ∀ cb, quietCountry countryCallback = some cb → ∀ h b, cb h b = none := by
  intro cb hcb h b
  cases countryCallback with
  | none => exact Option.noConfusion hcb
  | some f =>
    simp only [quietCountry, Option.map, Option.some.injEq] at hcb
    rw [← hcb]
    rfl

theorem countryItem_unconfigured (p : Parser) (countryCodes : GoMap GoString Bool)
    (geonameIDToCountryCode : Option (GoMap Int GoString)) (line : GoString) :
    countryItem p countryCodes geonameIDToCountryCode false line = none := by
  unfold countryItem
  cases parseRow p line with
  | none => rfl
  | some r =>
    cases geonameIDToCountryCode with
    | none => rfl
    | some m =>
      dsimp only
      cases m.get? r.geonameID with
      | none => rfl
      | some code => simp

/-- For every pass, whatever the callbacks return and however the scanner ends: the batches
handed to the city sink are the buffers of consecutive batch windows of the city candidates,
and the batches handed to the country sink the buffers of consecutive batch windows of the
country candidates; when the pass returns nil the windows cover all candidates. -/
theorem delivered_windows (p : Parser) (reader : LineStream) (cityIDs : GoMap Int Bool)
    (countryCodes : GoMap GoString Bool) (geonameIDToCountryCode : Option (GoMap Int GoString))
    (cityCallback : Option CityCallback) (countryCallback : Option CountryCallback) :
    (∃ (ws : List (List (CityTranslation × Bool))) (rest : List (CityTranslation × Bool)),
      WindowsOf cityKeyOf cityMerge (effectiveBatchSize p)
        (reader.lines.filterMap (cityItem p cityIDs)) ws rest ∧
      cityBatches (processAlternateNamesFromReaderWithCountryMapping p reader cityIDs
        countryCodes geonameIDToCountryCode cityCallback countryCallback).calls
        = ws.map (bufferOf cityKeyOf cityMerge) ∧
      ((processAlternateNamesFromReaderWithCountryMapping p reader cityIDs countryCodes
        geonameIDToCountryCode cityCallback countryCallback).ending = Ending.ok →
        cityCallback.isSome = true → rest = [])) ∧
    (∃ (ws : List (List (CountryTranslation × Bool))) (rest : List (CountryTranslation × Bool)),
      WindowsOf countryKeyOf countryMerge (effectiveBatchSize p)
        (reader.lines.filterMap
          (countryItem p countryCodes geonameIDToCountryCode countryCallback.isSome)) ws rest ∧
      countryBatches (processAlternateNamesFromReaderWithCountryMapping p reader cityIDs
        countryCodes geonameIDToCountryCode cityCallback countryCallback).calls
        = ws.map (bufferOf countryKeyOf countryMerge) ∧
      ((processAlternateNamesFromReaderWithCountryMapping p reader cityIDs countryCodes
        geonameIDToCountryCode cityCallback countryCallback).ending = Ending.ok →
        rest = [])) := by
  have hB := effectiveBatchSize_pos p
  obtain ⟨_, hqcity, hqcountry⟩ := process_nonfailing p { lines := reader.lines, err := none }
    cityIDs countryCodes geonameIDToCountryCode (quietCity cityCallback)
    (quietCountry countryCallback) (quietCity_nonfailing cityCallback)
    (quietCountry_nonfailing countryCallback) rfl
  rw [quietCity_isSome] at hqcity
  rw [quietCountry_isSome] at hqcountry
  obtain ⟨⟨more, hmore⟩, hok⟩ := process_follows p reader cityIDs countryCodes
    geonameIDToCountryCode cityCallback countryCallback
  generalize (processAlternateNamesFromReaderWithCountryMapping p
    { lines := reader.lines, err := none } cityIDs countryCodes geonameIDToCountryCode
    (quietCity cityCallback) (quietCountry countryCallback)).calls = qcalls at hqcity hqcountry hmore hok
  generalize processAlternateNamesFromReaderWithCountryMapping p reader cityIDs countryCodes
    geonameIDToCountryCode cityCallback countryCallback = res at hmore hok ⊢
  constructor
  · obtain ⟨ws, rest, hws, hrest, hclose⟩ := close_windows cityKeyOf cityMerge
      (effectiveBatchSize p) hB cityCallback.isSome
      (reader.lines.filterMap (cityItem p cityIDs))
    have hq : cityBatches qcalls = ws.map (bufferOf cityKeyOf cityMerge) := by
      rw [hqcity]
      exact hclose
    by_cases hend : res.ending = Ending.ok
    · refine ⟨ws, rest, hws, ?_, fun _ hsome => hrest hsome⟩
      rw [← (hok hend).1]
      exact hq
    · rw [hmore, cityBatches_append] at hq
      obtain ⟨a, b, hab, ha⟩ := map_append_split _ ws _ _ hq.symm
      refine ⟨a, b.flatten ++ rest, ?_, ha, fun h => absurd h hend⟩
      rw [hab] at hws
      exact WindowsOf_take cityKeyOf cityMerge _ _ a b rest hws
  · cases hconf : countryCallback.isSome with
    | false =>
      rw [hconf] at hqcountry
      have hnone : reader.lines.filterMap
          (countryItem p countryCodes geonameIDToCountryCode false) = [] := by
        rw [List.filterMap_eq_nil_iff]
        intro line _
        exact countryItem_unconfigured p countryCodes geonameIDToCountryCode line
      have hq : countryBatches qcalls = [] := by
        rw [hqcountry]
        unfold countryView
        simp only [hnone]
        rfl
      rw [hmore, countryBatches_append] at hq
      have hres : countryBatches res.calls = [] := (List.append_eq_nil.mp hq).1
      refine ⟨[], [], ⟨by rw [hnone]; rfl, by simp, ?_⟩, by rw [hres]; rfl, fun _ => rfl⟩
      intro pre w post h
      simp at h
    | true =>
      rw [hconf] at hqcountry
      obtain ⟨ws, rest, hws, hrest, hclose⟩ := close_windows countryKeyOf countryMerge
        (effectiveBatchSize p) hB true
        (reader.lines.filterMap (countryItem p countryCodes geonameIDToCountryCode true))
      have hq : countryBatches qcalls = ws.map (bufferOf countryKeyOf countryMerge) := by
        rw [hqcountry]
        exact hclose
      by_cases hend : res.ending = Ending.ok
      · refine ⟨ws, rest, hws, ?_, fun _ => hrest rfl⟩
        rw [← (hok hend).1]
        exact hq
      · rw [hmore, countryBatches_append] at hq
        obtain ⟨a, b, hab, ha⟩ := map_append_split _ ws _ _ hq.symm
        refine ⟨a, b.flatten ++ rest, ?_, ha, fun h => absurd h hend⟩
        rw [hab] at hws
        exact WindowsOf_take countryKeyOf countryMerge _ _ a b rest hws

/-! ## Per-batch dedup semantics -/

theorem mem_windowBatch {ρ : Type} (keyOf : ρ → GoString) (merge : ρ → ρ → ρ)
    (hmerge : ∀ x y, keyOf (merge x y) = keyOf x) (window : List (ρ × Bool)) (x : ρ)
    (h : x ∈ windowBatch keyOf merge window) :
    ∃ first later, window.filter (fun item => decide (keyOf item.1 = keyOf x)) = first :: later ∧
      x = keptRecord merge first later := by
  unfold windowBatch at h
  obtain ⟨k, _, hk⟩ := List.mem_filterMap.mp h
  have hkey := windowRecord_key keyOf merge hmerge window k x hk
  rw [← hkey] at hk
  exact windowRecord_eq_some keyOf merge window _ x hk

theorem keptRecord_city (first : CityTranslation × Bool)
    (later : List (CityTranslation × Bool)) :
    keptRecord cityMerge first later
      = { CityID := first.1.CityID, Lang := first.1.Lang,
          Name := keptName (fun c => c.Name) first later } := by
  unfold keptRecord keptName
  cases (later.filter (fun item => item.2)).getLast? with
  | none => rfl
  | some item => rfl

theorem keptRecord_country (first : CountryTranslation × Bool)
    (later : List (CountryTranslation × Bool)) :
    keptRecord countryMerge first later
      = { CountryCode := first.1.CountryCode, Lang := first.1.Lang,
          Name := keptName (fun c => c.Name) first later } := by
  unfold keptRecord keptName
  cases (later.filter (fun item => item.2)).getLast? with
  | none => rfl
  | some item => rfl

theorem cityMerge_key (x y : CityTranslation) : cityKeyOf (cityMerge x y) = cityKeyOf x := rfl

theorem countryMerge_key (x y : CountryTranslation) :
    countryKeyOf (countryMerge x y) = countryKeyOf x := rfl

theorem cityMerge_last (x y z : CityTranslation) :
    cityMerge (cityMerge x y) z = cityMerge x z := rfl

theorem countryMerge_last (x y z : CountryTranslation) :
    countryMerge (countryMerge x y) z = countryMerge x z := rfl

/-- Claim C27: per-batch dedup semantics. For every pass, the batches delivered to a sink
are, in order, the batches of consecutive batch windows of the accepted rows of that sink;
the batch of a window contains exactly one record per distinct key of the rows of the
window, the records are ordered by the first occurrence of their key in the window, and
each record is the record of the first row of its key, with the name of the last preferred
row among the later rows of that key in the window if there is one, and the name of the
first row of the key otherwise. For the city sink the key determines the pair (entity,
truncated language). -/
theorem per_batch_dedup (p : Parser) (reader : LineStream) (cityIDs : GoMap Int Bool)
    (countryCodes : GoMap GoString Bool) (geonameIDToCountryCode : Option (GoMap Int GoString))
    (cityCallback : Option CityCallback) (countryCallback : Option CountryCallback) :
    (∃ (ws : List (List (CityTranslation × Bool))) (rest : List (CityTranslation × Bool)),
      WindowsOf cityKeyOf cityMerge (effectiveBatchSize p)
        (reader.lines.filterMap (cityItem p cityIDs)) ws rest ∧
      cityBatches (processAlternateNamesFromReaderWithCountryMapping p reader cityIDs
        countryCodes geonameIDToCountryCode cityCallback countryCallback).calls
        = ws.map (windowBatch cityKeyOf cityMerge)) ∧
    (∃ (ws : List (List (CountryTranslation × Bool))) (rest : List (CountryTranslation × Bool)),
      WindowsOf countryKeyOf countryMerge (effectiveBatchSize p)
        (reader.lines.filterMap
          (countryItem p countryCodes geonameIDToCountryCode countryCallback.isSome)) ws rest ∧
      countryBatches (processAlternateNamesFromReaderWithCountryMapping p reader cityIDs
        countryCodes geonameIDToCountryCode cityCallback countryCallback).calls
        = ws.map (windowBatch countryKeyOf countryMerge)) ∧
    (∀ window : List (CityTranslation × Bool),
      (windowBatch cityKeyOf cityMerge window).map cityKeyOf
        = firstOccurrences (window.map (fun item => cityKeyOf item.1)) ∧
      ((windowBatch cityKeyOf cityMerge window).map cityKeyOf).Nodup ∧
      (∀ item ∈ window, ∃ c ∈ windowBatch cityKeyOf cityMerge window,
        c.CityID = item.1.CityID ∧ c.Lang = item.1.Lang) ∧
      (∀ c ∈ windowBatch cityKeyOf cityMerge window, ∃ first later,
        window.filter (fun item => decide (item.1.CityID = c.CityID ∧ item.1.Lang = c.Lang))
          = first :: later ∧
        c = { CityID := first.1.CityID, Lang := first.1.Lang,
              Name := keptName (fun x => x.Name) first later })) ∧
    (∀ window : List (CountryTranslation × Bool),
      (windowBatch countryKeyOf countryMerge window).map countryKeyOf
        = firstOccurrences (window.map (fun item => countryKeyOf item.1)) ∧
      ((windowBatch countryKeyOf countryMerge window).map countryKeyOf).Nodup ∧
      (∀ item ∈ window, ∃ c ∈ windowBatch countryKeyOf countryMerge window,
        countryKeyOf c = countryKeyOf item.1) ∧
      (∀ c ∈ windowBatch countryKeyOf countryMerge window, ∃ first later,
        window.filter (fun item => decide (countryKeyOf item.1 = countryKeyOf c))
          = first :: later ∧
        c = { CountryCode := first.1.CountryCode, Lang := first.1.Lang,
              Name := keptName (fun x => x.Name) first later })) := by
  obtain ⟨⟨cws, crest, hcw, hcb, _⟩, ⟨kws, krest, hkw, hkb, _⟩⟩ := delivered_windows p reader
    cityIDs countryCodes geonameIDToCountryCode cityCallback countryCallback
  have hcfun : bufferOf cityKeyOf cityMerge = windowBatch cityKeyOf cityMerge := by
    funext w
    exact bufferOf_eq_windowBatch cityKeyOf cityMerge cityMerge_key cityMerge_last w
  have hkfun : bufferOf countryKeyOf countryMerge = windowBatch countryKeyOf countryMerge := by
    funext w
    exact bufferOf_eq_windowBatch countryKeyOf countryMerge countryMerge_key countryMerge_last w
  refine ⟨⟨cws, crest, hcw, by rw [hcb, hcfun]⟩, ⟨kws, krest, hkw, by rw [hkb, hkfun]⟩, ?_, ?_⟩
  · intro window
    have hkeys := windowBatch_keys cityKeyOf cityMerge cityMerge_key window
    refine ⟨hkeys, ?_, ?_, ?_⟩
    · rw [hkeys]
      exact nodup_firstOccurrences _
    · intro item hitem
      have hmem : cityKeyOf item.1 ∈ (windowBatch cityKeyOf cityMerge window).map cityKeyOf := by
        rw [hkeys, mem_firstOccurrences]
        exact List.mem_map.mpr ⟨item, hitem, rfl⟩
      obtain ⟨c, hc, hk⟩ := List.mem_map.mp hmem
      exact ⟨c, hc, (cityKeyOf_eq_iff c item.1.CityID item.1.Lang).mp hk⟩
    · intro c hc
      obtain ⟨first, later, hf, hkept⟩ := mem_windowBatch cityKeyOf cityMerge cityMerge_key
        window c hc
      refine ⟨first, later, ?_, by rw [hkept, keptRecord_city]⟩
      rw [← hf]
      apply List.filter_congr
      intro item _
      have := cityKeyOf_eq_iff item.1 c.CityID c.Lang
      by_cases hk : cityKeyOf item.1 = cityKeyOf c
      · have h2 := this.mp hk
        simp [hk, h2.1, h2.2]
      · have h2 : ¬ (item.1.CityID = c.CityID ∧ item.1.Lang = c.Lang) := fun h => hk (this.mpr h)
        simp [hk, h2]
  · intro window
    have hkeys := windowBatch_keys countryKeyOf countryMerge countryMerge_key window
    refine ⟨hkeys, ?_, ?_, ?_⟩
    · rw [hkeys]
      exact nodup_firstOccurrences _
    · intro item hitem
      have hmem : countryKeyOf item.1
          ∈ (windowBatch countryKeyOf countryMerge window).map countryKeyOf := by
        rw [hkeys, mem_firstOccurrences]
        exact List.mem_map.mpr ⟨item, hitem, rfl⟩
      obtain ⟨c, hc, hk⟩ := List.mem_map.mp hmem
      exact ⟨c, hc, hk⟩
    · intro c hc
      obtain ⟨first, later, hf, hkept⟩ := mem_windowBatch countryKeyOf countryMerge
        countryMerge_key window c hc
      exact ⟨first, later, hf, by rw [hkept, keptRecord_country]⟩

/-- Witness of C27: the city candidates of the test input are one window; its batch keeps
London, Лондон, Londres and, for the key of (200, "en"), Paris. -/
theorem per_batch_dedup_witness :
    (scan (1024 * 1024) testInput).lines.filterMap (cityItem (testParser []) testCityIDs)
      = testWindow ∧
    windowBatch cityKeyOf cityMerge testWindow
      = [{ CityID := 100, Lang := utf8 "en", Name := utf8 "London" },
         { CityID := 100, Lang := utf8 "ru", Name := utf8 "Лондон" },
         { CityID := 100, Lang := utf8 "fr", Name := utf8 "Londres" },
         { CityID := 200, Lang := utf8 "en", Name := utf8 "Paris" }] ∧
    ∃ (ws : List (List (CityTranslation × Bool))) (rest : List (CityTranslation × Bool)),
      WindowsOf cityKeyOf cityMerge (effectiveBatchSize (testParser []))
        ((scan (1024 * 1024) testInput).lines.filterMap (cityItem (testParser []) testCityIDs))
        ws rest ∧
      cityBatches (processAlternateNamesFromReaderWithCountryMapping (testParser [])
        (scan (1024 * 1024) testInput) testCityIDs [] none (some collectCity) none).calls
        = ws.map (windowBatch cityKeyOf cityMerge) :=
  ⟨by decide, by decide,
   (per_batch_dedup (testParser []) (scan (1024 * 1024) testInput) testCityIDs [] none
      (some collectCity) none).1⟩

/-! ## No accepted translation is lost on success -/

theorem covered_by_windows {ρ : Type} (keyOf : ρ → GoString) (merge : ρ → ρ → ρ)
    (hmerge : ∀ x y, keyOf (merge x y) = keyOf x)
    (hlast : ∀ x y z, merge (merge x y) z = merge x z) (batchSize : Int)
    (items : List (ρ × Bool)) (ws : List (List (ρ × Bool)))
    (h : WindowsOf keyOf merge batchSize items ws []) (item : ρ × Bool) (hitem : item ∈ items) :
    ∃ b ∈ ws.map (bufferOf keyOf merge), ∃ x ∈ b, keyOf x = keyOf item.1 := by
  rw [h.1, List.append_nil, List.mem_flatten] at hitem
  obtain ⟨w, hw, hmem⟩ := hitem
  refine ⟨bufferOf keyOf merge w, List.mem_map.mpr ⟨w, hw, rfl⟩, ?_⟩
  have hk : keyOf item.1 ∈ (bufferOf keyOf merge w).map keyOf := by
    rw [bufferOf_eq_windowBatch keyOf merge hmerge hlast, windowBatch_keys keyOf merge hmerge,
      mem_firstOccurrences]
    exact List.mem_map.mpr ⟨item, hmem, rfl⟩
  obtain ⟨x, hx, hkx⟩ := List.mem_map.mp hk
  exact ⟨x, hx, hkx⟩

theorem buffer_provenance {ρ : Type} (keyOf : ρ → GoString) (merge : ρ → ρ → ρ)
    (hmerge : ∀ x y, keyOf (merge x y) = keyOf x)
    (hlast : ∀ x y z, merge (merge x y) z = merge x z) (batchSize : Int)
    (items : List (ρ × Bool)) (ws : List (List (ρ × Bool))) (rest : List (ρ × Bool))
    (h : WindowsOf keyOf merge batchSize items ws rest) (b : List ρ)
    (hb : b ∈ ws.map (bufferOf keyOf merge)) (x : ρ) (hx : x ∈ b) :
    b ≠ [] ∧ ∃ first ∈ items, keyOf first.1 = keyOf x ∧
      (x = first.1 ∨ ∃ item ∈ items, keyOf item.1 = keyOf x ∧ x = merge first.1 item.1) := by
  obtain ⟨w, hw, rfl⟩ := List.mem_map.mp hb
  have hsub : ∀ it ∈ w, it ∈ items := by
    intro it hit
    rw [h.1]
    exact List.mem_append_left _ (List.mem_flatten.mpr ⟨w, hw, hit⟩)
  refine ⟨(bufferOf_eq_nil_iff keyOf merge w).not.mpr (h.2.1 w hw), ?_⟩
  rw [bufferOf_eq_windowBatch keyOf merge hmerge hlast] at hx
  obtain ⟨first, later, hf, hkept⟩ := mem_windowBatch keyOf merge hmerge w x hx
  have hfirst := key_of_filter_head keyOf w (keyOf x) first later hf
  refine ⟨first, hsub first hfirst.1, hfirst.2, ?_⟩
  cases hl : (later.filter (fun item => item.2)).getLast? with
  | none =>
    left
    rw [hkept]
    unfold keptRecord
    rw [hl]
  | some item =>
    right
    have h1 : item ∈ later.filter (fun item => item.2) := List.mem_of_getLast?_eq_some hl
    have h2 : item ∈ later := (List.mem_filter.mp h1).1
    have h3 : item ∈ w.filter (fun it => decide (keyOf it.1 = keyOf x)) := by
      rw [hf]
      exact List.mem_cons_of_mem _ h2
    rw [List.mem_filter] at h3
    refine ⟨item, hsub item h3.1, by simpa using h3.2, ?_⟩
    rw [hkept]
    unfold keptRecord
    rw [hl]

/-- Claim C28: no accepted translation is lost on success. If the pass returns nil, then
with a non-nil city callback every accepted row whose entity id is in `cityIDs` has a
record with its (id, truncated language) in some batch delivered to the city sink; every
delivered batch is non-empty; every delivered city record has an id in `cityIDs` and the
name of an accepted input row with the same (id, truncated language). The same holds for
the country sink, for the rows whose id maps to a known country code, with the dedup key of
the code and the truncated language. -/
theorem no_translation_lost (p : Parser) (reader : LineStream) (cityIDs : GoMap Int Bool)
    (countryCodes : GoMap GoString Bool) (geonameIDToCountryCode : Option (GoMap Int GoString))
    (cityCallback : Option CityCallback) (countryCallback : Option CountryCallback)
    (hok : (processAlternateNamesFromReaderWithCountryMapping p reader cityIDs countryCodes
      geonameIDToCountryCode cityCallback countryCallback).ending = Ending.ok) :
    (cityCallback.isSome = true →
      ∀ line ∈ reader.lines, ∀ r, parseRow p line = some r → cityIDs.test r.geonameID = true →
        ∃ b ∈ cityBatches (processAlternateNamesFromReaderWithCountryMapping p reader cityIDs
            countryCodes geonameIDToCountryCode cityCallback countryCallback).calls,
          ∃ c ∈ b, c.CityID = r.geonameID ∧ c.Lang = r.lang) ∧
    (∀ b ∈ cityBatches (processAlternateNamesFromReaderWithCountryMapping p reader cityIDs
        countryCodes geonameIDToCountryCode cityCallback countryCallback).calls,
      b ≠ [] ∧ ∀ c ∈ b, cityIDs.test c.CityID = true ∧
        ∃ line ∈ reader.lines, ∃ r, parseRow p line = some r ∧ r.geonameID = c.CityID ∧
          r.lang = c.Lang ∧ r.name = c.Name) ∧
    (countryCallback.isSome = true →
      ∀ line ∈ reader.lines, ∀ r code, parseRow p line = some r →
        countryCodeOf countryCodes geonameIDToCountryCode true r.geonameID = some code →
        ∃ b ∈ countryBatches (processAlternateNamesFromReaderWithCountryMapping p reader cityIDs
            countryCodes geonameIDToCountryCode cityCallback countryCallback).calls,
          ∃ c ∈ b, countryKeyOf c = countryKey code r.lang) ∧
    (∀ b ∈ countryBatches (processAlternateNamesFromReaderWithCountryMapping p reader cityIDs
        countryCodes geonameIDToCountryCode cityCallback countryCallback).calls,
      b ≠ [] ∧ ∀ c ∈ b, countryCodes.test c.CountryCode = true ∧
        (∃ line ∈ reader.lines, ∃ r, parseRow p line = some r ∧
          countryCodeOf countryCodes geonameIDToCountryCode true r.geonameID
            = some c.CountryCode ∧ r.lang = c.Lang) ∧
        ∃ line ∈ reader.lines, ∃ r code, parseRow p line = some r ∧
          countryCodeOf countryCodes geonameIDToCountryCode true r.geonameID = some code ∧
          countryKey code r.lang = countryKeyOf c ∧ r.name = c.Name) := by
  obtain ⟨⟨cws, crest, hcw, hcb, hcrest⟩, ⟨kws, krest, hkw, hkb, hkrest⟩⟩ :=
    delivered_windows p reader cityIDs countryCodes geonameIDToCountryCode cityCallback
      countryCallback
  have hcrow : ∀ first ∈ reader.lines.filterMap (cityItem p cityIDs),
      ∃ line ∈ reader.lines, ∃ r, parseRow p line = some r ∧
        cityIDs.test r.geonameID = true ∧
        first = ({ CityID := r.geonameID, Lang := r.lang, Name := r.name }, r.isPreferred) := by
    intro first hfirst
    obtain ⟨line, hline, hitem⟩ := List.mem_filterMap.mp hfirst
    obtain ⟨r, hr, hknown, he⟩ := cityItem_some p cityIDs line first hitem
    exact ⟨line, hline, r, hr, hknown, he⟩
  have hkrow : ∀ first ∈ reader.lines.filterMap
      (countryItem p countryCodes geonameIDToCountryCode countryCallback.isSome),
      ∃ line ∈ reader.lines, ∃ r code, parseRow p line = some r ∧
        countryCodeOf countryCodes geonameIDToCountryCode true r.geonameID = some code ∧
        countryCodes.test code = true ∧
        first = ({ CountryCode := code, Lang := r.lang, Name := r.name }, r.isPreferred) := by
    intro first hfirst
    obtain ⟨line, hline, hitem⟩ := List.mem_filterMap.mp hfirst
    obtain ⟨r, m, code, hr, hm, hget, hconf, hknown, he⟩ :=
      countryItem_some p countryCodes geonameIDToCountryCode _ line first hitem
    refine ⟨line, hline, r, code, hr, ?_, hknown, he⟩
    exact (countryCodeOf_eq_some_iff countryCodes geonameIDToCountryCode true r.geonameID
      code).mpr ⟨rfl, m, hm, hget, hknown⟩
  refine ⟨?_, ?_, ?_, ?_⟩
  · intro hsome line hline r hr hknown
    have hrest := hcrest hok hsome
    subst hrest
    have hitem : ({ CityID := r.geonameID, Lang := r.lang, Name := r.name }, r.isPreferred)
        ∈ reader.lines.filterMap (cityItem p cityIDs) :=
      List.mem_filterMap.mpr ⟨line, hline, cityItem_of_parseRow p cityIDs line r hr hknown⟩
    obtain ⟨b, hb, x, hx, hk⟩ := covered_by_windows cityKeyOf cityMerge cityMerge_key
      cityMerge_last _ _ cws hcw _ hitem
    rw [← hcb] at hb
    exact ⟨b, hb, x, hx, (cityKeyOf_eq_iff x r.geonameID r.lang).mp hk⟩
  · intro b hb
    rw [hcb] at hb
    refine ⟨?_, ?_⟩
    · obtain ⟨w, hw, rfl⟩ := List.mem_map.mp hb
      exact (bufferOf_eq_nil_iff cityKeyOf cityMerge w).not.mpr (hcw.2.1 w hw)
    · intro c hc
      obtain ⟨_, first, hfirst, hkey, hcase⟩ := buffer_provenance cityKeyOf cityMerge
        cityMerge_key cityMerge_last _ _ cws crest hcw b hb c hc
      obtain ⟨line, hline, r, hr, hknown, he⟩ := hcrow first hfirst
      have hpair := (cityKeyOf_eq_iff c r.geonameID r.lang).mp (by rw [← hkey, he]; rfl)
      refine ⟨by rw [hpair.1]; exact hknown, ?_⟩
      rcases hcase with hc1 | ⟨item, hitem, hikey, hmerge⟩
      · refine ⟨line, hline, r, hr, hpair.1.symm, hpair.2.symm, ?_⟩
        rw [hc1, he]
      · obtain ⟨line2, hline2, r2, hr2, _, he2⟩ := hcrow item hitem
        have hpair2 := (cityKeyOf_eq_iff c r2.geonameID r2.lang).mp (by rw [← hikey, he2]; rfl)
        refine ⟨line2, hline2, r2, hr2, hpair2.1.symm, hpair2.2.symm, ?_⟩
        rw [hmerge, he2]
        rfl
  · intro hsome line hline r code hr hcode
    have hrest := hkrest hok
    subst hrest
    rw [hsome] at hkw
    have hitem : ({ CountryCode := code, Lang := r.lang, Name := r.name }, r.isPreferred)
        ∈ reader.lines.filterMap (countryItem p countryCodes geonameIDToCountryCode true) := by
      refine List.mem_filterMap.mpr ⟨line, hline, ?_⟩
      rw [countryItem_eq p countryCodes geonameIDToCountryCode true line r hr, hcode]
      rfl
    obtain ⟨b, hb, x, hx, hk⟩ := covered_by_windows countryKeyOf countryMerge countryMerge_key
      countryMerge_last _ _ kws hkw _ hitem
    rw [← hkb] at hb
    exact ⟨b, hb, x, hx, hk⟩
  · intro b hb
    rw [hkb] at hb
    refine ⟨?_, ?_⟩
    · obtain ⟨w, hw, rfl⟩ := List.mem_map.mp hb
      exact (bufferOf_eq_nil_iff countryKeyOf countryMerge w).not.mpr (hkw.2.1 w hw)
    · intro c hc
      obtain ⟨_, first, hfirst, hkey, hcase⟩ := buffer_provenance countryKeyOf countryMerge
        countryMerge_key countryMerge_last _ _ kws krest hkw b hb c hc
      obtain ⟨line, hline, r, code, hr, hcode, hknown, he⟩ := hkrow first hfirst
      have hfields : c.CountryCode = code ∧ c.Lang = r.lang := by
        rcases hcase with hc1 | ⟨item, _, _, hmerge⟩
        · rw [hc1, he]
          exact ⟨rfl, rfl⟩
        · rw [hmerge, he]
          exact ⟨rfl, rfl⟩
      refine ⟨by rw [hfields.1]; exact hknown,
        ⟨line, hline, r, hr, by rw [hfields.1]; exact hcode, hfields.2.symm⟩, ?_⟩
      rcases hcase with hc1 | ⟨item, hitem, hikey, hmerge⟩
      · refine ⟨line, hline, r, code, hr, hcode, ?_, ?_⟩
        · rw [← hkey, he]
          rfl
        · rw [hc1, he]
      · obtain ⟨line2, hline2, r2, code2, hr2, hcode2, _, he2⟩ := hkrow item hitem
        refine ⟨line2, hline2, r2, code2, hr2, hcode2, ?_, ?_⟩
        · rw [← hikey, he2]
          rfl
        · rw [hmerge, he2]
          rfl

/-- Witness of C28: on the seven rows of the scenario the pass returns nil, and the key of
row 8 (Parigi for 200, "en"), whose name is dropped by the dedup step, is delivered. -/
theorem no_translation_lost_witness :
    (processAlternateNamesFromReaderWithCountryMapping (testParser [])
      { lines := scenarioRows, err := none } testCityIDs [] none (some collectCity)
      none).ending = Ending.ok ∧
    ∃ b ∈ cityBatches (processAlternateNamesFromReaderWithCountryMapping (testParser [])
        { lines := scenarioRows, err := none } testCityIDs [] none (some collectCity)
        none).calls,
      ∃ c ∈ b, c.CityID = 200 ∧ c.Lang = utf8 "en" :=
  ⟨by decide,
   (no_translation_lost (testParser []) { lines := scenarioRows, err := none } testCityIDs []
      none (some collectCity) none (by decide)).1 rfl
      (utf8 "8\t200\ten\tParigi\t0\t0\t0\t0") (by decide)
      { geonameID := 200, lang := utf8 "en", name := utf8 "Parigi", isPreferred := false }
      (by decide) (by decide)⟩

/-! ## Nearest-city search -/

theorem nearestLoop_spec {φ : Type} (ops : FloatOps φ) (lat lon : φ) (rest : List (City φ)) :
    ∀ (done : List (City φ)) (nearest : Option (City φ)) (minDist : φ),
      Comparable ops.lt ops.MaxFloat64
        ((done ++ rest).map (fun c => calculateDistance ops lat lon c.Lat c.Lon)) →
      ((done = [] ∧ nearest = none ∧ minDist = ops.MaxFloat64) ∨
        ∃ pre c post, done = pre ++ c :: post ∧ nearest = some c ∧
          minDist = calculateDistance ops lat lon c.Lat c.Lon ∧
          (∀ x ∈ done, ops.lt (calculateDistance ops lat lon x.Lat x.Lon)
            (calculateDistance ops lat lon c.Lat c.Lon) = false) ∧
          (∀ x ∈ pre, ops.lt (calculateDistance ops lat lon c.Lat c.Lon)
            (calculateDistance ops lat lon x.Lat x.Lon) = true)) →
      ((done ++ rest = [] ∧ nearestLoop ops lat lon rest nearest minDist
          = (none, ops.MaxFloat64)) ∨
        ∃ pre c post, done ++ rest = pre ++ c :: post ∧
          nearestLoop ops lat lon rest nearest minDist
            = (some c, calculateDistance ops lat lon c.Lat c.Lon) ∧
          (∀ x ∈ done ++ rest, ops.lt (calculateDistance ops lat lon x.Lat x.Lon)
            (calculateDistance ops lat lon c.Lat c.Lon) = false) ∧
          (∀ x ∈ pre, ops.lt (calculateDistance ops lat lon c.Lat c.Lon)
            (calculateDistance ops lat lon x.Lat x.Lon) = true)) := by
  induction rest with
  | nil =>
    intro done nearest minDist _ hinv
    rw [List.append_nil]
    rcases hinv with ⟨h1, h2, h3⟩ | ⟨pre, c, post, h1, h2, h3, h4, h5⟩
    · left
      exact ⟨h1, by rw [nearestLoop, h2, h3]⟩
    · right
      exact ⟨pre, c, post, h1, by rw [nearestLoop, h2, h3], h4, h5⟩
  | cons y rest ih =>
    intro done nearest minDist hcmp hinv
    have hsplit : done ++ y :: rest = (done ++ [y]) ++ rest := by simp
    rw [hsplit] at hcmp ⊢
    have hmem : ∀ x ∈ done ++ [y], calculateDistance ops lat lon x.Lat x.Lon
        ∈ ((done ++ [y]) ++ rest).map (fun c => calculateDistance ops lat lon c.Lat c.Lon) := by
      intro x hx
      exact List.mem_map.mpr ⟨x, List.mem_append_left _ hx, rfl⟩
    have hy : y ∈ done ++ [y] := by simp
    obtain ⟨htop, hasym, hneg⟩ := hcmp
    have hirr : ops.lt (calculateDistance ops lat lon y.Lat y.Lon)
        (calculateDistance ops lat lon y.Lat y.Lon) = false := by
      by_cases h : ops.lt (calculateDistance ops lat lon y.Lat y.Lon)
          (calculateDistance ops lat lon y.Lat y.Lon) = true
      · have h2 := hasym _ (hmem y hy) _ (hmem y hy) h
        rw [h] at h2
        exact Bool.noConfusion h2
      · simpa using h
    rw [nearestLoop]
    by_cases hlt : ops.lt (calculateDistance ops lat lon y.Lat y.Lon) minDist = true
    · rw [if_pos hlt]
      apply ih (done ++ [y]) (some y) _ ⟨htop, hasym, hneg⟩
      right
      refine ⟨done, y, [], rfl, rfl, rfl, ?_, ?_⟩
      · rcases hinv with ⟨h1, _, _⟩ | ⟨pre, c, post, h1, h2, h3, h4, h5⟩
        · intro x hx
          rw [h1] at hx
          simp only [List.nil_append, List.mem_singleton] at hx
          rw [hx]
          exact hirr
        · intro x hx
          rw [h3] at hlt
          have hc : c ∈ done ++ [y] := by rw [h1]; simp
          rcases List.mem_append.mp hx with hxd | hxy
          · have hxc := h4 x hxd
            have := hneg _ (hmem y hy) _ (hmem x (List.mem_append_left _ hxd)) _ (hmem c hc)
              hlt hxc
            exact hasym _ (hmem y hy) _ (hmem x (List.mem_append_left _ hxd)) this
          · rw [List.mem_singleton] at hxy
            rw [hxy]
            exact hirr
      · rcases hinv with ⟨h1, _, _⟩ | ⟨pre, c, post, h1, h2, h3, h4, h5⟩
        · intro x hx
          rw [h1] at hx
          simp at hx
        · intro x hxd
          rw [h3] at hlt
          have hc : c ∈ done ++ [y] := by rw [h1]; simp
          exact hneg _ (hmem y hy) _ (hmem x (List.mem_append_left _ hxd)) _ (hmem c hc)
            hlt (h4 x hxd)
    · rw [if_neg hlt]
      have hlt1 : ops.lt (calculateDistance ops lat lon y.Lat y.Lon) minDist = false := by
        cases h : ops.lt (calculateDistance ops lat lon y.Lat y.Lon) minDist with
        | false => rfl
        | true => exact absurd h hlt
      apply ih (done ++ [y]) nearest minDist ⟨htop, hasym, hneg⟩
      rcases hinv with ⟨h1, h2, h3⟩ | ⟨pre, c, post, h1, h2, h3, h4, h5⟩
      · rw [h3] at hlt
        exact absurd (htop _ (hmem y hy)) hlt
      · right
        refine ⟨pre, c, post ++ [y], by rw [h1]; simp, h2, h3, ?_, h5⟩
        intro x hx
        rcases List.mem_append.mp hx with hxd | hxy
        · exact h4 x hxd
        · rw [List.mem_singleton] at hxy
          rw [hxy, ← h3]
          exact hlt1

theorem FindNearestCity_table {φ : Type} (ops : FloatOps φ) (cities : List (City φ))
    (lat lon : φ) :
    FindNearestCity ops (tableQueries ops cities) lat lon
      = match nearestLoop ops lat lon (candidatesOf ops cities lat lon) none ops.MaxFloat64 with
        | (none, _) => { city := none, distance := ops.ofInt 0, err := none }
        | (some nearest, minDist) => { city := some nearest, distance := minDist, err := none } := by
  unfold FindNearestCity tableQueries candidatesOf boxOf
  dsimp only
  by_cases h : (cities.filter (inBox ops (ops.sub lat (ops.ofInt 2)) (ops.add lat (ops.ofInt 2))
      (ops.sub lon (ops.ofInt 2)) (ops.add lon (ops.ofInt 2)))).length = 0
  · rw [if_pos h, if_pos h]
  · rw [if_neg h, if_neg h]

theorem candidatesOf_eq_nil_iff {φ : Type} (ops : FloatOps φ) (cities : List (City φ))
    (lat lon : φ) : candidatesOf ops cities lat lon = [] ↔ cities = [] := by
  unfold candidatesOf
  by_cases h : (boxOf ops cities lat lon).length = 0
  · rw [if_pos h]
  · rw [if_neg h]
    constructor
    · intro e
      rw [e] at h
      exact absurd rfl h
    · intro e
      rw [e] at h
      exact absurd rfl h

/-- Claim C21: selection of the SQLite `FindNearestCity`. For every city collection and
query (lat, lon) whose computed distances are ordered numbers below `math.MaxFloat64`: the
candidates are the cities with lat-2 ≤ city.Lat ≤ lat+2 and lon-2 ≤ city.Lon ≤ lon+2 if
there is at least one, and otherwise the entire collection; the result is the first
candidate in encounter order whose computed distance to the query is minimal among the
candidates, returned together with that distance; and "no result" (nil city, distance 0, no
error) is returned if and only if the collection is empty. -/
theorem nearest_selection {φ : Type} (ops : FloatOps φ) (cities : List (City φ)) (lat lon : φ)
    (hcmp : Comparable ops.lt ops.MaxFloat64
      ((candidatesOf ops cities lat lon).map
        (fun c => calculateDistance ops lat lon c.Lat c.Lon))) :
    (candidatesOf ops cities lat lon
      = if (cities.filter (fun c => ops.le (ops.sub lat (ops.ofInt 2)) c.Lat &&
            ops.le c.Lat (ops.add lat (ops.ofInt 2)) &&
            ops.le (ops.sub lon (ops.ofInt 2)) c.Lon &&
            ops.le c.Lon (ops.add lon (ops.ofInt 2)))).length = 0 then cities
        else cities.filter (fun c => ops.le (ops.sub lat (ops.ofInt 2)) c.Lat &&
            ops.le c.Lat (ops.add lat (ops.ofInt 2)) &&
            ops.le (ops.sub lon (ops.ofInt 2)) c.Lon &&
            ops.le c.Lon (ops.add lon (ops.ofInt 2)))) ∧
    (FindNearestCity ops (tableQueries ops cities) lat lon).err = none ∧
    ((FindNearestCity ops (tableQueries ops cities) lat lon).city = none ↔ cities = []) ∧
    (cities = [] →
      (FindNearestCity ops (tableQueries ops cities) lat lon).distance = ops.ofInt 0) ∧
    (cities ≠ [] → ∃ pre c post,
      candidatesOf ops cities lat lon = pre ++ c :: post ∧
      (FindNearestCity ops (tableQueries ops cities) lat lon).city = some c ∧
      (FindNearestCity ops (tableQueries ops cities) lat lon).distance
        = calculateDistance ops lat lon c.Lat c.Lon ∧
      (∀ x ∈ candidatesOf ops cities lat lon,
        ops.lt (calculateDistance ops lat lon x.Lat x.Lon)
          (calculateDistance ops lat lon c.Lat c.Lon) = false) ∧
      (∀ x ∈ pre, ops.lt (calculateDistance ops lat lon c.Lat c.Lon)
        (calculateDistance ops lat lon x.Lat x.Lon) = true)) := by
  have hloop := nearestLoop_spec ops lat lon (candidatesOf ops cities lat lon) [] none
    ops.MaxFloat64 (by rw [List.nil_append]; exact hcmp) (Or.inl ⟨rfl, rfl, rfl⟩)
  rw [List.nil_append] at hloop
  rw [FindNearestCity_table]
  refine ⟨rfl, ?_⟩
  rcases hloop with ⟨hnil, hres⟩ | ⟨pre, c, post, hsplit, hres, hmin, hfirst⟩
  · rw [hres]
    have hc : cities = [] := (candidatesOf_eq_nil_iff ops cities lat lon).mp hnil
    exact ⟨rfl, ⟨fun _ => hc, fun _ => rfl⟩, fun _ => rfl, fun h => absurd hc h⟩
  · rw [hres]
    have hc : cities ≠ [] := by
      intro e
      have := (candidatesOf_eq_nil_iff ops cities lat lon).mpr e
      rw [this] at hsplit
      simp at hsplit
    refine ⟨rfl, ⟨fun h => Option.noConfusion h, fun h => absurd h hc⟩, fun h => absurd h hc, ?_⟩
    intro _
    exact ⟨pre, c, post, hsplit, rfl, rfl, hmin, hfirst⟩

/-! ## The search in ideal arithmetic -/

theorem ideal_exists : ∃ ops : FloatOps ℝ, IdealArithmetic ops :=
  ⟨{ add := fun a b => a + b, sub := fun a b => a - b, mul := fun a b => a * b,
     div := fun a b => a / b,
     lt := fun a b => @decide (a < b) (Classical.propDecidable _),
     le := fun a b => @decide (a ≤ b) (Classical.propDecidable _),
     ofInt := fun n => (n : ℝ), MaxFloat64 := (2 - 1 / 2 ^ 52) * 2 ^ 1023, Pi := Real.pi,
     Sin := Real.sin, Cos := Real.cos, Sqrt := Real.sqrt,
     Atan2 := fun y x => Complex.arg ⟨x, y⟩ },
   { add := fun _ _ => rfl, sub := fun _ _ => rfl, mul := fun _ _ => rfl,
     div := fun _ _ => rfl,
     lt := fun _ _ => by simp, le := fun _ _ => by simp,
     ofInt := fun _ => rfl, MaxFloat64 := rfl, Pi := rfl, Sin := fun _ => rfl,
     Cos := fun _ => rfl, Sqrt := fun _ => rfl, Atan2 := fun _ _ => rfl }⟩

theorem ideal_distance (ops : FloatOps ℝ) (h : IdealArithmetic ops) (lat1 lon1 lat2 lon2 : ℝ) :
    calculateDistance ops lat1 lon1 lat2 lon2
      = 6371 * (2 * Complex.arg
          ⟨Real.sqrt (1 - (Real.sin ((lat2 - lat1) * (Real.pi / 180) / 2) *
              Real.sin ((lat2 - lat1) * (Real.pi / 180) / 2) +
            Real.sin ((lon2 - lon1) * (Real.pi / 180) / 2) *
              Real.sin ((lon2 - lon1) * (Real.pi / 180) / 2) *
              Real.cos (lat1 * (Real.pi / 180)) * Real.cos (lat2 * (Real.pi / 180)))),
           Real.sqrt (Real.sin ((lat2 - lat1) * (Real.pi / 180) / 2) *
              Real.sin ((lat2 - lat1) * (Real.pi / 180) / 2) +
            Real.sin ((lon2 - lon1) * (Real.pi / 180) / 2) *
              Real.sin ((lon2 - lon1) * (Real.pi / 180) / 2) *
              Real.cos (lat1 * (Real.pi / 180)) * Real.cos (lat2 * (Real.pi / 180)))⟩) := by
  unfold calculateDistance
  simp only [h.add, h.sub, h.mul, h.div, h.ofInt, h.Pi, h.Sin, h.Cos, h.Sqrt, h.Atan2]
  norm_num

theorem ideal_distance_form (ops : FloatOps ℝ) (h : IdealArithmetic ops)
    (lat1 lon1 lat2 lon2 : ℝ) :
    ∃ a : ℝ, calculateDistance ops lat1 lon1 lat2 lon2
      = 6371 * (2 * Complex.arg ⟨Real.sqrt (1 - a), Real.sqrt a⟩) :=
  ⟨_, ideal_distance ops h lat1 lon1 lat2 lon2⟩

theorem ideal_distance_nonneg (ops : FloatOps ℝ) (h : IdealArithmetic ops)
    (lat1 lon1 lat2 lon2 : ℝ) : 0 ≤ calculateDistance ops lat1 lon1 lat2 lon2 := by
  obtain ⟨a, ha⟩ := ideal_distance_form ops h lat1 lon1 lat2 lon2
  rw [ha]
  have h1 : 0 ≤ Complex.arg ⟨Real.sqrt (1 - a), Real.sqrt a⟩ :=
    Complex.arg_nonneg_iff.mpr (Real.sqrt_nonneg a)
  positivity

theorem ideal_distance_lt_max (ops : FloatOps ℝ) (h : IdealArithmetic ops)
    (lat1 lon1 lat2 lon2 : ℝ) :
    ops.lt (calculateDistance ops lat1 lon1 lat2 lon2) ops.MaxFloat64 = true := by
  obtain ⟨a, ha⟩ := ideal_distance_form ops h lat1 lon1 lat2 lon2
  rw [h.lt, ha, h.MaxFloat64]
  have h1 := Complex.arg_le_pi ⟨Real.sqrt (1 - a), Real.sqrt a⟩
  have h2 := Real.pi_lt_four
  have h3 : (50968 : ℝ) < (2 - 1 / 2 ^ 52) * 2 ^ 1023 := by norm_num
  linarith

theorem ideal_comparable (ops : FloatOps ℝ) (h : IdealArithmetic ops) (lat lon : ℝ)
    (cs : List (City ℝ)) :
    Comparable ops.lt ops.MaxFloat64
      (cs.map (fun c => calculateDistance ops lat lon c.Lat c.Lon)) := by
  refine ⟨?_, ?_, ?_⟩
  · intro a ha
    obtain ⟨c, _, rfl⟩ := List.mem_map.mp ha
    exact ideal_distance_lt_max ops h _ _ _ _
  · intro a _ b _ hab
    rw [h.lt] at hab
    cases hba : ops.lt b a with
    | false => rfl
    | true =>
      rw [h.lt] at hba
      exact absurd hab (lt_asymm hba)
  · intro a _ b _ c _ hac hbc
    rw [h.lt] at hac ⊢
    have hbc1 : ¬ b < c := by
      intro hlt
      rw [(h.lt b c).mpr hlt] at hbc
      exact Bool.noConfusion hbc
    exact lt_of_lt_of_le hac (not_lt.mp hbc1)

theorem ideal_distance_same_meridian (ops : FloatOps ℝ) (h : IdealArithmetic ops) :
    calculateDistance ops 0 180 0 (-180) = 0 := by
  rw [ideal_distance ops h]
  have e1 : ((0 : ℝ) - 0) * (Real.pi / 180) / 2 = 0 := by ring
  have e2 : ((-180 : ℝ) - 180) * (Real.pi / 180) / 2 = -Real.pi := by ring
  rw [e1, e2, Real.sin_zero, Real.sin_neg, Real.sin_pi]
  have e3 : (Complex.mk (Real.sqrt (1 - (0 * 0 + -0 * -0 * Real.cos (0 * (Real.pi / 180)) *
      Real.cos (0 * (Real.pi / 180)))))
      (Real.sqrt (0 * 0 + -0 * -0 * Real.cos (0 * (Real.pi / 180)) *
        Real.cos (0 * (Real.pi / 180))))) = 1 := by
    apply Complex.ext <;> simp
  rw [e3, Complex.arg_one]
  ring

theorem ideal_distance_two_degrees (ops : FloatOps ℝ) (h : IdealArithmetic ops) :
    0 < calculateDistance ops 0 180 0 178 := by
  rw [ideal_distance ops h]
  have e1 : ((0 : ℝ) - 0) * (Real.pi / 180) / 2 = 0 := by ring
  have e2 : ((178 : ℝ) - 180) * (Real.pi / 180) / 2 = -(Real.pi / 180) := by ring
  rw [e1, e2, Real.sin_zero, Real.sin_neg, zero_mul, zero_mul, Real.cos_zero]
  have hs : 0 < Real.sin (Real.pi / 180) :=
    Real.sin_pos_of_pos_of_lt_pi (by positivity) (by linarith [Real.pi_pos])
  have ha : 0 < 0 + -Real.sin (Real.pi / 180) * -Real.sin (Real.pi / 180) * 1 * 1 := by
    nlinarith
  generalize 0 + -Real.sin (Real.pi / 180) * -Real.sin (Real.pi / 180) * 1 * 1 = a at ha
  have him : 0 < Real.sqrt a := Real.sqrt_pos.mpr ha
  have h0 : 0 ≤ Complex.arg ⟨Real.sqrt (1 - a), Real.sqrt a⟩ :=
    Complex.arg_nonneg_iff.mpr (le_of_lt him)
  have h1 : Complex.arg ⟨Real.sqrt (1 - a), Real.sqrt a⟩ ≠ 0 := by
    intro e
    have := (Complex.arg_eq_zero_iff.mp e).2
    exact absurd this (ne_of_gt him)
  have h2 : 0 < Complex.arg ⟨Real.sqrt (1 - a), Real.sqrt a⟩ := lt_of_le_of_ne h0 (Ne.symm h1)
  positivity

theorem boxOf_antimeridian (ops : FloatOps ℝ) (h : IdealArithmetic ops) :
    boxOf ops (antimeridianCities ops) 0 180 = [cityAt 1 0 178] := by
  have h0 : ops.ofInt 0 = 0 := by rw [h.ofInt]; norm_num
  have h178 : ops.ofInt 178 = 178 := by rw [h.ofInt]; norm_num
  have h180 : ops.ofInt (-180) = -180 := by rw [h.ofInt]; norm_num
  have h2 : ops.ofInt 2 = 2 := by rw [h.ofInt]; norm_num
  unfold boxOf antimeridianCities
  rw [h0, h178, h180, h2]
  have hin : inBox ops (ops.sub 0 2) (ops.add 0 2) (ops.sub 180 2) (ops.add 180 2)
      (cityAt 1 0 178) = true := by
    unfold inBox cityAt
    simp only [Bool.and_eq_true, h.le, h.sub, h.add]
    norm_num
  have hout : ¬ inBox ops (ops.sub 0 2) (ops.add 0 2) (ops.sub 180 2) (ops.add 180 2)
      (cityAt 2 0 (-180)) = true := by
    unfold inBox cityAt
    simp only [Bool.and_eq_true, h.le, h.sub, h.add]
    norm_num
  rw [List.filter_cons_of_pos hin, List.filter_cons_of_neg hout, List.filter_nil]

theorem nearestLoop_mem {φ : Type} (ops : FloatOps φ) (lat lon : φ) (cs : List (City φ)) :
    ∀ (nearest : Option (City φ)) (minDist : φ) (c : City φ) (d : φ),
      nearestLoop ops lat lon cs nearest minDist = (some c, d) → c ∈ cs ∨ nearest = some c := by
  induction cs with
  | nil =>
    intro nearest minDist c d h
    rw [nearestLoop] at h
    exact Or.inr (congrArg Prod.fst h)
  | cons y rest ih =>
    intro nearest minDist c d h
    rw [nearestLoop] at h
    by_cases hlt : ops.lt (calculateDistance ops lat lon y.Lat y.Lon) minDist = true
    · rw [if_pos hlt] at h
      rcases ih _ _ c d h with h1 | h1
      · exact Or.inl (List.mem_cons_of_mem _ h1)
      · cases h1
        exact Or.inl (List.mem_cons_self _ _)
    · rw [if_neg hlt] at h
      rcases ih _ _ c d h with h1 | h1
      · exact Or.inl (List.mem_cons_of_mem _ h1)
      · exact Or.inr h1

theorem FindNearestCity_mem {φ : Type} (ops : FloatOps φ) (cities : List (City φ))
    (lat lon : φ) (c : City φ)
    (h : (FindNearestCity ops (tableQueries ops cities) lat lon).city = some c) :
    c ∈ candidatesOf ops cities lat lon := by
  rw [FindNearestCity_table] at h
  cases hloop : nearestLoop ops lat lon (candidatesOf ops cities lat lon) none
      ops.MaxFloat64 with
  | mk nearest d =>
    rw [hloop] at h
    cases nearest with
    | none => exact Option.noConfusion h
    | some x =>
      have hx : x = c := Option.some.inj h
      rcases nearestLoop_mem ops lat lon _ none ops.MaxFloat64 x d hloop with h1 | h1
      · rw [← hx]
        exact h1
      · exact Option.noConfusion h1

/-- Claim C23, at the failing input: whatever the arithmetic, when the ±2° box holds a city
the city returned by `FindNearestCity` is a city of the box, however near the cities outside
the box are. In ideal arithmetic, with city 1 at (0, 178) and city 2 at (0, -180) and the
query (0, 180), the search returns city 1, at a positive distance, although city 2 is in the
collection at distance 0 from the query point. -/
theorem box_hides_nearer_city :
    (∀ (φ : Type) (ops : FloatOps φ) (cities : List (City φ)) (lat lon : φ) (c : City φ),
      boxOf ops cities lat lon ≠ [] →
      (FindNearestCity ops (tableQueries ops cities) lat lon).city = some c →
      c ∈ boxOf ops cities lat lon) ∧
    (∀ ops : FloatOps ℝ, IdealArithmetic ops →
      (FindNearestCity ops (tableQueries ops (antimeridianCities ops)) 0 180).city
        = some (cityAt 1 0 178) ∧
      (FindNearestCity ops (tableQueries ops (antimeridianCities ops)) 0 180).err = none ∧
      (FindNearestCity ops (tableQueries ops (antimeridianCities ops)) 0 180).distance
        = calculateDistance ops 0 180 0 178 ∧
      cityAt 2 0 (-180) ∈ antimeridianCities ops ∧
      calculateDistance ops 0 180 0 (-180) = 0 ∧
      ops.lt (calculateDistance ops 0 180 0 (-180)) (calculateDistance ops 0 180 0 178)
        = true) := by
  constructor
  · intro φ ops cities lat lon c hbox hres
    have hmem := FindNearestCity_mem ops cities lat lon c hres
    unfold candidatesOf at hmem
    have hlen : ¬ (boxOf ops cities lat lon).length = 0 := by
      intro e
      exact hbox (List.length_eq_zero.mp e)
    rw [if_neg hlen] at hmem
    exact hmem
  · intro ops h
    have hbox := boxOf_antimeridian ops h
    have hcand : candidatesOf ops (antimeridianCities ops) 0 180 = [cityAt 1 0 178] := by
      unfold candidatesOf
      rw [hbox]
      rfl
    have hlt := ideal_distance_lt_max ops h 0 180 0 178
    have hres : FindNearestCity ops (tableQueries ops (antimeridianCities ops)) 0 180
        = { city := some (cityAt 1 0 178), distance := calculateDistance ops 0 180 0 178,
            err := none } := by
      rw [FindNearestCity_table, hcand]
      have : nearestLoop ops 0 180 [cityAt 1 0 178] none ops.MaxFloat64
          = (some (cityAt 1 0 178), calculateDistance ops 0 180 0 178) := by
        rw [nearestLoop]
        have hlt1 : ops.lt (calculateDistance ops 0 180 (cityAt 1 (0 : ℝ) 178).Lat
            (cityAt 1 (0 : ℝ) 178).Lon) ops.MaxFloat64 = true := hlt
        rw [if_pos hlt1, nearestLoop]
        rfl
      rw [this]
    rw [hres]
    refine ⟨rfl, rfl, rfl, ?_, ideal_distance_same_meridian ops h, ?_⟩
    · unfold antimeridianCities
      have h0 : ops.ofInt 0 = 0 := by rw [h.ofInt]; norm_num
      have h180 : ops.ofInt (-180) = -180 := by rw [h.ofInt]; norm_num
      rw [h0, h180]
      simp
    · rw [h.lt, ideal_distance_same_meridian ops h]
      exact ideal_distance_two_degrees ops h

/-- Witness of C23: there is an ideal arithmetic, and in it the search returns city 1. -/
theorem box_hides_nearer_city_witness :
    ∃ ops : FloatOps ℝ, IdealArithmetic ops ∧
      (FindNearestCity ops (tableQueries ops (antimeridianCities ops)) 0 180).city
        = some (cityAt 1 0 178) ∧
      calculateDistance ops 0 180 0 (-180) = 0 :=
  ideal_exists.elim (fun ops h =>
    ⟨ops, h, (box_hides_nearer_city.2 ops h).1, (box_hides_nearer_city.2 ops h).2.2.2.2.1⟩)

/-! ## The country sink and colliding keys -/

/-- Counterexample to C27: with the country codes "A" and "A:" the two accepted rows of the
window have the distinct pairs ("A", ":b") and ("A:", "b"), yet the batch delivered to the
country sink has one record; it carries the pair ("A", ":b"), whose only row in the window
has the name Alpha, and the name Beta. -/
theorem country_batch_merges_two_pairs :
    (colonRows.filterMap (countryItem (batchParser 10) (CreateCountryCodeMap colonCountries)
        (some (CreateCountryGeonameIDMap colonCountries)) true)).map
        (fun item => (item.1.CountryCode, item.1.Lang))
      = [(utf8 "A", utf8 ":b"), (utf8 "A:", utf8 "b")] ∧
    (colonRows.filterMap (countryItem (batchParser 10) (CreateCountryCodeMap colonCountries)
        (some (CreateCountryGeonameIDMap colonCountries)) true)).filter
        (fun item => decide (item.1.CountryCode = utf8 "A" ∧ item.1.Lang = utf8 ":b"))
      = [({ CountryCode := utf8 "A", Lang := utf8 ":b", Name := utf8 "Alpha" }, false)] ∧
    (countryBatches (processAlternateNamesFromReaderWithCountryMapping (batchParser 10)
        { lines := colonRows, err := none } [] (CreateCountryCodeMap colonCountries)
        (some (CreateCountryGeonameIDMap colonCountries)) none
        (some collectCountry)).calls).map (fun b => b.map (fun c => (c.CountryCode, c.Lang, c.Name)))
      = [[(utf8 "A", utf8 ":b", utf8 "Beta")]] := by
  decide

/-- Counterexample to C28: the pass returns nil and the row of entity 20 with language "b"
is accepted, with the known country code "A:", yet no batch delivered to the country sink
has a record of ("A:", "b"). -/
theorem country_translation_not_delivered :
    (processAlternateNamesFromReaderWithCountryMapping (batchParser 10)
      { lines := colonRows, err := none } [] (CreateCountryCodeMap colonCountries)
      (some (CreateCountryGeonameIDMap colonCountries)) none
      (some collectCountry)).ending = Ending.ok ∧
    utf8 "2\t20\tb\tBeta\t1" ∈ colonRows ∧
    parseRow (batchParser 10) (utf8 "2\t20\tb\tBeta\t1")
      = some { geonameID := 20, lang := utf8 "b", name := utf8 "Beta", isPreferred := true } ∧
    countryCodeOf (CreateCountryCodeMap colonCountries)
      (some (CreateCountryGeonameIDMap colonCountries)) true 20 = some (utf8 "A:") ∧
    ∀ b ∈ countryBatches (processAlternateNamesFromReaderWithCountryMapping (batchParser 10)
        { lines := colonRows, err := none } [] (CreateCountryCodeMap colonCountries)
        (some (CreateCountryGeonameIDMap colonCountries)) none (some collectCountry)).calls,
      ∀ c ∈ b, ¬ (c.CountryCode = utf8 "A:" ∧ c.Lang = utf8 "b") := by
  decide

/-! ## Passes cut short by a sink failure or a scanner error -/

/-- Counterexample to C3: with batch size 2 and one accepted city row, so that N = 1 and
⌈N/B⌉ = 1, the city sink, which never fails, is invoked 0 times when the country sink fails
at its first batch, and 0 times when the scanner stops at a line beyond its token limit. -/
theorem city_deliveries_fall_short :
    (mixedRows.filterMap (cityItem (batchParser 2) testCityIDs)).length = 1 ∧
    processAlternateNamesFromReaderWithCountryMapping (batchParser 2)
        { lines := mixedRows, err := none } testCityIDs [(utf8 "FR", true)]
        (some [(300, utf8 "FR")]) (some collectCity) (some failingCountry)
      = { calls := [SinkCall.country
            [{ CountryCode := utf8 "FR", Lang := utf8 "fr", Name := utf8 "France" },
             { CountryCode := utf8 "FR", Lang := utf8 "de", Name := utf8 "Frankreich" }]],
          ending := Ending.failed
            (GoError.wrapped "country callback error" (GoError.base "insert failed")) } ∧
    (scan (1024 * 1024) (utf8 "2\t100\ten\tLondon" ++ 10 :: longLine (1024 * 1024))).lines
      = [utf8 "2\t100\ten\tLondon"] ∧
    processAlternateNamesFromReaderWithCountryMapping (batchParser 2)
        (scan (1024 * 1024) (utf8 "2\t100\ten\tLondon" ++ 10 :: longLine (1024 * 1024)))
        testCityIDs [] none (some collectCity) none
      = { calls := [],
          ending := Ending.failed
            (GoError.wrapped "failed to scan alternateNames" ErrTooLong) } := by
  have hscan := scan_long_second (1024 * 1024) (1024 * 1024) (le_refl _) (by decide)
    (utf8 "2\t100\ten\tLondon") (by decide) (by decide)
  rw [hscan]
  exact ⟨by decide, by decide, by decide, by decide⟩

/-- Counterexample to C6: a row of 1 MiB without a tab has one field and is malformed; the
pass on an input that starts with it returns the scanner error "token too long" and
delivers nothing, while on the input without that row it returns nil and delivers London. -/
theorem overlong_malformed_row_stops_the_pass :
    (fields (longLine (1024 * 1024))).length = 1 ∧
    malformedRow (longLine (1024 * 1024)) = true ∧
    processAlternateNamesFromReaderWithCountryMapping (testParser [])
        (scan (1024 * 1024) (longLine (1024 * 1024) ++ 10 :: utf8 "1\t100\ten\tLondon"))
        testCityIDs [] none (some collectCity) none
      = { calls := [],
          ending := Ending.failed
            (GoError.wrapped "failed to scan alternateNames" ErrTooLong) } ∧
    processAlternateNamesFromReaderWithCountryMapping (testParser [])
        (scan (1024 * 1024) (utf8 "1\t100\ten\tLondon")) testCityIDs [] none
        (some collectCity) none
      = { calls := [SinkCall.city
            [{ CityID := 100, Lang := utf8 "en", Name := utf8 "London" }]],
          ending := Ending.ok } := by
  rw [scan_long_first (1024 * 1024) (1024 * 1024) (le_refl _), fields_longLine,
    malformedRow_longLine]
  exact ⟨rfl, rfl, by decide, by decide⟩

/-- Counterexample to C10: with batch size 1, the row of entity 100, which is a known city
id and the source id of the known country GB, fills the city batch; the city sink fails at
the flush, the loop body returns before the country block, and the row never reaches the
country batch or the country sink, although a country sink is configured. -/
theorem failed_city_flush_skips_the_country_block :
    parseRow (batchParser 1) (utf8 "1\t100\ten\tLondon")
      = some { geonameID := 100, lang := utf8 "en", name := utf8 "London",
               isPreferred := false } ∧
    countryCodeOf [(utf8 "GB", true)] (some [(100, utf8 "GB")]) true 100 = some (utf8 "GB") ∧
    processRow (batchParser 1) (effectiveBatchSize (batchParser 1)) testCityIDs
        [(utf8 "GB", true)] (some [(100, utf8 "GB")]) (some failingCity) (some collectCountry)
        initialState (utf8 "1\t100\ten\tLondon")
      = Flow.ret [SinkCall.city [{ CityID := 100, Lang := utf8 "en", Name := utf8 "London" }]]
          (GoError.wrapped "city callback error" (GoError.base "insert failed")) ∧
    processAlternateNamesFromReaderWithCountryMapping (batchParser 1)
        { lines := [utf8 "1\t100\ten\tLondon"], err := none } testCityIDs
        [(utf8 "GB", true)] (some [(100, utf8 "GB")]) (some failingCity) (some collectCountry)
      = { calls := [SinkCall.city
            [{ CityID := 100, Lang := utf8 "en", Name := utf8 "London" }]],
          ending := Ending.failed
            (GoError.wrapped "city callback error" (GoError.base "insert failed")) } := by
  decide

/-- Counterexample to C14: the London line has 19 fields that parse and a population equal
to the minimum 7556900; followed by a line of 64 KiB it is read, but the scanner then stops
with "token too long" and `parseCitiesFromReader` returns that error and no City. -/
theorem line_at_the_minimum_not_returned :
    (scan 65536 (londonLine "" ++ 10 :: longLine 65536)).lines = [londonLine ""] ∧
    (parseCityLine parseWholeNumber (populationParser 7556900) (londonLine "")).map
        (fun c => c.Population) = some 7556900 ∧
    parseCitiesFromReader parseWholeNumber (populationParser 7556900)
        (scan 65536 (londonLine "" ++ 10 :: longLine 65536))
      = Except.error (GoError.wrapped "failed to scan cities" ErrTooLong) := by
  rw [scan_long_second 65536 65536 (le_refl _) (by decide) (londonLine "") (by decide)
    (by decide)]
  exact ⟨by decide, by decide, rfl⟩

/-- Counterexample to C15: a line of 64 KiB without a tab has one field, fewer than 19, so
it is one of the lines to skip; on the input made of that line `parseCitiesFromReader`
returns the error "token too long" instead of an empty list. -/
theorem overlong_city_line_is_an_error :
    (fields (longLine 65536)).length = 1 ∧
    parseCitiesFromReader parseWholeNumber (populationParser 1000)
        (scan 65536 (longLine 65536 ++ 10 :: londonLine ""))
      = Except.error (GoError.wrapped "failed to scan cities" ErrTooLong) := by
  rw [scan_long_first 65536 65536 (le_refl _), fields_longLine]
  exact ⟨rfl, rfl⟩

theorem ParseCountries_scan_error (Join : GoString → GoString → GoString)
    (Open : GoString → Except GoError LineStream) (p : Parser) (file : LineStream)
    (err : GoError) (hopen : Open (Join p.dataDir (utf8 "countryInfo.txt")) = Except.ok file)
    (herr : file.err = some err) :
    ParseCountries Join Open p
      = Except.error (GoError.wrapped "failed to scan countryInfo.txt" err) := by
  unfold ParseCountries
  rw [hopen]
  dsimp only
  rw [herr]

/-- Counterexample to C18: a line of 64 KiB without a tab has one field, fewer than 17, and
does not begin with the comment marker; on the file made of the Andorra line and that line
`ParseCountries` returns the error "token too long" instead of the list with Andorra. -/
theorem overlong_country_line_is_an_error :
    (fields (longLine 65536)).length = 1 ∧
    ParseCountries joinPath
        (oneFile (joinPath (utf8 "/tmp/001") (utf8 "countryInfo.txt"))
          (andorraLine "3041565" ++ 10 :: longLine 65536))
        countryTestParser
      = Except.error (GoError.wrapped "failed to scan countryInfo.txt" ErrTooLong) := by
  have hopen : oneFile (joinPath (utf8 "/tmp/001") (utf8 "countryInfo.txt"))
      (andorraLine "3041565" ++ 10 :: longLine 65536)
      (joinPath countryTestParser.dataDir (utf8 "countryInfo.txt"))
      = Except.ok { lines := [dropCR (andorraLine "3041565")], err := some ErrTooLong } := by
    unfold oneFile
    rw [if_pos (by decide), scan_long_second 65536 65536 (le_refl _) (by decide)
      (andorraLine "3041565") (by decide) (by decide)]
  rw [fields_longLine]
  exact ⟨rfl, ParseCountries_scan_error joinPath _ countryTestParser _ ErrTooLong hopen rfl⟩

/-! ## Deliveries of a pass that returns nil -/

/-- When the pass returns nil every candidate row of a sink has a record with its dedup key
in some delivered batch; every delivered batch is non-empty; every delivered record has a
known entity, the entity and language of a candidate row, and the name of a candidate row
with the same dedup key. -/
theorem deliveries_of_ok_pass (p : Parser) (reader : LineStream) (cityIDs : GoMap Int Bool)
    (countryCodes : GoMap GoString Bool) (geonameIDToCountryCode : Option (GoMap Int GoString))
    (cityCallback : Option CityCallback) (countryCallback : Option CountryCallback)
    (hok : (processAlternateNamesFromReaderWithCountryMapping p reader cityIDs countryCodes
      geonameIDToCountryCode cityCallback countryCallback).ending = Ending.ok) :
    (cityCallback.isSome = true →
      ∀ line ∈ reader.lines, ∀ r, parseRow p line = some r → cityIDs.test r.geonameID = true →
        ∃ b ∈ cityBatches (processAlternateNamesFromReaderWithCountryMapping p reader cityIDs
            countryCodes geonameIDToCountryCode cityCallback countryCallback).calls,
          ∃ c ∈ b, c.CityID = r.geonameID ∧ c.Lang = r.lang) ∧
    (∀ b ∈ cityBatches (processAlternateNamesFromReaderWithCountryMapping p reader cityIDs
        countryCodes geonameIDToCountryCode cityCallback countryCallback).calls,
      b ≠ [] ∧ ∀ c ∈ b, cityIDs.test c.CityID = true ∧
        ∃ line ∈ reader.lines, ∃ r, parseRow p line = some r ∧ r.geonameID = c.CityID ∧
          r.lang = c.Lang ∧ r.name = c.Name) ∧
    (countryCallback.isSome = true →
      ∀ line ∈ reader.lines, ∀ r code, parseRow p line = some r →
        countryCodeOf countryCodes geonameIDToCountryCode true r.geonameID = some code →
        ∃ b ∈ countryBatches (processAlternateNamesFromReaderWithCountryMapping p reader cityIDs
            countryCodes geonameIDToCountryCode cityCallback countryCallback).calls,
          ∃ c ∈ b, countryKeyOf c = countryKey code r.lang) ∧
    (∀ b ∈ countryBatches (processAlternateNamesFromReaderWithCountryMapping p reader cityIDs
        countryCodes geonameIDToCountryCode cityCallback countryCallback).calls,
      b ≠ [] ∧ ∀ c ∈ b, countryCodes.test c.CountryCode = true ∧
        (∃ line ∈ reader.lines, ∃ r, parseRow p line = some r ∧
          countryCodeOf countryCodes geonameIDToCountryCode true r.geonameID
            = some c.CountryCode ∧ r.lang = c.Lang) ∧
        ∃ line ∈ reader.lines, ∃ r code, parseRow p line = some r ∧
          countryCodeOf countryCodes geonameIDToCountryCode true r.geonameID = some code ∧
          countryKey code r.lang = countryKeyOf c ∧ r.name = c.Name) := by
  obtain ⟨⟨cws, crest, hcw, hcb, hcrest⟩, ⟨kws, krest, hkw, hkb, hkrest⟩⟩ :=
    delivered_windows p reader cityIDs countryCodes geonameIDToCountryCode cityCallback
      countryCallback
  have hcrow : ∀ first ∈ reader.lines.filterMap (cityItem p cityIDs),
      ∃ line ∈ reader.lines, ∃ r, parseRow p line = some r ∧
        cityIDs.test r.geonameID = true ∧
        first = ({ CityID := r.geonameID, Lang := r.lang, Name := r.name }, r.isPreferred) := by
    intro first hfirst
    obtain ⟨line, hline, hitem⟩ := List.mem_filterMap.mp hfirst
    obtain ⟨r, hr, hknown, he⟩ := cityItem_some p cityIDs line first hitem
    exact ⟨line, hline, r, hr, hknown, he⟩
  have hkrow : ∀ first ∈ reader.lines.filterMap
      (countryItem p countryCodes geonameIDToCountryCode countryCallback.isSome),
      ∃ line ∈ reader.lines, ∃ r code, parseRow p line = some r ∧
        countryCodeOf countryCodes geonameIDToCountryCode true r.geonameID = some code ∧
        countryCodes.test code = true ∧
        first = ({ CountryCode := code, Lang := r.lang, Name := r.name }, r.isPreferred) := by
    intro first hfirst
    obtain ⟨line, hline, hitem⟩ := List.mem_filterMap.mp hfirst
    obtain ⟨r, m, code, hr, hm, hget, hconf, hknown, he⟩ :=
      countryItem_some p countryCodes geonameIDToCountryCode _ line first hitem
    refine ⟨line, hline, r, code, hr, ?_, hknown, he⟩
    exact (countryCodeOf_eq_some_iff countryCodes geonameIDToCountryCode true r.geonameID
      code).mpr ⟨rfl, m, hm, hget, hknown⟩
  refine ⟨?_, ?_, ?_, ?_⟩
  · intro hsome line hline r hr hknown
    have hrest := hcrest hok hsome
    subst hrest
    have hitem : ({ CityID := r.geonameID, Lang := r.lang, Name := r.name }, r.isPreferred)
        ∈ reader.lines.filterMap (cityItem p cityIDs) :=
      List.mem_filterMap.mpr ⟨line, hline, cityItem_of_parseRow p cityIDs line r hr hknown⟩
    obtain ⟨b, hb, x, hx, hk⟩ := covered_by_windows cityKeyOf cityMerge cityMerge_key
      cityMerge_last _ _ cws hcw _ hitem
    rw [← hcb] at hb
    exact ⟨b, hb, x, hx, (cityKeyOf_eq_iff x r.geonameID r.lang).mp hk⟩
  · intro b hb
    rw [hcb] at hb
    refine ⟨?_, ?_⟩
    · obtain ⟨w, hw, rfl⟩ := List.mem_map.mp hb
      exact (bufferOf_eq_nil_iff cityKeyOf cityMerge w).not.mpr (hcw.2.1 w hw)
    · intro c hc
      obtain ⟨_, first, hfirst, hkey, hcase⟩ := buffer_provenance cityKeyOf cityMerge
        cityMerge_key cityMerge_last _ _ cws crest hcw b hb c hc
      obtain ⟨line, hline, r, hr, hknown, he⟩ := hcrow first hfirst
      have hpair := (cityKeyOf_eq_iff c r.geonameID r.lang).mp (by rw [← hkey, he]; rfl)
      refine ⟨by rw [hpair.1]; exact hknown, ?_⟩
      rcases hcase with hc1 | ⟨item, hitem, hikey, hmerge⟩
      · refine ⟨line, hline, r, hr, hpair.1.symm, hpair.2.symm, ?_⟩
        rw [hc1, he]
      · obtain ⟨line2, hline2, r2, hr2, _, he2⟩ := hcrow item hitem
        have hpair2 := (cityKeyOf_eq_iff c r2.geonameID r2.lang).mp (by rw [← hikey, he2]; rfl)
        refine ⟨line2, hline2, r2, hr2, hpair2.1.symm, hpair2.2.symm, ?_⟩
        rw [hmerge, he2]
        rfl
  · intro hsome line hline r code hr hcode
    have hrest := hkrest hok
    subst hrest
    rw [hsome] at hkw
    have hitem : ({ CountryCode := code, Lang := r.lang, Name := r.name }, r.isPreferred)
        ∈ reader.lines.filterMap (countryItem p countryCodes geonameIDToCountryCode true) := by
      refine List.mem_filterMap.mpr ⟨line, hline, ?_⟩
      rw [countryItem_eq p countryCodes geonameIDToCountryCode true line r hr, hcode]
      rfl
    obtain ⟨b, hb, x, hx, hk⟩ := covered_by_windows countryKeyOf countryMerge countryMerge_key
      countryMerge_last _ _ kws hkw _ hitem
    rw [← hkb] at hb
    exact ⟨b, hb, x, hx, hk⟩
  · intro b hb
    rw [hkb] at hb
    refine ⟨?_, ?_⟩
    · obtain ⟨w, hw, rfl⟩ := List.mem_map.mp hb
      exact (bufferOf_eq_nil_iff countryKeyOf countryMerge w).not.mpr (hkw.2.1 w hw)
    · intro c hc
      obtain ⟨_, first, hfirst, hkey, hcase⟩ := buffer_provenance countryKeyOf countryMerge
        countryMerge_key countryMerge_last _ _ kws krest hkw b hb c hc
      obtain ⟨line, hline, r, code, hr, hcode, hknown, he⟩ := hkrow first hfirst
      have hfields : c.CountryCode = code ∧ c.Lang = r.lang := by
        rcases hcase with hc1 | ⟨item, _, _, hmerge⟩
        · rw [hc1, he]
          exact ⟨rfl, rfl⟩
        · rw [hmerge, he]
          exact ⟨rfl, rfl⟩
      refine ⟨by rw [hfields.1]; exact hknown,
        ⟨line, hline, r, hr, by rw [hfields.1]; exact hcode, hfields.2.symm⟩, ?_⟩
      rcases hcase with hc1 | ⟨item, hitem, hikey, hmerge⟩
      · refine ⟨line, hline, r, code, hr, hcode, ?_, ?_⟩
        · rw [← hkey, he]
          rfl
        · rw [hc1, he]
      · obtain ⟨line2, hline2, r2, code2, hr2, hcode2, _, he2⟩ := hkrow item hitem
        refine ⟨line2, hline2, r2, code2, hr2, hcode2, ?_, ?_⟩
        · rw [← hikey, he2]
          rfl
        · rw [hmerge, he2]
          rfl

/-! ## Classification of an accepted row -/

/-- Claim C10, amended: classification is by two independent lookups. For an accepted row
with entity id g and callbacks that do not fail, the loop body puts the row into the city
buffer exactly when `cityIDs[g]` is true and leaves the city side untouched otherwise, and,
independently, puts it into the country buffer exactly when a country sink is configured,
`geonameIDToCountryCode` is not nil and maps g to a code c, and `countryCodes[c]` is true
(`countryCodeOf` is then `some c`). On the input made of that single row the city sink, when
configured, receives the one record of the row if and only if the first test holds, and the
country sink receives it if and only if the second holds. On every input that holds the row
and is read without a scanner error the pass returns nil; a row passing the first test has a
record with its (id, truncated language) in a batch handed to the configured city sink, and a
row passing the second test has a record with its dedup key in a batch handed to the country
sink, so a row passing both tests is delivered to both sinks; no record handed to the city
sink has the id of a row failing the first test, and when the row fails the second test
every record handed to the country sink has the code and language of another row, one that
passes it. -/
theorem classification_by_two_lookups (p : Parser) (cityIDs : GoMap Int Bool)
    (countryCodes : GoMap GoString Bool) (geonameIDToCountryCode : Option (GoMap Int GoString))
    (cityCallback : Option CityCallback) (countryCallback : Option CountryCallback)
    (hcity : ∀ cb, cityCallback = some cb → ∀ h b, cb h b = none)
    (hcountry : ∀ cb, countryCallback = some cb → ∀ h b, cb h b = none)
    (line : GoString) (r : AltName) (hrow : parseRow p line = some r) :
    (∀ code, countryCodeOf countryCodes geonameIDToCountryCode countryCallback.isSome
        r.geonameID = some code ↔
      (countryCallback.isSome = true ∧ ∃ m, geonameIDToCountryCode = some m ∧
        m.get? r.geonameID = some code ∧ countryCodes.test code = true)) ∧
    (∀ (st : LoopState) (cv : SinkView CityTranslation) (kv : SinkView CountryTranslation),
      InStep st cv kv →
      ∃ st1, processRow p (effectiveBatchSize p) cityIDs countryCodes geonameIDToCountryCode
          cityCallback countryCallback st line = Flow.next st1 ∧
        InStep st1
          (if cityIDs.test r.geonameID = true then
            cv.put cityKeyOf cityMerge (effectiveBatchSize p) cityCallback.isSome
              ({ CityID := r.geonameID, Lang := r.lang, Name := r.name }, r.isPreferred)
           else cv)
          (((countryCodeOf countryCodes geonameIDToCountryCode countryCallback.isSome
              r.geonameID).map
            (fun code => kv.put countryKeyOf countryMerge (effectiveBatchSize p) true
              ({ CountryCode := code, Lang := r.lang, Name := r.name },
                r.isPreferred))).getD kv)) ∧
    cityBatches (processAlternateNamesFromReaderWithCountryMapping p
        { lines := [line], err := none } cityIDs countryCodes geonameIDToCountryCode
        cityCallback countryCallback).calls
      = (if cityCallback.isSome = true ∧ cityIDs.test r.geonameID = true then
          [[{ CityID := r.geonameID, Lang := r.lang, Name := r.name }]]
         else []) ∧
    countryBatches (processAlternateNamesFromReaderWithCountryMapping p
        { lines := [line], err := none } cityIDs countryCodes geonameIDToCountryCode
        cityCallback countryCallback).calls
      = ((countryCodeOf countryCodes geonameIDToCountryCode countryCallback.isSome
            r.geonameID).map
          (fun code => [[{ CountryCode := code, Lang := r.lang, Name := r.name }]])).getD
          [] ∧
    (∀ lines : List GoString, line ∈ lines →
      (processAlternateNamesFromReaderWithCountryMapping p { lines := lines, err := none }
        cityIDs countryCodes geonameIDToCountryCode cityCallback countryCallback).ending
        = Ending.ok ∧
      (cityCallback.isSome = true → cityIDs.test r.geonameID = true →
        ∃ b ∈ cityBatches (processAlternateNamesFromReaderWithCountryMapping p
            { lines := lines, err := none } cityIDs countryCodes geonameIDToCountryCode
            cityCallback countryCallback).calls,
          ∃ c ∈ b, c.CityID = r.geonameID ∧ c.Lang = r.lang) ∧
      (∀ code, countryCodeOf countryCodes geonameIDToCountryCode countryCallback.isSome
          r.geonameID = some code →
        ∃ b ∈ countryBatches (processAlternateNamesFromReaderWithCountryMapping p
            { lines := lines, err := none } cityIDs countryCodes geonameIDToCountryCode
            cityCallback countryCallback).calls,
          ∃ c ∈ b, countryKeyOf c = countryKey code r.lang) ∧
      (cityIDs.test r.geonameID = false →
        ∀ b ∈ cityBatches (processAlternateNamesFromReaderWithCountryMapping p
            { lines := lines, err := none } cityIDs countryCodes geonameIDToCountryCode
            cityCallback countryCallback).calls,
          ∀ c ∈ b, c.CityID ≠ r.geonameID) ∧
      (countryCodeOf countryCodes geonameIDToCountryCode countryCallback.isSome
          r.geonameID = none →
        ∀ b ∈ countryBatches (processAlternateNamesFromReaderWithCountryMapping p
            { lines := lines, err := none } cityIDs countryCodes geonameIDToCountryCode
            cityCallback countryCallback).calls,
          ∀ c ∈ b, ∃ line2 ∈ lines, ∃ r2, parseRow p line2 = some r2 ∧
            r2.geonameID ≠ r.geonameID ∧
            countryCodeOf countryCodes geonameIDToCountryCode true r2.geonameID
              = some c.CountryCode ∧ r2.lang = c.Lang)) := by
  refine ⟨fun code => countryCodeOf_eq_some_iff _ _ _ _ code, ?_, ?_, ?_, ?_⟩
  · intro st cv kv hin
    have hsim := processRow_sim p cityIDs countryCodes geonameIDToCountryCode cityCallback
      countryCallback st line cv kv hin
    cases hstep : processRow p (effectiveBatchSize p) cityIDs countryCodes
        geonameIDToCountryCode cityCallback countryCallback st line with
    | ret c e =>
      exact absurd hstep (processRow_ne_ret p _ cityIDs countryCodes geonameIDToCountryCode
        cityCallback countryCallback hcity hcountry st line c e)
    | outOfRange c => exact absurd hstep (hsim.1 c)
    | next st1 =>
      refine ⟨st1, rfl, ?_⟩
      have h := hsim.2 st1 hstep
      have e1 : cityItem p cityIDs line
          = if cityIDs.test r.geonameID = true then
              some ({ CityID := r.geonameID, Lang := r.lang, Name := r.name }, r.isPreferred)
            else none := by
        simp [cityItem, hrow]
      rw [e1, countryItem_eq p countryCodes geonameIDToCountryCode _ line r hrow] at h
      cases hcode : countryCodeOf countryCodes geonameIDToCountryCode countryCallback.isSome
          r.geonameID with
      | none =>
        rw [hcode] at h
        by_cases hc : cityIDs.test r.geonameID = true
        · rw [if_pos hc] at h ⊢
          exact h
        · rw [if_neg hc] at h ⊢
          exact h
      | some code =>
        rw [hcode] at h
        by_cases hc : cityIDs.test r.geonameID = true
        · rw [if_pos hc] at h ⊢
          exact h
        · rw [if_neg hc] at h ⊢
          exact h
  · rw [(process_nonfailing p { lines := [line], err := none } cityIDs countryCodes
      geonameIDToCountryCode cityCallback countryCallback hcity hcountry rfl).2.1]
    unfold cityView
    by_cases hc : cityIDs.test r.geonameID = true
    · have e1 : [line].filterMap (cityItem p cityIDs)
          = [({ CityID := r.geonameID, Lang := r.lang, Name := r.name }, r.isPreferred)] := by
        simp [cityItem, hrow, hc]
      rw [e1, List.foldl_cons, List.foldl_nil, single_put_close]
      simp [hc]
    · have e1 : [line].filterMap (cityItem p cityIDs) = [] := by
        simp [cityItem, hrow, hc]
      rw [e1]
      simp [SinkView.close, hc]
  · rw [(process_nonfailing p { lines := [line], err := none } cityIDs countryCodes
      geonameIDToCountryCode cityCallback countryCallback hcity hcountry rfl).2.2]
    unfold countryView
    have e0 : [line].filterMap (countryItem p countryCodes geonameIDToCountryCode
        countryCallback.isSome)
        = ((countryCodeOf countryCodes geonameIDToCountryCode countryCallback.isSome
            r.geonameID).map (fun code =>
              (({ CountryCode := code, Lang := r.lang, Name := r.name } : CountryTranslation),
                r.isPreferred))).toList := by
      rw [List.filterMap_cons, List.filterMap_nil,
        countryItem_eq p countryCodes geonameIDToCountryCode _ line r hrow]
      cases countryCodeOf countryCodes geonameIDToCountryCode countryCallback.isSome
        r.geonameID <;> rfl
    rw [e0]
    cases hcode : countryCodeOf countryCodes geonameIDToCountryCode countryCallback.isSome
        r.geonameID with
    | none => simp [SinkView.close]
    | some code =>
      have hconf : countryCallback.isSome = true :=
        ((countryCodeOf_eq_some_iff _ _ _ _ code).mp hcode).1
      simp only [Option.map_some', Option.toList_some, List.foldl_cons, List.foldl_nil,
        Option.getD_some]
      have := single_put_close countryKeyOf countryMerge (effectiveBatchSize p) true
        ({ CountryCode := code, Lang := r.lang, Name := r.name } : CountryTranslation)
        r.isPreferred
      rw [hconf]
      simpa using this
  · intro lines hline
    have hok := (process_nonfailing p { lines := lines, err := none } cityIDs countryCodes
      geonameIDToCountryCode cityCallback countryCallback hcity hcountry rfl).1
    obtain ⟨d1, d2, d3, d4⟩ := deliveries_of_ok_pass p { lines := lines, err := none } cityIDs
      countryCodes geonameIDToCountryCode cityCallback countryCallback hok
    refine ⟨hok, ?_, ?_, ?_, ?_⟩
    · intro hsome hknown
      exact d1 hsome line hline r hrow hknown
    · intro code hcode
      have hconf : countryCallback.isSome = true :=
        ((countryCodeOf_eq_some_iff _ _ _ _ code).mp hcode).1
      rw [hconf] at hcode
      exact d3 hconf line hline r code hrow hcode
    · intro hnot b hb c hc hid
      have := (d2 b hb).2 c hc
      rw [hid, hnot] at this
      exact Bool.noConfusion this.1
    · intro hnone b hb c hc
      obtain ⟨_, ⟨line2, hline2, r2, hr2, hcode2, hlang2⟩, _⟩ := (d4 b hb).2 c hc
      refine ⟨line2, hline2, r2, hr2, ?_, hcode2, hlang2⟩
      intro hid
      have hconf : countryCallback.isSome = true := by
        cases hcb : countryCallback with
        | some cb => rfl
        | none =>
          exfalso
          obtain ⟨_, ⟨kws, krest, hkw, hkb, _⟩⟩ := delivered_windows p
            { lines := lines, err := none } cityIDs countryCodes geonameIDToCountryCode
            cityCallback countryCallback
          rw [hkb] at hb
          obtain ⟨w, hw, _⟩ := List.mem_map.mp hb
          have hwne := hkw.2.1 w hw
          obtain ⟨item, hitem⟩ := List.exists_mem_of_ne_nil w hwne
          have hmem : item ∈ lines.filterMap (countryItem p countryCodes
              geonameIDToCountryCode countryCallback.isSome) := by
            show item ∈ ({ lines := lines, err := none } : LineStream).lines.filterMap _
            rw [hkw.1]
            exact List.mem_append_left _ (List.mem_flatten.mpr ⟨w, hw, hitem⟩)
          obtain ⟨l, _, hl⟩ := List.mem_filterMap.mp hmem
          rw [hcb] at hl
          rw [show (none : Option CountryCallback).isSome = false from rfl,
            countryItem_unconfigured] at hl
          exact Option.noConfusion hl
      rw [hconf] at hnone
      rw [hid, hnone] at hcode2
      exact Option.noConfusion hcode2

/-- Witness of C10: a row whose id 100 is both a known city id and the source id of the
known country GB is delivered to both sinks. -/
theorem classification_by_two_lookups_witness :
    cityBatches (processAlternateNamesFromReaderWithCountryMapping (testParser [])
        { lines := [utf8 "1\t100\ten\tLondon"], err := none } testCityIDs
        [(utf8 "GB", true)] (some [(100, utf8 "GB")]) (some collectCity)
        (some collectCountry)).calls
      = [[{ CityID := 100, Lang := utf8 "en", Name := utf8 "London" }]] ∧
    countryBatches (processAlternateNamesFromReaderWithCountryMapping (testParser [])
        { lines := [utf8 "1\t100\ten\tLondon"], err := none } testCityIDs
        [(utf8 "GB", true)] (some [(100, utf8 "GB")]) (some collectCity)
        (some collectCountry)).calls
      = [[{ CountryCode := utf8 "GB", Lang := utf8 "en", Name := utf8 "London" }]] :=
  ⟨(classification_by_two_lookups (testParser []) testCityIDs [(utf8 "GB", true)]
      (some [(100, utf8 "GB")]) (some collectCity) (some collectCountry)
      (fun cb hcb => by cases hcb; exact fun _ _ => rfl)
      (fun kb hkb => by cases hkb; exact fun _ _ => rfl)
      (utf8 "1\t100\ten\tLondon")
      { geonameID := 100, lang := utf8 "en", name := utf8 "London", isPreferred := false }
      (by decide)).2.2.1.trans (by decide),
   (classification_by_two_lookups (testParser []) testCityIDs [(utf8 "GB", true)]
      (some [(100, utf8 "GB")]) (some collectCity) (some collectCountry)
      (fun cb hcb => by cases hcb; exact fun _ _ => rfl)
      (fun kb hkb => by cases hkb; exact fun _ _ => rfl)
      (utf8 "1\t100\ten\tLondon")
      { geonameID := 100, lang := utf8 "en", name := utf8 "London", isPreferred := false }
      (by decide)).2.2.2.1.trans (by decide)⟩

/-! ## The search with a NaN -/

theorem calculateDistance_nan_lat {φ : Type} (ops : FloatOps φ) (lon1 lat2 lon2 : Option φ) :
    calculateDistance (withNaN ops) none lon1 lat2 lon2 = none := by
  cases lat2 <;> rfl

theorem calculateDistance_numbers {φ : Type} (ops : FloatOps φ) (lat1 lon1 lat2 lon2 : φ) :
    calculateDistance (withNaN ops) (some lat1) (some lon1) (some lat2) (some lon2)
      = some (calculateDistance ops lat1 lon1 lat2 lon2) := rfl

theorem nearestLoop_nan_lat {φ : Type} (ops : FloatOps φ) (lon : Option φ) :
    ∀ (cs : List (City (Option φ))) (nearest : Option (City (Option φ))) (minDist : Option φ),
      nearestLoop (withNaN ops) none lon cs nearest minDist = (nearest, minDist) := by
  intro cs
  induction cs with
  | nil => intro nearest minDist; rfl
  | cons c rest ih =>
    intro nearest minDist
    rw [nearestLoop, calculateDistance_nan_lat]
    have hlt : ¬ (withNaN ops).lt none minDist = true := by
      intro h
      exact Bool.noConfusion h
    rw [if_neg hlt]
    exact ih nearest minDist

/-- With a NaN latitude in the query the search returns no city, whatever the table holds. -/
theorem FindNearestCity_nan_lat {φ : Type} (ops : FloatOps φ) (cities : List (City (Option φ)))
    (lon : Option φ) :
    FindNearestCity (withNaN ops) (tableQueries (withNaN ops) cities) none lon
      = { city := none, distance := some (ops.ofInt 0), err := none } := by
  rw [FindNearestCity_table, nearestLoop_nan_lat]
  rfl

theorem boxOf_nan_lat {φ : Type} (ops : FloatOps φ) (cities : List (City (Option φ)))
    (lon : Option φ) : boxOf (withNaN ops) cities none lon = [] := by
  unfold boxOf
  rw [List.filter_eq_nil_iff]
  intro c _
  have h1 : inBox (withNaN ops) ((withNaN ops).sub none ((withNaN ops).ofInt 2))
      ((withNaN ops).add none ((withNaN ops).ofInt 2))
      ((withNaN ops).sub lon ((withNaN ops).ofInt 2))
      ((withNaN ops).add lon ((withNaN ops).ofInt 2)) c = false := rfl
  rw [h1]
  exact Bool.false_ne_true

theorem Comparable_sublist {φ : Type} (lt : φ → φ → Bool) (top : φ) (ds es : List φ)
    (hsub : ∀ d ∈ es, d ∈ ds) (h : Comparable lt top ds) : Comparable lt top es :=
  ⟨fun a ha => h.1 a (hsub a ha),
   fun a ha b hb => h.2.1 a (hsub a ha) b (hsub b hb),
   fun a ha b hb c hc => h.2.2 a (hsub a ha) b (hsub b hb) c (hsub c hc)⟩

theorem candidatesOf_subset {φ : Type} (ops : FloatOps φ) (cities : List (City φ))
    (lat lon : φ) : ∀ c ∈ candidatesOf ops cities lat lon, c ∈ cities := by
  intro c hc
  unfold candidatesOf at hc
  split_ifs at hc
  · exact hc
  · unfold boxOf at hc
    exact (List.mem_filter.mp hc).1

/-- On numbers the distances computed in float64 with NaN over ideal arithmetic are ordered
numbers below `math.MaxFloat64`. -/
theorem numbers_comparable (ops : FloatOps ℝ) (h : IdealArithmetic ops) (lat lon : ℝ)
    (cs : List (City ℝ)) (sub : List (City (Option ℝ)))
    (hsub : ∀ c ∈ sub, c ∈ cs.map (fun c => numberCity c.ID c.Lat c.Lon)) :
    Comparable (withNaN ops).lt (withNaN ops).MaxFloat64
      (sub.map (fun c => calculateDistance (withNaN ops) (some lat) (some lon) c.Lat c.Lon)) := by
  have hall := ideal_comparable ops h lat lon cs
  have hmem : ∀ d ∈ sub.map
      (fun c => calculateDistance (withNaN ops) (some lat) (some lon) c.Lat c.Lon),
      ∃ x ∈ cs.map (fun c => calculateDistance ops lat lon c.Lat c.Lon), d = some x := by
    intro d hd
    obtain ⟨c, hc, rfl⟩ := List.mem_map.mp hd
    obtain ⟨c0, hc0, rfl⟩ := List.mem_map.mp (hsub c hc)
    exact ⟨_, List.mem_map.mpr ⟨c0, hc0, rfl⟩, rfl⟩
  refine ⟨?_, ?_, ?_⟩
  · intro a ha
    obtain ⟨x, hx, rfl⟩ := hmem a ha
    exact hall.1 x hx
  · intro a ha b hb hab
    obtain ⟨x, hx, rfl⟩ := hmem a ha
    obtain ⟨y, hy, rfl⟩ := hmem b hb
    exact hall.2.1 x hx y hy hab
  · intro a ha b hb c hc hac hbc
    obtain ⟨x, hx, rfl⟩ := hmem a ha
    obtain ⟨y, hy, rfl⟩ := hmem b hb
    obtain ⟨z, hz, rfl⟩ := hmem c hc
    exact hall.2.2 x hx y hy z hz hac hbc

/-- Failing input of C21: in float64 with NaN over ideal arithmetic, the table holds one
city, Berlin; with a NaN latitude the box query is empty, the full scan gives the city, its
computed distance is NaN, which is not below `math.MaxFloat64`, and the search returns no
city and no error although the table is not empty. -/
theorem nan_query_returns_no_city :
    ∃ ops : FloatOps ℝ, IdealArithmetic ops ∧
      boxOf (withNaN ops) [numberCity 1 52.52 13.405] none (some 13.405) = [] ∧
      candidatesOf (withNaN ops) [numberCity 1 52.52 13.405] none (some 13.405)
        = [numberCity 1 52.52 13.405] ∧
      calculateDistance (withNaN ops) none (some 13.405) (some 52.52) (some 13.405) = none ∧
      (withNaN ops).lt none (withNaN ops).MaxFloat64 = false ∧
      (FindNearestCity (withNaN ops) (tableQueries (withNaN ops) [numberCity 1 52.52 13.405])
        none (some 13.405)).city = none ∧
      (FindNearestCity (withNaN ops) (tableQueries (withNaN ops) [numberCity 1 52.52 13.405])
        none (some 13.405)).err = none :=
  ideal_exists.elim (fun ops h =>
    ⟨ops, h, boxOf_nan_lat ops _ _,
     by unfold candidatesOf; rw [boxOf_nan_lat]; rfl,
     rfl, rfl,
     by rw [FindNearestCity_nan_lat],
     by rw [FindNearestCity_nan_lat]⟩)

/-- Witness of C21: in float64 with NaN over ideal arithmetic, the distances computed for a
query and cities that are numbers are ordered numbers below `math.MaxFloat64`; for Potsdam
and Berlin and a query at Berlin the search returns the first candidate at minimal
distance. -/
theorem nearest_selection_witness :
    ∃ ops : FloatOps ℝ, IdealArithmetic ops ∧
      ∃ pre c post,
        candidatesOf (withNaN ops) [numberCity 1 52.3989 13.0657, numberCity 2 52.52 13.405]
            (some 52.52) (some 13.405)
          = pre ++ c :: post ∧
        (FindNearestCity (withNaN ops)
          (tableQueries (withNaN ops) [numberCity 1 52.3989 13.0657, numberCity 2 52.52 13.405])
          (some 52.52) (some 13.405)).city = some c ∧
        (∀ x ∈ candidatesOf (withNaN ops)
            [numberCity 1 52.3989 13.0657, numberCity 2 52.52 13.405] (some 52.52) (some 13.405),
          (withNaN ops).lt
            (calculateDistance (withNaN ops) (some 52.52) (some 13.405) x.Lat x.Lon)
            (calculateDistance (withNaN ops) (some 52.52) (some 13.405) c.Lat c.Lon) = false) :=
  ideal_exists.elim (fun ops h =>
    ⟨ops, h,
      ((nearest_selection (withNaN ops)
        [numberCity 1 52.3989 13.0657, numberCity 2 52.52 13.405] (some 52.52) (some 13.405)
        (numbers_comparable ops h 52.52 13.405 [cityAt 1 52.3989 13.0657, cityAt 2 52.52 13.405]
          _ (fun c hc => candidatesOf_subset _ _ _ _ c hc))).2.2.2.2 (by simp)).elim
        (fun pre hpre => hpre.elim (fun c hc => hc.elim (fun post hpost =>
          ⟨pre, c, post, hpost.1, hpost.2.1, hpost.2.2.2.1⟩)))⟩)

end Seeder
